import Mathlib

/-!
# IR lowering pass of the NJU-PTC-Lab compiler (`src/src/ir.c`)

A shallow embedding of the intermediate-representation generator: the IR data
model, the emitter primitives (`new_var`, `new_label`, `gen_*`), the recursive
translators (`translate_Exp`, `translate_Cond`, `translate_Stmt`, ...) and the
printer `ir_linearise`, followed by theorems about them.

Conventions of the embedding.

* The C globals `irs`, `ignore_var`, `vars`, `var_count` and the function-static
  `count` of `new_label` are the fields of the record `Emitter`, threaded
  explicitly through every function (`IRM` is the state-and-error monad).
* `panic`, `TODO` and a failing `Assert` abort the translation: they are the
  `error` results of `IRM`.
* C `int`s are mathematical integers (`Int`); signed overflow is undefined
  behaviour in C and lies outside the model.
* A `syntax_tree` node is represented by the grammar production it was built
  from (the grammar is the one quoted in the comments of `ir.c`); the fields
  `count` and `children[i]->type` that the C code dispatches on are recovered by
  `Exp.count`, `Exp.child0` and `Exp.child1`.
* Heap objects: an `irvar` is referred to by its immutable part (`id`, `name`);
  its mutable `isref` flag lives in `Emitter.isref`, keyed by `id`.  An
  `irlabel` carries the address it was allocated at, so that two labels with the
  same name remain different objects.  A `symbol` carries its address, and its
  `ir` slot lives in `Emitter.sym_ir`.
-/

namespace IRLab

/-! ## Types and symbols (`symbol.h`) -/

inductive TYPE_CLASS where
  | TC_UNIT | TC_ANY | TC_NEVER | TC_META | TC_ARRAY | TC_FUNC | TC_STRUCT | TC_TYPE
  deriving DecidableEq, Repr

mutual
/-- The `type` record of `symbol.h`; the members of a struct and the formal
arguments of a function are (name, type) pairs, as `ir.c` reads them
(`args[i]->name`, `args[i]->tp`, `mems[i]->name`, `mems[i]->tp`). -/
inductive type where
  | UNIT : type
  | ANY : type
  | NEVER : type
  | META : type
  | ARRAY (base : type) (lens : List Int) : type
  | FUNC (args : symlist) (ret : type) : type
  | STRUCT (mems : symlist) : type
  | TYPE (tp : type) : type
/-- A sequence of (name, type) entries: struct members or formal arguments. -/
inductive symlist where
  | nil : symlist
  | cons (name : String) (tp : type) (rest : symlist) : symlist
end

def type.cls : type → TYPE_CLASS
  | .UNIT => .TC_UNIT
  | .ANY => .TC_ANY
  | .NEVER => .TC_NEVER
  | .META => .TC_META
  | .ARRAY _ _ => .TC_ARRAY
  | .FUNC _ _ => .TC_FUNC
  | .STRUCT _ => .TC_STRUCT
  | .TYPE _ => .TC_TYPE

def symlist.toList : symlist → List (String × type)
  | .nil => []
  | .cons n t r => (n, t) :: r.toList

/-- The `args` array of a function type (`argc` is its length); empty for a type
that is not a function type. -/
def type.args : type → List (String × type)
  | .FUNC a _ => a.toList
  | _ => []

/-- The `mems` array of a struct type (`memc` is its length). -/
def type.mems : type → List (String × type)
  | .STRUCT m => m.toList
  | _ => []

mutual
/-- Modelled from the spec: `type_sizeof` of the external type module (`type.h`),
"returning a byte count (scalar = 4, array = element_size × total_elements,
struct = sum of member sizes)". -/
def type_sizeof : type → Int
  | .META => 4
  | .ARRAY base lens => type_sizeof base * lens.prod
  | .STRUCT mems => symlist_sizeof mems
  | _ => 0
/-- Sum of the sizes of the entries of a member list. -/
def symlist_sizeof : symlist → Int
  | .nil => 0
  | .cons _ t r => type_sizeof t + symlist_sizeof r
end

/-- A resolved symbol: its address identifies the object whose `ir` slot the
lowering pass fills in. -/
structure symbol where
  addr : Nat
  name : String
  tp : type

/-! ## IR data model (`ir.h`) -/

/-- The immutable part of an IR variable (`id`, `name`). -/
structure irvar where
  id : Int
  name : String
  deriving DecidableEq, Repr

/-- An IR label object: `addr` is its allocation address. -/
structure irlabel where
  addr : Nat
  name : String
  deriving DecidableEq, Repr

inductive IRO_kind where
  | IRO_Variable | IRO_Constant | IRO_Ref | IRO_Deref
  deriving DecidableEq, Repr

/-- An operand: its kind with the payload of that kind. -/
inductive irop where
  | Var (var : irvar)
  | Const (value : Int)
  | Ref (var : irvar)
  | Deref (var : irvar)
  deriving DecidableEq, Repr

def irop.kind : irop → IRO_kind
  | .Var _ => .IRO_Variable
  | .Const _ => .IRO_Constant
  | .Ref _ => .IRO_Ref
  | .Deref _ => .IRO_Deref

inductive relop_type where
  | RT_L | RT_S | RT_LE | RT_SE | RT_E | RT_NE
  deriving DecidableEq, Repr

/-- The kind of an instruction together with the payload of that kind. -/
inductive irins where
  | Label (label : irlabel)
  | Func (label : irlabel)
  | Assign (left right : irop)
  | Add (target op1 op2 : irop)
  | Sub (target op1 op2 : irop)
  | Mul (target op1 op2 : irop)
  | Div (target op1 op2 : irop)
  | Goto (label : irlabel)
  | Branch (relop : relop_type) (op1 op2 : irop) (target : irlabel)
  | Return (ret : irop)
  | Dec (op : irop) (size : Int)
  | Arg (arg : irop)
  | Call (ret : irop) (func : irlabel)
  | Param (param : irop)
  | Read (read : irop)
  | Write (write : irop)
  deriving DecidableEq, Repr

/-- An instruction object: `new (ircode)` yields a zeroed object, so `ignore`
is clear on every instruction the emitter creates. -/
structure ircode where
  ins : irins
  ignore : Bool
  deriving DecidableEq, Repr

/-- What the `ir` slot of a symbol points to. -/
inductive irptr where
  | var (v : irvar)
  | label (l : irlabel)
  deriving DecidableEq, Repr

/-- The result of `ir_translate`. -/
structure ast where
  len : Nat
  var_count : Int
  codes : List ircode
  vars : List irvar
  deriving DecidableEq, Repr

/-! ## Emitter state and the translation monad -/

inductive Err where
  | panic (msg : String)
  | wrong_op_type
  | assert (msg : String)
  deriving DecidableEq, Repr

/-- The process-wide state of `ir.c`. -/
structure Emitter where
  /-- The global `irs`, most recent instruction first (`list_pushfront`). -/
  irs : List ircode
  /-- The global `ignore_var` (`NULL` before `ir_prepare`). -/
  ignore_var : Option irvar
  /-- The global `vars`, most recent variable first. -/
  vars : List irvar
  /-- The global `var_count`. -/
  var_count : Int
  /-- The `static int count` of `new_label`. -/
  count : Int
  /-- Number of `irlabel` objects allocated so far (next free address). -/
  label_alloc : Nat
  /-- The `isref` field of the variable with a given id. -/
  isref : Int → Bool
  /-- The `ir` slot of the symbol at a given address. -/
  sym_ir : Nat → Option irptr
  /-- The global `ir_is_passed`. -/
  ir_is_passed : Bool
  /-- What a label object shows when it is read through an `irvar *`, as
  `cast (irvar, p)` does for a slot that holds a label: the `id` and `name` that
  its bytes give under the structure layout of `ir.h`.  The layout is not part
  of `ir.c`, so this is a parameter of the model; no function of `ir.c` changes
  it. -/
  label_as_var : irlabel → irvar

/-- The state at program start.  The parameter `label_as_var` is taken to show
the id `0`, which no allocated variable has, and the label's own name. -/
def Emitter.init : Emitter :=
  { irs := [], ignore_var := none, vars := [], var_count := 0, count := 0,
    label_alloc := 0, isref := fun _ => false, sym_ir := fun _ => none,
    ir_is_passed := false, label_as_var := fun l => { id := 0, name := l.name } }

/-- The instructions in emission order (`list_revto_arr (irs)`). -/
def Emitter.codes (s : Emitter) : List ircode := s.irs.reverse

/-- State-and-error monad of the translation. -/
def IRM (α : Type) : Type := Emitter → Except Err (α × Emitter)

instance : Monad IRM where
  pure a := fun s => .ok (a, s)
  bind x f := fun s =>
    match x s with
    | .error e => .error e
    | .ok (a, s1) => f a s1

/-- Abort the translation (`panic`, `TODO`, failed assertion). -/
def IRM.fail {α : Type} (e : Err) : IRM α := fun _ => .error e

/-- `Assert (c, msg)` for the assertions that are not operand-kind checks. -/
def Assert (c : Bool) (msg : String) : IRM Unit :=
  if c then pure () else IRM.fail (.assert msg)

/-! ## Helper functions of `ir.c` -/

def push_ircode (code : ircode) : IRM Unit :=
  fun s => .ok ((), { s with irs := code :: s.irs })

/-- The function `new_var`: the fresh object has `isref` clear. -/
def new_var : IRM irvar := fun s =>
  if s.var_count ≥ 0 then
    let var_count := s.var_count + 1
    let var : irvar := { id := var_count, name := "t" ++ toString var_count }
    .ok (var, { s with var_count := var_count, vars := var :: s.vars,
                       isref := Function.update s.isref var_count false })
  else .error (.assert "too many var")

def new_named_label (name : String) : IRM irlabel := fun s =>
  .ok ({ addr := s.label_alloc, name := name }, { s with label_alloc := s.label_alloc + 1 })

def new_label : IRM irlabel := fun s =>
  if s.count ≥ 0 then
    let count := s.count + 1
    .ok ({ addr := s.label_alloc, name := "l" ++ toString count },
         { s with count := count, label_alloc := s.label_alloc + 1 })
  else .error (.assert "too many label")

/-- Modelled from the spec: the operand constructor `op_var` (declared in `ir.h`),
§3 "`Var(v)` — read/write to variable `v`". -/
def op_var (v : irvar) : irop := .Var v

/-- Modelled from the spec: the operand constructor `op_const` (declared in
`ir.h`), §3 "`Const(i)` — signed 32-bit integer immediate". -/
def op_const (i : Int) : irop := .Const i

/-- Modelled from the spec: the operand constructor `op_ref` (declared in `ir.h`),
§3 "`Ref(v)` — the address of variable `v`". -/
def op_ref (v : irvar) : irop := .Ref v

/-- Modelled from the spec: the operand constructor `op_deref` (declared in
`ir.h`), §3 "`Deref(v)` — the value stored at the address held in `v`". -/
def op_deref (v : irvar) : irop := .Deref v

/-- Modelled from the spec: the helper `op_rval` (declared in `ir.h`), which
receives only the variable: "`Rval(v)` denotes `Deref(v)` if `v.isref` is true
[...] otherwise `Var(v)`", the flag being read when the operand is built. -/
def op_rval (v : irvar) : IRM irop := fun s =>
  .ok (if s.isref v.id then op_deref v else op_var v, s)

/-- Read `v->isref`. -/
def get_isref (v : irvar) : IRM Bool := fun s => .ok (s.isref v.id, s)

/-- The assignment `v->isref = b`. -/
def set_isref (v : irvar) (b : Bool) : IRM Unit := fun s =>
  .ok ((), { s with isref := Function.update s.isref v.id b })

/-- Read `sym->ir`. -/
def get_ir (sym : symbol) : IRM (Option irptr) := fun s => .ok (s.sym_ir sym.addr, s)

/-- The assignment `sym->ir = p`. -/
def set_ir (sym : symbol) (p : irptr) : IRM Unit := fun s =>
  .ok ((), { s with sym_ir := Function.update s.sym_ir sym.addr (some p) })

/-- Read the global `ignore_var`. -/
def get_ignore_var : IRM (Option irvar) := fun s => .ok (s.ignore_var, s)

/-- `Assert (op->kind == IRO_Variable, "wrong op type")`. -/
def AssertVar (op : irop) : IRM Unit :=
  if op.kind = .IRO_Variable then pure () else IRM.fail .wrong_op_type

def gen_label (label : irlabel) : IRM Unit :=
  push_ircode { ins := .Label label, ignore := false }

def gen_func (label : irlabel) : IRM Unit :=
  push_ircode { ins := .Func label, ignore := false }

def gen_assign (left right : irop) : IRM Unit := do
  if left.kind = .IRO_Variable ∨ left.kind = .IRO_Deref then pure () else IRM.fail .wrong_op_type
  push_ircode { ins := .Assign left right, ignore := false }

def gen_add (target op1 op2 : irop) : IRM Unit := do
  AssertVar target
  push_ircode { ins := .Add target op1 op2, ignore := false }

def gen_sub (target op1 op2 : irop) : IRM Unit := do
  AssertVar target
  push_ircode { ins := .Sub target op1 op2, ignore := false }

def gen_mul (target op1 op2 : irop) : IRM Unit := do
  AssertVar target
  push_ircode { ins := .Mul target op1 op2, ignore := false }

def gen_div (target op1 op2 : irop) : IRM Unit := do
  AssertVar target
  push_ircode { ins := .Div target op1 op2, ignore := false }

def gen_goto (label : irlabel) : IRM Unit :=
  push_ircode { ins := .Goto label, ignore := false }

def gen_branch (relop : relop_type) (op1 op2 : irop) (target : irlabel) : IRM Unit :=
  push_ircode { ins := .Branch relop op1 op2 target, ignore := false }

def gen_return (ret : irop) : IRM Unit :=
  push_ircode { ins := .Return ret, ignore := false }

def gen_dec (op : irop) (size : Int) : IRM Unit := do
  AssertVar op
  push_ircode { ins := .Dec op size, ignore := false }

def gen_call (ret : irop) (label : irlabel) : IRM Unit := do
  AssertVar ret
  push_ircode { ins := .Call ret label, ignore := false }

def gen_arg (arg : irop) : IRM Unit :=
  push_ircode { ins := .Arg arg, ignore := false }

def gen_param (param : irop) : IRM Unit := do
  AssertVar param
  push_ircode { ins := .Param param, ignore := false }

def gen_read (read : irop) : IRM Unit := do
  AssertVar read
  push_ircode { ins := .Read read, ignore := false }

def gen_write (write : irop) : IRM Unit :=
  push_ircode { ins := .Write write, ignore := false }

/-- `cast (irvar, p)` after `AssertNotNull (p)`.  The cast is unchecked and no
caller tests the class of the symbol, so a slot that holds a label (the symbol
of a function, as in the statement `f;`) is read as a variable and the
translation goes on with what the label shows. -/
def cast_irvar (p : Option irptr) : IRM irvar :=
  match p with
  | some (.var v) => pure v
  | some (.label l) => fun s => .ok (s.label_as_var l, s)
  | none => IRM.fail (.assert "not null")

/-- `cast (irlabel, p)` after `AssertNotNull (p)`, in the two call arms, which
have asserted `val->tp->cls == TC_FUNC` before: the slot of a function symbol
holds the label that `translate_FunDec` recorded. -/
def cast_irlabel (p : Option irptr) : IRM irlabel :=
  match p with
  | some (.label l) => pure l
  | some (.var _) => IRM.fail (.assert "cast irlabel")
  | none => IRM.fail (.assert "not null")

/-- `AssertNotNull (val)` on the result of a symbol lookup. -/
def not_null (val : Option symbol) : IRM symbol :=
  match val with
  | some v => pure v
  | none => IRM.fail (.assert "not null")

/-! ## Decorated syntax trees -/

inductive SYNTAX_TYPE where
  | ST_EMPTY | ST_INT | ST_FLOAT | ST_ID | ST_SEMI | ST_COMMA | ST_ASSIGNOP | ST_RELOP
  | ST_PLUS | ST_MINUS | ST_STAR | ST_DIV | ST_AND | ST_OR | ST_NOT | ST_DOT | ST_TYPE
  | ST_LP | ST_RP | ST_LB | ST_RB | ST_LC | ST_RC | ST_STRUCT | ST_RETURN | ST_IF
  | ST_ELSE | ST_WHILE | ST_Program | ST_ExtDefList | ST_ExtDef | ST_ExtDecList
  | ST_Specifier | ST_StructSpecifier | ST_OptTag | ST_Tag | ST_VarDec | ST_FunDec
  | ST_VarList | ST_ParamDec | ST_CompSt | ST_StmtList | ST_Stmt | ST_DefList | ST_Def
  | ST_DecList | ST_Dec | ST_Exp | ST_Args
  deriving DecidableEq, Repr

mutual
/-- An `ST_Exp` node, by production.  The first field of every constructor is
`sem->tp`, the static type of the expression; an `ID` child carries the symbol
that `get_symbol_by_id` resolves it to (`none` for `NULL`). -/
inductive Exp where
  /-- Production `Exp ASSIGNOP Exp`. -/
  | ASSIGNOP (tp : type) (l r : Exp)
  /-- Production `Exp AND Exp`. -/
  | AND (tp : type) (l r : Exp)
  /-- Production `Exp OR Exp`. -/
  | OR (tp : type) (l r : Exp)
  /-- Production `Exp RELOP Exp`, with the data of the `RELOP` token. -/
  | RELOP (tp : type) (l : Exp) (rt : relop_type) (r : Exp)
  /-- Production `Exp PLUS Exp`. -/
  | PLUS (tp : type) (l r : Exp)
  /-- Production `Exp MINUS Exp`. -/
  | MINUS (tp : type) (l r : Exp)
  /-- Production `Exp STAR Exp`. -/
  | STAR (tp : type) (l r : Exp)
  /-- Production `Exp DIV Exp`. -/
  | DIV (tp : type) (l r : Exp)
  /-- Production `LP Exp RP`. -/
  | LP (tp : type) (e : Exp)
  /-- Production `MINUS Exp`. -/
  | NEG (tp : type) (e : Exp)
  /-- Production `NOT Exp`. -/
  | NOT (tp : type) (e : Exp)
  /-- Production `ID LP Args RP`. -/
  | CALL (tp : type) (val : Option symbol) (args : Args)
  /-- Production `ID LP RP`. -/
  | CALL0 (tp : type) (val : Option symbol)
  /-- Production `Exp LB Exp RB`. -/
  | INDEX (tp : type) (e i : Exp)
  /-- Production `Exp DOT ID`, with the data of the `ID` token. -/
  | DOT (tp : type) (e : Exp) (name : String)
  /-- Production `ID`. -/
  | ID (tp : type) (val : Option symbol)
  /-- Production `INT`, with the data of the token. -/
  | INT (tp : type) (value : Int)
  /-- Production `FLOAT`. -/
  | FLOAT (tp : type)
/-- An `ST_Args` node: `Exp` or `Exp COMMA Args`. -/
inductive Args where
  | one (e : Exp)
  | cons (e : Exp) (rest : Args)
end

/-- The field `sem->tp` of an expression node. -/
def Exp.tp : Exp → type
  | .ASSIGNOP tp _ _ | .AND tp _ _ | .OR tp _ _ | .RELOP tp _ _ _ | .PLUS tp _ _
  | .MINUS tp _ _ | .STAR tp _ _ | .DIV tp _ _ | .LP tp _ | .NEG tp _ | .NOT tp _
  | .CALL tp _ _ | .CALL0 tp _ | .INDEX tp _ _ | .DOT tp _ _ | .ID tp _ | .INT tp _
  | .FLOAT tp => tp

/-- The field `count` of an expression node: the number of children. -/
def Exp.count : Exp → Nat
  | .ID _ _ | .INT _ _ | .FLOAT _ => 1
  | .NEG _ _ | .NOT _ _ => 2
  | .ASSIGNOP _ _ _ | .AND _ _ _ | .OR _ _ _ | .RELOP _ _ _ _ | .PLUS _ _ _ | .MINUS _ _ _
  | .STAR _ _ _ | .DIV _ _ _ | .LP _ _ | .CALL0 _ _ | .DOT _ _ _ => 3
  | .CALL _ _ _ | .INDEX _ _ _ => 4

/-- The field `children[0]->type` of an expression node. -/
def Exp.child0 : Exp → SYNTAX_TYPE
  | .ID _ _ | .CALL _ _ _ | .CALL0 _ _ => .ST_ID
  | .INT _ _ => .ST_INT
  | .FLOAT _ => .ST_FLOAT
  | .NEG _ _ => .ST_MINUS
  | .NOT _ _ => .ST_NOT
  | .LP _ _ => .ST_LP
  | .ASSIGNOP _ _ _ | .AND _ _ _ | .OR _ _ _ | .RELOP _ _ _ _ | .PLUS _ _ _ | .MINUS _ _ _
  | .STAR _ _ _ | .DIV _ _ _ | .INDEX _ _ _ | .DOT _ _ _ => .ST_Exp

/-- The field `children[1]->type` of an expression node (`ST_EMPTY` when the
node has a single child). -/
def Exp.child1 : Exp → SYNTAX_TYPE
  | .ID _ _ | .INT _ _ | .FLOAT _ => .ST_EMPTY
  | .NEG _ _ | .NOT _ _ | .LP _ _ => .ST_Exp
  | .ASSIGNOP _ _ _ => .ST_ASSIGNOP
  | .AND _ _ _ => .ST_AND
  | .OR _ _ _ => .ST_OR
  | .RELOP _ _ _ _ => .ST_RELOP
  | .PLUS _ _ _ => .ST_PLUS
  | .MINUS _ _ _ => .ST_MINUS
  | .STAR _ _ _ => .ST_STAR
  | .DIV _ _ _ => .ST_DIV
  | .CALL _ _ _ | .CALL0 _ _ => .ST_LP
  | .INDEX _ _ _ => .ST_LB
  | .DOT _ _ _ => .ST_DOT

/-- A `VarDec` node: only `sem->sym` is read by the lowering pass. -/
structure VarDec where
  sym : symbol

/-- A `Dec` node: `VarDec` or `VarDec ASSIGNOP Exp`. -/
inductive Dec where
  | VarDec (v : VarDec)
  | ASSIGNOP (v : VarDec) (e : Exp)

/-- A `DecList` node: `Dec` or `Dec COMMA DecList`. -/
inductive DecList where
  | one (d : Dec)
  | cons (d : Dec) (rest : DecList)

/-- A `Def` node: `Specifier DecList SEMI`. -/
structure Def where
  decs : DecList

/-- A `DefList` node: empty or `Def DefList`. -/
inductive DefList where
  | nil
  | cons (d : Def) (rest : DefList)

mutual
/-- An `ST_Stmt` node, by production. -/
inductive Stmt where
  /-- Production `Exp SEMI`. -/
  | Exp (e : Exp)
  /-- Production `CompSt`. -/
  | CompSt (c : CompSt)
  /-- Production `RETURN Exp SEMI`. -/
  | RETURN (e : Exp)
  /-- Production `IF LP Exp RP Stmt`. -/
  | IF (c : Exp) (s : Stmt)
  /-- Production `IF LP Exp RP Stmt ELSE Stmt`. -/
  | IF_ELSE (c : Exp) (s1 s2 : Stmt)
  /-- Production `WHILE LP Exp RP Stmt`. -/
  | WHILE (c : Exp) (s : Stmt)
/-- A `CompSt` node: `LC DefList StmtList RC`. -/
inductive CompSt where
  | mk (defs : DefList) (stmts : StmtList)
/-- A `StmtList` node: empty or `Stmt StmtList`. -/
inductive StmtList where
  | nil
  | cons (s : Stmt) (rest : StmtList)
end

/-- A `FunDec` node: `sym` is the result of `st_find (tree->ev->syms, sem->sym->name)`
and `subev` is the lookup `st_findonly (sem->ev->syms, ·)` in the scope of the
parameters. -/
structure FunDec where
  sym : Option symbol
  subev : String → Option symbol

/-- An `ExtDef` node, by production. -/
inductive ExtDef where
  /-- Production `Specifier ExtDecList SEMI`. -/
  | ExtDecList
  /-- Production `Specifier SEMI`. -/
  | SEMI
  /-- Production `Specifier FunDec CompSt`. -/
  | FunDef (f : FunDec) (body : CompSt)
  /-- Production `Specifier FunDec SEMI`. -/
  | FunDecl (f : FunDec)

/-- An `ExtDefList` node: empty or `ExtDef ExtDefList`. -/
inductive ExtDefList where
  | nil
  | cons (d : ExtDef) (rest : ExtDefList)

/-- A `Program` node: `ExtDefList`. -/
structure Program where
  defs : ExtDefList

/-! ## Expressions and conditions -/

/-- The loop of `gen_arr_copy`: `for (int i = ...; i < sz; i += 4)`. -/
def gen_arr_copy_loop (lt rt lo ro : irvar) (sz : Int) (i : Int) : IRM Unit :=
  if i < sz then do
    gen_add (op_var lt) (op_var lo) (op_const i)
    gen_add (op_var rt) (op_var ro) (op_const i)
    gen_assign (op_deref lt) (op_deref rt)
    gen_arr_copy_loop lt rt lo ro sz (i + 4)
  else pure ()
termination_by (sz - i).toNat
decreasing_by omega

def gen_arr_copy (lo ro : irvar) (sz : Int) : IRM Unit := do
  let lt ← new_var
  let rt ← new_var
  gen_arr_copy_loop lt rt lo ro sz 0

/-- The loop of the `Exp DOT ID` case of `translate_Exp`: the sizes of the
members that precede the first member called `name`. -/
def member_offset (name : String) : List (String × type) → Int
  | [] => 0
  | (n, tp) :: rest => if n = name then 0 else type_sizeof tp + member_offset name rest

/-- The loop of the `ID LP Args RP` case of `translate_Exp`, with `n` iterations
left: `i = argc - n` and `j = n - 1`.  Reading `paramArr` past its end aborts. -/
def gen_args_loop (args : List (String × type)) (paramArr : List irvar) (argc : Nat) :
    Nat → IRM Unit
  | 0 => pure ()
  | n + 1 => do
    let i := argc - (n + 1)
    let j := n
    match paramArr.get? i, args.get? j with
    | some p, some (_, tp) =>
      if tp.cls = .TC_ARRAY ∨ tp.cls = .TC_STRUCT then
        Assert (← get_isref p) "eq"
        gen_arg (op_var p)
      else
        gen_arg (← op_rval p)
      gen_args_loop args paramArr argc n
    | _, _ => IRM.fail (.panic "out of bounds")

/-- Rank of `translate_Exp` in the termination order: an expression that the
trailing `if` of `translate_Exp` hands to `translate_Cond` ranks above it. -/
def Exp.rank (tree : Exp) : Nat :=
  if (tree.count == 1 && tree.child0 == .ST_NOT) ||
      (tree.count == 3 && (tree.child1 == .ST_AND || tree.child1 == .ST_OR ||
        tree.child1 == .ST_RELOP)) then 2 else 0

mutual
def translate_Exp (tree : Exp) (target : irvar) : IRM Unit := do
  match tree with
  | .INT _ value => -- INT
    gen_assign (op_var target) (op_const value)
  | .FLOAT _ => -- FLOAT
    IRM.fail (.panic "No support float")
  | .ID _ val => do -- ID
    let val ← not_null val
    let var ← cast_irvar (← get_ir val)
    gen_assign (op_var target) (op_var var)
    set_isref target (← get_isref var)
  | .NEG _ e => do -- MINUS Exp
    let var ← new_var
    translate_Exp e var
    gen_sub (op_var target) (op_const 0) (← op_rval var)
  | .NOT _ _ => -- NOT Exp
    pure () -- For later
  | .LP _ e => -- LP Exp RP
    translate_Exp e target
  | .CALL0 _ val => do -- ID LP RP
    let val ← not_null val
    Assert (val.tp.cls == .TC_FUNC) "eq"
    if val.name = "read" then
      gen_read (op_var target)
    else
      let l ← cast_irlabel (← get_ir val)
      gen_call (op_var target) l
  | .DOT _ e name => do -- Exp DOT ID
    let offset ← new_var
    translate_Exp e offset -- offset must be a address
    Assert ((← get_isref offset) == true) "eq"
    let a := e.tp
    Assert (a.cls == .TC_STRUCT) "eq"
    let sz := member_offset name a.mems
    let t1 ← new_var
    gen_add (op_var t1) (op_var offset) (op_const sz)
    gen_assign (op_var target) (op_var t1)
    set_isref target true
  | .AND _ _ _ | .OR _ _ _ | .RELOP _ _ _ _ => -- Exp AND Exp, Exp OR Exp
    pure () -- For later
  | .ASSIGNOP _ l r => -- Exp ASSIGNOP Exp
    match l with
    | .ID ltp val => do -- ID = Exp
      let val ← not_null val
      let var ← cast_irvar (← get_ir val)
      let temp ← new_var
      translate_Exp r temp
      match ltp.cls with
      | .TC_META => do -- INT assign
        gen_assign (op_var var) (← op_rval temp)
        gen_assign (op_var target) (op_var var)
      | .TC_STRUCT => -- Struct assign
        IRM.fail (.panic "No struct direct assign support")
      | .TC_ARRAY => do -- Array assign
        Assert ((← get_isref var) == true) "eq"
        Assert ((← get_isref temp) == true) "eq"
        let sz := type_sizeof ltp
        let sz2 := type_sizeof r.tp
        gen_arr_copy var temp (if sz < sz2 then sz else sz2)
        gen_assign (op_var target) (op_var temp)
        set_isref target true
      | _ => pure ()
    | .INDEX ltp le li => do -- E[index] = Exp
      let offset ← new_var
      let value ← new_var
      translate_Exp (.INDEX ltp le li) offset
      Assert ((← get_isref offset) == true) "eq"
      translate_Exp r value
      match ltp.cls with
      | .TC_META => do -- INT assign
        gen_assign (op_deref offset) (← op_rval value)
        gen_assign (op_var target) (← op_rval value)
      | .TC_STRUCT => -- Struct assign
        IRM.fail (.panic "No struct direct assign support")
      | .TC_ARRAY => do -- Array assign
        Assert ((← get_isref value) == true) "eq"
        let sz := type_sizeof ltp
        let sz2 := type_sizeof r.tp
        gen_arr_copy offset value (if sz < sz2 then sz else sz2)
        gen_assign (op_var target) (op_var value)
        set_isref target true
      | _ => pure ()
    | .DOT ltp le lname => do -- E.mem = Exp
      let offset ← new_var
      let value ← new_var
      translate_Exp (.DOT ltp le lname) offset
      Assert ((← get_isref offset) == true) "eq"
      translate_Exp r value
      match ltp.cls with
      | .TC_META => do -- INT assign
        gen_assign (op_deref offset) (← op_rval value)
        gen_assign (op_var target) (← op_rval value)
      | .TC_STRUCT => -- Struct assign
        IRM.fail (.panic "TODO")
      | .TC_ARRAY => -- Array assign
        IRM.fail (.panic "TODO")
      | _ => pure ()
    | _ =>
      IRM.fail (.panic "unexpect left val")
  | .PLUS _ l r => do
    let t1 ← new_var
    let t2 ← new_var
    translate_Exp l t1
    translate_Exp r t2
    gen_add (op_var target) (← op_rval t1) (← op_rval t2)
  | .MINUS _ l r => do
    let t1 ← new_var
    let t2 ← new_var
    translate_Exp l t1
    translate_Exp r t2
    gen_sub (op_var target) (← op_rval t1) (← op_rval t2)
  | .STAR _ l r => do
    let t1 ← new_var
    let t2 ← new_var
    translate_Exp l t1
    translate_Exp r t2
    gen_mul (op_var target) (← op_rval t1) (← op_rval t2)
  | .DIV _ l r => do
    let t1 ← new_var
    let t2 ← new_var
    translate_Exp l t1
    translate_Exp r t2
    gen_div (op_var target) (← op_rval t1) (← op_rval t2)
  | .CALL _ val args => do -- ID LP Args RP
    let val ← not_null val
    Assert (val.tp.cls == .TC_FUNC) "eq"
    let params ← translate_Args args
    if val.name = "write" then
      match params with
      | p :: _ =>
        gen_write (← op_rval p)
        gen_assign (op_var target) (op_const 0)
      | [] => IRM.fail (.panic "out of bounds")
    else
      let paramArr := params.reverse
      gen_args_loop val.tp.args paramArr val.tp.args.length val.tp.args.length
      let l ← cast_irlabel (← get_ir val)
      gen_call (op_var target) l
  | .INDEX tp e i => do -- Exp LB Exp RB
    let offset ← new_var
    translate_Exp e offset -- offset must be a address
    Assert ((← get_isref offset) == true) "eq"
    let sz := type_sizeof tp
    let index ← new_var
    translate_Exp i index
    let t1 ← new_var
    let t2 ← new_var
    gen_mul (op_var t1) (← op_rval index) (op_const sz)
    gen_add (op_var t2) (op_var offset) (op_var t1)
    gen_assign (op_var target) (op_var t2)
    set_isref target true
  if hb : ((tree.count == 1 && tree.child0 == .ST_NOT) ||
      (tree.count == 3 && (tree.child1 == .ST_AND || tree.child1 == .ST_OR ||
        tree.child1 == .ST_RELOP))) = true then
    let t ← new_label
    let f ← new_label
    gen_assign (op_var target) (op_const 0)
    translate_Cond tree t f
    gen_label t
    gen_assign (op_var target) (op_const 1)
    gen_label f
termination_by (sizeOf tree, tree.rank)
decreasing_by
  all_goals simp_wf
  all_goals subst_vars
  all_goals first
    | (apply Prod.Lex.left; omega)
    | (apply Prod.Lex.left; simp; omega)
    | (rw [Exp.rank, if_pos hb]; apply Prod.Lex.right; omega)

def translate_Cond (tree : Exp) (true_label false_label : irlabel) : IRM Unit :=
  match h : tree with
  | .NOT _ e => -- NOT Exp
    translate_Cond e false_label true_label
  | .LP _ e => -- LP Exp RP
    translate_Cond e true_label false_label
  | .AND _ l r => do -- Exp AND Exp
    let sl ← new_label
    translate_Cond l sl false_label
    gen_label sl
    translate_Cond r true_label false_label
  | .OR _ l r => do -- Exp OR Exp
    let sl ← new_label
    translate_Cond l true_label sl
    gen_label sl
    translate_Cond r true_label false_label
  | .RELOP _ l rt r => do
    let v1 ← new_var
    let v2 ← new_var
    translate_Exp l v1
    translate_Exp r v2
    gen_branch rt (← op_rval v1) (← op_rval v2) true_label
    gen_goto false_label
  | .ASSIGNOP _ _ _ | .PLUS _ _ _ | .MINUS _ _ _ | .STAR _ _ _ | .DIV _ _ _ | .NEG _ _
  | .CALL _ _ _ | .CALL0 _ _ | .INDEX _ _ _ | .DOT _ _ _ | .ID _ _ | .INT _ _
  | .FLOAT _ => do -- default exp
    let v1 ← new_var
    translate_Exp tree v1
    gen_branch .RT_NE (← op_rval v1) (op_const 0) true_label
    gen_goto false_label
termination_by (sizeOf tree, 1)
decreasing_by
  all_goals simp_wf
  all_goals subst_vars
  all_goals first
    | (apply Prod.Lex.left; omega)
    | (simp [Exp.rank, Exp.count, Exp.child0, Exp.child1]; apply Prod.Lex.right; omega)

def translate_Args (tree : Args) : IRM (List irvar) := do
  match tree with
  | .one e =>
    let var ← new_var
    translate_Exp e var
    pure [var]
  | .cons e rest =>
    let var ← new_var
    translate_Exp e var
    let next ← translate_Args rest
    pure (var :: next)
termination_by (sizeOf tree, 0)
decreasing_by
  all_goals simp_wf
  all_goals (apply Prod.Lex.left; omega)
end

/-! ## Declarations and statements -/

/-- The loop of `translate_FunDec` over the formal arguments `args[i]`. -/
def translate_FunDec_loop (subev : String → Option symbol) : List (String × type) → IRM Unit
  | [] => pure ()
  | (paramname, tp) :: rest => do
    let param ← not_null (subev paramname)
    let var ← new_var
    if tp.cls = .TC_STRUCT ∨ tp.cls = .TC_ARRAY then
      set_isref var true
    set_ir param (.var var)
    gen_param (op_var var)
    translate_FunDec_loop subev rest

def translate_FunDec (tree : FunDec) : IRM Unit := do
  let sym ← not_null tree.sym
  let label ← new_named_label sym.name
  set_ir sym (.label label)
  gen_func label
  translate_FunDec_loop tree.subev sym.tp.args

def translate_VarDec (tree : VarDec) : IRM Unit := do
  let var ← new_var
  match tree.sym.tp.cls with
  | .TC_STRUCT =>
    let sz := type_sizeof tree.sym.tp
    let tmp ← new_var
    gen_dec (op_var tmp) sz
    gen_assign (op_var var) (op_ref tmp)
    set_isref var true
    set_ir tree.sym (.var var)
  | .TC_ARRAY =>
    let sz := type_sizeof tree.sym.tp
    let tmp ← new_var
    gen_dec (op_var tmp) sz
    gen_assign (op_var var) (op_ref tmp)
    set_isref var true
    set_ir tree.sym (.var var)
  | .TC_META =>
    set_ir tree.sym (.var var)
  | _ => IRM.fail (.panic "unexpect dec type")

def translate_Dec (tree : Dec) : IRM Unit := do
  match tree with
  | .VarDec v => translate_VarDec v
  | .ASSIGNOP v e =>
    translate_VarDec v
    let var ← cast_irvar (← get_ir v.sym)
    let temp ← new_var
    translate_Exp e temp
    gen_assign (op_var var) (← op_rval temp)

def translate_DecList : DecList → IRM Unit
  | .one d => translate_Dec d
  | .cons d rest => do
    translate_Dec d
    translate_DecList rest

def translate_Def (tree : Def) : IRM Unit :=
  translate_DecList tree.decs

def translate_DefList : DefList → IRM Unit
  | .nil => pure ()
  | .cons d rest => do
    translate_Def d
    translate_DefList rest

mutual
def translate_CompSt : CompSt → IRM Unit
  | .mk defs stmts => do
    translate_DefList defs
    translate_StmtList stmts

def translate_StmtList : StmtList → IRM Unit
  | .nil => pure ()
  | .cons s rest => do
    translate_Stmt s
    translate_StmtList rest

def translate_Stmt : Stmt → IRM Unit
  | .Exp e => do -- Exp SEMI
    let ignore_var ← get_ignore_var
    match ignore_var with
    | some ignore_var => translate_Exp e ignore_var
    | none => IRM.fail (.assert "not null")
  | .CompSt c => -- CompSt
    translate_CompSt c
  | .RETURN e => do -- RETURN Exp SEMI
    let var ← new_var
    translate_Exp e var
    let var2 ← new_var
    gen_assign (op_var var2) (← op_rval var)
    gen_return (← op_rval var2)
  | .IF_ELSE c s1 s2 => do -- IF LP Exp RP Stmt ELSE Stmt
    let lt ← new_label
    let lf ← new_label
    let le ← new_label
    translate_Cond c lt lf
    gen_label lt
    translate_Stmt s1
    gen_goto le
    gen_label lf
    translate_Stmt s2
    gen_label le
  | .IF c s => do -- IF LP Exp RP Stmt
    let lt ← new_label
    let lf ← new_label
    translate_Cond c lt lf
    gen_label lt
    translate_Stmt s
    gen_label lf
  | .WHILE c s => do -- WHILE LP Exp RP Stmt
    let lt ← new_label
    let lf ← new_label
    let ls ← new_label
    gen_label ls
    translate_Cond c lt lf
    gen_label lt
    translate_Stmt s
    gen_goto ls
    gen_label lf
end

def translate_ExtDef : ExtDef → IRM Unit
  | .ExtDecList => IRM.fail (.panic "Don't support gloabl var")
  | .SEMI => pure ()
  | .FunDef f body => do
    translate_FunDec f
    translate_CompSt body -- function definition
  | .FunDecl f => do
    translate_FunDec f
    IRM.fail (.panic "Don't support functioin declare") -- function declare

def translate_ExtDefList : ExtDefList → IRM Unit
  | .nil => pure ()
  | .cons d rest => do
    translate_ExtDef d
    translate_ExtDefList rest

def translate_Program (tree : Program) : IRM Unit :=
  translate_ExtDefList tree.defs

/-! ## Entry points and the printer -/

def ir_prepare : IRM Unit := do
  (fun s => .ok ((), { s with ir_is_passed := true, irs := [] }))
  let v ← new_var
  (fun s => .ok ((), { s with ignore_var := some v }))

def ir_translate (tree : Program) : IRM ast := do
  translate_Program tree
  fun s => .ok ({ len := s.irs.length, var_count := s.var_count, codes := s.irs.reverse,
                  vars := s.vars }, s)

def printOprand : irop → String
  | .Var var => var.name
  | .Const value => "#" ++ toString value
  | .Deref var => "*" ++ var.name
  | .Ref var => "&" ++ var.name

/-- The text of the inner `switch (code->branch.relop)` of `ir_linearise`. -/
def print_relop : relop_type → String
  | .RT_L => " > "
  | .RT_S => " < "
  | .RT_LE => " >= "
  | .RT_SE => " <= "
  | .RT_E => " == "
  | .RT_NE => " != "

/-- The name that `code->op->var->name` reads from an operand (the union member
`var`; a constant operand has no variable). -/
def irop.var_name : irop → String
  | .Var var | .Ref var | .Deref var => var.name
  | .Const _ => ""

/-- The text that one iteration of the loop of `ir_linearise` writes. -/
def print_ircode (code : ircode) : String :=
  if code.ignore then ""
  else match code.ins with
  | .Label label => "LABEL " ++ label.name ++ " :\n"
  | .Func label => "FUNCTION " ++ label.name ++ " :\n"
  | .Assign left right => printOprand left ++ " := " ++ printOprand right ++ "\n"
  | .Add target op1 op2 =>
    printOprand target ++ " := " ++ printOprand op1 ++ " + " ++ printOprand op2 ++ "\n"
  | .Sub target op1 op2 =>
    printOprand target ++ " := " ++ printOprand op1 ++ " - " ++ printOprand op2 ++ "\n"
  | .Mul target op1 op2 =>
    printOprand target ++ " := " ++ printOprand op1 ++ " * " ++ printOprand op2 ++ "\n"
  | .Div target op1 op2 =>
    printOprand target ++ " := " ++ printOprand op1 ++ " / " ++ printOprand op2 ++ "\n"
  | .Goto label => "GOTO " ++ label.name ++ "\n"
  | .Branch relop op1 op2 target =>
    "IF " ++ printOprand op1 ++ print_relop relop ++ printOprand op2 ++ " GOTO " ++
      target.name ++ "\n"
  | .Return ret => "RETURN " ++ printOprand ret ++ "\n"
  | .Dec op size => "DEC " ++ op.var_name ++ " " ++ toString size ++ "\n"
  | .Arg arg => "ARG " ++ printOprand arg ++ "\n"
  | .Call ret func => ret.var_name ++ " := CALL " ++ func.name ++ "\n"
  | .Param param => "PARAM " ++ param.var_name ++ "\n"
  | .Read read => "READ " ++ read.var_name ++ "\n"
  | .Write write => "WRITE " ++ printOprand write ++ "\n"

/-- The loop `for (int i = 0; i < tree->len; i++)` of `ir_linearise`, over the
instructions still to be printed. -/
def ir_linearise_loop : List ircode → String
  | [] => ""
  | code :: rest => print_ircode code ++ ir_linearise_loop rest

/-- The text that `ir_linearise` writes to the file. -/
def ir_linearise (tree : ast) : String :=
  ir_linearise_loop (tree.codes.take tree.len)

/-! ## Notions used in the statements -/

/-- The value form of a condition: the trailing `if` of `translate_Exp`. -/
def bool_value (tree : Exp) (target : irvar) : IRM Unit := do
  let t ← new_label
  let f ← new_label
  gen_assign (op_var target) (op_const 0)
  translate_Cond tree t f
  gen_label t
  gen_assign (op_var target) (op_const 1)
  gen_label f

/-- The left operand of an assignment is none of `ID`, `Exp LB Exp RB`,
`Exp DOT ID`. -/
def Exp.bad_left : Exp → Bool
  | .ID _ _ | .INDEX _ _ _ | .DOT _ _ _ => false
  | _ => true

/-- The expression reaches the `default exp` part of `translate_Cond`: it is
none of `NOT Exp`, `LP Exp RP`, `Exp AND Exp`, `Exp OR Exp`, `Exp RELOP Exp`. -/
def Exp.cond_default : Exp → Bool
  | .NOT _ _ | .LP _ _ | .AND _ _ _ | .OR _ _ _ | .RELOP _ _ _ _ => false
  | _ => true

/-- Every successful run of `x` relates the initial and the final state by `R`,
and every error it aborts with satisfies `E`. -/
def Holds {α : Type} (R : Emitter → Emitter → Prop) (E : Err → Prop) (x : IRM α) : Prop :=
  ∀ s, (∀ a s', x s = .ok (a, s') → R s s') ∧ (∀ e, x s = .error e → E e)

/-- A reflexive and transitive relation `R` on emitter states that every
primitive of the lowering pass respects when its operand-kind assertion is met,
and a set `E` of errors that contains every `panic` and every assertion other
than the operand-kind ones. -/
structure Prims (R : Emitter → Emitter → Prop) (E : Err → Prop) : Prop where
  refl : ∀ s, R s s
  trans : ∀ s1 s2 s3, R s1 s2 → R s2 s3 → R s1 s3
  panic : ∀ msg, E (.panic msg)
  assert : ∀ msg, E (.assert msg)
  new_var : Holds R E new_var
  new_label : Holds R E new_label
  new_named_label : ∀ n, Holds R E (new_named_label n)
  set_isref : ∀ v b, Holds R E (set_isref v b)
  set_ir : ∀ sym p, Holds R E (set_ir sym p)
  gen_label : ∀ l, Holds R E (gen_label l)
  gen_func : ∀ l, Holds R E (gen_func l)
  gen_assign : ∀ l r, l.kind = .IRO_Variable ∨ l.kind = .IRO_Deref → Holds R E (gen_assign l r)
  gen_add : ∀ t a b, t.kind = .IRO_Variable → Holds R E (gen_add t a b)
  gen_sub : ∀ t a b, t.kind = .IRO_Variable → Holds R E (gen_sub t a b)
  gen_mul : ∀ t a b, t.kind = .IRO_Variable → Holds R E (gen_mul t a b)
  gen_div : ∀ t a b, t.kind = .IRO_Variable → Holds R E (gen_div t a b)
  gen_goto : ∀ l, Holds R E (gen_goto l)
  gen_branch : ∀ rt a b l, Holds R E (gen_branch rt a b l)
  gen_return : ∀ r, Holds R E (gen_return r)
  gen_dec : ∀ op sz, op.kind = .IRO_Variable → Holds R E (gen_dec op sz)
  gen_call : ∀ r l, r.kind = .IRO_Variable → Holds R E (gen_call r l)
  gen_arg : ∀ a, Holds R E (gen_arg a)
  gen_param : ∀ p, p.kind = .IRO_Variable → Holds R E (gen_param p)
  gen_read : ∀ r, r.kind = .IRO_Variable → Holds R E (gen_read r)
  gen_write : ∀ w, Holds R E (gen_write w)

/-- The operand-kind assertion of the `gen_*` function that emits this kind of
instruction. -/
def irins.WellKinded : irins → Prop
  | .Assign left _ => left.kind = .IRO_Variable ∨ left.kind = .IRO_Deref
  | .Add target _ _ => target.kind = .IRO_Variable
  | .Sub target _ _ => target.kind = .IRO_Variable
  | .Mul target _ _ => target.kind = .IRO_Variable
  | .Div target _ _ => target.kind = .IRO_Variable
  | .Dec op _ => op.kind = .IRO_Variable
  | .Call ret _ => ret.kind = .IRO_Variable
  | .Param param => param.kind = .IRO_Variable
  | .Read read => read.kind = .IRO_Variable
  | _ => True

/-- The state `s'` is reached from `s` by allocating variables and labels and by
emitting instructions that pass their operand-kind assertion, with `ignore`
clear; `ignore_var` and `ir_is_passed` are untouched. -/
structure Emitter.Extends (s s' : Emitter) : Prop where
  irs : ∃ new, s'.irs = new ++ s.irs ∧ ∀ c ∈ new, c.ins.WellKinded ∧ c.ignore = false
  vars : ∃ nv, s'.vars = nv ++ s.vars
  var_count : s.var_count ≤ s'.var_count
  count : s.count ≤ s'.count
  label_alloc : s.label_alloc ≤ s'.label_alloc
  ignore_var : s'.ignore_var = s.ignore_var
  ir_is_passed : s'.ir_is_passed = s.ir_is_passed

/-- The label that a `Label` or `Func` instruction defines. -/
def ircode.defs (c : ircode) : List irlabel :=
  match c.ins with
  | .Label l => [l]
  | .Func l => [l]
  | _ => []

/-- The label that a `Goto` or `Branch` instruction jumps to. -/
def ircode.jumps (c : ircode) : List irlabel :=
  match c.ins with
  | .Goto l => [l]
  | .Branch _ _ _ l => [l]
  | _ => []

/-- The labels defined in a list of instructions, with multiplicity. -/
def label_defs : List ircode → List irlabel
  | [] => []
  | c :: rest => c.defs ++ label_defs rest

/-- The targets of the jumps in a list of instructions. -/
def jump_targets : List ircode → List irlabel
  | [] => []
  | c :: rest => c.jumps ++ jump_targets rest

/-- Number of `Label` and `Func` instructions of `code` whose label is the
object at address `n`. -/
def def_count (n : Nat) (code : List ircode) : Nat :=
  ((label_defs code).map irlabel.addr).count n

/-- A segment of code that allocated the label addresses `lo ≤ n < hi` and was
handed the labels `pending` to place: each allocated label and each pending
label is defined exactly once in the segment, no other label is defined in it,
and every jump goes to a label defined in the segment or to one of `given`. -/
structure WellLabelled (given pending : List irlabel) (lo hi : Nat) (code : List ircode) :
    Prop where
  count : ∀ n, def_count n code =
    (if lo ≤ n ∧ n < hi then 1 else 0) + (pending.map irlabel.addr).count n
  jumps : ∀ l ∈ jump_targets code, l ∈ given ∨ l ∈ label_defs code
  placed : ∀ l ∈ pending, l ∈ label_defs code

/-- Every successful run of `x` appends a well-labelled segment. -/
def Labelled {α : Type} (given pending : List irlabel) (x : IRM α) : Prop :=
  ∀ s a s', x s = .ok (a, s') → ∃ new, s'.irs = new ++ s.irs ∧
    s.label_alloc ≤ s'.label_alloc ∧
    WellLabelled given pending s.label_alloc s'.label_alloc new

/-- An instruction that neither defines a label nor jumps. -/
def irins.plain : irins → Prop
  | .Label _ | .Func _ | .Goto _ | .Branch _ _ _ _ => False
  | _ => True

/-- The variable an operand refers to. -/
def irop.vars : irop → List irvar
  | .Var v => [v]
  | .Ref v => [v]
  | .Deref v => [v]
  | .Const _ => []

/-- The variables the operands of an instruction refer to. -/
def irins.vars : irins → List irvar
  | .Label _ | .Func _ | .Goto _ => []
  | .Assign left right => left.vars ++ right.vars
  | .Add target op1 op2 | .Sub target op1 op2 | .Mul target op1 op2 | .Div target op1 op2 =>
    target.vars ++ op1.vars ++ op2.vars
  | .Branch _ op1 op2 _ => op1.vars ++ op2.vars
  | .Return ret => ret.vars
  | .Dec op _ => op.vars
  | .Arg arg => arg.vars
  | .Call ret _ => ret.vars
  | .Param param => param.vars
  | .Read read => read.vars
  | .Write write => write.vars

/-- Every variable that the state refers to (from an instruction, from the `ir`
slot of a symbol, as `ignore_var`, or as what a label shows when it is read as a
variable) is in the set `V`. -/
structure Emitter.Refs (V : Set irvar) (s : Emitter) : Prop where
  irs : ∀ c ∈ s.irs, ∀ v ∈ c.ins.vars, v ∈ V
  sym_ir : ∀ a v, s.sym_ir a = some (.var v) → v ∈ V
  ignore_var : ∀ v, s.ignore_var = some v → v ∈ V
  label_as_var : ∀ l, s.label_as_var l ∈ V

/-- A run of `x` only allocates variables and, provided the variables that it
allocates are in `V`, the state referred only to variables of `V` and `pre`
holds, the final state refers only to variables of `V` and the result satisfies
`Q`. -/
def Tracks {α : Type} (V : Set irvar) (pre : Prop) (x : IRM α) (Q : α → Prop) : Prop :=
  ∀ s a s', x s = .ok (a, s') → s.vars <:+ s'.vars ∧
    ((∀ new, s'.vars = new ++ s.vars → ∀ v ∈ new, v ∈ V) → s.Refs V → pre → s'.Refs V ∧ Q a)

/-- The calling protocol of the pass: `ir_prepare ()`, then `ir_translate (tree)`. -/
def ir_main (tree : Program) : IRM ast := do
  ir_prepare
  ir_translate tree

/-- The instruction defines the label `l`: it is `Label l` or `Func l`. -/
def ircode.defines (l : irlabel) (c : ircode) : Bool :=
  decide (c.ins = .Label l ∨ c.ins = .Func l)

/-- The variable that the `k`-th call of `new_var` creates. -/
def nth_var (k : Nat) : irvar := { id := k, name := "t" ++ toString (k : Int) }

/-- The list `vars` after `n` calls of `new_var`, most recent variable first. -/
def vars_upto : Nat → List irvar
  | 0 => []
  | n + 1 => nth_var (n + 1) :: vars_upto n

/-- The variable table is the one that `var_count` calls of `new_var` since
program start produce. -/
structure Emitter.VarsOK (s : Emitter) : Prop where
  count : s.var_count = s.vars.length
  vars : s.vars = vars_upto s.vars.length

/-- The operand `Rval (v)` as built in state `s`: `Deref (v)` when `v.isref` is
set at that moment and `Var (v)` otherwise. -/
def rval (s : Emitter) (v : irvar) : irop :=
  if s.isref v.id then .Deref v else .Var v

/-- The state after one more instruction has been emitted. -/
def Emitter.emit (s : Emitter) (ins : irins) : Emitter :=
  { s with irs := ⟨ins, false⟩ :: s.irs }

/-- The boolean value form of spec §4.3: two fresh labels `Lt`, `Lf` minted in
that order, `Assign (Var target, Const 0)`, the instructions `cond` of
`translate_Cond (tree, Lt, Lf)`, `Label (Lt)`, `Assign (Var target, Const 1)`,
`Label (Lf)`, and nothing else. -/
def emits_bool_value (tree : Exp) (target : irvar) (s s' : Emitter) : Prop :=
  ∃ Lt s1 Lf s2 s3 cond,
    new_label s = .ok (Lt, s1) ∧ new_label s1 = .ok (Lf, s2) ∧
    translate_Cond tree Lt Lf (s2.emit (.Assign (.Var target) (.Const 0))) = .ok ((), s3) ∧
    s3.codes = s.codes ++ ⟨.Assign (.Var target) (.Const 0), false⟩ :: cond ∧
    s' = ((s3.emit (.Label Lt)).emit (.Assign (.Var target) (.Const 1))).emit (.Label Lf) ∧
    s'.codes = s.codes ++ ⟨.Assign (.Var target) (.Const 0), false⟩ :: cond ++
      [⟨.Label Lt, false⟩, ⟨.Assign (.Var target) (.Const 1), false⟩, ⟨.Label Lf, false⟩]

/-- The short-circuit form of `E1 AND E2` (`andalso = true`) and of `E1 OR E2`
(`andalso = false`): a fresh label `Ls`, different from `Lt` and `Lf`, the
instructions `c1` of the condition `E1` with `(Ls, Lf)` respectively `(Lt, Ls)`,
`Label (Ls)`, and the instructions `c2` of the condition `E2` with `(Lt, Lf)`. -/
def emits_short_circuit (andalso : Bool) (E1 E2 : Exp) (Lt Lf : irlabel) (s s' : Emitter) :
    Prop :=
  ∃ Ls s1 s2 c1 c2,
    new_label s = .ok (Ls, s1) ∧ Ls ≠ Lt ∧ Ls ≠ Lf ∧
    (if andalso then translate_Cond E1 Ls Lf s1 else translate_Cond E1 Lt Ls s1) = .ok ((), s2) ∧
    s2.codes = s.codes ++ c1 ∧
    translate_Cond E2 Lt Lf (s2.emit (.Label Ls)) = .ok ((), s') ∧
    s'.codes = s.codes ++ c1 ++ [⟨.Label Ls, false⟩] ++ c2

/-- The lowering of a relational condition: fresh `v1` then `v2`, `E1` lowered
into `v1`, `E2` into `v2`, and `Branch (relop, Rval v1, Rval v2, Lt)`,
`Goto (Lf)` as the last two instructions. -/
def emits_relop (E1 : Exp) (rt : relop_type) (E2 : Exp) (Lt Lf : irlabel) (s s' : Emitter) :
    Prop :=
  ∃ v1 s1 v2 s2 s3 s4,
    new_var s = .ok (v1, s1) ∧ new_var s1 = .ok (v2, s2) ∧
    translate_Exp E1 v1 s2 = .ok ((), s3) ∧ translate_Exp E2 v2 s3 = .ok ((), s4) ∧
    s' = (s4.emit (.Branch rt (rval s4 v1) (rval s4 v2) Lt)).emit (.Goto Lf) ∧
    s'.codes = s4.codes ++
      [⟨.Branch rt (rval s4 v1) (rval s4 v2) Lt, false⟩, ⟨.Goto Lf, false⟩]

/-- The lowering of any other condition: the expression lowered into a fresh
`v`, and `Branch (NE, Rval v, Const 0, Lt)`, `Goto (Lf)` as the last two
instructions. -/
def emits_default_cond (tree : Exp) (Lt Lf : irlabel) (s s' : Emitter) : Prop :=
  ∃ v s1 s2,
    new_var s = .ok (v, s1) ∧ translate_Exp tree v s1 = .ok ((), s2) ∧
    s' = (s2.emit (.Branch .RT_NE (rval s2 v) (.Const 0) Lt)).emit (.Goto Lf) ∧
    s'.codes = s2.codes ++
      [⟨.Branch .RT_NE (rval s2 v) (.Const 0) Lt, false⟩, ⟨.Goto Lf, false⟩]

def sym_main : symbol := { addr := 0, name := "main", tp := .FUNC .nil .META }
def sym_a : symbol := { addr := 1, name := "a", tp := .META }
def sym_write : symbol := { addr := 2, name := "write", tp := .FUNC (.cons "x" .META .nil) .META }
def sym_f : symbol := { addr := 3, name := "f", tp := .FUNC (.cons "x" .META .nil) .META }
def sym_x : symbol := { addr := 4, name := "x", tp := .META }

/-- The decorated tree of `int main() { return 0; }`. -/
def prog_main : Program :=
  { defs := .cons (.FunDef { sym := some sym_main, subev := fun _ => none }
      (.mk .nil (.cons (.RETURN (.INT .META 0)) .nil))) .nil }

/-- The decorated tree of `int f(int x) { return x + 1; }`. -/
def prog_f : Program :=
  { defs := .cons (.FunDef { sym := some sym_f,
                             subev := fun n => if n = "x" then some sym_x else none }
      (.mk .nil (.cons (.RETURN (.PLUS .META (.ID .META (some sym_x)) (.INT .META 1))) .nil)))
      .nil }

/-- The decorated tree of `int main() { return !0; }`. -/
def prog_not : Program :=
  { defs := .cons (.FunDef { sym := some sym_main, subev := fun _ => none }
      (.mk .nil (.cons (.RETURN (.NOT .META (.INT .META 0))) .nil))) .nil }

/-- The decorated tree of
`int main() { int a; a = 3; if (a > 0) write(a); return 0; }`. -/
def prog_if : Program :=
  { defs := .cons (.FunDef { sym := some sym_main, subev := fun _ => none }
      (.mk (.cons ⟨.one (.VarDec ⟨sym_a⟩)⟩ .nil)
        (.cons (.Exp (.ASSIGNOP .META (.ID .META (some sym_a)) (.INT .META 3)))
        (.cons (.IF (.RELOP .META (.ID .META (some sym_a)) .RT_L (.INT .META 0))
              (.Exp (.CALL .META (some sym_write) (.one (.ID .META (some sym_a))))))
        (.cons (.RETURN (.INT .META 0)) .nil))))) .nil }

/-- The first translation of a process: `ir_prepare`, then `ir_translate`, from
the initial values of the globals; the result is the returned `ast`. -/
def ir_run (tree : Program) : Except Err ast :=
  (ir_main tree Emitter.init).map Prod.fst

/-- The `ast` that the first translation of `int main() { return 0; }` returns. -/
def ast_main : ast :=
  { len := 4, var_count := 3,
    codes := [
      ⟨.Func ⟨0, "main"⟩, false⟩,
      ⟨.Assign (.Var ⟨2, "t2"⟩) (.Const 0), false⟩,
      ⟨.Assign (.Var ⟨3, "t3"⟩) (.Var ⟨2, "t2"⟩), false⟩,
      ⟨.Return (.Var ⟨3, "t3"⟩), false⟩],
    vars := [⟨3, "t3"⟩, ⟨2, "t2"⟩, ⟨1, "t1"⟩] }

/-- The `ast` that the first translation of `int f(int x) { return x + 1; }` returns. -/
def ast_f : ast :=
  { len := 7, var_count := 6,
    codes := [
      ⟨.Func ⟨0, "f"⟩, false⟩,
      ⟨.Param (.Var ⟨2, "t2"⟩), false⟩,
      ⟨.Assign (.Var ⟨4, "t4"⟩) (.Var ⟨2, "t2"⟩), false⟩,
      ⟨.Assign (.Var ⟨5, "t5"⟩) (.Const 1), false⟩,
      ⟨.Add (.Var ⟨3, "t3"⟩) (.Var ⟨4, "t4"⟩) (.Var ⟨5, "t5"⟩), false⟩,
      ⟨.Assign (.Var ⟨6, "t6"⟩) (.Var ⟨3, "t3"⟩), false⟩,
      ⟨.Return (.Var ⟨6, "t6"⟩), false⟩],
    vars := [⟨6, "t6"⟩, ⟨5, "t5"⟩, ⟨4, "t4"⟩, ⟨3, "t3"⟩, ⟨2, "t2"⟩, ⟨1, "t1"⟩] }

/-- The `ast` that the first translation of `int main() { return !0; }` returns. -/
def ast_not : ast :=
  { len := 3, var_count := 3,
    codes := [
      ⟨.Func ⟨0, "main"⟩, false⟩,
      ⟨.Assign (.Var ⟨3, "t3"⟩) (.Var ⟨2, "t2"⟩), false⟩,
      ⟨.Return (.Var ⟨3, "t3"⟩), false⟩],
    vars := [⟨3, "t3"⟩, ⟨2, "t2"⟩, ⟨1, "t1"⟩] }

/-- The `ast` that the first translation of `int main() { int a; a = 3; if (a > 0) write(a); return 0; }` returns. -/
def ast_if : ast :=
  { len := 16, var_count := 8,
    codes := [
      ⟨.Func ⟨0, "main"⟩, false⟩,
      ⟨.Assign (.Var ⟨3, "t3"⟩) (.Const 3), false⟩,
      ⟨.Assign (.Var ⟨2, "t2"⟩) (.Var ⟨3, "t3"⟩), false⟩,
      ⟨.Assign (.Var ⟨1, "t1"⟩) (.Var ⟨2, "t2"⟩), false⟩,
      ⟨.Assign (.Var ⟨4, "t4"⟩) (.Var ⟨2, "t2"⟩), false⟩,
      ⟨.Assign (.Var ⟨5, "t5"⟩) (.Const 0), false⟩,
      ⟨.Branch .RT_L (.Var ⟨4, "t4"⟩) (.Var ⟨5, "t5"⟩) ⟨1, "l1"⟩, false⟩,
      ⟨.Goto ⟨2, "l2"⟩, false⟩,
      ⟨.Label ⟨1, "l1"⟩, false⟩,
      ⟨.Assign (.Var ⟨6, "t6"⟩) (.Var ⟨2, "t2"⟩), false⟩,
      ⟨.Write (.Var ⟨6, "t6"⟩), false⟩,
      ⟨.Assign (.Var ⟨1, "t1"⟩) (.Const 0), false⟩,
      ⟨.Label ⟨2, "l2"⟩, false⟩,
      ⟨.Assign (.Var ⟨7, "t7"⟩) (.Const 0), false⟩,
      ⟨.Assign (.Var ⟨8, "t8"⟩) (.Var ⟨7, "t7"⟩), false⟩,
      ⟨.Return (.Var ⟨8, "t8"⟩), false⟩],
    vars := [⟨8, "t8"⟩, ⟨7, "t7"⟩, ⟨6, "t6"⟩, ⟨5, "t5"⟩, ⟨4, "t4"⟩, ⟨3, "t3"⟩, ⟨2, "t2"⟩, ⟨1, "t1"⟩] }

/-- The text that `ir_linearise` writes for the first translation of a tree. -/
def ir_output (tree : Program) : Except Err String :=
  (ir_run tree).map ir_linearise

/-- The state in which the labels `l1` and `l2` have been minted. -/
def state_two_labels : Emitter :=
  { Emitter.init with count := 2, label_alloc := 2 }

/-- The external definitions of a list, in source order. -/
def ExtDefList.toList : ExtDefList → List ExtDef
  | .nil => []
  | .cons d rest => d :: rest.toList

/-- The lowering of `IF (C) S1 ELSE S2` as the spec states it: labels `Lt`,
`Lf`, `Le` minted in that order and pairwise distinct, then the instructions
`cC` of the condition with `(Lt, Lf)`, `Label (Lt)`, the instructions `c1` of
`S1`, `Goto (Le)`, `Label (Lf)`, the instructions `c2` of `S2`, `Label (Le)`. -/
def emits_if_else (C : Exp) (S1 S2 : Stmt) (s s' : Emitter) : Prop :=
  ∃ Lt sa Lf sb Le sc sd se sf cC c1 c2,
    new_label s = .ok (Lt, sa) ∧ new_label sa = .ok (Lf, sb) ∧ new_label sb = .ok (Le, sc) ∧
    Lt ≠ Lf ∧ Lt ≠ Le ∧ Lf ≠ Le ∧
    translate_Cond C Lt Lf sc = .ok ((), sd) ∧ sd.codes = s.codes ++ cC ∧
    translate_Stmt S1 (sd.emit (.Label Lt)) = .ok ((), se) ∧
    se.codes = (sd.emit (.Label Lt)).codes ++ c1 ∧
    translate_Stmt S2 ((se.emit (.Goto Le)).emit (.Label Lf)) = .ok ((), sf) ∧
    sf.codes = ((se.emit (.Goto Le)).emit (.Label Lf)).codes ++ c2 ∧
    s' = sf.emit (.Label Le) ∧
    s'.codes = s.codes ++ cC ++ [⟨.Label Lt, false⟩] ++ c1 ++
      [⟨.Goto Le, false⟩, ⟨.Label Lf, false⟩] ++ c2 ++ [⟨.Label Le, false⟩]

/-- The lowering of `WHILE (C) S` as the spec states it: three pairwise
distinct fresh labels, then `Label (Ls)`, the instructions `cC` of the condition
with `(Lt, Lf)`, `Label (Lt)`, the instructions `cS` of `S`, `Goto (Ls)`,
`Label (Lf)`. -/
def emits_while (C : Exp) (S : Stmt) (s s' : Emitter) : Prop :=
  ∃ Lt sa Lf sb Ls sc sd se cC cS,
    new_label s = .ok (Lt, sa) ∧ new_label sa = .ok (Lf, sb) ∧ new_label sb = .ok (Ls, sc) ∧
    Lt ≠ Lf ∧ Lt ≠ Ls ∧ Lf ≠ Ls ∧
    translate_Cond C Lt Lf (sc.emit (.Label Ls)) = .ok ((), sd) ∧
    sd.codes = (sc.emit (.Label Ls)).codes ++ cC ∧
    translate_Stmt S (sd.emit (.Label Lt)) = .ok ((), se) ∧
    se.codes = (sd.emit (.Label Lt)).codes ++ cS ∧
    s' = (se.emit (.Goto Ls)).emit (.Label Lf) ∧
    s'.codes = s.codes ++ [⟨.Label Ls, false⟩] ++ cC ++ [⟨.Label Lt, false⟩] ++ cS ++
      [⟨.Goto Ls, false⟩, ⟨.Label Lf, false⟩]

/-- A second translation in the same process: `ir_prepare`, a translation,
`ir_prepare` again; the result is `ignore_var` and the name of the first label
that `new_label` mints then. -/
def prepare_again (tree : Program) : IRM (Option irvar × String) := do
  ir_prepare
  let _ ← ir_translate tree
  ir_prepare
  let v ← get_ignore_var
  let l ← new_label
  pure (v, l.name)

/-- The operator text of the spec's table: `> < >= <= == !=` for
`L S LE SE E NE`. -/
def relop_text : relop_type → String
  | .RT_L => ">"
  | .RT_S => "<"
  | .RT_LE => ">="
  | .RT_SE => "<="
  | .RT_E => "=="
  | .RT_NE => "!="

/-- The operand print forms of the spec: `Var v → v.name`, `Const k → #k`,
`Ref v → &v.name`, `Deref v → *v.name`. -/
def operand_text : irop → String
  | .Var v => v.name
  | .Const k => "#" ++ toString k
  | .Ref v => "&" ++ v.name
  | .Deref v => "*" ++ v.name

/-- The canonical text form of an instruction, after the table of spec §6 (one
line, without the line end). -/
def text_form : irins → String
  | .Label L => "LABEL " ++ L.name ++ " :"
  | .Func L => "FUNCTION " ++ L.name ++ " :"
  | .Assign l r => operand_text l ++ " := " ++ operand_text r
  | .Add t a b => operand_text t ++ " := " ++ operand_text a ++ " + " ++ operand_text b
  | .Sub t a b => operand_text t ++ " := " ++ operand_text a ++ " - " ++ operand_text b
  | .Mul t a b => operand_text t ++ " := " ++ operand_text a ++ " * " ++ operand_text b
  | .Div t a b => operand_text t ++ " := " ++ operand_text a ++ " / " ++ operand_text b
  | .Goto L => "GOTO " ++ L.name
  | .Branch op a b L =>
    "IF " ++ operand_text a ++ " " ++ relop_text op ++ " " ++ operand_text b ++ " GOTO " ++ L.name
  | .Return v => "RETURN " ++ operand_text v
  | .Dec v n => "DEC " ++ operand_text v ++ " " ++ toString n
  | .Arg v => "ARG " ++ operand_text v
  | .Call t L => operand_text t ++ " := CALL " ++ L.name
  | .Param v => "PARAM " ++ operand_text v
  | .Read v => "READ " ++ operand_text v
  | .Write v => "WRITE " ++ operand_text v

/-- The `n` variables that `new_var` returns when `k` variables have been
allocated: `t(k+1)`, ..., `t(k+n)`. -/
def fresh_vars (k : Int) : Nat → List irvar
  | 0 => []
  | n + 1 => ⟨k + 1, "t" ++ toString (k + 1)⟩ :: fresh_vars (k + 1) n

/-- A parameter or argument of aggregate type: `STRUCT` or `ARRAY`. -/
def type.aggregate (tp : type) : Bool :=
  decide (tp.cls = .TC_STRUCT ∨ tp.cls = .TC_ARRAY)

/-- The state after one iteration of the loop of `translate_FunDec`, for a
formal of type `tp` whose symbol is `param`. -/
def Emitter.with_param (s : Emitter) (tp : type) (param : symbol) : Emitter :=
  { s with
    var_count := s.var_count + 1,
    vars := ⟨s.var_count + 1, "t" ++ toString (s.var_count + 1)⟩ :: s.vars,
    isref := Function.update s.isref (s.var_count + 1) tp.aggregate,
    sym_ir := Function.update s.sym_ir param.addr
      (some (.var ⟨s.var_count + 1, "t" ++ toString (s.var_count + 1)⟩)),
    irs := ⟨.Param (.Var ⟨s.var_count + 1, "t" ++ toString (s.var_count + 1)⟩), false⟩ :: s.irs }

/-- The `FunDec` node of `int f(int x)`. -/
def fundec_f : FunDec :=
  { sym := some sym_f, subev := fun n => if n = "x" then some sym_x else none }

/-- The arguments of a call, in source order. -/
def Args.toList : Args → List Exp
  | .one e => [e]
  | .cons e rest => e :: rest.toList

/-- The arguments `a1, ..., an` are lowered in source order, each into a fresh
variable: `p1` is allocated and `a1` lowered into it, then `p2`, and so on. -/
def lowers_args : List Exp → List irvar → Emitter → Emitter → Prop
  | [], [], s, s' => s' = s
  | e :: es, p :: ps, s, s' =>
    ∃ s1 s2, new_var s = .ok (p, s1) ∧ translate_Exp e p s1 = .ok ((), s2) ∧
      lowers_args es ps s2 s'
  | _, _, _, _ => False

/-- The operand of the `Arg` instruction for the variable `p` passed for a
formal of type `formal`: `Var (p)` for an aggregate, `Rval (p)` otherwise. -/
def arg_operand (s : Emitter) (formal : type) (p : irvar) : irop :=
  if formal.aggregate then .Var p else rval s p

/-- The lowering of a call `f (a1, ..., an)` as the spec states it: the
arguments lowered in source order into fresh `p1, ..., pn`, every `pi` passed for
an aggregate formal having `isref` set, the label `l` recorded on the symbol of
`f`, then exactly the `Arg` instructions for `pn, ..., p1` and
`Call (Var target, l)` last. -/
def emits_call (val : symbol) (args : Args) (target : irvar) (s s' : Emitter) : Prop :=
  ∃ ps s1 l, lowers_args args.toList ps s s1 ∧ ps.length = val.tp.args.length ∧
    (∀ pa ∈ ps.zip val.tp.args, pa.2.2.aggregate = true → s1.isref pa.1.id = true) ∧
    s1.sym_ir val.addr = some (.label l) ∧
    s' = { s1 with irs := (⟨.Call (.Var target) l, false⟩ :: ((ps.zip val.tp.args).map
      (fun pa => (⟨.Arg (arg_operand s1 pa.2.2 pa.1), false⟩ : ircode)) ++ s1.irs)) } ∧
    s'.codes = s1.codes ++
      ((ps.zip val.tp.args).map
        (fun pa => (⟨.Arg (arg_operand s1 pa.2.2 pa.1), false⟩ : ircode))).reverse ++
      [⟨.Call (.Var target) l, false⟩]

/-- The function symbol `g` of `int g(int a[10])`. -/
def sym_g : symbol :=
  { addr := 5, name := "g", tp := .FUNC (.cons "a" (.ARRAY .META [10]) .nil) .META }

/-- A token followed by a separator, then the remaining tokens: the text of one
line, whose last token is followed by the line end. -/
def render : List (List Char) → List Char
  | [] => []
  | [t] => t ++ ['\n']
  | t :: u :: ts => t ++ ' ' :: render (u :: ts)

/-- A character that is neither the blank nor the line end. -/
def Char.inToken (c : Char) : Prop := c ≠ ' ' ∧ c ≠ '\n'

/-- The value of a list of decimal digits. -/
def digits_value (cs : List Char) : Nat :=
  cs.foldl (fun acc c => 10 * acc + (c.toNat - 48)) 0


/-- An identifier: letters, digits and underscores, at least one. -/
def is_identifier (name : String) : Prop :=
  name.data ≠ [] ∧ ∀ c ∈ name.data, c.isAlphanum = true ∨ c = '_'

/-- The variable of the operand, if any, is named `t<id>`. -/
def irop.named : irop → Prop
  | .Var v | .Ref v | .Deref v => v.name = "t" ++ toString v.id
  | .Const _ => True

/-- Every variable of the instruction is named `t<id>` and every label name is
an identifier. -/
def irins.named : irins → Prop
  | .Label L | .Func L | .Goto L => is_identifier L.name
  | .Assign l r => l.named ∧ r.named
  | .Add t a b | .Sub t a b | .Mul t a b | .Div t a b => t.named ∧ a.named ∧ b.named
  | .Branch _ a b L => a.named ∧ b.named ∧ is_identifier L.name
  | .Return v | .Arg v | .Param v | .Read v | .Write v | .Dec v _ => v.named
  | .Call t L => t.named ∧ is_identifier L.name

/-- The instruction with the addresses of its label objects forgotten: what
remains is the kind, the operands and the label names. -/
def irins.erase_addr : irins → irins
  | .Label L => .Label ⟨0, L.name⟩
  | .Func L => .Func ⟨0, L.name⟩
  | .Goto L => .Goto ⟨0, L.name⟩
  | .Branch op a b L => .Branch op a b ⟨0, L.name⟩
  | .Call t L => .Call t ⟨0, L.name⟩
  | ins => ins

/-- The blank-separated words of the text form of an instruction. -/
def irins.tokens : irins → List String
  | .Label L => ["LABEL", L.name, ":"]
  | .Func L => ["FUNCTION", L.name, ":"]
  | .Assign l r => [operand_text l, ":=", operand_text r]
  | .Add t a b => [operand_text t, ":=", operand_text a, "+", operand_text b]
  | .Sub t a b => [operand_text t, ":=", operand_text a, "-", operand_text b]
  | .Mul t a b => [operand_text t, ":=", operand_text a, "*", operand_text b]
  | .Div t a b => [operand_text t, ":=", operand_text a, "/", operand_text b]
  | .Goto L => ["GOTO", L.name]
  | .Branch op a b L => ["IF", operand_text a, relop_text op, operand_text b, "GOTO", L.name]
  | .Return v => ["RETURN", operand_text v]
  | .Dec v n => ["DEC", operand_text v, toString n]
  | .Arg v => ["ARG", operand_text v]
  | .Call t L => [operand_text t, ":=", "CALL", L.name]
  | .Param v => ["PARAM", operand_text v]
  | .Read v => ["READ", operand_text v]
  | .Write v => ["WRITE", operand_text v]

/-- An instruction as the emitter builds it and the printer expects it: not
ignored, passing its operand-kind assertion, variables named `t<id>`, label
names identifiers. -/
def ircode.printable (c : ircode) : Prop :=
  c.ignore = false ∧ c.ins.WellKinded ∧ c.ins.named

/-- The sample result `ast_if` with its label objects at other addresses. -/
def ast_if_moved : ast :=
  { ast_if with codes := ast_if.codes.map (fun c => ⟨c.ins.erase_addr, c.ignore⟩) }

/-- The operands of an instruction. -/
def irins.operands : irins → List irop
  | .Label _ | .Func _ | .Goto _ => []
  | .Assign l r => [l, r]
  | .Add t a b | .Sub t a b | .Mul t a b | .Div t a b => [t, a, b]
  | .Branch _ a b _ => [a, b]
  | .Return v | .Arg v | .Param v | .Read v | .Write v | .Dec v _ | .Call v _ => [v]

/-- No operand of the instruction is a `Ref`. -/
def irins.NoRef (ins : irins) : Prop :=
  ∀ o ∈ ins.operands, ∀ v, o ≠ .Ref v

/-- A property of the lowering pass that can be checked primitive by primitive:
an invariant `I` of the state, a reflexive and transitive relation `R` between
the state before and after a run, and the variables `okV` whose `isref` flag a
run may assign.  Fresh variables are `okV`, and emitting an instruction that has
no `Ref` operand is allowed. -/
structure Logic where
  I : Emitter → Prop
  R : Emitter → Emitter → Prop
  okV : irvar → Prop
  refl : ∀ s, R s s
  trans : ∀ s1 s2 s3, R s1 s2 → R s2 s3 → R s1 s3
  alloc_var : ∀ s v s', I s → new_var s = .ok (v, s') → I s' ∧ R s s' ∧ okV v
  alloc_label : ∀ s l s', I s → new_label s = .ok (l, s') → I s' ∧ R s s'
  alloc_named : ∀ name s l s', I s → new_named_label name s = .ok (l, s') → I s' ∧ R s s'
  flag : ∀ s v b, I s → okV v →
    I { s with isref := Function.update s.isref v.id b } ∧
    R s { s with isref := Function.update s.isref v.id b }
  record : ∀ s (sym : symbol) p, I s →
    I { s with sym_ir := Function.update s.sym_ir sym.addr (some p) } ∧
    R s { s with sym_ir := Function.update s.sym_ir sym.addr (some p) }
  push : ∀ s ins, I s → ins.NoRef → I (s.emit ins) ∧ R s (s.emit ins)

/-- A run of `x` from a state that satisfies the invariant, under the
assumption `pre` on the values computed so far, re-establishes the invariant,
relates the two states by `R` and returns a value that satisfies `Q`. -/
def Sat {α : Type} (L : Logic) (pre : Prop) (x : IRM α) (Q : α → Prop) : Prop :=
  ∀ s a s', x s = .ok (a, s') → L.I s → pre → L.I s' ∧ L.R s s' ∧ Q a

/-- The variable that an instruction assigns, if any. -/
def irins.dest : irins → Option irvar
  | .Assign (.Var v) _ | .Add (.Var v) _ _ | .Sub (.Var v) _ _ | .Mul (.Var v) _ _
  | .Div (.Var v) _ _ | .Call (.Var v) _ | .Read (.Var v) => some v
  | _ => none

/-- Whether `v` is the destination of an instruction emitted so far. -/
def emitted_dest (v : irvar) : IRM Bool :=
  fun s => .ok (s.irs.any (fun c => decide (c.ins.dest = some v)), s)

/-- The array `b` of `int b[2]`. -/
def sym_b : symbol := { addr := 6, name := "b", tp := .ARRAY .META [2] }

/-- The lowering of `int main() { int b[2]; int a; a = 1; b[0]; return 0; }`
up to and including `b[0];`, step by step as `translate_ExtDef`,
`translate_CompSt` and `translate_StmtList` perform it, observing `ignore_var`
(`t1`): whether it is a destination after `a = 1;`, and its `isref` flag before
and after the statement `b[0];`. -/
def isref_history : IRM (Bool × Bool × Bool) := do
  ir_prepare
  translate_FunDec { sym := some sym_main, subev := fun _ => none }
  translate_DefList (.cons ⟨.one (.VarDec ⟨sym_b⟩)⟩ (.cons ⟨.one (.VarDec ⟨sym_a⟩)⟩ .nil))
  translate_Stmt (.Exp (.ASSIGNOP .META (.ID .META (some sym_a)) (.INT .META 1)))
  let dest ← emitted_dest ⟨1, "t1"⟩
  let before ← get_isref ⟨1, "t1"⟩
  translate_Stmt (.Exp (.INDEX .META (.ID (.ARRAY .META [2]) (some sym_b)) (.INT .META 0)))
  let after ← get_isref ⟨1, "t1"⟩
  pure (dest, before, after)

/-- An instruction sequence, in emission order, in which every `Ref` operand is
the right operand of an `Assign` that immediately follows the `Dec` of the same
variable. -/
inductive RefOK : List ircode → Prop
  | nil : RefOK []
  | plain (c : ircode) (rest : List ircode) : c.ins.NoRef → RefOK rest → RefOK (c :: rest)
  | dec (v : irvar) (sz : Int) (x : irop) (rest : List ircode) : (∀ w, x ≠ .Ref w) →
      RefOK rest → RefOK (⟨.Dec (.Var v) sz, false⟩ :: ⟨.Assign x (.Ref v), false⟩ :: rest)

/-- An instruction sequence that is empty or starts with a `Func` instruction. -/
def HeadFunc (code : List ircode) : Prop :=
  code = [] ∨ ∃ l rest, code = ⟨.Func l, false⟩ :: rest

/-- The decorated tree of `int main() { int b[2]; return 0; }`. -/
def prog_arr : Program :=
  { defs := .cons (.FunDef { sym := some sym_main, subev := fun _ => none }
      (.mk (.cons ⟨.one (.VarDec ⟨sym_b⟩)⟩ .nil) (.cons (.RETURN (.INT .META 0)) .nil))) .nil }

/-- The `ast` that the first translation of `int main() { int b[2]; return 0; }`
returns. -/
def ast_arr : ast :=
  { len := 6, var_count := 5,
    codes := [
      ⟨.Func ⟨0, "main"⟩, false⟩,
      ⟨.Dec (.Var ⟨3, "t3"⟩) 8, false⟩,
      ⟨.Assign (.Var ⟨2, "t2"⟩) (.Ref ⟨3, "t3"⟩), false⟩,
      ⟨.Assign (.Var ⟨4, "t4"⟩) (.Const 0), false⟩,
      ⟨.Assign (.Var ⟨5, "t5"⟩) (.Var ⟨4, "t4"⟩), false⟩,
      ⟨.Return (.Var ⟨5, "t5"⟩), false⟩],
    vars := [⟨5, "t5"⟩, ⟨4, "t4"⟩, ⟨3, "t3"⟩, ⟨2, "t2"⟩, ⟨1, "t1"⟩] }

/-- The lowering of a local variable of `ARRAY` or `STRUCT` type: the reference
variable `v` is allocated, then the storage variable `t`; `Dec (Var t, sizeof tp)`
and `Assign (Var v, Ref t)` are the two instructions emitted, `v.isref` is set
and `v` is recorded on the symbol. -/
def emits_aggregate_dec (sym : symbol) (s s' : Emitter) : Prop :=
  ∃ v s1 t s2, new_var s = .ok (v, s1) ∧ new_var s1 = .ok (t, s2) ∧
    s' = { s2 with
      irs := ⟨.Assign (.Var v) (.Ref t), false⟩ ::
        ⟨.Dec (.Var t) (type_sizeof sym.tp), false⟩ :: s2.irs,
      isref := Function.update s2.isref v.id true,
      sym_ir := Function.update s2.sym_ir sym.addr (some (.var v)) } ∧
    s'.codes = s.codes ++
      [⟨.Dec (.Var t) (type_sizeof sym.tp), false⟩, ⟨.Assign (.Var v) (.Ref t), false⟩] ∧
    s'.vars = t :: v :: s.vars ∧ s'.isref v.id = true ∧ s'.isref t.id = false ∧
    s'.sym_ir sym.addr = some (.var v)

/-- The lowering of a local variable of `META` type: one variable `v` is
allocated, with `isref` clear, and recorded on the symbol; no instruction is
emitted. -/
def emits_scalar_dec (sym : symbol) (s s' : Emitter) : Prop :=
  ∃ v s1, new_var s = .ok (v, s1) ∧
    s' = { s1 with sym_ir := Function.update s1.sym_ir sym.addr (some (.var v)) } ∧
    s'.codes = s.codes ∧ s'.vars = v :: s.vars ∧ s'.isref v.id = false ∧
    s'.sym_ir sym.addr = some (.var v)
/-- The lowering of a member access `E.m` at byte offset `sz`: a fresh `offset`,
`E` lowered into it leaving `offset.isref` set, a fresh `t1`, and last the two
instructions `Add (Var t1, Var offset, Const sz)`, `Assign (Var target, Var t1)`;
`target.isref` is set. -/
def emits_member (e : Exp) (sz : Int) (target : irvar) (s s' : Emitter) : Prop :=
  ∃ offset s1 s2 t1 s3, new_var s = .ok (offset, s1) ∧
    translate_Exp e offset s1 = .ok ((), s2) ∧ s2.isref offset.id = true ∧
    new_var s2 = .ok (t1, s3) ∧
    s' = { s3 with
      irs := ⟨.Assign (.Var target) (.Var t1), false⟩ ::
        ⟨.Add (.Var t1) (.Var offset) (.Const sz), false⟩ :: s3.irs,
      isref := Function.update s3.isref target.id true } ∧
    s'.codes = s2.codes ++
      [⟨.Add (.Var t1) (.Var offset) (.Const sz), false⟩,
       ⟨.Assign (.Var target) (.Var t1), false⟩] ∧
    s'.isref target.id = true

/-- The lowering of an index expression `E[i]` whose static type is `tp`: a
fresh `offset`, `E` lowered into it leaving `offset.isref` set, a fresh `index`,
`i` lowered into it, fresh `t1` then `t2`, and last the three instructions
`Mul (Var t1, Rval index, Const (sizeof tp))`, `Add (Var t2, Var offset, Var t1)`,
`Assign (Var target, Var t2)`; `target.isref` is set, so `Rval (target)` is
`Deref (target)` afterwards. -/
def emits_index (tp : type) (e i : Exp) (target : irvar) (s s' : Emitter) : Prop :=
  ∃ offset s1 s2 index s3 s4 t1 s5 t2 s6, new_var s = .ok (offset, s1) ∧
    translate_Exp e offset s1 = .ok ((), s2) ∧ s2.isref offset.id = true ∧
    new_var s2 = .ok (index, s3) ∧ translate_Exp i index s3 = .ok ((), s4) ∧
    new_var s4 = .ok (t1, s5) ∧ new_var s5 = .ok (t2, s6) ∧
    s' = { s6 with
      irs := ⟨.Assign (.Var target) (.Var t2), false⟩ ::
        ⟨.Add (.Var t2) (.Var offset) (.Var t1), false⟩ ::
        ⟨.Mul (.Var t1) (rval s4 index) (.Const (type_sizeof tp)), false⟩ :: s6.irs,
      isref := Function.update s6.isref target.id true } ∧
    s'.codes = s4.codes ++
      [⟨.Mul (.Var t1) (rval s4 index) (.Const (type_sizeof tp)), false⟩,
       ⟨.Add (.Var t2) (.Var offset) (.Var t1), false⟩,
       ⟨.Assign (.Var target) (.Var t2), false⟩] ∧
    s'.isref target.id = true ∧ op_rval target s' = .ok (.Deref target, s')

/-- The lowering of `write (E)`: a fresh `v`, `E` lowered into it, then exactly
`Write (Rval v)` and `Assign (Var target, Const 0)`. -/
def emits_write (E : Exp) (target : irvar) (s s' : Emitter) : Prop :=
  ∃ v s1 s2, new_var s = .ok (v, s1) ∧ translate_Exp E v s1 = .ok ((), s2) ∧
    s' = (s2.emit (.Write (rval s2 v))).emit (.Assign (.Var target) (.Const 0)) ∧
    s'.codes = s2.codes ++
      [⟨.Write (rval s2 v), false⟩, ⟨.Assign (.Var target) (.Const 0), false⟩]

/-- The function symbol of the intrinsic `read`. -/
def sym_read : symbol := { addr := 7, name := "read", tp := .FUNC .nil .META }

/-- A variable `p` of type `struct { int x; int y; }`. -/
def sym_p : symbol :=
  { addr := 8, name := "p", tp := .STRUCT (.cons "x" .META (.cons "y" .META .nil)) }
/-- The number of words that `n` bytes take: `ceil (n / 4)` when `n > 0`, and
`0` otherwise. -/
def copy_words (n : Int) : Nat := ((n + 3) / 4).toNat

/-- The three instructions that copy the word at byte offset `off`. -/
def copy_triple (lt rt dst src : irvar) (off : Int) : List ircode :=
  [⟨.Add (.Var lt) (.Var dst) (.Const off), false⟩,
   ⟨.Add (.Var rt) (.Var src) (.Const off), false⟩,
   ⟨.Assign (.Deref lt) (.Deref rt), false⟩]

/-- The instructions of an aggregate copy of `m` words: the triples for the
offsets `4 * k`, for `k = 0, 1, ..., m - 1` in increasing order. -/
def copy_code (lt rt dst src : irvar) (m : Nat) : List ircode :=
  (List.range m).flatMap (fun k => copy_triple lt rt dst src (4 * (k : Int)))

/-- The triples of `m` consecutive words starting at byte offset `off`. -/
def copy_from (lt rt dst src : irvar) (off : Int) : Nat → List ircode
  | 0 => []
  | m + 1 => copy_triple lt rt dst src off ++ copy_from lt rt dst src (off + 4) m

/-- The aggregate copy of `n` bytes from `src` to `dst`: two fresh variables
`lt` then `rt`, and exactly the triples of `ceil (n / 4)` words. -/
def emits_arr_copy (dst src : irvar) (n : Int) (s s' : Emitter) : Prop :=
  ∃ lt s1 rt s2, new_var s = .ok (lt, s1) ∧ new_var s1 = .ok (rt, s2) ∧
    s' = { s2 with irs := (copy_code lt rt dst src (copy_words n)).reverse ++ s2.irs } ∧
    s'.codes = s.codes ++ copy_code lt rt dst src (copy_words n) ∧
    s'.vars = rt :: lt :: s.vars
/-- The variable `v` that `cast (irvar, sym->ir)` gives in state `s`: the
variable that the slot of the symbol holds, or, for a slot that holds a label,
what the label shows when it is read as a variable. -/
def slot_var (s : Emitter) (sym : symbol) (v : irvar) : Prop :=
  s.sym_ir sym.addr = some (.var v) ∨
    ∃ l, s.sym_ir sym.addr = some (.label l) ∧ v = s.label_as_var l

/-- The lowering of `ID = E` for an `ID` of `ARRAY` type `ltp` whose symbol gives
the variable `v`: a fresh `temp`, `E` lowered into it, `v.isref` and
`temp.isref` both set, the aggregate copy from `temp` to `v` of
`min (sizeof ltp, sizeof (type of E))` bytes, and last
`Assign (Var target, Var temp)`; `target.isref` is set. -/
def emits_array_assign (val : symbol) (ltp : type) (r : Exp) (target : irvar)
    (s s' : Emitter) : Prop :=
  ∃ v temp s1 s2 s3, slot_var s val v ∧ new_var s = .ok (temp, s1) ∧
    translate_Exp r temp s1 = .ok ((), s2) ∧ s2.isref v.id = true ∧
    s2.isref temp.id = true ∧
    emits_arr_copy v temp (min (type_sizeof ltp) (type_sizeof r.tp)) s2 s3 ∧
    s' = { s3 with irs := ⟨.Assign (.Var target) (.Var temp), false⟩ :: s3.irs,
                   isref := Function.update s3.isref target.id true } ∧
    s'.codes = s3.codes ++ [⟨.Assign (.Var target) (.Var temp), false⟩] ∧
    s'.isref target.id = true
/-- The lines that are printed for an instruction array: the text of each
instruction whose `ignore` flag is clear, in array order. -/
def printed_lines (codes : List ircode) : List String :=
  (codes.filter (fun c => !c.ignore)).map print_ircode

/-- The function symbol `h` of `int h()`. -/
def sym_h : symbol := { addr := 9, name := "h", tp := .FUNC .nil .META }

/-- The decorated tree of `int main() { return h(); } int h() { return 0; }`:
`main` calls a function whose definition appears later. -/
def prog_call_later : Program :=
  { defs := (.cons (.FunDef { sym := some sym_main, subev := fun _ => none }
      (.mk .nil (.cons (.RETURN (.CALL0 .META (some sym_h))) .nil)))
    (.cons (.FunDef { sym := some sym_h, subev := fun _ => none }
      (.mk .nil (.cons (.RETURN (.INT .META 0)) .nil))) .nil)) }

/-- The decorated tree of `int main() { return !h(); } int h() { return 0; }`:
the call of the later function is the operand of a `NOT`. -/
def prog_not_call_later : Program :=
  { defs := (.cons (.FunDef { sym := some sym_main, subev := fun _ => none }
      (.mk .nil (.cons (.RETURN (.NOT .META (.CALL0 .META (some sym_h)))) .nil)))
    (.cons (.FunDef { sym := some sym_h, subev := fun _ => none }
      (.mk .nil (.cons (.RETURN (.INT .META 0)) .nil))) .nil)) }

/-- The decorated tree of `int h() { return h(); } int main() { return h(); }`:
a recursive call and a call of a function defined earlier. -/
def prog_call_earlier : Program :=
  { defs := (.cons (.FunDef { sym := some sym_h, subev := fun _ => none }
      (.mk .nil (.cons (.RETURN (.CALL0 .META (some sym_h))) .nil)))
    (.cons (.FunDef { sym := some sym_main, subev := fun _ => none }
      (.mk .nil (.cons (.RETURN (.CALL0 .META (some sym_h))) .nil))) .nil)) }

/-- The function symbol `l1` of `int l1()`. -/
def sym_l1 : symbol := { addr := 10, name := "l1", tp := .FUNC .nil .META }

/-- The decorated tree of
`int l1() { return 0; } int main() { if (l1() > 0) return 1; return 0; }`. -/
def prog_l1 : Program :=
  { defs := (.cons (.FunDef { sym := some sym_l1, subev := fun _ => none }
      (.mk .nil (.cons (.RETURN (.INT .META 0)) .nil)))
    (.cons (.FunDef { sym := some sym_main, subev := fun _ => none }
      (.mk .nil
        (.cons (.IF (.RELOP .META (.CALL0 .META (some sym_l1)) .RT_L (.INT .META 0))
              (.RETURN (.INT .META 1)))
        (.cons (.RETURN (.INT .META 0)) .nil)))) .nil)) }

/-- The `ast` that the first translation of
`int main() { return !h(); } int h() { return 0; }` returns. -/
def ast_not_call_later : ast :=
  { len := 7, var_count := 5,
    codes := [
      ⟨.Func ⟨0, "main"⟩, false⟩,
      ⟨.Assign (.Var ⟨3, "t3"⟩) (.Var ⟨2, "t2"⟩), false⟩,
      ⟨.Return (.Var ⟨3, "t3"⟩), false⟩,
      ⟨.Func ⟨1, "h"⟩, false⟩,
      ⟨.Assign (.Var ⟨4, "t4"⟩) (.Const 0), false⟩,
      ⟨.Assign (.Var ⟨5, "t5"⟩) (.Var ⟨4, "t4"⟩), false⟩,
      ⟨.Return (.Var ⟨5, "t5"⟩), false⟩],
    vars := [⟨5, "t5"⟩, ⟨4, "t4"⟩, ⟨3, "t3"⟩, ⟨2, "t2"⟩, ⟨1, "t1"⟩] }

/-- The `ast` that the first translation of
`int h() { return h(); } int main() { return h(); }` returns. -/
def ast_call_earlier : ast :=
  { len := 8, var_count := 5,
    codes := [
      ⟨.Func ⟨0, "h"⟩, false⟩,
      ⟨.Call (.Var ⟨2, "t2"⟩) ⟨0, "h"⟩, false⟩,
      ⟨.Assign (.Var ⟨3, "t3"⟩) (.Var ⟨2, "t2"⟩), false⟩,
      ⟨.Return (.Var ⟨3, "t3"⟩), false⟩,
      ⟨.Func ⟨1, "main"⟩, false⟩,
      ⟨.Call (.Var ⟨4, "t4"⟩) ⟨0, "h"⟩, false⟩,
      ⟨.Assign (.Var ⟨5, "t5"⟩) (.Var ⟨4, "t4"⟩), false⟩,
      ⟨.Return (.Var ⟨5, "t5"⟩), false⟩],
    vars := [⟨5, "t5"⟩, ⟨4, "t4"⟩, ⟨3, "t3"⟩, ⟨2, "t2"⟩, ⟨1, "t1"⟩] }

/-- The `ast` that the first translation of
`int l1() { return 0; } int main() { if (l1() > 0) return 1; return 0; }`
returns. -/
def ast_l1 : ast :=
  { len := 17, var_count := 9,
    codes := [
      ⟨.Func ⟨0, "l1"⟩, false⟩,
      ⟨.Assign (.Var ⟨2, "t2"⟩) (.Const 0), false⟩,
      ⟨.Assign (.Var ⟨3, "t3"⟩) (.Var ⟨2, "t2"⟩), false⟩,
      ⟨.Return (.Var ⟨3, "t3"⟩), false⟩,
      ⟨.Func ⟨1, "main"⟩, false⟩,
      ⟨.Call (.Var ⟨4, "t4"⟩) ⟨0, "l1"⟩, false⟩,
      ⟨.Assign (.Var ⟨5, "t5"⟩) (.Const 0), false⟩,
      ⟨.Branch .RT_L (.Var ⟨4, "t4"⟩) (.Var ⟨5, "t5"⟩) ⟨2, "l1"⟩, false⟩,
      ⟨.Goto ⟨3, "l2"⟩, false⟩,
      ⟨.Label ⟨2, "l1"⟩, false⟩,
      ⟨.Assign (.Var ⟨6, "t6"⟩) (.Const 1), false⟩,
      ⟨.Assign (.Var ⟨7, "t7"⟩) (.Var ⟨6, "t6"⟩), false⟩,
      ⟨.Return (.Var ⟨7, "t7"⟩), false⟩,
      ⟨.Label ⟨3, "l2"⟩, false⟩,
      ⟨.Assign (.Var ⟨8, "t8"⟩) (.Const 0), false⟩,
      ⟨.Assign (.Var ⟨9, "t9"⟩) (.Var ⟨8, "t8"⟩), false⟩,
      ⟨.Return (.Var ⟨9, "t9"⟩), false⟩],
    vars := [⟨9, "t9"⟩, ⟨8, "t8"⟩, ⟨7, "t7"⟩, ⟨6, "t6"⟩, ⟨5, "t5"⟩, ⟨4, "t4"⟩, ⟨3, "t3"⟩,
      ⟨2, "t2"⟩, ⟨1, "t1"⟩] }
/-- The name of the `LABEL` line of an instruction, if it prints one. -/
def ircode.label_name (c : ircode) : List String :=
  match c.ins with
  | .Label l => [l.name]
  | _ => []

/-- The name of the `FUNCTION` line of an instruction, if it prints one. -/
def ircode.func_name (c : ircode) : List String :=
  match c.ins with
  | .Func l => [l.name]
  | _ => []

/-- The names of the `LABEL` lines of a list of instructions, in order. -/
def label_names : List ircode → List String
  | [] => []
  | c :: rest => c.label_name ++ label_names rest

/-- The names of the `FUNCTION` lines of a list of instructions, in order. -/
def func_names : List ircode → List String
  | [] => []
  | c :: rest => c.func_name ++ func_names rest

/-- The names of the `LABEL` and `FUNCTION` lines of a list of instructions, in
order. -/
def def_names (code : List ircode) : List String :=
  (label_defs code).map irlabel.name

/-- The names that `n` calls of `new_label` mint when the counter stands at
`lo`: `l<lo+1>`, ..., `l<lo+n>`. -/
def minted_names (lo : Int) : Nat → List String
  | 0 => []
  | n + 1 => ("l" ++ toString (lo + 1)) :: minted_names (lo + 1) n

/-- Every successful run of `x` appends instructions whose `LABEL` lines carry
the names of the labels `pending` that were handed to it and the names that
`new_label` minted during the run, each once, and whose `FUNCTION` lines carry
the names `fns`, most recent first. -/
def Named {α : Type} (pending : List irlabel) (fns : List String) (x : IRM α) : Prop :=
  ∀ s a s', x s = .ok (a, s') → ∃ new, s'.irs = new ++ s.irs ∧ s.count ≤ s'.count ∧
    (label_names new).Perm
      (pending.map irlabel.name ++ minted_names s.count (s'.count - s.count).toNat) ∧
    func_names new = fns

/-- The name that `translate_FunDec` gives to the function of an external
definition. -/
def ExtDef.function_name : ExtDef → List String
  | .FunDef f _ => (f.sym.map symbol.name).toList
  | _ => []

/-- The names of the functions that a program defines, in source order. -/
def ExtDefList.function_names : ExtDefList → List String
  | .nil => []
  | .cons d rest => d.function_name ++ rest.function_names

/-- The decorated tree of `int f(int x) { return 0; } int main() { f; return 0; }`:
the expression statement `f;` is an `ID` that is resolved to the symbol of the
function `f`. -/
def prog_label_read : Program :=
  { defs := (.cons (.FunDef { sym := some sym_f,
                              subev := fun n => if n = "x" then some sym_x else none }
      (.mk .nil (.cons (.RETURN (.INT .META 0)) .nil)))
    (.cons (.FunDef { sym := some sym_main, subev := fun _ => none }
      (.mk .nil
        (.cons (.Exp (.ID sym_f.tp (some sym_f)))
        (.cons (.RETURN (.INT .META 0)) .nil)))) .nil)) }

/-- The `ast` that the first translation of
`int f(int x) { return 0; } int main() { f; return 0; }` returns when the label
of `f`, read as a variable, shows `g`. -/
def ast_label_read (g : irvar) : ast :=
  { len := 10, var_count := 6,
    codes := [
      ⟨.Func ⟨0, "f"⟩, false⟩,
      ⟨.Param (.Var ⟨2, "t2"⟩), false⟩,
      ⟨.Assign (.Var ⟨3, "t3"⟩) (.Const 0), false⟩,
      ⟨.Assign (.Var ⟨4, "t4"⟩) (.Var ⟨3, "t3"⟩), false⟩,
      ⟨.Return (.Var ⟨4, "t4"⟩), false⟩,
      ⟨.Func ⟨1, "main"⟩, false⟩,
      ⟨.Assign (.Var ⟨1, "t1"⟩) (.Var g), false⟩,
      ⟨.Assign (.Var ⟨5, "t5"⟩) (.Const 0), false⟩,
      ⟨.Assign (.Var ⟨6, "t6"⟩) (.Var ⟨5, "t5"⟩), false⟩,
      ⟨.Return (.Var ⟨6, "t6"⟩), false⟩],
    vars := [⟨6, "t6"⟩, ⟨5, "t5"⟩, ⟨4, "t4"⟩, ⟨3, "t3"⟩, ⟨2, "t2"⟩, ⟨1, "t1"⟩] }

/-- The state that the lowering of the condition `1 && 0` with the labels
`(l1, l2)` reaches from `state_two_labels`: the label `l3`, the variables `t1`,
`t2` and seven instructions. -/
def state_and_lowered : Emitter :=
  { state_two_labels with
    irs := [⟨.Goto ⟨1, "l2"⟩, false⟩,
      ⟨.Branch .RT_NE (.Var ⟨2, "t2"⟩) (.Const 0) ⟨0, "l1"⟩, false⟩,
      ⟨.Assign (.Var ⟨2, "t2"⟩) (.Const 0), false⟩,
      ⟨.Label ⟨2, "l3"⟩, false⟩,
      ⟨.Goto ⟨1, "l2"⟩, false⟩,
      ⟨.Branch .RT_NE (.Var ⟨1, "t1"⟩) (.Const 0) ⟨2, "l3"⟩, false⟩,
      ⟨.Assign (.Var ⟨1, "t1"⟩) (.Const 1), false⟩],
    vars := [⟨2, "t2"⟩, ⟨1, "t1"⟩], var_count := 2, count := 3, label_alloc := 3 }

/-- The state that the lowering of the condition `1 || 0` with the labels
`(l1, l2)` reaches from `state_two_labels`. -/
def state_or_lowered : Emitter :=
  { state_two_labels with
    irs := [⟨.Goto ⟨1, "l2"⟩, false⟩,
      ⟨.Branch .RT_NE (.Var ⟨2, "t2"⟩) (.Const 0) ⟨0, "l1"⟩, false⟩,
      ⟨.Assign (.Var ⟨2, "t2"⟩) (.Const 0), false⟩,
      ⟨.Label ⟨2, "l3"⟩, false⟩,
      ⟨.Goto ⟨2, "l3"⟩, false⟩,
      ⟨.Branch .RT_NE (.Var ⟨1, "t1"⟩) (.Const 0) ⟨0, "l1"⟩, false⟩,
      ⟨.Assign (.Var ⟨1, "t1"⟩) (.Const 1), false⟩],
    vars := [⟨2, "t2"⟩, ⟨1, "t1"⟩], var_count := 2, count := 3, label_alloc := 3 }

/-- The state that the lowering of the condition `1 > 0` with the labels
`(l1, l2)` reaches from `state_two_labels`. -/
def state_relop_lowered : Emitter :=
  { state_two_labels with
    irs := [⟨.Goto ⟨1, "l2"⟩, false⟩,
      ⟨.Branch .RT_L (.Var ⟨1, "t1"⟩) (.Var ⟨2, "t2"⟩) ⟨0, "l1"⟩, false⟩,
      ⟨.Assign (.Var ⟨2, "t2"⟩) (.Const 0), false⟩,
      ⟨.Assign (.Var ⟨1, "t1"⟩) (.Const 1), false⟩],
    vars := [⟨2, "t2"⟩, ⟨1, "t1"⟩], var_count := 2 }

/-- The state that the lowering of the condition `1` with the labels `(l1, l2)`
reaches from `state_two_labels`. -/
def state_default_lowered : Emitter :=
  { state_two_labels with
    irs := [⟨.Goto ⟨1, "l2"⟩, false⟩,
      ⟨.Branch .RT_NE (.Var ⟨1, "t1"⟩) (.Const 0) ⟨0, "l1"⟩, false⟩,
      ⟨.Assign (.Var ⟨1, "t1"⟩) (.Const 1), false⟩],
    vars := [⟨1, "t1"⟩], var_count := 1 }

/-- A state inside `main` after `int b[2]; struct { int x; int y; } p;`, in a
program that has defined `int g(int a[10])` before: `b` has the storage `t2` and
the reference variable `t3`, `p` has `t4` and `t5`, `isref` is set for `t3` and
`t5`, the symbol of `g` holds its label, and `ignore_var` is `t1`. -/
def state_aggregates : Emitter :=
  { Emitter.init with
    irs := [⟨.Assign (.Var ⟨5, "t5"⟩) (.Ref ⟨4, "t4"⟩), false⟩,
      ⟨.Dec (.Var ⟨4, "t4"⟩) 8, false⟩,
      ⟨.Assign (.Var ⟨3, "t3"⟩) (.Ref ⟨2, "t2"⟩), false⟩,
      ⟨.Dec (.Var ⟨2, "t2"⟩) 8, false⟩],
    ignore_var := some ⟨1, "t1"⟩,
    vars := [⟨5, "t5"⟩, ⟨4, "t4"⟩, ⟨3, "t3"⟩, ⟨2, "t2"⟩, ⟨1, "t1"⟩],
    var_count := 5, label_alloc := 1,
    isref := fun id => decide (id = 3) || decide (id = 5),
    sym_ir := fun a =>
      if a = 5 then some (.label ⟨0, "g"⟩)
      else if a = 6 then some (.var ⟨3, "t3"⟩)
      else if a = 8 then some (.var ⟨5, "t5"⟩) else none }

/-- The state that the lowering of the call `g (b)` into `t1` reaches from
`state_aggregates`: the argument variable `t6`, with `isref` set, and the three
instructions `t6 := t3`, `ARG t6`, `t1 := CALL g`. -/
def state_call_lowered : Emitter :=
  { state_aggregates with
    irs := [⟨.Call (.Var ⟨1, "t1"⟩) ⟨0, "g"⟩, false⟩,
      ⟨.Arg (.Var ⟨6, "t6"⟩), false⟩,
      ⟨.Assign (.Var ⟨6, "t6"⟩) (.Var ⟨3, "t3"⟩), false⟩] ++ state_aggregates.irs,
    vars := ⟨6, "t6"⟩ :: state_aggregates.vars, var_count := 6,
    isref := fun id => decide (id = 3) || decide (id = 5) || decide (id = 6) }

/-- The state that the lowering of the member access `p.y` into `t1` reaches
from `state_aggregates`: the variables `t6` (the address of `p`) and `t7`, the
three instructions `t6 := t5`, `t7 := t6 + #4`, `t1 := t7`, and `isref` set for
`t6` and for the target `t1`. -/
def state_member_lowered : Emitter :=
  { state_aggregates with
    irs := [⟨.Assign (.Var ⟨1, "t1"⟩) (.Var ⟨7, "t7"⟩), false⟩,
      ⟨.Add (.Var ⟨7, "t7"⟩) (.Var ⟨6, "t6"⟩) (.Const 4), false⟩,
      ⟨.Assign (.Var ⟨6, "t6"⟩) (.Var ⟨5, "t5"⟩), false⟩] ++ state_aggregates.irs,
    vars := ⟨7, "t7"⟩ :: ⟨6, "t6"⟩ :: state_aggregates.vars, var_count := 7,
    isref := fun id =>
      decide (id = 1) || decide (id = 3) || decide (id = 5) || decide (id = 6) }

/-- A call of one of the translators of `ir.c`, with its arguments. -/
inductive Call where
  | program (tree : Program)
  | extdeflist (tree : ExtDefList)
  | extdef (tree : ExtDef)
  | compst (tree : CompSt)
  | deflist (tree : DefList)
  | declist (tree : DecList)
  | dec (tree : Dec)
  | stmtlist (tree : StmtList)
  | stmt (tree : Stmt)
  | exp (tree : Exp) (target : irvar)
  | cond (tree : Exp) (true_label false_label : irlabel)
  | args (tree : Args)

/-- The operands of `Exp PLUS Exp`, `Exp MINUS Exp`, `Exp STAR Exp` and
`Exp DIV Exp`, which `translate_Exp` lowers in one place. -/
def Exp.arith : Exp → Option (Exp × Exp)
  | .PLUS _ l r | .MINUS _ l r | .STAR _ l r | .DIV _ l r => some (l, r)
  | _ => none

/-- The calls that a translation performs: `Calls c0 s0 c s` says that the run
of the call `c0` entered in state `s0` enters the call `c` in state `s`.  There
is one rule for each place of `ir.c` where a translator calls a translator that
can reach `translate_Exp`; the state of the inner call is the state that the
statements before it leave (`translate_Def` only forwards to
`translate_DecList`). -/
inductive Calls (c0 : Call) (s0 : Emitter) : Call → Emitter → Prop
  | root : Calls c0 s0 c0 s0
  -- translate_Program, translate_ExtDefList, translate_ExtDef
  | program {tree : Program} {s : Emitter} :
    Calls c0 s0 (.program tree) s → Calls c0 s0 (.extdeflist tree.defs) s
  | extdeflist_head {d : ExtDef} {rest : ExtDefList} {s : Emitter} :
    Calls c0 s0 (.extdeflist (.cons d rest)) s → Calls c0 s0 (.extdef d) s
  | extdeflist_tail {d : ExtDef} {rest : ExtDefList} {s s1 : Emitter} :
    Calls c0 s0 (.extdeflist (.cons d rest)) s → translate_ExtDef d s = .ok ((), s1) →
    Calls c0 s0 (.extdeflist rest) s1
  | extdef_body {f : FunDec} {body : CompSt} {s s1 : Emitter} :
    Calls c0 s0 (.extdef (.FunDef f body)) s → translate_FunDec f s = .ok ((), s1) →
    Calls c0 s0 (.compst body) s1
  -- translate_CompSt, translate_DefList, translate_DecList, translate_Dec
  | compst_defs {defs : DefList} {stmts : StmtList} {s : Emitter} :
    Calls c0 s0 (.compst (.mk defs stmts)) s → Calls c0 s0 (.deflist defs) s
  | compst_stmts {defs : DefList} {stmts : StmtList} {s s1 : Emitter} :
    Calls c0 s0 (.compst (.mk defs stmts)) s → translate_DefList defs s = .ok ((), s1) →
    Calls c0 s0 (.stmtlist stmts) s1
  | deflist_head {d : Def} {rest : DefList} {s : Emitter} :
    Calls c0 s0 (.deflist (.cons d rest)) s → Calls c0 s0 (.declist d.decs) s
  | deflist_tail {d : Def} {rest : DefList} {s s1 : Emitter} :
    Calls c0 s0 (.deflist (.cons d rest)) s → translate_Def d s = .ok ((), s1) →
    Calls c0 s0 (.deflist rest) s1
  | declist_one {d : Dec} {s : Emitter} :
    Calls c0 s0 (.declist (.one d)) s → Calls c0 s0 (.dec d) s
  | declist_head {d : Dec} {rest : DecList} {s : Emitter} :
    Calls c0 s0 (.declist (.cons d rest)) s → Calls c0 s0 (.dec d) s
  | declist_tail {d : Dec} {rest : DecList} {s s1 : Emitter} :
    Calls c0 s0 (.declist (.cons d rest)) s → translate_Dec d s = .ok ((), s1) →
    Calls c0 s0 (.declist rest) s1
  | dec_init {v : VarDec} {e : Exp} {var temp : irvar} {s s1 s2 : Emitter} :
    Calls c0 s0 (.dec (.ASSIGNOP v e)) s → translate_VarDec v s = .ok ((), s1) →
    cast_irvar (s1.sym_ir v.sym.addr) s1 = .ok (var, s1) → new_var s1 = .ok (temp, s2) →
    Calls c0 s0 (.exp e temp) s2
  -- translate_StmtList, translate_Stmt
  | stmtlist_head {st : Stmt} {rest : StmtList} {s : Emitter} :
    Calls c0 s0 (.stmtlist (.cons st rest)) s → Calls c0 s0 (.stmt st) s
  | stmtlist_tail {st : Stmt} {rest : StmtList} {s s1 : Emitter} :
    Calls c0 s0 (.stmtlist (.cons st rest)) s → translate_Stmt st s = .ok ((), s1) →
    Calls c0 s0 (.stmtlist rest) s1
  | stmt_exp {e : Exp} {t : irvar} {s : Emitter} :
    Calls c0 s0 (.stmt (.Exp e)) s → s.ignore_var = some t → Calls c0 s0 (.exp e t) s
  | stmt_compst {c : CompSt} {s : Emitter} :
    Calls c0 s0 (.stmt (.CompSt c)) s → Calls c0 s0 (.compst c) s
  | stmt_return {e : Exp} {var : irvar} {s s1 : Emitter} :
    Calls c0 s0 (.stmt (.RETURN e)) s → new_var s = .ok (var, s1) →
    Calls c0 s0 (.exp e var) s1
  | if_cond {c : Exp} {st : Stmt} {lt lf : irlabel} {s s1 s2 : Emitter} :
    Calls c0 s0 (.stmt (.IF c st)) s → new_label s = .ok (lt, s1) →
    new_label s1 = .ok (lf, s2) → Calls c0 s0 (.cond c lt lf) s2
  | if_body {c : Exp} {st : Stmt} {lt lf : irlabel} {s s1 s2 s3 : Emitter} :
    Calls c0 s0 (.stmt (.IF c st)) s → new_label s = .ok (lt, s1) →
    new_label s1 = .ok (lf, s2) → translate_Cond c lt lf s2 = .ok ((), s3) →
    Calls c0 s0 (.stmt st) (s3.emit (.Label lt))
  | if_else_cond {c : Exp} {st1 st2 : Stmt} {lt lf le : irlabel} {s s1 s2 s3 : Emitter} :
    Calls c0 s0 (.stmt (.IF_ELSE c st1 st2)) s → new_label s = .ok (lt, s1) →
    new_label s1 = .ok (lf, s2) → new_label s2 = .ok (le, s3) →
    Calls c0 s0 (.cond c lt lf) s3
  | if_else_then {c : Exp} {st1 st2 : Stmt} {lt lf le : irlabel} {s s1 s2 s3 s4 : Emitter} :
    Calls c0 s0 (.stmt (.IF_ELSE c st1 st2)) s → new_label s = .ok (lt, s1) →
    new_label s1 = .ok (lf, s2) → new_label s2 = .ok (le, s3) →
    translate_Cond c lt lf s3 = .ok ((), s4) →
    Calls c0 s0 (.stmt st1) (s4.emit (.Label lt))
  | if_else_else {c : Exp} {st1 st2 : Stmt} {lt lf le : irlabel}
      {s s1 s2 s3 s4 s5 : Emitter} :
    Calls c0 s0 (.stmt (.IF_ELSE c st1 st2)) s → new_label s = .ok (lt, s1) →
    new_label s1 = .ok (lf, s2) → new_label s2 = .ok (le, s3) →
    translate_Cond c lt lf s3 = .ok ((), s4) →
    translate_Stmt st1 (s4.emit (.Label lt)) = .ok ((), s5) →
    Calls c0 s0 (.stmt st2) ((s5.emit (.Goto le)).emit (.Label lf))
  | while_cond {c : Exp} {st : Stmt} {lt lf ls : irlabel} {s s1 s2 s3 : Emitter} :
    Calls c0 s0 (.stmt (.WHILE c st)) s → new_label s = .ok (lt, s1) →
    new_label s1 = .ok (lf, s2) → new_label s2 = .ok (ls, s3) →
    Calls c0 s0 (.cond c lt lf) (s3.emit (.Label ls))
  | while_body {c : Exp} {st : Stmt} {lt lf ls : irlabel} {s s1 s2 s3 s4 : Emitter} :
    Calls c0 s0 (.stmt (.WHILE c st)) s → new_label s = .ok (lt, s1) →
    new_label s1 = .ok (lf, s2) → new_label s2 = .ok (ls, s3) →
    translate_Cond c lt lf (s3.emit (.Label ls)) = .ok ((), s4) →
    Calls c0 s0 (.stmt st) (s4.emit (.Label lt))
  -- translate_Exp
  | neg {tp : type} {e : Exp} {target var : irvar} {s s1 : Emitter} :
    Calls c0 s0 (.exp (.NEG tp e) target) s → new_var s = .ok (var, s1) →
    Calls c0 s0 (.exp e var) s1
  | lp {tp : type} {e : Exp} {target : irvar} {s : Emitter} :
    Calls c0 s0 (.exp (.LP tp e) target) s → Calls c0 s0 (.exp e target) s
  | dot {tp : type} {e : Exp} {name : String} {target offset : irvar} {s s1 : Emitter} :
    Calls c0 s0 (.exp (.DOT tp e name) target) s → new_var s = .ok (offset, s1) →
    Calls c0 s0 (.exp e offset) s1
  | assign_id {tp ltp : type} {val : symbol} {r : Exp} {target var temp : irvar}
      {s s1 : Emitter} :
    Calls c0 s0 (.exp (.ASSIGNOP tp (.ID ltp (some val)) r) target) s →
    cast_irvar (s.sym_ir val.addr) s = .ok (var, s) → new_var s = .ok (temp, s1) →
    Calls c0 s0 (.exp r temp) s1
  | assign_index_left {tp ltp : type} {le li r : Exp} {target offset value : irvar}
      {s s1 s2 : Emitter} :
    Calls c0 s0 (.exp (.ASSIGNOP tp (.INDEX ltp le li) r) target) s →
    new_var s = .ok (offset, s1) → new_var s1 = .ok (value, s2) →
    Calls c0 s0 (.exp (.INDEX ltp le li) offset) s2
  | assign_index_right {tp ltp : type} {le li r : Exp} {target offset value : irvar}
      {s s1 s2 s3 : Emitter} :
    Calls c0 s0 (.exp (.ASSIGNOP tp (.INDEX ltp le li) r) target) s →
    new_var s = .ok (offset, s1) → new_var s1 = .ok (value, s2) →
    translate_Exp (.INDEX ltp le li) offset s2 = .ok ((), s3) → s3.isref offset.id = true →
    Calls c0 s0 (.exp r value) s3
  | assign_dot_left {tp ltp : type} {le r : Exp} {lname : String}
      {target offset value : irvar} {s s1 s2 : Emitter} :
    Calls c0 s0 (.exp (.ASSIGNOP tp (.DOT ltp le lname) r) target) s →
    new_var s = .ok (offset, s1) → new_var s1 = .ok (value, s2) →
    Calls c0 s0 (.exp (.DOT ltp le lname) offset) s2
  | assign_dot_right {tp ltp : type} {le r : Exp} {lname : String}
      {target offset value : irvar} {s s1 s2 s3 : Emitter} :
    Calls c0 s0 (.exp (.ASSIGNOP tp (.DOT ltp le lname) r) target) s →
    new_var s = .ok (offset, s1) → new_var s1 = .ok (value, s2) →
    translate_Exp (.DOT ltp le lname) offset s2 = .ok ((), s3) → s3.isref offset.id = true →
    Calls c0 s0 (.exp r value) s3
  | arith_left {tree l r : Exp} {target t1 t2 : irvar} {s s1 s2 : Emitter} :
    Calls c0 s0 (.exp tree target) s → tree.arith = some (l, r) →
    new_var s = .ok (t1, s1) → new_var s1 = .ok (t2, s2) → Calls c0 s0 (.exp l t1) s2
  | arith_right {tree l r : Exp} {target t1 t2 : irvar} {s s1 s2 s3 : Emitter} :
    Calls c0 s0 (.exp tree target) s → tree.arith = some (l, r) →
    new_var s = .ok (t1, s1) → new_var s1 = .ok (t2, s2) →
    translate_Exp l t1 s2 = .ok ((), s3) → Calls c0 s0 (.exp r t2) s3
  | call_args {tp : type} {val : symbol} {args : Args} {target : irvar} {s : Emitter} :
    Calls c0 s0 (.exp (.CALL tp (some val) args) target) s → val.tp.cls = .TC_FUNC →
    Calls c0 s0 (.args args) s
  | index_base {tp : type} {e i : Exp} {target offset : irvar} {s s1 : Emitter} :
    Calls c0 s0 (.exp (.INDEX tp e i) target) s → new_var s = .ok (offset, s1) →
    Calls c0 s0 (.exp e offset) s1
  | index_index {tp : type} {e i : Exp} {target offset index : irvar}
      {s s1 s2 s3 : Emitter} :
    Calls c0 s0 (.exp (.INDEX tp e i) target) s → new_var s = .ok (offset, s1) →
    translate_Exp e offset s1 = .ok ((), s2) → s2.isref offset.id = true →
    new_var s2 = .ok (index, s3) → Calls c0 s0 (.exp i index) s3
  | value_and {tp : type} {l r : Exp} {target : irvar} {lt lf : irlabel}
      {s s1 s2 : Emitter} :
    Calls c0 s0 (.exp (.AND tp l r) target) s → new_label s = .ok (lt, s1) →
    new_label s1 = .ok (lf, s2) →
    Calls c0 s0 (.cond (.AND tp l r) lt lf) (s2.emit (.Assign (.Var target) (.Const 0)))
  | value_or {tp : type} {l r : Exp} {target : irvar} {lt lf : irlabel}
      {s s1 s2 : Emitter} :
    Calls c0 s0 (.exp (.OR tp l r) target) s → new_label s = .ok (lt, s1) →
    new_label s1 = .ok (lf, s2) →
    Calls c0 s0 (.cond (.OR tp l r) lt lf) (s2.emit (.Assign (.Var target) (.Const 0)))
  | value_relop {tp : type} {l r : Exp} {rt : relop_type} {target : irvar} {lt lf : irlabel}
      {s s1 s2 : Emitter} :
    Calls c0 s0 (.exp (.RELOP tp l rt r) target) s → new_label s = .ok (lt, s1) →
    new_label s1 = .ok (lf, s2) →
    Calls c0 s0 (.cond (.RELOP tp l rt r) lt lf) (s2.emit (.Assign (.Var target) (.Const 0)))
  -- translate_Cond
  | cond_not {tp : type} {e : Exp} {lt lf : irlabel} {s : Emitter} :
    Calls c0 s0 (.cond (.NOT tp e) lt lf) s → Calls c0 s0 (.cond e lf lt) s
  | cond_lp {tp : type} {e : Exp} {lt lf : irlabel} {s : Emitter} :
    Calls c0 s0 (.cond (.LP tp e) lt lf) s → Calls c0 s0 (.cond e lt lf) s
  | cond_and_left {tp : type} {l r : Exp} {lt lf sl : irlabel} {s s1 : Emitter} :
    Calls c0 s0 (.cond (.AND tp l r) lt lf) s → new_label s = .ok (sl, s1) →
    Calls c0 s0 (.cond l sl lf) s1
  | cond_and_right {tp : type} {l r : Exp} {lt lf sl : irlabel} {s s1 s2 : Emitter} :
    Calls c0 s0 (.cond (.AND tp l r) lt lf) s → new_label s = .ok (sl, s1) →
    translate_Cond l sl lf s1 = .ok ((), s2) →
    Calls c0 s0 (.cond r lt lf) (s2.emit (.Label sl))
  | cond_or_left {tp : type} {l r : Exp} {lt lf sl : irlabel} {s s1 : Emitter} :
    Calls c0 s0 (.cond (.OR tp l r) lt lf) s → new_label s = .ok (sl, s1) →
    Calls c0 s0 (.cond l lt sl) s1
  | cond_or_right {tp : type} {l r : Exp} {lt lf sl : irlabel} {s s1 s2 : Emitter} :
    Calls c0 s0 (.cond (.OR tp l r) lt lf) s → new_label s = .ok (sl, s1) →
    translate_Cond l lt sl s1 = .ok ((), s2) →
    Calls c0 s0 (.cond r lt lf) (s2.emit (.Label sl))
  | cond_relop_left {tp : type} {l r : Exp} {rt : relop_type} {lt lf : irlabel}
      {v1 v2 : irvar} {s s1 s2 : Emitter} :
    Calls c0 s0 (.cond (.RELOP tp l rt r) lt lf) s → new_var s = .ok (v1, s1) →
    new_var s1 = .ok (v2, s2) → Calls c0 s0 (.exp l v1) s2
  | cond_relop_right {tp : type} {l r : Exp} {rt : relop_type} {lt lf : irlabel}
      {v1 v2 : irvar} {s s1 s2 s3 : Emitter} :
    Calls c0 s0 (.cond (.RELOP tp l rt r) lt lf) s → new_var s = .ok (v1, s1) →
    new_var s1 = .ok (v2, s2) → translate_Exp l v1 s2 = .ok ((), s3) →
    Calls c0 s0 (.exp r v2) s3
  | cond_default {tree : Exp} {lt lf : irlabel} {v1 : irvar} {s s1 : Emitter} :
    Calls c0 s0 (.cond tree lt lf) s → tree.cond_default = true →
    new_var s = .ok (v1, s1) → Calls c0 s0 (.exp tree v1) s1
  -- translate_Args
  | args_one {e : Exp} {var : irvar} {s s1 : Emitter} :
    Calls c0 s0 (.args (.one e)) s → new_var s = .ok (var, s1) →
    Calls c0 s0 (.exp e var) s1
  | args_head {e : Exp} {rest : Args} {var : irvar} {s s1 : Emitter} :
    Calls c0 s0 (.args (.cons e rest)) s → new_var s = .ok (var, s1) →
    Calls c0 s0 (.exp e var) s1
  | args_tail {e : Exp} {rest : Args} {var : irvar} {s s1 s2 : Emitter} :
    Calls c0 s0 (.args (.cons e rest)) s → new_var s = .ok (var, s1) →
    translate_Exp e var s1 = .ok ((), s2) → Calls c0 s0 (.args rest) s2

/-- The variables that a state whose table is `vars` may refer to: the
variables of the table, and values that are none of the variables `t1`, `t2`,
... that `new_var` makes (a label read as a variable). -/
def known_vars (vars : List irvar) : Set irvar :=
  {v | v ∈ vars ∨ ∀ k : Nat, v ≠ nth_var (k + 1)}

/-- A state of a translation: the variable table is `t_n, ..., t_1`, the state
refers only to variables of the table and to labels read as variables, and
`ignore_var` is in the table. -/
structure Emitter.Sound (s : Emitter) : Prop where
  vars : s.VarsOK
  refs : s.Refs (known_vars s.vars)
  ignore_var : ∀ t, s.ignore_var = some t → t ∈ s.vars

/-- The variable `t` can be the target of a call entered in state `s`: it is in
the table, and it is `ignore_var` or the state does not refer to it yet. -/
def Emitter.Target (s : Emitter) (t : irvar) : Prop :=
  t ∈ s.vars ∧ (s.ignore_var = some t ∨ s.Refs {w | w ≠ t})

/-- The parameter `a` of `int g(int a[10])`. -/
def sym_arr : symbol := { addr := 11, name := "a", tp := .ARRAY .META [10] }

/-- The decorated tree of `int g(int a[10]) { return 1 + a[0]; }`. -/
def prog_g : Program :=
  { defs := .cons (.FunDef { sym := some sym_g,
                             subev := fun n => if n = "a" then some sym_arr else none }
      (.mk .nil (.cons (.RETURN (.PLUS .META (.INT .META 1)
        (.INDEX .META (.ID sym_arr.tp (some sym_arr)) (.INT .META 0)))) .nil)))
      .nil }

/-- The state after `ir_prepare` in the first translation of a process. -/
def state_prepared : Emitter :=
  { Emitter.init with ir_is_passed := true, var_count := 1, vars := [⟨1, "t1"⟩],
                      ignore_var := some ⟨1, "t1"⟩ }

/-- The state after the header of `int g(int a[10])`: the label of `g`, the
parameter variable `t2` with `isref` set, and the two instructions
`FUNCTION g :`, `PARAM t2`. -/
def state_g_header : Emitter :=
  { state_prepared with
    irs := [⟨.Param (.Var ⟨2, "t2"⟩), false⟩, ⟨.Func ⟨0, "g"⟩, false⟩],
    vars := [⟨2, "t2"⟩, ⟨1, "t1"⟩], var_count := 2, label_alloc := 1,
    isref := fun id => decide (id = 2),
    sym_ir := fun a =>
      if a = 11 then some (.var ⟨2, "t2"⟩)
      else if a = 5 then some (.label ⟨0, "g"⟩) else none }

/-- The state of `state_g_header` after `n` more calls of `new_var`, for
`n ≤ 3`: the variables `t3`, ..., `t5`. -/
def state_g_temps (n : Nat) : Emitter :=
  { state_g_header with
    vars := ([⟨5, "t5"⟩, ⟨4, "t4"⟩, ⟨3, "t3"⟩].drop (3 - n)) ++ state_g_header.vars,
    var_count := 2 + n }

/-- The state in which `return 1 + a[0];` lowers its right operand `a[0]` into
`t5`: the left operand `1` has been lowered into `t4` by `t4 := #1`. -/
def state_g_left : Emitter :=
  (state_g_temps 3).emit (.Assign (.Var ⟨4, "t4"⟩) (.Const 1))

/-- The state after the right operand `a[0]` has been lowered into `t5`: five
more instructions, the variables `t6`, ..., `t9`, and `isref` set for `t6` (the
address of `a`) and for the target `t5`. -/
def state_g_right : Emitter :=
  { state_g_left with
    irs := [⟨.Assign (.Var ⟨5, "t5"⟩) (.Var ⟨9, "t9"⟩), false⟩,
      ⟨.Add (.Var ⟨9, "t9"⟩) (.Var ⟨6, "t6"⟩) (.Var ⟨8, "t8"⟩), false⟩,
      ⟨.Mul (.Var ⟨8, "t8"⟩) (.Var ⟨7, "t7"⟩) (.Const 4), false⟩,
      ⟨.Assign (.Var ⟨7, "t7"⟩) (.Const 0), false⟩,
      ⟨.Assign (.Var ⟨6, "t6"⟩) (.Var ⟨2, "t2"⟩), false⟩] ++ state_g_left.irs,
    vars := [⟨9, "t9"⟩, ⟨8, "t8"⟩, ⟨7, "t7"⟩, ⟨6, "t6"⟩] ++ state_g_left.vars,
    var_count := 9,
    isref := fun id => decide (id = 2) || decide (id = 5) || decide (id = 6) }

/-- The run of `x` from state `s` returns. -/
def IRM.returns {α : Type} (x : IRM α) (s : Emitter) : Prop := ∃ r, x s = .ok r

/-- The call `c`, entered in state `s`, returns. -/
def Call.returns : Call → Emitter → Prop
  | .program t, s => (translate_Program t).returns s
  | .extdeflist t, s => (translate_ExtDefList t).returns s
  | .extdef t, s => (translate_ExtDef t).returns s
  | .compst t, s => (translate_CompSt t).returns s
  | .deflist t, s => (translate_DefList t).returns s
  | .declist t, s => (translate_DecList t).returns s
  | .dec t, s => (translate_Dec t).returns s
  | .stmtlist t, s => (translate_StmtList t).returns s
  | .stmt t, s => (translate_Stmt t).returns s
  | .exp e t, s => (translate_Exp e t).returns s
  | .cond e lt lf, s => (translate_Cond e lt lf).returns s
  | .args a, s => (translate_Args a).returns s

/-- The decorated tree of `int g(int a[10]) { g = 1; return a[0]; }`, in which
the left operand of the assignment is an `ID` node of basic type whose symbol
is the function `g`. -/
def prog_g_assigned : Program :=
  { defs := .cons (.FunDef { sym := some sym_g,
                             subev := fun n => if n = "a" then some sym_arr else none }
      (.mk .nil
        (.cons (.Exp (.ASSIGNOP .META (.ID .META (some sym_g)) (.INT .META 1)))
          (.cons (.RETURN (.INDEX .META (.ID sym_arr.tp (some sym_arr)) (.INT .META 0)))
            .nil))))
      .nil }

/-- The state `s` of a process in which every label read as a variable shows
`t4`. -/
def Emitter.view_t4 (s : Emitter) : Emitter :=
  { s with label_as_var := fun _ => ⟨4, "t4"⟩ }

/-- The state after the statement `g = 1;` of `prog_g_assigned` when the label
of `g` reads as `t4`: the temporary `t3` and the instructions `t3 := #1`,
`t4 := t3`, `t1 := t4`. -/
def state_g_assigned : Emitter :=
  { state_g_header.view_t4 with
    irs := [⟨.Assign (.Var ⟨1, "t1"⟩) (.Var ⟨4, "t4"⟩), false⟩,
      ⟨.Assign (.Var ⟨4, "t4"⟩) (.Var ⟨3, "t3"⟩), false⟩,
      ⟨.Assign (.Var ⟨3, "t3"⟩) (.Const 1), false⟩] ++ state_g_header.irs,
    vars := ⟨3, "t3"⟩ :: state_g_header.vars, var_count := 3 }

/-- The state in which `return a[0];` lowers `a[0]` into the new variable `t4`. -/
def state_g_return : Emitter :=
  { state_g_assigned with vars := ⟨4, "t4"⟩ :: state_g_assigned.vars, var_count := 4 }

/-- The state after `a[0]` has been lowered into `t4`: five more instructions,
the variables `t5`, ..., `t8`, and `isref` set for `t5` and for the target
`t4`. -/
def state_g_indexed : Emitter :=
  { state_g_return with
    irs := [⟨.Assign (.Var ⟨4, "t4"⟩) (.Var ⟨8, "t8"⟩), false⟩,
      ⟨.Add (.Var ⟨8, "t8"⟩) (.Var ⟨5, "t5"⟩) (.Var ⟨7, "t7"⟩), false⟩,
      ⟨.Mul (.Var ⟨7, "t7"⟩) (.Var ⟨6, "t6"⟩) (.Const 4), false⟩,
      ⟨.Assign (.Var ⟨6, "t6"⟩) (.Const 0), false⟩,
      ⟨.Assign (.Var ⟨5, "t5"⟩) (.Var ⟨2, "t2"⟩), false⟩] ++ state_g_return.irs,
    vars := [⟨8, "t8"⟩, ⟨7, "t7"⟩, ⟨6, "t6"⟩, ⟨5, "t5"⟩] ++ state_g_return.vars,
    var_count := 8,
    isref := fun id => decide (id = 2) || decide (id = 4) || decide (id = 5) }

/-! ## Basic facts about the translation monad -/

theorem IRM.bind_apply {α β : Type} (x : IRM α) (f : α → IRM β) (s : Emitter) :
    (x >>= f) s = match x s with
      | .error e => .error e
      | .ok (a, s1) => f a s1 := rfl

theorem IRM.pure_apply {α : Type} (a : α) (s : Emitter) : (pure a : IRM α) s = .ok (a, s) := rfl

instance : LawfulMonad IRM := LawfulMonad.mk' IRM
  (by
    intro α x
    funext s
    show (match x s with | .error e => .error e | .ok (a, s1) => (pure (id a) : IRM α) s1) = x s
    cases h : x s with
    | error e => rfl
    | ok r => rfl)
  (by intro α β a f; rfl)
  (by
    intro α β γ x f g
    funext s
    simp only [IRM.bind_apply]
    cases h : x s with
    | error e => rfl
    | ok r => rfl)

theorem IRM.bind_ok_iff {α β : Type} {x : IRM α} {f : α → IRM β} {s : Emitter} {b : β}
    {s' : Emitter} :
    (x >>= f) s = .ok (b, s') ↔ ∃ a s1, x s = .ok (a, s1) ∧ f a s1 = .ok (b, s') := by
  rw [IRM.bind_apply]
  cases h : x s with
  | error e => simp
  | ok r =>
    obtain ⟨a, s1⟩ := r
    constructor
    · intro h2; exact ⟨a, s1, rfl, h2⟩
    · rintro ⟨a2, s2, h1, h2⟩
      cases h1
      exact h2

theorem IRM.bind_error_iff {α β : Type} {x : IRM α} {f : α → IRM β} {s : Emitter} {e : Err} :
    (x >>= f) s = .error e ↔
      x s = .error e ∨ ∃ a s1, x s = .ok (a, s1) ∧ f a s1 = .error e := by
  rw [IRM.bind_apply]
  cases h : x s with
  | error e => simp
  | ok r =>
    obtain ⟨a, s1⟩ := r
    constructor
    · intro h2; exact Or.inr ⟨a, s1, rfl, h2⟩
    · rintro (h1 | ⟨a2, s2, h1, h2⟩)
      · cases h1
      · cases h1
        exact h2

/-! ## Unfolding equations of the recursive translators -/

theorem translate_Exp_INT (tp : type) (value : Int) (target : irvar) :
    translate_Exp (.INT tp value) target = gen_assign (op_var target) (op_const value) := by
  rw [translate_Exp]; simp [Exp.count, Exp.child0, Exp.child1]

theorem translate_Exp_FLOAT (tp : type) (target : irvar) :
    translate_Exp (.FLOAT tp) target = IRM.fail (.panic "No support float") := by
  rw [translate_Exp]; funext s; rfl

theorem translate_Exp_ID (tp : type) (val : Option symbol) (target : irvar) :
    translate_Exp (.ID tp val) target = (do
      let val ← not_null val
      let var ← cast_irvar (← get_ir val)
      gen_assign (op_var target) (op_var var)
      set_isref target (← get_isref var)) := by
  rw [translate_Exp]; simp [Exp.count, Exp.child0, Exp.child1]

theorem translate_Exp_NEG (tp : type) (e : Exp) (target : irvar) :
    translate_Exp (.NEG tp e) target = (do
      let var ← new_var
      translate_Exp e var
      gen_sub (op_var target) (op_const 0) (← op_rval var)) := by
  rw [translate_Exp]; simp [Exp.count, Exp.child0, Exp.child1]

theorem translate_Exp_NOT (tp : type) (e : Exp) (target : irvar) :
    translate_Exp (.NOT tp e) target = pure () := by
  rw [translate_Exp]; simp [Exp.count, Exp.child0, Exp.child1]

theorem translate_Exp_LP (tp : type) (e : Exp) (target : irvar) :
    translate_Exp (.LP tp e) target = translate_Exp e target := by
  rw [translate_Exp]; simp [Exp.count, Exp.child0, Exp.child1]

theorem translate_Exp_CALL0 (tp : type) (val : Option symbol) (target : irvar) :
    translate_Exp (.CALL0 tp val) target = (do
      let val ← not_null val
      Assert (val.tp.cls == .TC_FUNC) "eq"
      if val.name = "read" then
        gen_read (op_var target)
      else
        let l ← cast_irlabel (← get_ir val)
        gen_call (op_var target) l) := by
  rw [translate_Exp]; simp [Exp.count, Exp.child0, Exp.child1]

theorem translate_Exp_DOT (tp : type) (e : Exp) (name : String) (target : irvar) :
    translate_Exp (.DOT tp e name) target = (do
      let offset ← new_var
      translate_Exp e offset
      Assert ((← get_isref offset) == true) "eq"
      let a := e.tp
      Assert (a.cls == .TC_STRUCT) "eq"
      let sz := member_offset name a.mems
      let t1 ← new_var
      gen_add (op_var t1) (op_var offset) (op_const sz)
      gen_assign (op_var target) (op_var t1)
      set_isref target true) := by
  rw [translate_Exp]; simp [Exp.count, Exp.child0, Exp.child1]

theorem translate_Exp_AND (tp : type) (l r : Exp) (target : irvar) :
    translate_Exp (.AND tp l r) target = bool_value (.AND tp l r) target := by
  rw [translate_Exp]; simp [Exp.count, Exp.child0, Exp.child1, bool_value]

theorem translate_Exp_OR (tp : type) (l r : Exp) (target : irvar) :
    translate_Exp (.OR tp l r) target = bool_value (.OR tp l r) target := by
  rw [translate_Exp]; simp [Exp.count, Exp.child0, Exp.child1, bool_value]

theorem translate_Exp_RELOP (tp : type) (l : Exp) (rt : relop_type) (r : Exp) (target : irvar) :
    translate_Exp (.RELOP tp l rt r) target = bool_value (.RELOP tp l rt r) target := by
  rw [translate_Exp]; simp [Exp.count, Exp.child0, Exp.child1, bool_value]

theorem translate_Exp_ASSIGNOP_ID (tp : type) (ltp : type) (val : Option symbol) (r : Exp)
    (target : irvar) :
    translate_Exp (.ASSIGNOP tp (.ID ltp val) r) target = (do
      let val ← not_null val
      let var ← cast_irvar (← get_ir val)
      let temp ← new_var
      translate_Exp r temp
      match ltp.cls with
      | .TC_META => do
        gen_assign (op_var var) (← op_rval temp)
        gen_assign (op_var target) (op_var var)
      | .TC_STRUCT =>
        IRM.fail (.panic "No struct direct assign support")
      | .TC_ARRAY => do
        Assert ((← get_isref var) == true) "eq"
        Assert ((← get_isref temp) == true) "eq"
        let sz := type_sizeof ltp
        let sz2 := type_sizeof r.tp
        gen_arr_copy var temp (if sz < sz2 then sz else sz2)
        gen_assign (op_var target) (op_var temp)
        set_isref target true
      | _ => pure ()) := by
  rw [translate_Exp]; simp [Exp.count, Exp.child0, Exp.child1]

theorem translate_Exp_ASSIGNOP_INDEX (tp : type) (ltp : type) (le li : Exp) (r : Exp)
    (target : irvar) :
    translate_Exp (.ASSIGNOP tp (.INDEX ltp le li) r) target = (do
      let offset ← new_var
      let value ← new_var
      translate_Exp (.INDEX ltp le li) offset
      Assert ((← get_isref offset) == true) "eq"
      translate_Exp r value
      match ltp.cls with
      | .TC_META => do
        gen_assign (op_deref offset) (← op_rval value)
        gen_assign (op_var target) (← op_rval value)
      | .TC_STRUCT =>
        IRM.fail (.panic "No struct direct assign support")
      | .TC_ARRAY => do
        Assert ((← get_isref value) == true) "eq"
        let sz := type_sizeof ltp
        let sz2 := type_sizeof r.tp
        gen_arr_copy offset value (if sz < sz2 then sz else sz2)
        gen_assign (op_var target) (op_var value)
        set_isref target true
      | _ => pure ()) := by
  rw [translate_Exp]; simp [Exp.count, Exp.child0, Exp.child1]

theorem translate_Exp_ASSIGNOP_DOT (tp : type) (ltp : type) (le : Exp) (lname : String)
    (r : Exp) (target : irvar) :
    translate_Exp (.ASSIGNOP tp (.DOT ltp le lname) r) target = (do
      let offset ← new_var
      let value ← new_var
      translate_Exp (.DOT ltp le lname) offset
      Assert ((← get_isref offset) == true) "eq"
      translate_Exp r value
      match ltp.cls with
      | .TC_META => do
        gen_assign (op_deref offset) (← op_rval value)
        gen_assign (op_var target) (← op_rval value)
      | .TC_STRUCT =>
        IRM.fail (.panic "TODO")
      | .TC_ARRAY =>
        IRM.fail (.panic "TODO")
      | _ => pure ()) := by
  rw [translate_Exp]; simp [Exp.count, Exp.child0, Exp.child1]

theorem translate_Exp_ASSIGNOP_other (tp : type) (l r : Exp) (target : irvar)
    (hl : l.bad_left = true) :
    translate_Exp (.ASSIGNOP tp l r) target = IRM.fail (.panic "unexpect left val") := by
  rw [translate_Exp]
  · funext s; rfl
  all_goals (intros; subst_vars; simp [Exp.bad_left] at hl)

theorem translate_Exp_PLUS (tp : type) (l r : Exp) (target : irvar) :
    translate_Exp (.PLUS tp l r) target = (do
      let t1 ← new_var
      let t2 ← new_var
      translate_Exp l t1
      translate_Exp r t2
      gen_add (op_var target) (← op_rval t1) (← op_rval t2)) := by
  rw [translate_Exp]; simp [Exp.count, Exp.child0, Exp.child1]

theorem translate_Exp_MINUS (tp : type) (l r : Exp) (target : irvar) :
    translate_Exp (.MINUS tp l r) target = (do
      let t1 ← new_var
      let t2 ← new_var
      translate_Exp l t1
      translate_Exp r t2
      gen_sub (op_var target) (← op_rval t1) (← op_rval t2)) := by
  rw [translate_Exp]; simp [Exp.count, Exp.child0, Exp.child1]

theorem translate_Exp_STAR (tp : type) (l r : Exp) (target : irvar) :
    translate_Exp (.STAR tp l r) target = (do
      let t1 ← new_var
      let t2 ← new_var
      translate_Exp l t1
      translate_Exp r t2
      gen_mul (op_var target) (← op_rval t1) (← op_rval t2)) := by
  rw [translate_Exp]; simp [Exp.count, Exp.child0, Exp.child1]

theorem translate_Exp_DIV (tp : type) (l r : Exp) (target : irvar) :
    translate_Exp (.DIV tp l r) target = (do
      let t1 ← new_var
      let t2 ← new_var
      translate_Exp l t1
      translate_Exp r t2
      gen_div (op_var target) (← op_rval t1) (← op_rval t2)) := by
  rw [translate_Exp]; simp [Exp.count, Exp.child0, Exp.child1]

theorem translate_Exp_CALL (tp : type) (val : Option symbol) (args : Args) (target : irvar) :
    translate_Exp (.CALL tp val args) target = (do
      let val ← not_null val
      Assert (val.tp.cls == .TC_FUNC) "eq"
      let params ← translate_Args args
      if val.name = "write" then
        match params with
        | p :: _ =>
          gen_write (← op_rval p)
          gen_assign (op_var target) (op_const 0)
        | [] => IRM.fail (.panic "out of bounds")
      else
        let paramArr := params.reverse
        gen_args_loop val.tp.args paramArr val.tp.args.length val.tp.args.length
        let l ← cast_irlabel (← get_ir val)
        gen_call (op_var target) l) := by
  rw [translate_Exp]; simp [Exp.count, Exp.child0, Exp.child1]

theorem translate_Exp_INDEX (tp : type) (e i : Exp) (target : irvar) :
    translate_Exp (.INDEX tp e i) target = (do
      let offset ← new_var
      translate_Exp e offset
      Assert ((← get_isref offset) == true) "eq"
      let sz := type_sizeof tp
      let index ← new_var
      translate_Exp i index
      let t1 ← new_var
      let t2 ← new_var
      gen_mul (op_var t1) (← op_rval index) (op_const sz)
      gen_add (op_var t2) (op_var offset) (op_var t1)
      gen_assign (op_var target) (op_var t2)
      set_isref target true) := by
  rw [translate_Exp]; simp [Exp.count, Exp.child0, Exp.child1]

theorem translate_Cond_NOT (tp : type) (e : Exp) (true_label false_label : irlabel) :
    translate_Cond (.NOT tp e) true_label false_label =
      translate_Cond e false_label true_label := by
  rw [translate_Cond]

theorem translate_Cond_LP (tp : type) (e : Exp) (true_label false_label : irlabel) :
    translate_Cond (.LP tp e) true_label false_label =
      translate_Cond e true_label false_label := by
  rw [translate_Cond]

theorem translate_Cond_AND (tp : type) (l r : Exp) (true_label false_label : irlabel) :
    translate_Cond (.AND tp l r) true_label false_label = (do
      let sl ← new_label
      translate_Cond l sl false_label
      gen_label sl
      translate_Cond r true_label false_label) := by
  rw [translate_Cond]

theorem translate_Cond_OR (tp : type) (l r : Exp) (true_label false_label : irlabel) :
    translate_Cond (.OR tp l r) true_label false_label = (do
      let sl ← new_label
      translate_Cond l true_label sl
      gen_label sl
      translate_Cond r true_label false_label) := by
  rw [translate_Cond]

theorem translate_Cond_RELOP (tp : type) (l : Exp) (rt : relop_type) (r : Exp)
    (true_label false_label : irlabel) :
    translate_Cond (.RELOP tp l rt r) true_label false_label = (do
      let v1 ← new_var
      let v2 ← new_var
      translate_Exp l v1
      translate_Exp r v2
      gen_branch rt (← op_rval v1) (← op_rval v2) true_label
      gen_goto false_label) := by
  rw [translate_Cond]

theorem translate_Cond_default (tree : Exp) (true_label false_label : irlabel)
    (h : tree.cond_default = true) :
    translate_Cond tree true_label false_label = (do
      let v1 ← new_var
      translate_Exp tree v1
      gen_branch .RT_NE (← op_rval v1) (op_const 0) true_label
      gen_goto false_label) := by
  cases tree <;> first | (simp [Exp.cond_default] at h; done) | rw [translate_Cond]

theorem translate_Args_one (e : Exp) :
    translate_Args (.one e) = (do
      let var ← new_var
      translate_Exp e var
      pure [var]) := by
  rw [translate_Args]

theorem translate_Args_cons (e : Exp) (rest : Args) :
    translate_Args (.cons e rest) = (do
      let var ← new_var
      translate_Exp e var
      let next ← translate_Args rest
      pure (var :: next)) := by
  rw [translate_Args]

/-! ## Induction along the recursion of the translators -/

theorem Exp.rank_eq (tree : Exp) : tree.rank = 0 ∨ tree.rank = 2 := by
  unfold Exp.rank; split <;> simp

/-- Induction principle that follows the calls of `translate_Exp`,
`translate_Cond` and `translate_Args`: besides the smaller trees, the property of
`translate_Cond` is available for `translate_Exp` on a condition, and the
property of `translate_Exp` for `translate_Cond` on any other expression. -/
theorem translate_induction {PE PC : Exp → Prop} {PA : Args → Prop}
    (hE : ∀ tree, (∀ t, sizeOf t < sizeOf tree → PE t) → (∀ t, sizeOf t < sizeOf tree → PC t) →
      (∀ a, sizeOf a < sizeOf tree → PA a) → (tree.rank = 2 → PC tree) → PE tree)
    (hC : ∀ tree, (∀ t, sizeOf t < sizeOf tree → PE t) → (∀ t, sizeOf t < sizeOf tree → PC t) →
      (tree.rank = 0 → PE tree) → PC tree)
    (hA : ∀ args, (∀ t, sizeOf t < sizeOf args → PE t) → (∀ a, sizeOf a < sizeOf args → PA a) →
      PA args) :
    (∀ tree, PE tree) ∧ (∀ tree, PC tree) ∧ (∀ args, PA args) := by
  have key : ∀ n, (∀ t : Exp, sizeOf t < n → PE t ∧ PC t) ∧ (∀ a : Args, sizeOf a < n → PA a) := by
    intro n
    induction n with
    | zero => exact ⟨fun _ h => absurd h (Nat.not_lt_zero _), fun _ h => absurd h (Nat.not_lt_zero _)⟩
    | succ n ih =>
      obtain ⟨ihT, ihA⟩ := ih
      have hE' : ∀ t : Exp, sizeOf t < n + 1 → ∀ u : Exp, sizeOf u < sizeOf t → PE u :=
        fun t ht u hu => (ihT u (by omega)).1
      have hC' : ∀ t : Exp, sizeOf t < n + 1 → ∀ u : Exp, sizeOf u < sizeOf t → PC u :=
        fun t ht u hu => (ihT u (by omega)).2
      refine ⟨fun t ht => ?_, fun a ha => ?_⟩
      · rcases Exp.rank_eq t with h0 | h2
        · have hPE : PE t := hE t (hE' t ht) (hC' t ht) (fun a ha => ihA a (by omega))
            (fun h => by omega)
          exact ⟨hPE, hC t (hE' t ht) (hC' t ht) (fun _ => hPE)⟩
        · have hPC : PC t := hC t (hE' t ht) (hC' t ht) (fun h => by omega)
          exact ⟨hE t (hE' t ht) (hC' t ht) (fun a ha => ihA a (by omega)) (fun _ => hPC), hPC⟩
      · exact hA a (fun u hu => (ihT u (by omega)).1) (fun b hb => ihA b (by omega))
  exact ⟨fun t => (key (sizeOf t + 1)).1 t (by omega) |>.1,
    fun t => (key (sizeOf t + 1)).1 t (by omega) |>.2,
    fun a => (key (sizeOf a + 1)).2 a (by omega)⟩

/-- Simultaneous structural induction over statements, compound statements and
statement lists. -/
theorem stmt_induction {PS : Stmt → Prop} {PC : CompSt → Prop} {PL : StmtList → Prop}
    (hExp : ∀ e, PS (.Exp e)) (hCompSt : ∀ c, PC c → PS (.CompSt c)) (hRETURN : ∀ e, PS (.RETURN e))
    (hIF : ∀ c s, PS s → PS (.IF c s)) (hIF_ELSE : ∀ c s1 s2, PS s1 → PS s2 → PS (.IF_ELSE c s1 s2))
    (hWHILE : ∀ c s, PS s → PS (.WHILE c s)) (hmk : ∀ defs stmts, PL stmts → PC (.mk defs stmts))
    (hnil : PL .nil) (hcons : ∀ s rest, PS s → PL rest → PL (.cons s rest)) :
    (∀ s, PS s) ∧ (∀ c, PC c) ∧ (∀ l, PL l) :=
  ⟨fun s => @Stmt.rec PS PC PL hExp hCompSt hRETURN hIF hIF_ELSE hWHILE hmk hnil hcons s,
   fun c => @CompSt.rec PS PC PL hExp hCompSt hRETURN hIF hIF_ELSE hWHILE hmk hnil hcons c,
   fun l => @StmtList.rec PS PC PL hExp hCompSt hRETURN hIF hIF_ELSE hWHILE hmk hnil hcons l⟩

/-! ## Relations preserved by every primitive -/

theorem op_var_kind (v : irvar) : (op_var v).kind = .IRO_Variable := rfl

theorem op_deref_kind (v : irvar) : (op_deref v).kind = .IRO_Deref := rfl

section Closure

variable {R : Emitter → Emitter → Prop} {E : Err → Prop} (hR : Prims R E)
include hR

theorem Holds_bind {α β : Type} {x : IRM α} {f : α → IRM β} (hx : Holds R E x)
    (hf : ∀ a, Holds R E (f a)) : Holds R E (x >>= f) := by
  intro s
  constructor
  · intro b s' h
    obtain ⟨a, s1, h1, h2⟩ := IRM.bind_ok_iff.mp h
    exact hR.trans _ _ _ ((hx s).1 _ _ h1) ((hf a s1).1 _ _ h2)
  · intro e h
    rcases IRM.bind_error_iff.mp h with h1 | ⟨a, s1, h1, h2⟩
    · exact (hx s).2 _ h1
    · exact (hf a s1).2 _ h2

theorem Holds_pure {α : Type} (a : α) : Holds R E (pure a : IRM α) := by
  intro s
  constructor
  · intro b s' h
    cases h
    exact hR.refl _
  · intro e h
    cases h

theorem Holds_panic {α : Type} (msg : String) : Holds R E (IRM.fail (.panic msg) : IRM α) := by
  intro s
  constructor
  · intro b s' h
    cases h
  · intro e h
    cases h
    exact hR.panic _

theorem Holds_assert {α : Type} (msg : String) : Holds R E (IRM.fail (.assert msg) : IRM α) := by
  intro s
  constructor
  · intro b s' h
    cases h
  · intro e h
    cases h
    exact hR.assert _

theorem Holds_Assert (c : Bool) (msg : String) : Holds R E (Assert c msg) := by
  unfold IRLab.Assert
  split
  · exact Holds_pure hR _
  · exact Holds_assert hR _

theorem Holds_read {α : Type} (g : Emitter → α) : Holds R E (fun s => .ok (g s, s) : IRM α) := by
  intro s
  constructor
  · intro b s' h
    cases h
    exact hR.refl _
  · intro e h
    cases h

theorem Holds_op_rval (v : irvar) : Holds R E (op_rval v) := Holds_read hR _

theorem Holds_get_isref (v : irvar) : Holds R E (get_isref v) := Holds_read hR _

theorem Holds_get_ir (sym : symbol) : Holds R E (get_ir sym) := Holds_read hR _

theorem Holds_get_ignore_var : Holds R E get_ignore_var := Holds_read hR _

theorem Holds_not_null (val : Option symbol) : Holds R E (not_null val) := by
  unfold IRLab.not_null
  split
  · exact Holds_pure hR _
  · exact Holds_assert hR _

theorem Holds_cast_irvar (p : Option irptr) : Holds R E (cast_irvar p) := by
  unfold IRLab.cast_irvar
  split
  · exact Holds_pure hR _
  · exact Holds_read hR _
  · exact Holds_assert hR _

theorem Holds_cast_irlabel (p : Option irptr) : Holds R E (cast_irlabel p) := by
  unfold IRLab.cast_irlabel
  split
  · exact Holds_pure hR _
  · exact Holds_assert hR _
  · exact Holds_assert hR _

theorem Holds_gen_arr_copy_loop (lt rt lo ro : irvar) (sz : Int) :
    ∀ (n : Nat) (i : Int), (sz - i).toNat ≤ n →
      Holds R E (gen_arr_copy_loop lt rt lo ro sz i) := by
  intro n
  induction n with
  | zero =>
    intro i hi
    rw [IRLab.gen_arr_copy_loop, if_neg (by omega)]
    exact Holds_pure hR _
  | succ n ih =>
    intro i hi
    rw [IRLab.gen_arr_copy_loop]
    split
    · repeat' with_reducible first
      | exact Holds_pure hR _
      | exact Holds_panic hR _
      | exact Holds_assert hR _
      | exact Holds_get_isref hR _
      | exact Holds_get_ir hR _
      | exact Holds_get_ignore_var hR
      | exact Holds_op_rval hR _
      | exact Holds_Assert hR _ _
      | exact Holds_not_null hR _
      | exact Holds_cast_irvar hR _
      | exact Holds_cast_irlabel hR _
      | exact hR.new_var
      | exact hR.new_label
      | exact hR.new_named_label _
      | exact hR.set_isref _ _
      | exact hR.set_ir _ _
      | exact hR.gen_label _
      | exact hR.gen_func _
      | exact hR.gen_assign _ _ (Or.inl (op_var_kind _))
      | exact hR.gen_assign _ _ (Or.inr (op_deref_kind _))
      | exact hR.gen_add _ _ _ (op_var_kind _)
      | exact hR.gen_sub _ _ _ (op_var_kind _)
      | exact hR.gen_mul _ _ _ (op_var_kind _)
      | exact hR.gen_div _ _ _ (op_var_kind _)
      | exact hR.gen_goto _
      | exact hR.gen_branch _ _ _ _
      | exact hR.gen_return _
      | exact hR.gen_dec _ _ (op_var_kind _)
      | exact hR.gen_call _ _ (op_var_kind _)
      | exact hR.gen_arg _
      | exact hR.gen_param _ (op_var_kind _)
      | exact hR.gen_read _ (op_var_kind _)
      | exact hR.gen_write _
      | refine Holds_bind hR ?_ (fun _ => ?_)
      | exact ih _ (by omega)
    · exact Holds_pure hR _

theorem Holds_gen_arr_copy (lo ro : irvar) (sz : Int) : Holds R E (gen_arr_copy lo ro sz) := by
  unfold IRLab.gen_arr_copy
  refine Holds_bind hR hR.new_var (fun _ => ?_)
  refine Holds_bind hR hR.new_var (fun _ => ?_)
  exact Holds_gen_arr_copy_loop hR _ _ _ _ _ _ _ (le_refl _)

theorem Holds_gen_args_loop (args : List (String × type)) (paramArr : List irvar) (argc : Nat) :
    ∀ n, Holds R E (gen_args_loop args paramArr argc n) := by
  intro n
  induction n with
  | zero => exact Holds_pure hR _
  | succ n ih =>
    rw [IRLab.gen_args_loop]
    dsimp only
    repeat' with_reducible first
      | exact Holds_pure hR _
      | exact Holds_panic hR _
      | exact Holds_assert hR _
      | exact Holds_get_isref hR _
      | exact Holds_get_ir hR _
      | exact Holds_get_ignore_var hR
      | exact Holds_op_rval hR _
      | exact Holds_Assert hR _ _
      | exact Holds_not_null hR _
      | exact Holds_cast_irvar hR _
      | exact Holds_cast_irlabel hR _
      | exact hR.new_var
      | exact hR.new_label
      | exact hR.new_named_label _
      | exact hR.set_isref _ _
      | exact hR.set_ir _ _
      | exact hR.gen_label _
      | exact hR.gen_func _
      | exact hR.gen_assign _ _ (Or.inl (op_var_kind _))
      | exact hR.gen_assign _ _ (Or.inr (op_deref_kind _))
      | exact hR.gen_add _ _ _ (op_var_kind _)
      | exact hR.gen_sub _ _ _ (op_var_kind _)
      | exact hR.gen_mul _ _ _ (op_var_kind _)
      | exact hR.gen_div _ _ _ (op_var_kind _)
      | exact hR.gen_goto _
      | exact hR.gen_branch _ _ _ _
      | exact hR.gen_return _
      | exact hR.gen_dec _ _ (op_var_kind _)
      | exact hR.gen_call _ _ (op_var_kind _)
      | exact hR.gen_arg _
      | exact hR.gen_param _ (op_var_kind _)
      | exact hR.gen_read _ (op_var_kind _)
      | exact hR.gen_write _
      | refine Holds_bind hR ?_ (fun _ => ?_)
      | exact ih
      | split

set_option maxHeartbeats 2000000 in
theorem Holds_translate_Exp_Cond_Args :
    (∀ tree target, Holds R E (translate_Exp tree target)) ∧
    (∀ tree lt lf, Holds R E (translate_Cond tree lt lf)) ∧
    (∀ args, Holds R E (translate_Args args)) := by
  have h := @translate_induction
    (fun tree => ∀ target, Holds R E (translate_Exp tree target))
    (fun tree => ∀ lt lf, Holds R E (translate_Cond tree lt lf))
    (fun args => Holds R E (translate_Args args))
    ?_ ?_ ?_
  · exact h
  · intro tree ihE ihC ihA ihS target
    beta_reduce at ihE ihC ihA ihS
    have hb : ∀ t, (∀ lt lf, Holds R E (translate_Cond t lt lf)) →
        Holds R E (bool_value t target) := by
      intro t ht
      unfold bool_value
      repeat' with_reducible first
        | exact Holds_pure hR _
        | exact Holds_panic hR _
        | exact Holds_assert hR _
        | exact Holds_get_isref hR _
        | exact Holds_get_ir hR _
        | exact Holds_get_ignore_var hR
        | exact Holds_op_rval hR _
        | exact Holds_Assert hR _ _
        | exact Holds_not_null hR _
        | exact Holds_cast_irvar hR _
        | exact Holds_cast_irlabel hR _
        | exact hR.new_var
        | exact hR.new_label
        | exact hR.new_named_label _
        | exact hR.set_isref _ _
        | exact hR.set_ir _ _
        | exact hR.gen_label _
        | exact hR.gen_func _
        | exact hR.gen_assign _ _ (Or.inl (op_var_kind _))
        | exact hR.gen_assign _ _ (Or.inr (op_deref_kind _))
        | exact hR.gen_add _ _ _ (op_var_kind _)
        | exact hR.gen_sub _ _ _ (op_var_kind _)
        | exact hR.gen_mul _ _ _ (op_var_kind _)
        | exact hR.gen_div _ _ _ (op_var_kind _)
        | exact hR.gen_goto _
        | exact hR.gen_branch _ _ _ _
        | exact hR.gen_return _
        | exact hR.gen_dec _ _ (op_var_kind _)
        | exact hR.gen_call _ _ (op_var_kind _)
        | exact hR.gen_arg _
        | exact hR.gen_param _ (op_var_kind _)
        | exact hR.gen_read _ (op_var_kind _)
        | exact hR.gen_write _
        | refine Holds_bind hR ?_ (fun _ => ?_)
        | exact ht _ _
    cases tree with
    | AND tp l r => rw [translate_Exp_AND]; exact hb _ (ihS rfl)
    | OR tp l r => rw [translate_Exp_OR]; exact hb _ (ihS rfl)
    | RELOP tp l rt r => rw [translate_Exp_RELOP]; exact hb _ (ihS rfl)
    | ASSIGNOP tp l r =>
      cases l
      case ID ltp val =>
        rw [translate_Exp_ASSIGNOP_ID]
        repeat' with_reducible first
          | exact Holds_pure hR _
          | exact Holds_panic hR _
          | exact Holds_assert hR _
          | exact Holds_get_isref hR _
          | exact Holds_get_ir hR _
          | exact Holds_get_ignore_var hR
          | exact Holds_op_rval hR _
          | exact Holds_Assert hR _ _
          | exact Holds_not_null hR _
          | exact Holds_cast_irvar hR _
          | exact Holds_cast_irlabel hR _
          | exact hR.new_var
          | exact hR.new_label
          | exact hR.new_named_label _
          | exact hR.set_isref _ _
          | exact hR.set_ir _ _
          | exact hR.gen_label _
          | exact hR.gen_func _
          | exact hR.gen_assign _ _ (Or.inl (op_var_kind _))
          | exact hR.gen_assign _ _ (Or.inr (op_deref_kind _))
          | exact hR.gen_add _ _ _ (op_var_kind _)
          | exact hR.gen_sub _ _ _ (op_var_kind _)
          | exact hR.gen_mul _ _ _ (op_var_kind _)
          | exact hR.gen_div _ _ _ (op_var_kind _)
          | exact hR.gen_goto _
          | exact hR.gen_branch _ _ _ _
          | exact hR.gen_return _
          | exact hR.gen_dec _ _ (op_var_kind _)
          | exact hR.gen_call _ _ (op_var_kind _)
          | exact hR.gen_arg _
          | exact hR.gen_param _ (op_var_kind _)
          | exact hR.gen_read _ (op_var_kind _)
          | exact hR.gen_write _
          | refine Holds_bind hR ?_ (fun _ => ?_)
          | exact Holds_gen_arr_copy hR _ _ _
          | exact ihE _ (by first | (simp_wf; omega) | simp_wf) _
          | split
      case INDEX ltp le li =>
        rw [translate_Exp_ASSIGNOP_INDEX]
        repeat' with_reducible first
          | exact Holds_pure hR _
          | exact Holds_panic hR _
          | exact Holds_assert hR _
          | exact Holds_get_isref hR _
          | exact Holds_get_ir hR _
          | exact Holds_get_ignore_var hR
          | exact Holds_op_rval hR _
          | exact Holds_Assert hR _ _
          | exact Holds_not_null hR _
          | exact Holds_cast_irvar hR _
          | exact Holds_cast_irlabel hR _
          | exact hR.new_var
          | exact hR.new_label
          | exact hR.new_named_label _
          | exact hR.set_isref _ _
          | exact hR.set_ir _ _
          | exact hR.gen_label _
          | exact hR.gen_func _
          | exact hR.gen_assign _ _ (Or.inl (op_var_kind _))
          | exact hR.gen_assign _ _ (Or.inr (op_deref_kind _))
          | exact hR.gen_add _ _ _ (op_var_kind _)
          | exact hR.gen_sub _ _ _ (op_var_kind _)
          | exact hR.gen_mul _ _ _ (op_var_kind _)
          | exact hR.gen_div _ _ _ (op_var_kind _)
          | exact hR.gen_goto _
          | exact hR.gen_branch _ _ _ _
          | exact hR.gen_return _
          | exact hR.gen_dec _ _ (op_var_kind _)
          | exact hR.gen_call _ _ (op_var_kind _)
          | exact hR.gen_arg _
          | exact hR.gen_param _ (op_var_kind _)
          | exact hR.gen_read _ (op_var_kind _)
          | exact hR.gen_write _
          | refine Holds_bind hR ?_ (fun _ => ?_)
          | exact Holds_gen_arr_copy hR _ _ _
          | exact ihE _ (by first | (simp_wf; omega) | simp_wf) _
          | split
      case DOT ltp le lname =>
        rw [translate_Exp_ASSIGNOP_DOT]
        repeat' with_reducible first
          | exact Holds_pure hR _
          | exact Holds_panic hR _
          | exact Holds_assert hR _
          | exact Holds_get_isref hR _
          | exact Holds_get_ir hR _
          | exact Holds_get_ignore_var hR
          | exact Holds_op_rval hR _
          | exact Holds_Assert hR _ _
          | exact Holds_not_null hR _
          | exact Holds_cast_irvar hR _
          | exact Holds_cast_irlabel hR _
          | exact hR.new_var
          | exact hR.new_label
          | exact hR.new_named_label _
          | exact hR.set_isref _ _
          | exact hR.set_ir _ _
          | exact hR.gen_label _
          | exact hR.gen_func _
          | exact hR.gen_assign _ _ (Or.inl (op_var_kind _))
          | exact hR.gen_assign _ _ (Or.inr (op_deref_kind _))
          | exact hR.gen_add _ _ _ (op_var_kind _)
          | exact hR.gen_sub _ _ _ (op_var_kind _)
          | exact hR.gen_mul _ _ _ (op_var_kind _)
          | exact hR.gen_div _ _ _ (op_var_kind _)
          | exact hR.gen_goto _
          | exact hR.gen_branch _ _ _ _
          | exact hR.gen_return _
          | exact hR.gen_dec _ _ (op_var_kind _)
          | exact hR.gen_call _ _ (op_var_kind _)
          | exact hR.gen_arg _
          | exact hR.gen_param _ (op_var_kind _)
          | exact hR.gen_read _ (op_var_kind _)
          | exact hR.gen_write _
          | refine Holds_bind hR ?_ (fun _ => ?_)
          | exact ihE _ (by first | (simp_wf; omega) | simp_wf) _
          | split
      all_goals (rw [translate_Exp_ASSIGNOP_other _ _ _ _ (by rfl)]; exact Holds_panic hR _)
    | _ =>
      simp only [translate_Exp_INT, translate_Exp_FLOAT, translate_Exp_ID, translate_Exp_NEG,
        translate_Exp_NOT, translate_Exp_LP, translate_Exp_CALL0, translate_Exp_DOT,
        translate_Exp_PLUS, translate_Exp_MINUS, translate_Exp_STAR, translate_Exp_DIV,
        translate_Exp_CALL, translate_Exp_INDEX]
      repeat' with_reducible first
        | exact Holds_pure hR _
        | exact Holds_panic hR _
        | exact Holds_assert hR _
        | exact Holds_get_isref hR _
        | exact Holds_get_ir hR _
        | exact Holds_get_ignore_var hR
        | exact Holds_op_rval hR _
        | exact Holds_Assert hR _ _
        | exact Holds_not_null hR _
        | exact Holds_cast_irvar hR _
        | exact Holds_cast_irlabel hR _
        | exact hR.new_var
        | exact hR.new_label
        | exact hR.new_named_label _
        | exact hR.set_isref _ _
        | exact hR.set_ir _ _
        | exact hR.gen_label _
        | exact hR.gen_func _
        | exact hR.gen_assign _ _ (Or.inl (op_var_kind _))
        | exact hR.gen_assign _ _ (Or.inr (op_deref_kind _))
        | exact hR.gen_add _ _ _ (op_var_kind _)
        | exact hR.gen_sub _ _ _ (op_var_kind _)
        | exact hR.gen_mul _ _ _ (op_var_kind _)
        | exact hR.gen_div _ _ _ (op_var_kind _)
        | exact hR.gen_goto _
        | exact hR.gen_branch _ _ _ _
        | exact hR.gen_return _
        | exact hR.gen_dec _ _ (op_var_kind _)
        | exact hR.gen_call _ _ (op_var_kind _)
        | exact hR.gen_arg _
        | exact hR.gen_param _ (op_var_kind _)
        | exact hR.gen_read _ (op_var_kind _)
        | exact hR.gen_write _
        | refine Holds_bind hR ?_ (fun _ => ?_)
        | exact Holds_gen_args_loop hR _ _ _ _
        | exact ihE _ (by first | (simp_wf; omega) | simp_wf) _
        | exact ihA _ (by first | (simp_wf; omega) | simp_wf)
        | split
  · intro tree ihE ihC ihS lt lf
    beta_reduce at ihE ihC ihS
    cases tree with
    | NOT tp e => rw [translate_Cond_NOT]; exact ihC _ (by first | (simp_wf; omega) | simp_wf) _ _
    | LP tp e => rw [translate_Cond_LP]; exact ihC _ (by first | (simp_wf; omega) | simp_wf) _ _
    | AND tp l r =>
      rw [translate_Cond_AND]
      repeat' with_reducible first
        | exact Holds_pure hR _
        | exact Holds_panic hR _
        | exact Holds_assert hR _
        | exact Holds_get_isref hR _
        | exact Holds_get_ir hR _
        | exact Holds_get_ignore_var hR
        | exact Holds_op_rval hR _
        | exact Holds_Assert hR _ _
        | exact Holds_not_null hR _
        | exact Holds_cast_irvar hR _
        | exact Holds_cast_irlabel hR _
        | exact hR.new_var
        | exact hR.new_label
        | exact hR.new_named_label _
        | exact hR.set_isref _ _
        | exact hR.set_ir _ _
        | exact hR.gen_label _
        | exact hR.gen_func _
        | exact hR.gen_assign _ _ (Or.inl (op_var_kind _))
        | exact hR.gen_assign _ _ (Or.inr (op_deref_kind _))
        | exact hR.gen_add _ _ _ (op_var_kind _)
        | exact hR.gen_sub _ _ _ (op_var_kind _)
        | exact hR.gen_mul _ _ _ (op_var_kind _)
        | exact hR.gen_div _ _ _ (op_var_kind _)
        | exact hR.gen_goto _
        | exact hR.gen_branch _ _ _ _
        | exact hR.gen_return _
        | exact hR.gen_dec _ _ (op_var_kind _)
        | exact hR.gen_call _ _ (op_var_kind _)
        | exact hR.gen_arg _
        | exact hR.gen_param _ (op_var_kind _)
        | exact hR.gen_read _ (op_var_kind _)
        | exact hR.gen_write _
        | refine Holds_bind hR ?_ (fun _ => ?_)
        | exact ihC _ (by first | (simp_wf; omega) | simp_wf) _ _
    | OR tp l r =>
      rw [translate_Cond_OR]
      repeat' with_reducible first
        | exact Holds_pure hR _
        | exact Holds_panic hR _
        | exact Holds_assert hR _
        | exact Holds_get_isref hR _
        | exact Holds_get_ir hR _
        | exact Holds_get_ignore_var hR
        | exact Holds_op_rval hR _
        | exact Holds_Assert hR _ _
        | exact Holds_not_null hR _
        | exact Holds_cast_irvar hR _
        | exact Holds_cast_irlabel hR _
        | exact hR.new_var
        | exact hR.new_label
        | exact hR.new_named_label _
        | exact hR.set_isref _ _
        | exact hR.set_ir _ _
        | exact hR.gen_label _
        | exact hR.gen_func _
        | exact hR.gen_assign _ _ (Or.inl (op_var_kind _))
        | exact hR.gen_assign _ _ (Or.inr (op_deref_kind _))
        | exact hR.gen_add _ _ _ (op_var_kind _)
        | exact hR.gen_sub _ _ _ (op_var_kind _)
        | exact hR.gen_mul _ _ _ (op_var_kind _)
        | exact hR.gen_div _ _ _ (op_var_kind _)
        | exact hR.gen_goto _
        | exact hR.gen_branch _ _ _ _
        | exact hR.gen_return _
        | exact hR.gen_dec _ _ (op_var_kind _)
        | exact hR.gen_call _ _ (op_var_kind _)
        | exact hR.gen_arg _
        | exact hR.gen_param _ (op_var_kind _)
        | exact hR.gen_read _ (op_var_kind _)
        | exact hR.gen_write _
        | refine Holds_bind hR ?_ (fun _ => ?_)
        | exact ihC _ (by first | (simp_wf; omega) | simp_wf) _ _
    | RELOP tp l rt r =>
      rw [translate_Cond_RELOP]
      repeat' with_reducible first
        | exact Holds_pure hR _
        | exact Holds_panic hR _
        | exact Holds_assert hR _
        | exact Holds_get_isref hR _
        | exact Holds_get_ir hR _
        | exact Holds_get_ignore_var hR
        | exact Holds_op_rval hR _
        | exact Holds_Assert hR _ _
        | exact Holds_not_null hR _
        | exact Holds_cast_irvar hR _
        | exact Holds_cast_irlabel hR _
        | exact hR.new_var
        | exact hR.new_label
        | exact hR.new_named_label _
        | exact hR.set_isref _ _
        | exact hR.set_ir _ _
        | exact hR.gen_label _
        | exact hR.gen_func _
        | exact hR.gen_assign _ _ (Or.inl (op_var_kind _))
        | exact hR.gen_assign _ _ (Or.inr (op_deref_kind _))
        | exact hR.gen_add _ _ _ (op_var_kind _)
        | exact hR.gen_sub _ _ _ (op_var_kind _)
        | exact hR.gen_mul _ _ _ (op_var_kind _)
        | exact hR.gen_div _ _ _ (op_var_kind _)
        | exact hR.gen_goto _
        | exact hR.gen_branch _ _ _ _
        | exact hR.gen_return _
        | exact hR.gen_dec _ _ (op_var_kind _)
        | exact hR.gen_call _ _ (op_var_kind _)
        | exact hR.gen_arg _
        | exact hR.gen_param _ (op_var_kind _)
        | exact hR.gen_read _ (op_var_kind _)
        | exact hR.gen_write _
        | refine Holds_bind hR ?_ (fun _ => ?_)
        | exact ihE _ (by first | (simp_wf; omega) | simp_wf) _
    | _ =>
      have hS := ihS (by simp [Exp.rank, Exp.count, Exp.child0, Exp.child1])
      rw [translate_Cond_default _ _ _ (by rfl)]
      repeat' with_reducible first
        | exact Holds_pure hR _
        | exact Holds_panic hR _
        | exact Holds_assert hR _
        | exact Holds_get_isref hR _
        | exact Holds_get_ir hR _
        | exact Holds_get_ignore_var hR
        | exact Holds_op_rval hR _
        | exact Holds_Assert hR _ _
        | exact Holds_not_null hR _
        | exact Holds_cast_irvar hR _
        | exact Holds_cast_irlabel hR _
        | exact hR.new_var
        | exact hR.new_label
        | exact hR.new_named_label _
        | exact hR.set_isref _ _
        | exact hR.set_ir _ _
        | exact hR.gen_label _
        | exact hR.gen_func _
        | exact hR.gen_assign _ _ (Or.inl (op_var_kind _))
        | exact hR.gen_assign _ _ (Or.inr (op_deref_kind _))
        | exact hR.gen_add _ _ _ (op_var_kind _)
        | exact hR.gen_sub _ _ _ (op_var_kind _)
        | exact hR.gen_mul _ _ _ (op_var_kind _)
        | exact hR.gen_div _ _ _ (op_var_kind _)
        | exact hR.gen_goto _
        | exact hR.gen_branch _ _ _ _
        | exact hR.gen_return _
        | exact hR.gen_dec _ _ (op_var_kind _)
        | exact hR.gen_call _ _ (op_var_kind _)
        | exact hR.gen_arg _
        | exact hR.gen_param _ (op_var_kind _)
        | exact hR.gen_read _ (op_var_kind _)
        | exact hR.gen_write _
        | refine Holds_bind hR ?_ (fun _ => ?_)
        | exact hS _
  · intro args ihE ihA
    beta_reduce at ihE ihA
    cases args with
    | one e =>
      rw [translate_Args_one]
      repeat' with_reducible first
        | exact Holds_pure hR _
        | exact Holds_panic hR _
        | exact Holds_assert hR _
        | exact Holds_get_isref hR _
        | exact Holds_get_ir hR _
        | exact Holds_get_ignore_var hR
        | exact Holds_op_rval hR _
        | exact Holds_Assert hR _ _
        | exact Holds_not_null hR _
        | exact Holds_cast_irvar hR _
        | exact Holds_cast_irlabel hR _
        | exact hR.new_var
        | exact hR.new_label
        | exact hR.new_named_label _
        | exact hR.set_isref _ _
        | exact hR.set_ir _ _
        | exact hR.gen_label _
        | exact hR.gen_func _
        | exact hR.gen_assign _ _ (Or.inl (op_var_kind _))
        | exact hR.gen_assign _ _ (Or.inr (op_deref_kind _))
        | exact hR.gen_add _ _ _ (op_var_kind _)
        | exact hR.gen_sub _ _ _ (op_var_kind _)
        | exact hR.gen_mul _ _ _ (op_var_kind _)
        | exact hR.gen_div _ _ _ (op_var_kind _)
        | exact hR.gen_goto _
        | exact hR.gen_branch _ _ _ _
        | exact hR.gen_return _
        | exact hR.gen_dec _ _ (op_var_kind _)
        | exact hR.gen_call _ _ (op_var_kind _)
        | exact hR.gen_arg _
        | exact hR.gen_param _ (op_var_kind _)
        | exact hR.gen_read _ (op_var_kind _)
        | exact hR.gen_write _
        | refine Holds_bind hR ?_ (fun _ => ?_)
        | exact ihE _ (by first | (simp_wf; omega) | simp_wf) _
    | cons e rest =>
      rw [translate_Args_cons]
      repeat' with_reducible first
        | exact Holds_pure hR _
        | exact Holds_panic hR _
        | exact Holds_assert hR _
        | exact Holds_get_isref hR _
        | exact Holds_get_ir hR _
        | exact Holds_get_ignore_var hR
        | exact Holds_op_rval hR _
        | exact Holds_Assert hR _ _
        | exact Holds_not_null hR _
        | exact Holds_cast_irvar hR _
        | exact Holds_cast_irlabel hR _
        | exact hR.new_var
        | exact hR.new_label
        | exact hR.new_named_label _
        | exact hR.set_isref _ _
        | exact hR.set_ir _ _
        | exact hR.gen_label _
        | exact hR.gen_func _
        | exact hR.gen_assign _ _ (Or.inl (op_var_kind _))
        | exact hR.gen_assign _ _ (Or.inr (op_deref_kind _))
        | exact hR.gen_add _ _ _ (op_var_kind _)
        | exact hR.gen_sub _ _ _ (op_var_kind _)
        | exact hR.gen_mul _ _ _ (op_var_kind _)
        | exact hR.gen_div _ _ _ (op_var_kind _)
        | exact hR.gen_goto _
        | exact hR.gen_branch _ _ _ _
        | exact hR.gen_return _
        | exact hR.gen_dec _ _ (op_var_kind _)
        | exact hR.gen_call _ _ (op_var_kind _)
        | exact hR.gen_arg _
        | exact hR.gen_param _ (op_var_kind _)
        | exact hR.gen_read _ (op_var_kind _)
        | exact hR.gen_write _
        | refine Holds_bind hR ?_ (fun _ => ?_)
        | exact ihE _ (by first | (simp_wf; omega) | simp_wf) _
        | exact ihA _ (by first | (simp_wf; omega) | simp_wf)

theorem Holds_translate_Exp (tree : Exp) (target : irvar) :
    Holds R E (translate_Exp tree target) :=
  (Holds_translate_Exp_Cond_Args hR).1 tree target

theorem Holds_translate_Cond (tree : Exp) (lt lf : irlabel) :
    Holds R E (translate_Cond tree lt lf) :=
  (Holds_translate_Exp_Cond_Args hR).2.1 tree lt lf

theorem Holds_translate_Args (tree : Args) : Holds R E (translate_Args tree) :=
  (Holds_translate_Exp_Cond_Args hR).2.2 tree

theorem Holds_translate_FunDec_loop (subev : String → Option symbol)
    (args : List (String × type)) : Holds R E (translate_FunDec_loop subev args) := by
  induction args with
  | nil => exact Holds_pure hR _
  | cons a rest ih =>
    obtain ⟨n, tp⟩ := a
    rw [IRLab.translate_FunDec_loop]
    repeat' with_reducible first
      | exact Holds_pure hR _
      | exact Holds_panic hR _
      | exact Holds_assert hR _
      | exact Holds_get_isref hR _
      | exact Holds_get_ir hR _
      | exact Holds_get_ignore_var hR
      | exact Holds_op_rval hR _
      | exact Holds_Assert hR _ _
      | exact Holds_not_null hR _
      | exact Holds_cast_irvar hR _
      | exact Holds_cast_irlabel hR _
      | exact hR.new_var
      | exact hR.new_label
      | exact hR.new_named_label _
      | exact hR.set_isref _ _
      | exact hR.set_ir _ _
      | exact hR.gen_label _
      | exact hR.gen_func _
      | exact hR.gen_assign _ _ (Or.inl (op_var_kind _))
      | exact hR.gen_assign _ _ (Or.inr (op_deref_kind _))
      | exact hR.gen_add _ _ _ (op_var_kind _)
      | exact hR.gen_sub _ _ _ (op_var_kind _)
      | exact hR.gen_mul _ _ _ (op_var_kind _)
      | exact hR.gen_div _ _ _ (op_var_kind _)
      | exact hR.gen_goto _
      | exact hR.gen_branch _ _ _ _
      | exact hR.gen_return _
      | exact hR.gen_dec _ _ (op_var_kind _)
      | exact hR.gen_call _ _ (op_var_kind _)
      | exact hR.gen_arg _
      | exact hR.gen_param _ (op_var_kind _)
      | exact hR.gen_read _ (op_var_kind _)
      | exact hR.gen_write _
      | refine Holds_bind hR ?_ (fun _ => ?_)
      | exact ih
      | split

theorem Holds_translate_FunDec (tree : FunDec) : Holds R E (translate_FunDec tree) := by
  unfold IRLab.translate_FunDec
  repeat' with_reducible first
    | exact Holds_pure hR _
    | exact Holds_panic hR _
    | exact Holds_assert hR _
    | exact Holds_get_isref hR _
    | exact Holds_get_ir hR _
    | exact Holds_get_ignore_var hR
    | exact Holds_op_rval hR _
    | exact Holds_Assert hR _ _
    | exact Holds_not_null hR _
    | exact Holds_cast_irvar hR _
    | exact Holds_cast_irlabel hR _
    | exact hR.new_var
    | exact hR.new_label
    | exact hR.new_named_label _
    | exact hR.set_isref _ _
    | exact hR.set_ir _ _
    | exact hR.gen_label _
    | exact hR.gen_func _
    | exact hR.gen_assign _ _ (Or.inl (op_var_kind _))
    | exact hR.gen_assign _ _ (Or.inr (op_deref_kind _))
    | exact hR.gen_add _ _ _ (op_var_kind _)
    | exact hR.gen_sub _ _ _ (op_var_kind _)
    | exact hR.gen_mul _ _ _ (op_var_kind _)
    | exact hR.gen_div _ _ _ (op_var_kind _)
    | exact hR.gen_goto _
    | exact hR.gen_branch _ _ _ _
    | exact hR.gen_return _
    | exact hR.gen_dec _ _ (op_var_kind _)
    | exact hR.gen_call _ _ (op_var_kind _)
    | exact hR.gen_arg _
    | exact hR.gen_param _ (op_var_kind _)
    | exact hR.gen_read _ (op_var_kind _)
    | exact hR.gen_write _
    | refine Holds_bind hR ?_ (fun _ => ?_)
    | exact Holds_translate_FunDec_loop hR _ _

theorem Holds_translate_VarDec (tree : VarDec) : Holds R E (translate_VarDec tree) := by
  unfold IRLab.translate_VarDec
  repeat' with_reducible first
    | exact Holds_pure hR _
    | exact Holds_panic hR _
    | exact Holds_assert hR _
    | exact Holds_get_isref hR _
    | exact Holds_get_ir hR _
    | exact Holds_get_ignore_var hR
    | exact Holds_op_rval hR _
    | exact Holds_Assert hR _ _
    | exact Holds_not_null hR _
    | exact Holds_cast_irvar hR _
    | exact Holds_cast_irlabel hR _
    | exact hR.new_var
    | exact hR.new_label
    | exact hR.new_named_label _
    | exact hR.set_isref _ _
    | exact hR.set_ir _ _
    | exact hR.gen_label _
    | exact hR.gen_func _
    | exact hR.gen_assign _ _ (Or.inl (op_var_kind _))
    | exact hR.gen_assign _ _ (Or.inr (op_deref_kind _))
    | exact hR.gen_add _ _ _ (op_var_kind _)
    | exact hR.gen_sub _ _ _ (op_var_kind _)
    | exact hR.gen_mul _ _ _ (op_var_kind _)
    | exact hR.gen_div _ _ _ (op_var_kind _)
    | exact hR.gen_goto _
    | exact hR.gen_branch _ _ _ _
    | exact hR.gen_return _
    | exact hR.gen_dec _ _ (op_var_kind _)
    | exact hR.gen_call _ _ (op_var_kind _)
    | exact hR.gen_arg _
    | exact hR.gen_param _ (op_var_kind _)
    | exact hR.gen_read _ (op_var_kind _)
    | exact hR.gen_write _
    | refine Holds_bind hR ?_ (fun _ => ?_)
    | split

theorem Holds_translate_Dec (tree : Dec) : Holds R E (translate_Dec tree) := by
  unfold IRLab.translate_Dec
  repeat' with_reducible first
    | exact Holds_pure hR _
    | exact Holds_panic hR _
    | exact Holds_assert hR _
    | exact Holds_get_isref hR _
    | exact Holds_get_ir hR _
    | exact Holds_get_ignore_var hR
    | exact Holds_op_rval hR _
    | exact Holds_Assert hR _ _
    | exact Holds_not_null hR _
    | exact Holds_cast_irvar hR _
    | exact Holds_cast_irlabel hR _
    | exact hR.new_var
    | exact hR.new_label
    | exact hR.new_named_label _
    | exact hR.set_isref _ _
    | exact hR.set_ir _ _
    | exact hR.gen_label _
    | exact hR.gen_func _
    | exact hR.gen_assign _ _ (Or.inl (op_var_kind _))
    | exact hR.gen_assign _ _ (Or.inr (op_deref_kind _))
    | exact hR.gen_add _ _ _ (op_var_kind _)
    | exact hR.gen_sub _ _ _ (op_var_kind _)
    | exact hR.gen_mul _ _ _ (op_var_kind _)
    | exact hR.gen_div _ _ _ (op_var_kind _)
    | exact hR.gen_goto _
    | exact hR.gen_branch _ _ _ _
    | exact hR.gen_return _
    | exact hR.gen_dec _ _ (op_var_kind _)
    | exact hR.gen_call _ _ (op_var_kind _)
    | exact hR.gen_arg _
    | exact hR.gen_param _ (op_var_kind _)
    | exact hR.gen_read _ (op_var_kind _)
    | exact hR.gen_write _
    | refine Holds_bind hR ?_ (fun _ => ?_)
    | exact Holds_translate_VarDec hR _
    | exact Holds_translate_Exp hR _ _
    | split

theorem Holds_translate_DecList (tree : DecList) : Holds R E (translate_DecList tree) := by
  induction tree with
  | one d => exact Holds_translate_Dec hR d
  | cons d rest ih =>
    rw [IRLab.translate_DecList]
    exact Holds_bind hR (Holds_translate_Dec hR d) (fun _ => ih)

theorem Holds_translate_DefList (tree : DefList) : Holds R E (translate_DefList tree) := by
  induction tree with
  | nil => exact Holds_pure hR _
  | cons d rest ih =>
    rw [IRLab.translate_DefList]
    exact Holds_bind hR (Holds_translate_DecList hR d.decs) (fun _ => ih)

set_option maxHeartbeats 2000000 in
theorem Holds_translate_Stmt_all :
    (∀ tree, Holds R E (translate_Stmt tree)) ∧ (∀ tree, Holds R E (translate_CompSt tree)) ∧
    (∀ tree, Holds R E (translate_StmtList tree)) := by
  apply stmt_induction
  all_goals intros
  all_goals first
    | rw [IRLab.translate_Stmt]
    | rw [IRLab.translate_CompSt]
    | rw [IRLab.translate_StmtList]
  all_goals repeat' with_reducible first
    | exact Holds_pure hR _
    | exact Holds_panic hR _
    | exact Holds_assert hR _
    | exact Holds_get_isref hR _
    | exact Holds_get_ir hR _
    | exact Holds_get_ignore_var hR
    | exact Holds_op_rval hR _
    | exact Holds_Assert hR _ _
    | exact Holds_not_null hR _
    | exact Holds_cast_irvar hR _
    | exact Holds_cast_irlabel hR _
    | exact hR.new_var
    | exact hR.new_label
    | exact hR.new_named_label _
    | exact hR.set_isref _ _
    | exact hR.set_ir _ _
    | exact hR.gen_label _
    | exact hR.gen_func _
    | exact hR.gen_assign _ _ (Or.inl (op_var_kind _))
    | exact hR.gen_assign _ _ (Or.inr (op_deref_kind _))
    | exact hR.gen_add _ _ _ (op_var_kind _)
    | exact hR.gen_sub _ _ _ (op_var_kind _)
    | exact hR.gen_mul _ _ _ (op_var_kind _)
    | exact hR.gen_div _ _ _ (op_var_kind _)
    | exact hR.gen_goto _
    | exact hR.gen_branch _ _ _ _
    | exact hR.gen_return _
    | exact hR.gen_dec _ _ (op_var_kind _)
    | exact hR.gen_call _ _ (op_var_kind _)
    | exact hR.gen_arg _
    | exact hR.gen_param _ (op_var_kind _)
    | exact hR.gen_read _ (op_var_kind _)
    | exact hR.gen_write _
    | refine Holds_bind hR ?_ (fun _ => ?_)
    | exact Holds_translate_Exp hR _ _
    | exact Holds_translate_Cond hR _ _ _
    | exact Holds_translate_DefList hR _
    | assumption
    | split

theorem Holds_translate_Stmt (tree : Stmt) : Holds R E (translate_Stmt tree) :=
  (Holds_translate_Stmt_all hR).1 tree

theorem Holds_translate_CompSt (tree : CompSt) : Holds R E (translate_CompSt tree) :=
  (Holds_translate_Stmt_all hR).2.1 tree

theorem Holds_translate_ExtDef (tree : ExtDef) : Holds R E (translate_ExtDef tree) := by
  cases tree <;> rw [IRLab.translate_ExtDef]
  · exact Holds_panic hR _
  · exact Holds_pure hR _
  · exact Holds_bind hR (Holds_translate_FunDec hR _) (fun _ => Holds_translate_CompSt hR _)
  · exact Holds_bind hR (Holds_translate_FunDec hR _) (fun _ => Holds_panic hR _)

theorem Holds_translate_ExtDefList (tree : ExtDefList) :
    Holds R E (translate_ExtDefList tree) := by
  induction tree with
  | nil => exact Holds_pure hR _
  | cons d rest ih =>
    rw [IRLab.translate_ExtDefList]
    exact Holds_bind hR (Holds_translate_ExtDef hR d) (fun _ => ih)

theorem Holds_translate_Program (tree : Program) : Holds R E (translate_Program tree) :=
  Holds_translate_ExtDefList hR tree.defs

end Closure

/-! ## Results of the primitives -/

theorem push_ircode_ok_iff {code : ircode} {s : Emitter} {a : Unit} {s' : Emitter} :
    push_ircode code s = .ok (a, s') ↔ s' = { s with irs := code :: s.irs } := by
  simp [push_ircode, eq_comm]

theorem new_var_ok_iff {s : Emitter} {v : irvar} {s' : Emitter} :
    new_var s = .ok (v, s') ↔ 0 ≤ s.var_count ∧
      v = { id := s.var_count + 1, name := "t" ++ toString (s.var_count + 1) } ∧
      s' = { s with var_count := s.var_count + 1, vars := v :: s.vars,
                    isref := Function.update s.isref (s.var_count + 1) false } := by
  unfold new_var
  split
  · constructor
    · intro h2; cases h2; exact ⟨by assumption, rfl, rfl⟩
    · rintro ⟨_, rfl, rfl⟩; rfl
  · constructor
    · intro h2; cases h2
    · rintro ⟨h2, _⟩; exact absurd h2 (by assumption)

theorem new_label_ok_iff {s : Emitter} {l : irlabel} {s' : Emitter} :
    new_label s = .ok (l, s') ↔ 0 ≤ s.count ∧
      l = { addr := s.label_alloc, name := "l" ++ toString (s.count + 1) } ∧
      s' = { s with count := s.count + 1, label_alloc := s.label_alloc + 1 } := by
  unfold new_label
  split
  · constructor
    · intro h2; cases h2; exact ⟨by assumption, rfl, rfl⟩
    · rintro ⟨_, rfl, rfl⟩; rfl
  · constructor
    · intro h2; cases h2
    · rintro ⟨h2, _⟩; exact absurd h2 (by assumption)

theorem new_named_label_ok_iff {name : String} {s : Emitter} {l : irlabel} {s' : Emitter} :
    new_named_label name s = .ok (l, s') ↔
      l = { addr := s.label_alloc, name := name } ∧
      s' = { s with label_alloc := s.label_alloc + 1 } := by
  simp [new_named_label, eq_comm]

theorem AssertVar_ok_iff {op : irop} {s : Emitter} {a : Unit} {s' : Emitter} :
    AssertVar op s = .ok (a, s') ↔ op.kind = .IRO_Variable ∧ s' = s := by
  by_cases h : op.kind = .IRO_Variable
  · simp [AssertVar, h, IRM.pure_apply, eq_comm]
  · simp [AssertVar, h, IRM.fail]

theorem AssertVar_push_ok_iff {op : irop} {code : ircode} {s : Emitter} {u : Unit}
    {s' : Emitter} :
    (AssertVar op >>= fun _ => push_ircode code) s = .ok (u, s') ↔
      op.kind = .IRO_Variable ∧ s' = { s with irs := code :: s.irs } := by
  rw [IRM.bind_ok_iff]
  constructor
  · rintro ⟨a, s1, h1, h2⟩
    obtain ⟨hk, rfl⟩ := AssertVar_ok_iff.mp h1
    exact ⟨hk, push_ircode_ok_iff.mp h2⟩
  · rintro ⟨hk, rfl⟩
    exact ⟨(), s, AssertVar_ok_iff.mpr ⟨hk, rfl⟩, push_ircode_ok_iff.mpr rfl⟩

theorem gen_label_ok_iff {l : irlabel} {s : Emitter} {a : Unit} {s' : Emitter} :
    gen_label l s = .ok (a, s') ↔ s' = { s with irs := ⟨.Label l, false⟩ :: s.irs } :=
  push_ircode_ok_iff

theorem gen_func_ok_iff {l : irlabel} {s : Emitter} {a : Unit} {s' : Emitter} :
    gen_func l s = .ok (a, s') ↔ s' = { s with irs := ⟨.Func l, false⟩ :: s.irs } :=
  push_ircode_ok_iff

theorem gen_goto_ok_iff {l : irlabel} {s : Emitter} {a : Unit} {s' : Emitter} :
    gen_goto l s = .ok (a, s') ↔ s' = { s with irs := ⟨.Goto l, false⟩ :: s.irs } :=
  push_ircode_ok_iff

theorem gen_branch_ok_iff {rt : relop_type} {op1 op2 : irop} {l : irlabel} {s : Emitter}
    {a : Unit} {s' : Emitter} :
    gen_branch rt op1 op2 l s = .ok (a, s') ↔
      s' = { s with irs := ⟨.Branch rt op1 op2 l, false⟩ :: s.irs } :=
  push_ircode_ok_iff

theorem gen_return_ok_iff {r : irop} {s : Emitter} {a : Unit} {s' : Emitter} :
    gen_return r s = .ok (a, s') ↔ s' = { s with irs := ⟨.Return r, false⟩ :: s.irs } :=
  push_ircode_ok_iff

theorem gen_arg_ok_iff {r : irop} {s : Emitter} {a : Unit} {s' : Emitter} :
    gen_arg r s = .ok (a, s') ↔ s' = { s with irs := ⟨.Arg r, false⟩ :: s.irs } :=
  push_ircode_ok_iff

theorem gen_write_ok_iff {r : irop} {s : Emitter} {a : Unit} {s' : Emitter} :
    gen_write r s = .ok (a, s') ↔ s' = { s with irs := ⟨.Write r, false⟩ :: s.irs } :=
  push_ircode_ok_iff

theorem gen_assign_ok_iff {l r : irop} {s : Emitter} {a : Unit} {s' : Emitter} :
    gen_assign l r s = .ok (a, s') ↔ (l.kind = .IRO_Variable ∨ l.kind = .IRO_Deref) ∧
      s' = { s with irs := ⟨.Assign l r, false⟩ :: s.irs } := by
  unfold gen_assign
  by_cases h : l.kind = .IRO_Variable ∨ l.kind = .IRO_Deref
  · simp [h, push_ircode_ok_iff]
  · simp [h, IRM.fail, IRM.bind_apply]

theorem gen_add_ok_iff {t a b : irop} {s : Emitter} {u : Unit} {s' : Emitter} :
    gen_add t a b s = .ok (u, s') ↔ t.kind = .IRO_Variable ∧
      s' = { s with irs := ⟨.Add t a b, false⟩ :: s.irs } :=
  AssertVar_push_ok_iff

theorem gen_sub_ok_iff {t a b : irop} {s : Emitter} {u : Unit} {s' : Emitter} :
    gen_sub t a b s = .ok (u, s') ↔ t.kind = .IRO_Variable ∧
      s' = { s with irs := ⟨.Sub t a b, false⟩ :: s.irs } :=
  AssertVar_push_ok_iff

theorem gen_mul_ok_iff {t a b : irop} {s : Emitter} {u : Unit} {s' : Emitter} :
    gen_mul t a b s = .ok (u, s') ↔ t.kind = .IRO_Variable ∧
      s' = { s with irs := ⟨.Mul t a b, false⟩ :: s.irs } :=
  AssertVar_push_ok_iff

theorem gen_div_ok_iff {t a b : irop} {s : Emitter} {u : Unit} {s' : Emitter} :
    gen_div t a b s = .ok (u, s') ↔ t.kind = .IRO_Variable ∧
      s' = { s with irs := ⟨.Div t a b, false⟩ :: s.irs } :=
  AssertVar_push_ok_iff

theorem gen_dec_ok_iff {op : irop} {sz : Int} {s : Emitter} {u : Unit} {s' : Emitter} :
    gen_dec op sz s = .ok (u, s') ↔ op.kind = .IRO_Variable ∧
      s' = { s with irs := ⟨.Dec op sz, false⟩ :: s.irs } :=
  AssertVar_push_ok_iff

theorem gen_call_ok_iff {r : irop} {l : irlabel} {s : Emitter} {u : Unit} {s' : Emitter} :
    gen_call r l s = .ok (u, s') ↔ r.kind = .IRO_Variable ∧
      s' = { s with irs := ⟨.Call r l, false⟩ :: s.irs } :=
  AssertVar_push_ok_iff

theorem gen_param_ok_iff {p : irop} {s : Emitter} {u : Unit} {s' : Emitter} :
    gen_param p s = .ok (u, s') ↔ p.kind = .IRO_Variable ∧
      s' = { s with irs := ⟨.Param p, false⟩ :: s.irs } :=
  AssertVar_push_ok_iff

theorem gen_read_ok_iff {r : irop} {s : Emitter} {u : Unit} {s' : Emitter} :
    gen_read r s = .ok (u, s') ↔ r.kind = .IRO_Variable ∧
      s' = { s with irs := ⟨.Read r, false⟩ :: s.irs } :=
  AssertVar_push_ok_iff

theorem set_isref_ok_iff {v : irvar} {b : Bool} {s : Emitter} {u : Unit} {s' : Emitter} :
    set_isref v b s = .ok (u, s') ↔ s' = { s with isref := Function.update s.isref v.id b } := by
  simp [set_isref, eq_comm]

theorem set_ir_ok_iff {sym : symbol} {p : irptr} {s : Emitter} {u : Unit} {s' : Emitter} :
    set_ir sym p s = .ok (u, s') ↔
      s' = { s with sym_ir := Function.update s.sym_ir sym.addr (some p) } := by
  simp [set_ir, eq_comm]

theorem op_rval_ok_iff {v : irvar} {s : Emitter} {op : irop} {s' : Emitter} :
    op_rval v s = .ok (op, s') ↔
      op = (if s.isref v.id then op_deref v else op_var v) ∧ s' = s := by
  unfold op_rval
  constructor
  · intro h; cases h; exact ⟨rfl, rfl⟩
  · rintro ⟨rfl, rfl⟩; rfl

theorem AssertVar_push_error {op : irop} {code : ircode} {s : Emitter} {e : Err}
    (hk : op.kind = .IRO_Variable) : (AssertVar op >>= fun _ => push_ircode code) s ≠ .error e := by
  simp [IRM.bind_apply, AssertVar, hk, IRM.pure_apply, push_ircode]

theorem gen_assign_error {l r : irop} {s : Emitter} {e : Err}
    (hk : l.kind = .IRO_Variable ∨ l.kind = .IRO_Deref) : gen_assign l r s ≠ .error e := by
  simp [gen_assign, hk, push_ircode]

/-! ## The emitter only grows -/

theorem Emitter.Extends.refl (s : Emitter) : s.Extends s :=
  ⟨⟨[], rfl, by simp⟩, ⟨[], rfl⟩, le_refl _, le_refl _, le_refl _, rfl, rfl⟩

theorem Emitter.Extends.trans {s1 s2 s3 : Emitter} (h12 : s1.Extends s2) (h23 : s2.Extends s3) :
    s1.Extends s3 := by
  obtain ⟨n1, e1, w1⟩ := h12.irs
  obtain ⟨n2, e2, w2⟩ := h23.irs
  obtain ⟨v1, f1⟩ := h12.vars
  obtain ⟨v2, f2⟩ := h23.vars
  refine ⟨⟨n2 ++ n1, by rw [e2, e1, List.append_assoc], ?_⟩, ⟨v2 ++ v1, by rw [f2, f1, List.append_assoc]⟩,
    le_trans h12.var_count h23.var_count, le_trans h12.count h23.count,
    le_trans h12.label_alloc h23.label_alloc, by rw [h23.ignore_var, h12.ignore_var],
    by rw [h23.ir_is_passed, h12.ir_is_passed]⟩
  intro c hc
  rcases List.mem_append.mp hc with h | h
  · exact w2 c h
  · exact w1 c h

/-- Pushing one instruction that passes its assertion extends the state. -/
theorem Emitter.Extends.push (s : Emitter) (ins : irins) (h : ins.WellKinded) :
    s.Extends { s with irs := ⟨ins, false⟩ :: s.irs } :=
  ⟨⟨[⟨ins, false⟩], rfl, by simpa using h⟩, ⟨[], rfl⟩, le_refl _, le_refl _, le_refl _, rfl, rfl⟩

theorem Holds_of_push {E : Err → Prop} {x : IRM Unit} (ins : irins) (h : ins.WellKinded)
    (hok : ∀ s u s', x s = .ok (u, s') → s' = { s with irs := ⟨ins, false⟩ :: s.irs })
    (herr : ∀ s e, x s ≠ .error e) : Holds Emitter.Extends E x := by
  intro s
  constructor
  · intro a s' hx
    rw [hok s a s' hx]
    exact Emitter.Extends.push s ins h
  · intro e hx
    exact absurd hx (herr s e)

/-- Every primitive extends the state, and no primitive whose operand-kind
assertion is met fails with `wrong_op_type`. -/
theorem Prims_Extends : Prims Emitter.Extends (fun e => e ≠ .wrong_op_type) where
  refl := Emitter.Extends.refl
  trans := fun _ _ _ => Emitter.Extends.trans
  panic := by intro msg h; cases h
  assert := by intro msg h; cases h
  new_var := by
    intro s
    constructor
    · intro v s' h
      obtain ⟨h0, rfl, rfl⟩ := new_var_ok_iff.mp h
      exact ⟨⟨[], rfl, by simp⟩, ⟨[_], rfl⟩, by simp, le_refl _, le_refl _, rfl, rfl⟩
    · intro e h
      unfold new_var at h
      split at h <;> cases h
      simp
  new_label := by
    intro s
    constructor
    · intro v s' h
      obtain ⟨h0, rfl, rfl⟩ := new_label_ok_iff.mp h
      exact ⟨⟨[], rfl, by simp⟩, ⟨[], rfl⟩, le_refl _, by simp, by simp, rfl, rfl⟩
    · intro e h
      unfold new_label at h
      split at h <;> cases h
      simp
  new_named_label := by
    intro n s
    constructor
    · intro v s' h
      obtain ⟨rfl, rfl⟩ := new_named_label_ok_iff.mp h
      exact ⟨⟨[], rfl, by simp⟩, ⟨[], rfl⟩, le_refl _, le_refl _, by simp, rfl, rfl⟩
    · intro e h
      cases h
  set_isref := by
    intro v b s
    constructor
    · intro v s' h
      rw [set_isref_ok_iff.mp h]
      exact ⟨⟨[], rfl, by simp⟩, ⟨[], rfl⟩, le_refl _, le_refl _, le_refl _, rfl, rfl⟩
    · intro e h
      cases h
  set_ir := by
    intro v b s
    constructor
    · intro v s' h
      rw [set_ir_ok_iff.mp h]
      exact ⟨⟨[], rfl, by simp⟩, ⟨[], rfl⟩, le_refl _, le_refl _, le_refl _, rfl, rfl⟩
    · intro e h
      cases h
  gen_label := fun l => Holds_of_push (.Label l) trivial
    (fun _ _ _ h => gen_label_ok_iff.mp h) (fun _ _ h => by cases h)
  gen_func := fun l => Holds_of_push (.Func l) trivial
    (fun _ _ _ h => gen_func_ok_iff.mp h) (fun _ _ h => by cases h)
  gen_assign := fun l r hk => Holds_of_push (.Assign l r) hk
    (fun _ _ _ h => (gen_assign_ok_iff.mp h).2) (fun _ _ => gen_assign_error hk)
  gen_add := fun t a b hk => Holds_of_push (.Add t a b) hk
    (fun _ _ _ h => (gen_add_ok_iff.mp h).2) (fun _ _ => AssertVar_push_error hk)
  gen_sub := fun t a b hk => Holds_of_push (.Sub t a b) hk
    (fun _ _ _ h => (gen_sub_ok_iff.mp h).2) (fun _ _ => AssertVar_push_error hk)
  gen_mul := fun t a b hk => Holds_of_push (.Mul t a b) hk
    (fun _ _ _ h => (gen_mul_ok_iff.mp h).2) (fun _ _ => AssertVar_push_error hk)
  gen_div := fun t a b hk => Holds_of_push (.Div t a b) hk
    (fun _ _ _ h => (gen_div_ok_iff.mp h).2) (fun _ _ => AssertVar_push_error hk)
  gen_goto := fun l => Holds_of_push (.Goto l) trivial
    (fun _ _ _ h => gen_goto_ok_iff.mp h) (fun _ _ h => by cases h)
  gen_branch := fun rt a b l => Holds_of_push (.Branch rt a b l) trivial
    (fun _ _ _ h => gen_branch_ok_iff.mp h) (fun _ _ h => by cases h)
  gen_return := fun r => Holds_of_push (.Return r) trivial
    (fun _ _ _ h => gen_return_ok_iff.mp h) (fun _ _ h => by cases h)
  gen_dec := fun op sz hk => Holds_of_push (.Dec op sz) hk
    (fun _ _ _ h => (gen_dec_ok_iff.mp h).2) (fun _ _ => AssertVar_push_error hk)
  gen_call := fun r l hk => Holds_of_push (.Call r l) hk
    (fun _ _ _ h => (gen_call_ok_iff.mp h).2) (fun _ _ => AssertVar_push_error hk)
  gen_arg := fun a => Holds_of_push (.Arg a) trivial
    (fun _ _ _ h => gen_arg_ok_iff.mp h) (fun _ _ h => by cases h)
  gen_param := fun p hk => Holds_of_push (.Param p) hk
    (fun _ _ _ h => (gen_param_ok_iff.mp h).2) (fun _ _ => AssertVar_push_error hk)
  gen_read := fun r hk => Holds_of_push (.Read r) hk
    (fun _ _ _ h => (gen_read_ok_iff.mp h).2) (fun _ _ => AssertVar_push_error hk)
  gen_write := fun w => Holds_of_push (.Write w) trivial
    (fun _ _ _ h => gen_write_ok_iff.mp h) (fun _ _ h => by cases h)

/-! ## Labels: definitions and jump targets -/

theorem label_defs_append (a b : List ircode) :
    label_defs (a ++ b) = label_defs a ++ label_defs b := by
  induction a with
  | nil => rfl
  | cons c r ih => simp [label_defs, ih]

theorem jump_targets_append (a b : List ircode) :
    jump_targets (a ++ b) = jump_targets a ++ jump_targets b := by
  induction a with
  | nil => rfl
  | cons c r ih => simp [jump_targets, ih]

theorem def_count_append (n : Nat) (a b : List ircode) :
    def_count n (a ++ b) = def_count n a + def_count n b := by
  simp [def_count, label_defs_append]

theorem def_count_nil (n : Nat) : def_count n [] = 0 := rfl

theorem WellLabelled_nil (given : List irlabel) (lo : Nat) : WellLabelled given [] lo lo [] :=
  ⟨fun n => by rw [def_count_nil, if_neg (by omega)]; rfl,
   fun l h => by simp [jump_targets] at h, fun l h => by simp at h⟩

theorem WellLabelled_append {given p1 p2 : List irlabel} {lo mid hi : Nat} {a b : List ircode}
    (ha : WellLabelled given p1 lo mid a) (hb : WellLabelled given p2 mid hi b) (h1 : lo ≤ mid)
    (h2 : mid ≤ hi) : WellLabelled given (p1 ++ p2) lo hi (b ++ a) := by
  constructor
  · intro n
    rw [def_count_append, ha.count, hb.count, List.map_append, List.count_append]
    split_ifs <;> omega
  · intro l hl
    rw [jump_targets_append] at hl
    rw [label_defs_append]
    rcases List.mem_append.mp hl with h | h
    · rcases hb.jumps l h with h | h
      · exact Or.inl h
      · exact Or.inr (List.mem_append_left _ h)
    · rcases ha.jumps l h with h | h
      · exact Or.inl h
      · exact Or.inr (List.mem_append_right _ h)
  · intro l hl
    rw [label_defs_append]
    rcases List.mem_append.mp hl with h | h
    · exact List.mem_append_right _ (ha.placed l h)
    · exact List.mem_append_left _ (hb.placed l h)

theorem WellLabelled_mono {g g' p : List irlabel} {lo hi : Nat} {a : List ircode}
    (h : WellLabelled g p lo hi a) (hg : ∀ l ∈ g, l ∈ g') : WellLabelled g' p lo hi a :=
  ⟨h.count, fun l hl => (h.jumps l hl).imp (hg l) id, h.placed⟩

theorem WellLabelled_perm {g p p' : List irlabel} {lo hi : Nat} {a : List ircode}
    (h : WellLabelled g p lo hi a) (hp : p.Perm p') : WellLabelled g p' lo hi a :=
  ⟨fun n => by rw [h.count, (hp.map irlabel.addr).count_eq], h.jumps,
   fun l hl => h.placed l (hp.mem_iff.mpr hl)⟩

theorem WellLabelled_single (given : List irlabel) (lo : Nat) (ins : irins) (h : ins.plain) :
    WellLabelled given [] lo lo [⟨ins, false⟩] := by
  constructor
  · intro n
    rw [if_neg (by omega)]
    cases ins <;> simp [irins.plain] at h <;> simp [def_count, label_defs, ircode.defs]
  · intro l hl
    cases ins <;> simp [irins.plain] at h <;> simp [jump_targets, ircode.jumps] at hl
  · intro l hl
    simp at hl

theorem Labelled_bind {α β : Type} {g p1 p2 : List irlabel} {x : IRM α} {f : α → IRM β}
    (hx : Labelled g p1 x) (hf : ∀ a, Labelled g p2 (f a)) : Labelled g (p1 ++ p2) (x >>= f) := by
  intro s b s' h
  obtain ⟨a, s1, h1, h2⟩ := IRM.bind_ok_iff.mp h
  obtain ⟨n1, e1, l1, w1⟩ := hx _ _ _ h1
  obtain ⟨n2, e2, l2, w2⟩ := hf a _ _ _ h2
  exact ⟨n2 ++ n1, by rw [e2, e1, List.append_assoc], le_trans l1 l2, WellLabelled_append w1 w2 l1 l2⟩

/-- Sequencing of two runs that place no pending label. -/
theorem Labelled_seq {α β : Type} {g : List irlabel} {x : IRM α} {f : α → IRM β}
    (hx : Labelled g [] x) (hf : ∀ a, Labelled g [] (f a)) : Labelled g [] (x >>= f) :=
  Labelled_bind hx hf

theorem Labelled_mono {α : Type} {g g' p : List irlabel} {x : IRM α} (hx : Labelled g p x)
    (hg : ∀ l ∈ g, l ∈ g') : Labelled g' p x := by
  intro s a s' h
  obtain ⟨n, e, l, w⟩ := hx s a s' h
  exact ⟨n, e, l, WellLabelled_mono w hg⟩

theorem Labelled_perm {α : Type} {g p p' : List irlabel} {x : IRM α} (hx : Labelled g p x)
    (hp : p.Perm p') : Labelled g p' x := by
  intro s a s' h
  obtain ⟨n, e, l, w⟩ := hx s a s' h
  exact ⟨n, e, l, WellLabelled_perm w hp⟩

/-- A run that leaves `irs` and `label_alloc` alone is labelled. -/
theorem Labelled_of_same {α : Type} (g : List irlabel) {x : IRM α}
    (h : ∀ s a s', x s = .ok (a, s') → s'.irs = s.irs ∧ s'.label_alloc = s.label_alloc) :
    Labelled g [] x := by
  intro s a s' hx
  obtain ⟨h1, h2⟩ := h s a s' hx
  exact ⟨[], by simpa using h1, by omega, by rw [h2]; exact WellLabelled_nil _ _⟩

/-- A run that pushes one plain instruction is labelled. -/
theorem Labelled_of_push (g : List irlabel) {x : IRM Unit} (ins : irins) (hp : ins.plain)
    (h : ∀ s a s', x s = .ok (a, s') → s' = { s with irs := ⟨ins, false⟩ :: s.irs }) :
    Labelled g [] x := by
  intro s a s' hx
  rw [h s a s' hx]
  exact ⟨[⟨ins, false⟩], rfl, le_refl _, WellLabelled_single _ _ _ hp⟩

theorem Labelled_pure {α : Type} (g : List irlabel) (a : α) : Labelled g [] (pure a : IRM α) :=
  Labelled_of_same g (fun _ _ _ h => by cases h; exact ⟨rfl, rfl⟩)

theorem Labelled_fail {α : Type} (g p : List irlabel) (e : Err) :
    Labelled g p (IRM.fail e : IRM α) := by
  intro s a s' h
  cases h

theorem Labelled_Assert (g : List irlabel) (c : Bool) (msg : String) :
    Labelled g [] (Assert c msg) := by
  unfold IRLab.Assert
  split
  · exact Labelled_pure g _
  · exact Labelled_fail g _ _

theorem Labelled_read {α : Type} (g : List irlabel) (r : Emitter → α) :
    Labelled g [] (fun s => .ok (r s, s) : IRM α) :=
  Labelled_of_same g (fun _ _ _ h => by cases h; exact ⟨rfl, rfl⟩)

theorem Labelled_op_rval (g : List irlabel) (v : irvar) : Labelled g [] (op_rval v) :=
  Labelled_read g _

theorem Labelled_get_isref (g : List irlabel) (v : irvar) : Labelled g [] (get_isref v) :=
  Labelled_read g _

theorem Labelled_get_ir (g : List irlabel) (sym : symbol) : Labelled g [] (get_ir sym) :=
  Labelled_read g _

theorem Labelled_get_ignore_var (g : List irlabel) : Labelled g [] get_ignore_var :=
  Labelled_read g _

theorem Labelled_not_null (g : List irlabel) (val : Option symbol) :
    Labelled g [] (not_null val) := by
  unfold IRLab.not_null
  split
  · exact Labelled_pure g _
  · exact Labelled_fail g _ _

theorem Labelled_cast_irvar (g : List irlabel) (p : Option irptr) :
    Labelled g [] (cast_irvar p) := by
  unfold IRLab.cast_irvar
  split
  · exact Labelled_pure g _
  · exact Labelled_read g _
  · exact Labelled_fail g _ _

theorem Labelled_cast_irlabel (g : List irlabel) (p : Option irptr) :
    Labelled g [] (cast_irlabel p) := by
  unfold IRLab.cast_irlabel
  split
  · exact Labelled_pure g _
  · exact Labelled_fail g _ _
  · exact Labelled_fail g _ _

theorem Labelled_new_var (g : List irlabel) : Labelled g [] new_var :=
  Labelled_of_same g (fun _ _ _ h => by
    obtain ⟨_, _, rfl⟩ := new_var_ok_iff.mp h
    exact ⟨rfl, rfl⟩)

theorem Labelled_set_isref (g : List irlabel) (v : irvar) (b : Bool) :
    Labelled g [] (set_isref v b) :=
  Labelled_of_same g (fun _ _ _ h => by rw [set_isref_ok_iff.mp h]; exact ⟨rfl, rfl⟩)

theorem Labelled_set_ir (g : List irlabel) (sym : symbol) (p : irptr) :
    Labelled g [] (set_ir sym p) :=
  Labelled_of_same g (fun _ _ _ h => by rw [set_ir_ok_iff.mp h]; exact ⟨rfl, rfl⟩)

theorem Labelled_gen_assign (g : List irlabel) (l r : irop) : Labelled g [] (gen_assign l r) :=
  Labelled_of_push g (.Assign l r) trivial (fun _ _ _ h => (gen_assign_ok_iff.mp h).2)

theorem Labelled_gen_add (g : List irlabel) (t a b : irop) : Labelled g [] (gen_add t a b) :=
  Labelled_of_push g (.Add t a b) trivial (fun _ _ _ h => (gen_add_ok_iff.mp h).2)

theorem Labelled_gen_sub (g : List irlabel) (t a b : irop) : Labelled g [] (gen_sub t a b) :=
  Labelled_of_push g (.Sub t a b) trivial (fun _ _ _ h => (gen_sub_ok_iff.mp h).2)

theorem Labelled_gen_mul (g : List irlabel) (t a b : irop) : Labelled g [] (gen_mul t a b) :=
  Labelled_of_push g (.Mul t a b) trivial (fun _ _ _ h => (gen_mul_ok_iff.mp h).2)

theorem Labelled_gen_div (g : List irlabel) (t a b : irop) : Labelled g [] (gen_div t a b) :=
  Labelled_of_push g (.Div t a b) trivial (fun _ _ _ h => (gen_div_ok_iff.mp h).2)

theorem Labelled_gen_return (g : List irlabel) (r : irop) : Labelled g [] (gen_return r) :=
  Labelled_of_push g (.Return r) trivial (fun _ _ _ h => gen_return_ok_iff.mp h)

theorem Labelled_gen_dec (g : List irlabel) (op : irop) (sz : Int) :
    Labelled g [] (gen_dec op sz) :=
  Labelled_of_push g (.Dec op sz) trivial (fun _ _ _ h => (gen_dec_ok_iff.mp h).2)

theorem Labelled_gen_call (g : List irlabel) (r : irop) (l : irlabel) :
    Labelled g [] (gen_call r l) :=
  Labelled_of_push g (.Call r l) trivial (fun _ _ _ h => (gen_call_ok_iff.mp h).2)

theorem Labelled_gen_arg (g : List irlabel) (a : irop) : Labelled g [] (gen_arg a) :=
  Labelled_of_push g (.Arg a) trivial (fun _ _ _ h => gen_arg_ok_iff.mp h)

theorem Labelled_gen_param (g : List irlabel) (p : irop) : Labelled g [] (gen_param p) :=
  Labelled_of_push g (.Param p) trivial (fun _ _ _ h => (gen_param_ok_iff.mp h).2)

theorem Labelled_gen_read (g : List irlabel) (r : irop) : Labelled g [] (gen_read r) :=
  Labelled_of_push g (.Read r) trivial (fun _ _ _ h => (gen_read_ok_iff.mp h).2)

theorem Labelled_gen_write (g : List irlabel) (w : irop) : Labelled g [] (gen_write w) :=
  Labelled_of_push g (.Write w) trivial (fun _ _ _ h => gen_write_ok_iff.mp h)

/-- A single instruction as a segment that allocates nothing. -/
theorem WellLabelled_single_of (g p : List irlabel) (lo : Nat) (c : ircode)
    (hc : ∀ n, def_count n [c] = (p.map irlabel.addr).count n)
    (hj : ∀ l ∈ jump_targets [c], l ∈ g) (hp : ∀ l ∈ p, l ∈ label_defs [c]) :
    WellLabelled g p lo lo [c] :=
  ⟨fun n => by rw [if_neg (by omega), hc, Nat.zero_add], fun l hl => Or.inl (hj l hl), hp⟩

theorem Labelled_gen_goto (g : List irlabel) (l : irlabel) (hl : l ∈ g) :
    Labelled g [] (gen_goto l) := by
  intro s a s' hx
  rw [gen_goto_ok_iff.mp hx]
  refine ⟨[⟨.Goto l, false⟩], rfl, le_refl _, WellLabelled_single_of _ _ _ _ ?_ ?_ ?_⟩
  · intro n
    simp [def_count, label_defs, ircode.defs]
  · intro l' hl'
    simp [jump_targets, ircode.jumps] at hl'
    exact hl' ▸ hl
  · intro l' hl'
    simp at hl'

theorem Labelled_gen_branch (g : List irlabel) (rt : relop_type) (a b : irop) (l : irlabel)
    (hl : l ∈ g) : Labelled g [] (gen_branch rt a b l) := by
  intro s u s' hx
  rw [gen_branch_ok_iff.mp hx]
  refine ⟨[⟨.Branch rt a b l, false⟩], rfl, le_refl _, WellLabelled_single_of _ _ _ _ ?_ ?_ ?_⟩
  · intro n
    simp [def_count, label_defs, ircode.defs]
  · intro l' hl'
    simp [jump_targets, ircode.jumps] at hl'
    exact hl' ▸ hl
  · intro l' hl'
    simp at hl'

theorem Labelled_gen_label (g : List irlabel) (l : irlabel) : Labelled g [l] (gen_label l) := by
  intro s u s' hx
  rw [gen_label_ok_iff.mp hx]
  refine ⟨[⟨.Label l, false⟩], rfl, le_refl _, WellLabelled_single_of _ _ _ _ ?_ ?_ ?_⟩
  · intro n
    simp [def_count, label_defs, ircode.defs]
  · intro l' hl'
    simp [jump_targets, ircode.jumps] at hl'
  · intro l' hl'
    simp [label_defs, ircode.defs] at hl' ⊢
    exact hl'

theorem Labelled_gen_func (g : List irlabel) (l : irlabel) : Labelled g [l] (gen_func l) := by
  intro s u s' hx
  rw [gen_func_ok_iff.mp hx]
  refine ⟨[⟨.Func l, false⟩], rfl, le_refl _, WellLabelled_single_of _ _ _ _ ?_ ?_ ?_⟩
  · intro n
    simp [def_count, label_defs, ircode.defs]
  · intro l' hl'
    simp [jump_targets, ircode.jumps] at hl'
  · intro l' hl'
    simp [label_defs, ircode.defs] at hl' ⊢
    exact hl'

/-- Allocating a label that the continuation places: the label becomes one of
the labels allocated by the run. -/
theorem Labelled_scope {β : Type} {g p : List irlabel} {mint : IRM irlabel} {f : irlabel → IRM β}
    (hm : ∀ s l s', mint s = .ok (l, s') →
      l.addr = s.label_alloc ∧ s'.label_alloc = s.label_alloc + 1 ∧ s'.irs = s.irs)
    (hf : ∀ l, Labelled (l :: g) (l :: p) (f l)) : Labelled g p (mint >>= f) := by
  intro s b s' h
  obtain ⟨l, s1, h1, h2⟩ := IRM.bind_ok_iff.mp h
  obtain ⟨ha, hl, hi⟩ := hm _ _ _ h1
  obtain ⟨new, e, le, w⟩ := hf l _ _ _ h2
  refine ⟨new, by rw [e, hi], by omega, ?_, ?_, ?_⟩
  · intro n
    rw [w.count, hl, List.map_cons, List.count_cons, ha]
    simp only [beq_iff_eq]
    split_ifs <;> omega
  · intro l' hl'
    rcases w.jumps l' hl' with h | h
    · rcases List.mem_cons.mp h with h | h
      · exact Or.inr (h ▸ w.placed l (List.mem_cons_self _ _))
      · exact Or.inl h
    · exact Or.inr h
  · intro l' hl'
    exact w.placed l' (List.mem_cons_of_mem _ hl')

theorem Labelled_new_label {β : Type} {g p : List irlabel} {f : irlabel → IRM β}
    (hf : ∀ l, Labelled (l :: g) (l :: p) (f l)) : Labelled g p (new_label >>= f) :=
  Labelled_scope (fun _ _ _ h => by
    obtain ⟨_, rfl, rfl⟩ := new_label_ok_iff.mp h
    exact ⟨rfl, rfl, rfl⟩) hf

theorem Labelled_new_named_label {β : Type} {g p : List irlabel} (name : String)
    {f : irlabel → IRM β} (hf : ∀ l, Labelled (l :: g) (l :: p) (f l)) :
    Labelled g p (new_named_label name >>= f) :=
  Labelled_scope (fun _ _ _ h => by
    obtain ⟨rfl, rfl⟩ := new_named_label_ok_iff.mp h
    exact ⟨rfl, rfl, rfl⟩) hf

/-! ## Every translator emits a well-labelled segment -/

theorem Labelled_gen_arr_copy_loop (g : List irlabel) (lt rt lo ro : irvar) (sz : Int) :
    ∀ (n : Nat) (i : Int), (sz - i).toNat ≤ n →
      Labelled g [] (gen_arr_copy_loop lt rt lo ro sz i) := by
  intro n
  induction n with
  | zero =>
    intro i hi
    rw [IRLab.gen_arr_copy_loop, if_neg (by omega)]
    exact Labelled_pure _ _
  | succ n ih =>
    intro i hi
    rw [IRLab.gen_arr_copy_loop]
    split
    · repeat' with_reducible first
      | exact Labelled_pure _ _
      | exact Labelled_fail _ _ _
      | exact Labelled_get_isref _ _
      | exact Labelled_get_ir _ _
      | exact Labelled_get_ignore_var _
      | exact Labelled_op_rval _ _
      | exact Labelled_Assert _ _ _
      | exact Labelled_not_null _ _
      | exact Labelled_cast_irvar _ _
      | exact Labelled_cast_irlabel _ _
      | exact Labelled_new_var _
      | exact Labelled_set_isref _ _ _
      | exact Labelled_set_ir _ _ _
      | exact Labelled_gen_assign _ _ _
      | exact Labelled_gen_add _ _ _ _
      | exact Labelled_gen_sub _ _ _ _
      | exact Labelled_gen_mul _ _ _ _
      | exact Labelled_gen_div _ _ _ _
      | exact Labelled_gen_return _ _
      | exact Labelled_gen_dec _ _ _
      | exact Labelled_gen_call _ _ _
      | exact Labelled_gen_arg _ _
      | exact Labelled_gen_param _ _
      | exact Labelled_gen_read _ _
      | exact Labelled_gen_write _ _
      | exact Labelled_gen_goto _ _ (by first | assumption | simp)
      | exact Labelled_gen_branch _ _ _ _ _ (by first | assumption | simp)
      | refine Labelled_seq ?_ (fun _ => ?_)
      | exact ih _ (by omega)
    · exact Labelled_pure _ _

theorem Labelled_gen_arr_copy (g : List irlabel) (lo ro : irvar) (sz : Int) :
    Labelled g [] (gen_arr_copy lo ro sz) := by
  unfold IRLab.gen_arr_copy
  refine Labelled_seq (Labelled_new_var _) (fun _ => ?_)
  refine Labelled_seq (Labelled_new_var _) (fun _ => ?_)
  exact Labelled_gen_arr_copy_loop _ _ _ _ _ _ _ _ (le_refl _)

theorem Labelled_gen_args_loop (g : List irlabel) (args : List (String × type))
    (paramArr : List irvar) (argc : Nat) :
    ∀ n, Labelled g [] (gen_args_loop args paramArr argc n) := by
  intro n
  induction n with
  | zero => exact Labelled_pure _ _
  | succ n ih =>
    rw [IRLab.gen_args_loop]
    dsimp only
    repeat' with_reducible first
      | exact Labelled_pure _ _
      | exact Labelled_fail _ _ _
      | exact Labelled_get_isref _ _
      | exact Labelled_get_ir _ _
      | exact Labelled_get_ignore_var _
      | exact Labelled_op_rval _ _
      | exact Labelled_Assert _ _ _
      | exact Labelled_not_null _ _
      | exact Labelled_cast_irvar _ _
      | exact Labelled_cast_irlabel _ _
      | exact Labelled_new_var _
      | exact Labelled_set_isref _ _ _
      | exact Labelled_set_ir _ _ _
      | exact Labelled_gen_assign _ _ _
      | exact Labelled_gen_add _ _ _ _
      | exact Labelled_gen_sub _ _ _ _
      | exact Labelled_gen_mul _ _ _ _
      | exact Labelled_gen_div _ _ _ _
      | exact Labelled_gen_return _ _
      | exact Labelled_gen_dec _ _ _
      | exact Labelled_gen_call _ _ _
      | exact Labelled_gen_arg _ _
      | exact Labelled_gen_param _ _
      | exact Labelled_gen_read _ _
      | exact Labelled_gen_write _ _
      | exact Labelled_gen_goto _ _ (by first | assumption | simp)
      | exact Labelled_gen_branch _ _ _ _ _ (by first | assumption | simp)
      | refine Labelled_seq ?_ (fun _ => ?_)
      | exact ih
      | split

theorem Labelled_bool_value (tree : Exp) (target : irvar) (g : List irlabel)
    (ht : ∀ lt lf g, lt ∈ g → lf ∈ g → Labelled g [] (translate_Cond tree lt lf)) :
    Labelled g [] (bool_value tree target) := by
  unfold IRLab.bool_value
  refine Labelled_new_label (fun t => Labelled_new_label (fun f => ?_))
  apply Labelled_perm
  · repeat' with_reducible first
    | exact Labelled_pure _ _
    | exact Labelled_fail _ _ _
    | exact Labelled_get_isref _ _
    | exact Labelled_get_ir _ _
    | exact Labelled_get_ignore_var _
    | exact Labelled_op_rval _ _
    | exact Labelled_Assert _ _ _
    | exact Labelled_not_null _ _
    | exact Labelled_cast_irvar _ _
    | exact Labelled_cast_irlabel _ _
    | exact Labelled_new_var _
    | exact Labelled_set_isref _ _ _
    | exact Labelled_set_ir _ _ _
    | exact Labelled_gen_assign _ _ _
    | exact Labelled_gen_add _ _ _ _
    | exact Labelled_gen_sub _ _ _ _
    | exact Labelled_gen_mul _ _ _ _
    | exact Labelled_gen_div _ _ _ _
    | exact Labelled_gen_return _ _
    | exact Labelled_gen_dec _ _ _
    | exact Labelled_gen_call _ _ _
    | exact Labelled_gen_arg _ _
    | exact Labelled_gen_param _ _
    | exact Labelled_gen_read _ _
    | exact Labelled_gen_write _ _
    | exact Labelled_gen_goto _ _ (by first | assumption | simp)
    | exact Labelled_gen_branch _ _ _ _ _ (by first | assumption | simp)
    | exact Labelled_gen_label _ _
    | exact Labelled_gen_func _ _
    | apply Labelled_bind
    | intro _
    | exact ht _ _ _ (by simp) (by simp)
  · exact List.Perm.swap _ _ _

set_option maxHeartbeats 2000000 in
theorem Labelled_translate_Exp_Cond_Args :
    (∀ tree target g, Labelled g [] (translate_Exp tree target)) ∧
    (∀ tree lt lf g, lt ∈ g → lf ∈ g → Labelled g [] (translate_Cond tree lt lf)) ∧
    (∀ args g, Labelled g [] (translate_Args args)) := by
  have h := @translate_induction
    (fun tree => ∀ target g, Labelled g [] (translate_Exp tree target))
    (fun tree => ∀ lt lf g, lt ∈ g → lf ∈ g → Labelled g [] (translate_Cond tree lt lf))
    (fun args => ∀ g, Labelled g [] (translate_Args args))
    ?_ ?_ ?_
  · exact h
  · intro tree ihE ihC ihA ihS target g
    beta_reduce at ihE ihC ihA ihS
    cases tree with
    | AND tp l r => rw [translate_Exp_AND]; exact Labelled_bool_value _ _ _ (ihS rfl)
    | OR tp l r => rw [translate_Exp_OR]; exact Labelled_bool_value _ _ _ (ihS rfl)
    | RELOP tp l rt r => rw [translate_Exp_RELOP]; exact Labelled_bool_value _ _ _ (ihS rfl)
    | ASSIGNOP tp l r =>
      cases l
      case ID ltp val =>
        rw [translate_Exp_ASSIGNOP_ID]
        repeat' with_reducible first
          | exact Labelled_pure _ _
          | exact Labelled_fail _ _ _
          | exact Labelled_get_isref _ _
          | exact Labelled_get_ir _ _
          | exact Labelled_get_ignore_var _
          | exact Labelled_op_rval _ _
          | exact Labelled_Assert _ _ _
          | exact Labelled_not_null _ _
          | exact Labelled_cast_irvar _ _
          | exact Labelled_cast_irlabel _ _
          | exact Labelled_new_var _
          | exact Labelled_set_isref _ _ _
          | exact Labelled_set_ir _ _ _
          | exact Labelled_gen_assign _ _ _
          | exact Labelled_gen_add _ _ _ _
          | exact Labelled_gen_sub _ _ _ _
          | exact Labelled_gen_mul _ _ _ _
          | exact Labelled_gen_div _ _ _ _
          | exact Labelled_gen_return _ _
          | exact Labelled_gen_dec _ _ _
          | exact Labelled_gen_call _ _ _
          | exact Labelled_gen_arg _ _
          | exact Labelled_gen_param _ _
          | exact Labelled_gen_read _ _
          | exact Labelled_gen_write _ _
          | exact Labelled_gen_goto _ _ (by first | assumption | simp)
          | exact Labelled_gen_branch _ _ _ _ _ (by first | assumption | simp)
          | refine Labelled_seq ?_ (fun _ => ?_)
          | exact Labelled_gen_arr_copy _ _ _ _
          | exact ihE _ (by first | (simp_wf; omega) | simp_wf) _ _
          | split
      case INDEX ltp le li =>
        rw [translate_Exp_ASSIGNOP_INDEX]
        repeat' with_reducible first
          | exact Labelled_pure _ _
          | exact Labelled_fail _ _ _
          | exact Labelled_get_isref _ _
          | exact Labelled_get_ir _ _
          | exact Labelled_get_ignore_var _
          | exact Labelled_op_rval _ _
          | exact Labelled_Assert _ _ _
          | exact Labelled_not_null _ _
          | exact Labelled_cast_irvar _ _
          | exact Labelled_cast_irlabel _ _
          | exact Labelled_new_var _
          | exact Labelled_set_isref _ _ _
          | exact Labelled_set_ir _ _ _
          | exact Labelled_gen_assign _ _ _
          | exact Labelled_gen_add _ _ _ _
          | exact Labelled_gen_sub _ _ _ _
          | exact Labelled_gen_mul _ _ _ _
          | exact Labelled_gen_div _ _ _ _
          | exact Labelled_gen_return _ _
          | exact Labelled_gen_dec _ _ _
          | exact Labelled_gen_call _ _ _
          | exact Labelled_gen_arg _ _
          | exact Labelled_gen_param _ _
          | exact Labelled_gen_read _ _
          | exact Labelled_gen_write _ _
          | exact Labelled_gen_goto _ _ (by first | assumption | simp)
          | exact Labelled_gen_branch _ _ _ _ _ (by first | assumption | simp)
          | refine Labelled_seq ?_ (fun _ => ?_)
          | exact Labelled_gen_arr_copy _ _ _ _
          | exact ihE _ (by first | (simp_wf; omega) | simp_wf) _ _
          | split
      case DOT ltp le lname =>
        rw [translate_Exp_ASSIGNOP_DOT]
        repeat' with_reducible first
          | exact Labelled_pure _ _
          | exact Labelled_fail _ _ _
          | exact Labelled_get_isref _ _
          | exact Labelled_get_ir _ _
          | exact Labelled_get_ignore_var _
          | exact Labelled_op_rval _ _
          | exact Labelled_Assert _ _ _
          | exact Labelled_not_null _ _
          | exact Labelled_cast_irvar _ _
          | exact Labelled_cast_irlabel _ _
          | exact Labelled_new_var _
          | exact Labelled_set_isref _ _ _
          | exact Labelled_set_ir _ _ _
          | exact Labelled_gen_assign _ _ _
          | exact Labelled_gen_add _ _ _ _
          | exact Labelled_gen_sub _ _ _ _
          | exact Labelled_gen_mul _ _ _ _
          | exact Labelled_gen_div _ _ _ _
          | exact Labelled_gen_return _ _
          | exact Labelled_gen_dec _ _ _
          | exact Labelled_gen_call _ _ _
          | exact Labelled_gen_arg _ _
          | exact Labelled_gen_param _ _
          | exact Labelled_gen_read _ _
          | exact Labelled_gen_write _ _
          | exact Labelled_gen_goto _ _ (by first | assumption | simp)
          | exact Labelled_gen_branch _ _ _ _ _ (by first | assumption | simp)
          | refine Labelled_seq ?_ (fun _ => ?_)
          | exact ihE _ (by first | (simp_wf; omega) | simp_wf) _ _
          | split
      all_goals (rw [translate_Exp_ASSIGNOP_other _ _ _ _ (by rfl)]; exact Labelled_fail _ _ _)
    | _ =>
      simp only [translate_Exp_INT, translate_Exp_FLOAT, translate_Exp_ID, translate_Exp_NEG,
        translate_Exp_NOT, translate_Exp_LP, translate_Exp_CALL0, translate_Exp_DOT,
        translate_Exp_PLUS, translate_Exp_MINUS, translate_Exp_STAR, translate_Exp_DIV,
        translate_Exp_CALL, translate_Exp_INDEX]
      repeat' with_reducible first
        | exact Labelled_pure _ _
        | exact Labelled_fail _ _ _
        | exact Labelled_get_isref _ _
        | exact Labelled_get_ir _ _
        | exact Labelled_get_ignore_var _
        | exact Labelled_op_rval _ _
        | exact Labelled_Assert _ _ _
        | exact Labelled_not_null _ _
        | exact Labelled_cast_irvar _ _
        | exact Labelled_cast_irlabel _ _
        | exact Labelled_new_var _
        | exact Labelled_set_isref _ _ _
        | exact Labelled_set_ir _ _ _
        | exact Labelled_gen_assign _ _ _
        | exact Labelled_gen_add _ _ _ _
        | exact Labelled_gen_sub _ _ _ _
        | exact Labelled_gen_mul _ _ _ _
        | exact Labelled_gen_div _ _ _ _
        | exact Labelled_gen_return _ _
        | exact Labelled_gen_dec _ _ _
        | exact Labelled_gen_call _ _ _
        | exact Labelled_gen_arg _ _
        | exact Labelled_gen_param _ _
        | exact Labelled_gen_read _ _
        | exact Labelled_gen_write _ _
        | exact Labelled_gen_goto _ _ (by first | assumption | simp)
        | exact Labelled_gen_branch _ _ _ _ _ (by first | assumption | simp)
        | refine Labelled_seq ?_ (fun _ => ?_)
        | exact Labelled_gen_args_loop _ _ _ _ _
        | exact ihE _ (by first | (simp_wf; omega) | simp_wf) _ _
        | exact ihA _ (by first | (simp_wf; omega) | simp_wf) _
        | split
  · intro tree ihE ihC ihS lt lf g hlt hlf
    beta_reduce at ihE ihC ihS
    cases tree with
    | NOT tp e => rw [translate_Cond_NOT]; exact ihC _ (by first | (simp_wf; omega) | simp_wf) _ _ _ hlf hlt
    | LP tp e => rw [translate_Cond_LP]; exact ihC _ (by first | (simp_wf; omega) | simp_wf) _ _ _ hlt hlf
    | AND tp l r =>
      rw [translate_Cond_AND]
      refine Labelled_new_label (fun sl => ?_)
      apply Labelled_perm
      · repeat' with_reducible first
        | exact Labelled_pure _ _
        | exact Labelled_fail _ _ _
        | exact Labelled_get_isref _ _
        | exact Labelled_get_ir _ _
        | exact Labelled_get_ignore_var _
        | exact Labelled_op_rval _ _
        | exact Labelled_Assert _ _ _
        | exact Labelled_not_null _ _
        | exact Labelled_cast_irvar _ _
        | exact Labelled_cast_irlabel _ _
        | exact Labelled_new_var _
        | exact Labelled_set_isref _ _ _
        | exact Labelled_set_ir _ _ _
        | exact Labelled_gen_assign _ _ _
        | exact Labelled_gen_add _ _ _ _
        | exact Labelled_gen_sub _ _ _ _
        | exact Labelled_gen_mul _ _ _ _
        | exact Labelled_gen_div _ _ _ _
        | exact Labelled_gen_return _ _
        | exact Labelled_gen_dec _ _ _
        | exact Labelled_gen_call _ _ _
        | exact Labelled_gen_arg _ _
        | exact Labelled_gen_param _ _
        | exact Labelled_gen_read _ _
        | exact Labelled_gen_write _ _
        | exact Labelled_gen_goto _ _ (by first | assumption | simp)
        | exact Labelled_gen_branch _ _ _ _ _ (by first | assumption | simp)
        | exact Labelled_gen_label _ _
        | exact Labelled_gen_func _ _
        | apply Labelled_bind
        | intro _
        | exact ihC _ (by first | (simp_wf; omega) | simp_wf) _ _ _ (by simp [hlt, hlf]) (by simp [hlt, hlf])
      · exact List.Perm.refl _
    | OR tp l r =>
      rw [translate_Cond_OR]
      refine Labelled_new_label (fun sl => ?_)
      apply Labelled_perm
      · repeat' with_reducible first
        | exact Labelled_pure _ _
        | exact Labelled_fail _ _ _
        | exact Labelled_get_isref _ _
        | exact Labelled_get_ir _ _
        | exact Labelled_get_ignore_var _
        | exact Labelled_op_rval _ _
        | exact Labelled_Assert _ _ _
        | exact Labelled_not_null _ _
        | exact Labelled_cast_irvar _ _
        | exact Labelled_cast_irlabel _ _
        | exact Labelled_new_var _
        | exact Labelled_set_isref _ _ _
        | exact Labelled_set_ir _ _ _
        | exact Labelled_gen_assign _ _ _
        | exact Labelled_gen_add _ _ _ _
        | exact Labelled_gen_sub _ _ _ _
        | exact Labelled_gen_mul _ _ _ _
        | exact Labelled_gen_div _ _ _ _
        | exact Labelled_gen_return _ _
        | exact Labelled_gen_dec _ _ _
        | exact Labelled_gen_call _ _ _
        | exact Labelled_gen_arg _ _
        | exact Labelled_gen_param _ _
        | exact Labelled_gen_read _ _
        | exact Labelled_gen_write _ _
        | exact Labelled_gen_goto _ _ (by first | assumption | simp)
        | exact Labelled_gen_branch _ _ _ _ _ (by first | assumption | simp)
        | exact Labelled_gen_label _ _
        | exact Labelled_gen_func _ _
        | apply Labelled_bind
        | intro _
        | exact ihC _ (by first | (simp_wf; omega) | simp_wf) _ _ _ (by simp [hlt, hlf]) (by simp [hlt, hlf])
      · exact List.Perm.refl _
    | RELOP tp l rt r =>
      rw [translate_Cond_RELOP]
      repeat' with_reducible first
        | exact Labelled_pure _ _
        | exact Labelled_fail _ _ _
        | exact Labelled_get_isref _ _
        | exact Labelled_get_ir _ _
        | exact Labelled_get_ignore_var _
        | exact Labelled_op_rval _ _
        | exact Labelled_Assert _ _ _
        | exact Labelled_not_null _ _
        | exact Labelled_cast_irvar _ _
        | exact Labelled_cast_irlabel _ _
        | exact Labelled_new_var _
        | exact Labelled_set_isref _ _ _
        | exact Labelled_set_ir _ _ _
        | exact Labelled_gen_assign _ _ _
        | exact Labelled_gen_add _ _ _ _
        | exact Labelled_gen_sub _ _ _ _
        | exact Labelled_gen_mul _ _ _ _
        | exact Labelled_gen_div _ _ _ _
        | exact Labelled_gen_return _ _
        | exact Labelled_gen_dec _ _ _
        | exact Labelled_gen_call _ _ _
        | exact Labelled_gen_arg _ _
        | exact Labelled_gen_param _ _
        | exact Labelled_gen_read _ _
        | exact Labelled_gen_write _ _
        | exact Labelled_gen_goto _ _ (by first | assumption | simp)
        | exact Labelled_gen_branch _ _ _ _ _ (by first | assumption | simp)
        | refine Labelled_seq ?_ (fun _ => ?_)
        | exact ihE _ (by first | (simp_wf; omega) | simp_wf) _ _
    | _ =>
      have hS := ihS (by simp [Exp.rank, Exp.count, Exp.child0, Exp.child1])
      rw [translate_Cond_default _ _ _ (by rfl)]
      repeat' with_reducible first
        | exact Labelled_pure _ _
        | exact Labelled_fail _ _ _
        | exact Labelled_get_isref _ _
        | exact Labelled_get_ir _ _
        | exact Labelled_get_ignore_var _
        | exact Labelled_op_rval _ _
        | exact Labelled_Assert _ _ _
        | exact Labelled_not_null _ _
        | exact Labelled_cast_irvar _ _
        | exact Labelled_cast_irlabel _ _
        | exact Labelled_new_var _
        | exact Labelled_set_isref _ _ _
        | exact Labelled_set_ir _ _ _
        | exact Labelled_gen_assign _ _ _
        | exact Labelled_gen_add _ _ _ _
        | exact Labelled_gen_sub _ _ _ _
        | exact Labelled_gen_mul _ _ _ _
        | exact Labelled_gen_div _ _ _ _
        | exact Labelled_gen_return _ _
        | exact Labelled_gen_dec _ _ _
        | exact Labelled_gen_call _ _ _
        | exact Labelled_gen_arg _ _
        | exact Labelled_gen_param _ _
        | exact Labelled_gen_read _ _
        | exact Labelled_gen_write _ _
        | exact Labelled_gen_goto _ _ (by first | assumption | simp)
        | exact Labelled_gen_branch _ _ _ _ _ (by first | assumption | simp)
        | refine Labelled_seq ?_ (fun _ => ?_)
        | exact hS _ _
  · intro args ihE ihA g
    beta_reduce at ihE ihA
    cases args with
    | one e =>
      rw [translate_Args_one]
      repeat' with_reducible first
        | exact Labelled_pure _ _
        | exact Labelled_fail _ _ _
        | exact Labelled_get_isref _ _
        | exact Labelled_get_ir _ _
        | exact Labelled_get_ignore_var _
        | exact Labelled_op_rval _ _
        | exact Labelled_Assert _ _ _
        | exact Labelled_not_null _ _
        | exact Labelled_cast_irvar _ _
        | exact Labelled_cast_irlabel _ _
        | exact Labelled_new_var _
        | exact Labelled_set_isref _ _ _
        | exact Labelled_set_ir _ _ _
        | exact Labelled_gen_assign _ _ _
        | exact Labelled_gen_add _ _ _ _
        | exact Labelled_gen_sub _ _ _ _
        | exact Labelled_gen_mul _ _ _ _
        | exact Labelled_gen_div _ _ _ _
        | exact Labelled_gen_return _ _
        | exact Labelled_gen_dec _ _ _
        | exact Labelled_gen_call _ _ _
        | exact Labelled_gen_arg _ _
        | exact Labelled_gen_param _ _
        | exact Labelled_gen_read _ _
        | exact Labelled_gen_write _ _
        | exact Labelled_gen_goto _ _ (by first | assumption | simp)
        | exact Labelled_gen_branch _ _ _ _ _ (by first | assumption | simp)
        | refine Labelled_seq ?_ (fun _ => ?_)
        | exact ihE _ (by first | (simp_wf; omega) | simp_wf) _ _
    | cons e rest =>
      rw [translate_Args_cons]
      repeat' with_reducible first
        | exact Labelled_pure _ _
        | exact Labelled_fail _ _ _
        | exact Labelled_get_isref _ _
        | exact Labelled_get_ir _ _
        | exact Labelled_get_ignore_var _
        | exact Labelled_op_rval _ _
        | exact Labelled_Assert _ _ _
        | exact Labelled_not_null _ _
        | exact Labelled_cast_irvar _ _
        | exact Labelled_cast_irlabel _ _
        | exact Labelled_new_var _
        | exact Labelled_set_isref _ _ _
        | exact Labelled_set_ir _ _ _
        | exact Labelled_gen_assign _ _ _
        | exact Labelled_gen_add _ _ _ _
        | exact Labelled_gen_sub _ _ _ _
        | exact Labelled_gen_mul _ _ _ _
        | exact Labelled_gen_div _ _ _ _
        | exact Labelled_gen_return _ _
        | exact Labelled_gen_dec _ _ _
        | exact Labelled_gen_call _ _ _
        | exact Labelled_gen_arg _ _
        | exact Labelled_gen_param _ _
        | exact Labelled_gen_read _ _
        | exact Labelled_gen_write _ _
        | exact Labelled_gen_goto _ _ (by first | assumption | simp)
        | exact Labelled_gen_branch _ _ _ _ _ (by first | assumption | simp)
        | refine Labelled_seq ?_ (fun _ => ?_)
        | exact ihE _ (by first | (simp_wf; omega) | simp_wf) _ _
        | exact ihA _ (by first | (simp_wf; omega) | simp_wf) _

theorem Labelled_translate_Exp (g : List irlabel) (tree : Exp) (target : irvar) :
    Labelled g [] (translate_Exp tree target) :=
  Labelled_translate_Exp_Cond_Args.1 tree target g

theorem Labelled_translate_Cond (g : List irlabel) (tree : Exp) (lt lf : irlabel) (hlt : lt ∈ g)
    (hlf : lf ∈ g) : Labelled g [] (translate_Cond tree lt lf) :=
  Labelled_translate_Exp_Cond_Args.2.1 tree lt lf g hlt hlf

theorem Labelled_translate_FunDec_loop (g : List irlabel) (subev : String → Option symbol)
    (args : List (String × type)) : Labelled g [] (translate_FunDec_loop subev args) := by
  induction args with
  | nil => exact Labelled_pure _ _
  | cons a rest ih =>
    obtain ⟨n, tp⟩ := a
    rw [IRLab.translate_FunDec_loop]
    repeat' with_reducible first
      | exact Labelled_pure _ _
      | exact Labelled_fail _ _ _
      | exact Labelled_get_isref _ _
      | exact Labelled_get_ir _ _
      | exact Labelled_get_ignore_var _
      | exact Labelled_op_rval _ _
      | exact Labelled_Assert _ _ _
      | exact Labelled_not_null _ _
      | exact Labelled_cast_irvar _ _
      | exact Labelled_cast_irlabel _ _
      | exact Labelled_new_var _
      | exact Labelled_set_isref _ _ _
      | exact Labelled_set_ir _ _ _
      | exact Labelled_gen_assign _ _ _
      | exact Labelled_gen_add _ _ _ _
      | exact Labelled_gen_sub _ _ _ _
      | exact Labelled_gen_mul _ _ _ _
      | exact Labelled_gen_div _ _ _ _
      | exact Labelled_gen_return _ _
      | exact Labelled_gen_dec _ _ _
      | exact Labelled_gen_call _ _ _
      | exact Labelled_gen_arg _ _
      | exact Labelled_gen_param _ _
      | exact Labelled_gen_read _ _
      | exact Labelled_gen_write _ _
      | exact Labelled_gen_goto _ _ (by first | assumption | simp)
      | exact Labelled_gen_branch _ _ _ _ _ (by first | assumption | simp)
      | refine Labelled_seq ?_ (fun _ => ?_)
      | exact ih
      | split

theorem Labelled_translate_FunDec (g : List irlabel) (tree : FunDec) :
    Labelled g [] (translate_FunDec tree) := by
  unfold IRLab.translate_FunDec
  refine Labelled_seq (Labelled_not_null _ _) (fun sym => ?_)
  refine Labelled_new_named_label _ (fun label => ?_)
  apply Labelled_perm
  · repeat' with_reducible first
    | exact Labelled_pure _ _
    | exact Labelled_fail _ _ _
    | exact Labelled_get_isref _ _
    | exact Labelled_get_ir _ _
    | exact Labelled_get_ignore_var _
    | exact Labelled_op_rval _ _
    | exact Labelled_Assert _ _ _
    | exact Labelled_not_null _ _
    | exact Labelled_cast_irvar _ _
    | exact Labelled_cast_irlabel _ _
    | exact Labelled_new_var _
    | exact Labelled_set_isref _ _ _
    | exact Labelled_set_ir _ _ _
    | exact Labelled_gen_assign _ _ _
    | exact Labelled_gen_add _ _ _ _
    | exact Labelled_gen_sub _ _ _ _
    | exact Labelled_gen_mul _ _ _ _
    | exact Labelled_gen_div _ _ _ _
    | exact Labelled_gen_return _ _
    | exact Labelled_gen_dec _ _ _
    | exact Labelled_gen_call _ _ _
    | exact Labelled_gen_arg _ _
    | exact Labelled_gen_param _ _
    | exact Labelled_gen_read _ _
    | exact Labelled_gen_write _ _
    | exact Labelled_gen_goto _ _ (by first | assumption | simp)
    | exact Labelled_gen_branch _ _ _ _ _ (by first | assumption | simp)
    | exact Labelled_gen_label _ _
    | exact Labelled_gen_func _ _
    | apply Labelled_bind
    | intro _
    | exact Labelled_translate_FunDec_loop _ _ _
  · exact List.Perm.refl _

theorem Labelled_translate_VarDec (g : List irlabel) (tree : VarDec) :
    Labelled g [] (translate_VarDec tree) := by
  unfold IRLab.translate_VarDec
  repeat' with_reducible first
    | exact Labelled_pure _ _
    | exact Labelled_fail _ _ _
    | exact Labelled_get_isref _ _
    | exact Labelled_get_ir _ _
    | exact Labelled_get_ignore_var _
    | exact Labelled_op_rval _ _
    | exact Labelled_Assert _ _ _
    | exact Labelled_not_null _ _
    | exact Labelled_cast_irvar _ _
    | exact Labelled_cast_irlabel _ _
    | exact Labelled_new_var _
    | exact Labelled_set_isref _ _ _
    | exact Labelled_set_ir _ _ _
    | exact Labelled_gen_assign _ _ _
    | exact Labelled_gen_add _ _ _ _
    | exact Labelled_gen_sub _ _ _ _
    | exact Labelled_gen_mul _ _ _ _
    | exact Labelled_gen_div _ _ _ _
    | exact Labelled_gen_return _ _
    | exact Labelled_gen_dec _ _ _
    | exact Labelled_gen_call _ _ _
    | exact Labelled_gen_arg _ _
    | exact Labelled_gen_param _ _
    | exact Labelled_gen_read _ _
    | exact Labelled_gen_write _ _
    | exact Labelled_gen_goto _ _ (by first | assumption | simp)
    | exact Labelled_gen_branch _ _ _ _ _ (by first | assumption | simp)
    | refine Labelled_seq ?_ (fun _ => ?_)
    | split

theorem Labelled_translate_Dec (g : List irlabel) (tree : Dec) :
    Labelled g [] (translate_Dec tree) := by
  unfold IRLab.translate_Dec
  repeat' with_reducible first
    | exact Labelled_pure _ _
    | exact Labelled_fail _ _ _
    | exact Labelled_get_isref _ _
    | exact Labelled_get_ir _ _
    | exact Labelled_get_ignore_var _
    | exact Labelled_op_rval _ _
    | exact Labelled_Assert _ _ _
    | exact Labelled_not_null _ _
    | exact Labelled_cast_irvar _ _
    | exact Labelled_cast_irlabel _ _
    | exact Labelled_new_var _
    | exact Labelled_set_isref _ _ _
    | exact Labelled_set_ir _ _ _
    | exact Labelled_gen_assign _ _ _
    | exact Labelled_gen_add _ _ _ _
    | exact Labelled_gen_sub _ _ _ _
    | exact Labelled_gen_mul _ _ _ _
    | exact Labelled_gen_div _ _ _ _
    | exact Labelled_gen_return _ _
    | exact Labelled_gen_dec _ _ _
    | exact Labelled_gen_call _ _ _
    | exact Labelled_gen_arg _ _
    | exact Labelled_gen_param _ _
    | exact Labelled_gen_read _ _
    | exact Labelled_gen_write _ _
    | exact Labelled_gen_goto _ _ (by first | assumption | simp)
    | exact Labelled_gen_branch _ _ _ _ _ (by first | assumption | simp)
    | refine Labelled_seq ?_ (fun _ => ?_)
    | exact Labelled_translate_VarDec _ _
    | exact Labelled_translate_Exp _ _ _
    | split

theorem Labelled_translate_DecList (g : List irlabel) (tree : DecList) :
    Labelled g [] (translate_DecList tree) := by
  induction tree with
  | one d => exact Labelled_translate_Dec _ d
  | cons d rest ih =>
    rw [IRLab.translate_DecList]
    exact Labelled_seq (Labelled_translate_Dec _ d) (fun _ => ih)

theorem Labelled_translate_DefList (g : List irlabel) (tree : DefList) :
    Labelled g [] (translate_DefList tree) := by
  induction tree with
  | nil => exact Labelled_pure _ _
  | cons d rest ih =>
    rw [IRLab.translate_DefList]
    exact Labelled_seq (Labelled_translate_DecList _ d.decs) (fun _ => ih)

set_option maxHeartbeats 2000000 in
theorem Labelled_translate_Stmt_all :
    (∀ tree g, Labelled g [] (translate_Stmt tree)) ∧
    (∀ tree g, Labelled g [] (translate_CompSt tree)) ∧
    (∀ tree g, Labelled g [] (translate_StmtList tree)) := by
  apply stmt_induction
  case hIF =>
    intro c s ih g
    rw [IRLab.translate_Stmt]
    refine Labelled_new_label (fun lt => Labelled_new_label (fun lf => ?_))
    apply Labelled_perm
    · repeat' with_reducible first
      | exact Labelled_pure _ _
      | exact Labelled_fail _ _ _
      | exact Labelled_get_isref _ _
      | exact Labelled_get_ir _ _
      | exact Labelled_get_ignore_var _
      | exact Labelled_op_rval _ _
      | exact Labelled_Assert _ _ _
      | exact Labelled_not_null _ _
      | exact Labelled_cast_irvar _ _
      | exact Labelled_cast_irlabel _ _
      | exact Labelled_new_var _
      | exact Labelled_set_isref _ _ _
      | exact Labelled_set_ir _ _ _
      | exact Labelled_gen_assign _ _ _
      | exact Labelled_gen_add _ _ _ _
      | exact Labelled_gen_sub _ _ _ _
      | exact Labelled_gen_mul _ _ _ _
      | exact Labelled_gen_div _ _ _ _
      | exact Labelled_gen_return _ _
      | exact Labelled_gen_dec _ _ _
      | exact Labelled_gen_call _ _ _
      | exact Labelled_gen_arg _ _
      | exact Labelled_gen_param _ _
      | exact Labelled_gen_read _ _
      | exact Labelled_gen_write _ _
      | exact Labelled_gen_goto _ _ (by first | assumption | simp)
      | exact Labelled_gen_branch _ _ _ _ _ (by first | assumption | simp)
      | exact Labelled_gen_label _ _
      | exact Labelled_gen_func _ _
      | apply Labelled_bind
      | intro _
      | exact Labelled_translate_Cond _ _ _ _ (by simp) (by simp)
      | exact ih _
    · exact List.Perm.swap _ _ _
  case hIF_ELSE =>
    intro c s1 s2 ih1 ih2 g
    rw [IRLab.translate_Stmt]
    refine Labelled_new_label (fun lt => Labelled_new_label (fun lf =>
      Labelled_new_label (fun le => ?_)))
    apply Labelled_perm
    · repeat' with_reducible first
      | exact Labelled_pure _ _
      | exact Labelled_fail _ _ _
      | exact Labelled_get_isref _ _
      | exact Labelled_get_ir _ _
      | exact Labelled_get_ignore_var _
      | exact Labelled_op_rval _ _
      | exact Labelled_Assert _ _ _
      | exact Labelled_not_null _ _
      | exact Labelled_cast_irvar _ _
      | exact Labelled_cast_irlabel _ _
      | exact Labelled_new_var _
      | exact Labelled_set_isref _ _ _
      | exact Labelled_set_ir _ _ _
      | exact Labelled_gen_assign _ _ _
      | exact Labelled_gen_add _ _ _ _
      | exact Labelled_gen_sub _ _ _ _
      | exact Labelled_gen_mul _ _ _ _
      | exact Labelled_gen_div _ _ _ _
      | exact Labelled_gen_return _ _
      | exact Labelled_gen_dec _ _ _
      | exact Labelled_gen_call _ _ _
      | exact Labelled_gen_arg _ _
      | exact Labelled_gen_param _ _
      | exact Labelled_gen_read _ _
      | exact Labelled_gen_write _ _
      | exact Labelled_gen_goto _ _ (by first | assumption | simp)
      | exact Labelled_gen_branch _ _ _ _ _ (by first | assumption | simp)
      | exact Labelled_gen_label _ _
      | exact Labelled_gen_func _ _
      | apply Labelled_bind
      | intro _
      | exact Labelled_translate_Cond _ _ _ _ (by simp) (by simp)
      | exact ih1 _
      | exact ih2 _
    · simp only [List.nil_append, List.singleton_append, List.append_nil]
      exact List.reverse_perm [le, lf, lt]
  case hWHILE =>
    intro c s ih g
    rw [IRLab.translate_Stmt]
    refine Labelled_new_label (fun lt => Labelled_new_label (fun lf =>
      Labelled_new_label (fun ls => ?_)))
    apply Labelled_perm
    · repeat' with_reducible first
      | exact Labelled_pure _ _
      | exact Labelled_fail _ _ _
      | exact Labelled_get_isref _ _
      | exact Labelled_get_ir _ _
      | exact Labelled_get_ignore_var _
      | exact Labelled_op_rval _ _
      | exact Labelled_Assert _ _ _
      | exact Labelled_not_null _ _
      | exact Labelled_cast_irvar _ _
      | exact Labelled_cast_irlabel _ _
      | exact Labelled_new_var _
      | exact Labelled_set_isref _ _ _
      | exact Labelled_set_ir _ _ _
      | exact Labelled_gen_assign _ _ _
      | exact Labelled_gen_add _ _ _ _
      | exact Labelled_gen_sub _ _ _ _
      | exact Labelled_gen_mul _ _ _ _
      | exact Labelled_gen_div _ _ _ _
      | exact Labelled_gen_return _ _
      | exact Labelled_gen_dec _ _ _
      | exact Labelled_gen_call _ _ _
      | exact Labelled_gen_arg _ _
      | exact Labelled_gen_param _ _
      | exact Labelled_gen_read _ _
      | exact Labelled_gen_write _ _
      | exact Labelled_gen_goto _ _ (by first | assumption | simp)
      | exact Labelled_gen_branch _ _ _ _ _ (by first | assumption | simp)
      | exact Labelled_gen_label _ _
      | exact Labelled_gen_func _ _
      | apply Labelled_bind
      | intro _
      | exact Labelled_translate_Cond _ _ _ _ (by simp) (by simp)
      | exact ih _
    · simp only [List.nil_append, List.singleton_append, List.append_nil]
      exact List.Perm.cons _ (List.Perm.swap _ _ _)
  all_goals intros
  all_goals first
    | rw [IRLab.translate_Stmt]
    | rw [IRLab.translate_CompSt]
    | rw [IRLab.translate_StmtList]
  all_goals repeat' with_reducible first
    | exact Labelled_pure _ _
    | exact Labelled_fail _ _ _
    | exact Labelled_get_isref _ _
    | exact Labelled_get_ir _ _
    | exact Labelled_get_ignore_var _
    | exact Labelled_op_rval _ _
    | exact Labelled_Assert _ _ _
    | exact Labelled_not_null _ _
    | exact Labelled_cast_irvar _ _
    | exact Labelled_cast_irlabel _ _
    | exact Labelled_new_var _
    | exact Labelled_set_isref _ _ _
    | exact Labelled_set_ir _ _ _
    | exact Labelled_gen_assign _ _ _
    | exact Labelled_gen_add _ _ _ _
    | exact Labelled_gen_sub _ _ _ _
    | exact Labelled_gen_mul _ _ _ _
    | exact Labelled_gen_div _ _ _ _
    | exact Labelled_gen_return _ _
    | exact Labelled_gen_dec _ _ _
    | exact Labelled_gen_call _ _ _
    | exact Labelled_gen_arg _ _
    | exact Labelled_gen_param _ _
    | exact Labelled_gen_read _ _
    | exact Labelled_gen_write _ _
    | exact Labelled_gen_goto _ _ (by first | assumption | simp)
    | exact Labelled_gen_branch _ _ _ _ _ (by first | assumption | simp)
    | refine Labelled_seq ?_ (fun _ => ?_)
    | exact Labelled_translate_Exp _ _ _
    | exact Labelled_translate_DefList _ _
    | apply_assumption
    | split

theorem Labelled_translate_CompSt (g : List irlabel) (tree : CompSt) :
    Labelled g [] (translate_CompSt tree) :=
  Labelled_translate_Stmt_all.2.1 tree g

theorem Labelled_translate_ExtDef (g : List irlabel) (tree : ExtDef) :
    Labelled g [] (translate_ExtDef tree) := by
  cases tree <;> rw [IRLab.translate_ExtDef]
  · exact Labelled_fail _ _ _
  · exact Labelled_pure _ _
  · exact Labelled_seq (Labelled_translate_FunDec _ _) (fun _ => Labelled_translate_CompSt _ _)
  · exact Labelled_seq (Labelled_translate_FunDec _ _) (fun _ => Labelled_fail _ _ _)

theorem Labelled_translate_ExtDefList (g : List irlabel) (tree : ExtDefList) :
    Labelled g [] (translate_ExtDefList tree) := by
  induction tree with
  | nil => exact Labelled_pure _ _
  | cons d rest ih =>
    rw [IRLab.translate_ExtDefList]
    exact Labelled_seq (Labelled_translate_ExtDef _ d) (fun _ => ih)

theorem Labelled_translate_Program (tree : Program) : Labelled [] [] (translate_Program tree) :=
  Labelled_translate_ExtDefList _ tree.defs

/-! ## Variables referenced by the emitted code -/

theorem Tracks_bind {α β : Type} {V : Set irvar} {pre : Prop} {x : IRM α} {f : α → IRM β}
    {Q : α → Prop} {Q' : β → Prop} (hx : Tracks V pre x Q)
    (hf : ∀ a, Tracks V (pre ∧ Q a) (f a) Q') : Tracks V pre (x >>= f) Q' := by
  intro s b s' h
  obtain ⟨a, s1, h1, h2⟩ := IRM.bind_ok_iff.mp h
  obtain ⟨m1, k1⟩ := hx _ _ _ h1
  obtain ⟨m2, k2⟩ := hf a _ _ _ h2
  refine ⟨m1.trans m2, fun hV hs hp => ?_⟩
  obtain ⟨n1, e1⟩ := m1
  obtain ⟨n2, e2⟩ := m2
  have hV1 : ∀ new, s1.vars = new ++ s.vars → ∀ v ∈ new, v ∈ V := by
    intro new e v hv
    have e' : new = n1 := List.append_cancel_right (e.symm.trans e1.symm)
    exact hV (n2 ++ n1) (by rw [List.append_assoc, e1, e2]) v
      (List.mem_append_right _ (e' ▸ hv))
  have hV2 : ∀ new, s'.vars = new ++ s1.vars → ∀ v ∈ new, v ∈ V := by
    intro new e v hv
    have e' : new = n2 := List.append_cancel_right (e.symm.trans e2.symm)
    exact hV (n2 ++ n1) (by rw [List.append_assoc, e1, e2]) v
      (List.mem_append_left _ (e' ▸ hv))
  obtain ⟨r1, q1⟩ := k1 hV1 hs hp
  exact k2 hV2 r1 ⟨hp, q1⟩

/-- A run that changes neither `vars` nor anything the state refers to. -/
theorem Tracks_of_same {α : Type} {V : Set irvar} {pre : Prop} {x : IRM α} {Q : α → Prop}
    (h : ∀ s a s', x s = .ok (a, s') → s' = s ∧ (s.Refs V → pre → Q a)) : Tracks V pre x Q := by
  intro s a s' hx
  obtain ⟨rfl, hq⟩ := h s a s' hx
  exact ⟨List.suffix_refl _, fun _ hs hp => ⟨hs, hq hs hp⟩⟩

theorem Tracks_pure {α : Type} {V : Set irvar} {pre : Prop} {Q : α → Prop} (a : α)
    (h : pre → Q a) : Tracks V pre (pure a : IRM α) Q :=
  Tracks_of_same (fun _ _ _ hx => by cases hx; exact ⟨rfl, fun _ hp => h hp⟩)

theorem Tracks_skip {α : Type} {V : Set irvar} {pre : Prop} (a : α) :
    Tracks V pre (Pure.pure a : IRM α) (fun _ => True) :=
  Tracks_pure a (fun _ => trivial)

theorem Tracks_fail {α : Type} {V : Set irvar} {pre : Prop} {Q : α → Prop} (e : Err) :
    Tracks V pre (IRM.fail e : IRM α) Q := by
  intro s a s' hx
  cases hx

theorem Tracks_Assert {V : Set irvar} {pre : Prop} (c : Bool) (msg : String) :
    Tracks V pre (Assert c msg) (fun _ => True) := by
  unfold IRLab.Assert
  split
  · exact Tracks_pure _ (fun _ => trivial)
  · exact Tracks_fail _

theorem Tracks_not_null {V : Set irvar} {pre : Prop} (val : Option symbol) :
    Tracks V pre (not_null val) (fun _ => True) := by
  unfold IRLab.not_null
  split
  · exact Tracks_pure _ (fun _ => trivial)
  · exact Tracks_fail _

theorem Tracks_get_isref {V : Set irvar} {pre : Prop} (v : irvar) :
    Tracks V pre (get_isref v) (fun _ => True) :=
  Tracks_of_same (fun _ _ _ hx => by cases hx; exact ⟨rfl, fun _ _ => trivial⟩)

theorem Tracks_get_ir {V : Set irvar} {pre : Prop} (sym : symbol) :
    Tracks V pre (get_ir sym) (fun p => ∀ v, p = some (.var v) → v ∈ V) :=
  Tracks_of_same (fun _ _ _ hx => by cases hx; exact ⟨rfl, fun hs _ v hv => hs.sym_ir _ v hv⟩)

theorem Tracks_get_ignore_var {V : Set irvar} {pre : Prop} :
    Tracks V pre get_ignore_var (fun o => ∀ v, o = some v → v ∈ V) :=
  Tracks_of_same (fun _ _ _ hx => by cases hx; exact ⟨rfl, fun hs _ v hv => hs.ignore_var v hv⟩)

theorem Tracks_cast_irvar {V : Set irvar} {pre : Prop} (p : Option irptr)
    (h : pre → ∀ v, p = some (.var v) → v ∈ V) : Tracks V pre (cast_irvar p) (fun v => v ∈ V) := by
  unfold IRLab.cast_irvar
  split
  · exact Tracks_pure _ (fun hp => h hp _ rfl)
  · exact Tracks_of_same (fun _ _ _ hx => by cases hx; exact ⟨rfl, fun hs _ => hs.label_as_var _⟩)
  · exact Tracks_fail _

theorem Tracks_cast_irlabel {V : Set irvar} {pre : Prop} (p : Option irptr) :
    Tracks V pre (cast_irlabel p) (fun _ => True) := by
  unfold IRLab.cast_irlabel
  split
  · exact Tracks_pure _ (fun _ => trivial)
  · exact Tracks_fail _
  · exact Tracks_fail _

theorem Tracks_op_rval {V : Set irvar} {pre : Prop} (v : irvar) (h : pre → v ∈ V) :
    Tracks V pre (op_rval v) (fun op => ∀ w ∈ op.vars, w ∈ V) :=
  Tracks_of_same (fun s _ _ hx => by
    obtain ⟨rfl, rfl⟩ := op_rval_ok_iff.mp hx
    refine ⟨rfl, fun _ hp w hw => ?_⟩
    split at hw <;> simp [op_deref, op_var, irop.vars] at hw <;> exact hw ▸ h hp)

theorem Tracks_new_var {V : Set irvar} {pre : Prop} : Tracks V pre new_var (fun v => v ∈ V) := by
  intro s v s' hx
  obtain ⟨_, hv, rfl⟩ := new_var_ok_iff.mp hx
  refine ⟨List.suffix_cons _ _, fun hV hs _ => ⟨⟨hs.irs, hs.sym_ir, hs.ignore_var, hs.label_as_var⟩, ?_⟩⟩
  exact hV [_] rfl _ (List.mem_singleton.mpr rfl)

theorem Tracks_new_label {V : Set irvar} {pre : Prop} :
    Tracks V pre new_label (fun _ => True) := by
  intro s v s' hx
  obtain ⟨_, _, rfl⟩ := new_label_ok_iff.mp hx
  exact ⟨List.suffix_refl _, fun _ hs _ => ⟨⟨hs.irs, hs.sym_ir, hs.ignore_var, hs.label_as_var⟩, trivial⟩⟩

theorem Tracks_new_named_label {V : Set irvar} {pre : Prop} (name : String) :
    Tracks V pre (new_named_label name) (fun _ => True) := by
  intro s v s' hx
  obtain ⟨_, rfl⟩ := new_named_label_ok_iff.mp hx
  exact ⟨List.suffix_refl _, fun _ hs _ => ⟨⟨hs.irs, hs.sym_ir, hs.ignore_var, hs.label_as_var⟩, trivial⟩⟩

theorem Tracks_set_isref {V : Set irvar} {pre : Prop} (v : irvar) (b : Bool) :
    Tracks V pre (set_isref v b) (fun _ => True) := by
  intro s u s' hx
  rw [set_isref_ok_iff.mp hx]
  exact ⟨List.suffix_refl _, fun _ hs _ => ⟨⟨hs.irs, hs.sym_ir, hs.ignore_var, hs.label_as_var⟩, trivial⟩⟩

theorem Tracks_set_ir {V : Set irvar} {pre : Prop} (sym : symbol) (p : irptr)
    (h : pre → ∀ v, p = .var v → v ∈ V) : Tracks V pre (set_ir sym p) (fun _ => True) := by
  intro s u s' hx
  rw [set_ir_ok_iff.mp hx]
  refine ⟨List.suffix_refl _, fun _ hs hp => ⟨⟨hs.irs, ?_, hs.ignore_var, hs.label_as_var⟩, trivial⟩⟩
  intro a v hv
  simp only [Function.update_apply] at hv
  split at hv
  · exact h hp v (by simpa using hv)
  · exact hs.sym_ir a v hv

/-- A run that pushes one instruction whose variables are in `V`. -/
theorem Tracks_of_push {V : Set irvar} {pre : Prop} {x : IRM Unit} (ins : irins)
    (hv : pre → ∀ v ∈ ins.vars, v ∈ V)
    (h : ∀ s a s', x s = .ok (a, s') → s' = { s with irs := ⟨ins, false⟩ :: s.irs }) :
    Tracks V pre x (fun _ => True) := by
  intro s a s' hx
  rw [h s a s' hx]
  refine ⟨List.suffix_refl _, fun _ hs hp => ⟨⟨?_, hs.sym_ir, hs.ignore_var, hs.label_as_var⟩, trivial⟩⟩
  intro c hc
  rcases List.mem_cons.mp hc with rfl | hc
  · exact hv hp
  · exact hs.irs c hc

theorem Tracks_gen_label {V : Set irvar} {pre : Prop} (l : irlabel) :
    Tracks V pre (gen_label l) (fun _ => True) :=
  Tracks_of_push (.Label l) (fun _ _ h => by simp [irins.vars] at h)
    (fun _ _ _ h => gen_label_ok_iff.mp h)

theorem Tracks_gen_func {V : Set irvar} {pre : Prop} (l : irlabel) :
    Tracks V pre (gen_func l) (fun _ => True) :=
  Tracks_of_push (.Func l) (fun _ _ h => by simp [irins.vars] at h)
    (fun _ _ _ h => gen_func_ok_iff.mp h)

theorem Tracks_gen_goto {V : Set irvar} {pre : Prop} (l : irlabel) :
    Tracks V pre (gen_goto l) (fun _ => True) :=
  Tracks_of_push (.Goto l) (fun _ _ h => by simp [irins.vars] at h)
    (fun _ _ _ h => gen_goto_ok_iff.mp h)

theorem Tracks_gen_assign {V : Set irvar} {pre : Prop} (l r : irop)
    (hv : pre → ∀ v ∈ (irins.Assign l r).vars, v ∈ V) :
    Tracks V pre (gen_assign l r) (fun _ => True) :=
  Tracks_of_push _ hv (fun _ _ _ h => (gen_assign_ok_iff.mp h).2)

theorem Tracks_gen_add {V : Set irvar} {pre : Prop} (t a b : irop)
    (hv : pre → ∀ v ∈ (irins.Add t a b).vars, v ∈ V) :
    Tracks V pre (gen_add t a b) (fun _ => True) :=
  Tracks_of_push _ hv (fun _ _ _ h => (gen_add_ok_iff.mp h).2)

theorem Tracks_gen_sub {V : Set irvar} {pre : Prop} (t a b : irop)
    (hv : pre → ∀ v ∈ (irins.Sub t a b).vars, v ∈ V) :
    Tracks V pre (gen_sub t a b) (fun _ => True) :=
  Tracks_of_push _ hv (fun _ _ _ h => (gen_sub_ok_iff.mp h).2)

theorem Tracks_gen_mul {V : Set irvar} {pre : Prop} (t a b : irop)
    (hv : pre → ∀ v ∈ (irins.Mul t a b).vars, v ∈ V) :
    Tracks V pre (gen_mul t a b) (fun _ => True) :=
  Tracks_of_push _ hv (fun _ _ _ h => (gen_mul_ok_iff.mp h).2)

theorem Tracks_gen_div {V : Set irvar} {pre : Prop} (t a b : irop)
    (hv : pre → ∀ v ∈ (irins.Div t a b).vars, v ∈ V) :
    Tracks V pre (gen_div t a b) (fun _ => True) :=
  Tracks_of_push _ hv (fun _ _ _ h => (gen_div_ok_iff.mp h).2)

theorem Tracks_gen_branch {V : Set irvar} {pre : Prop} (rt : relop_type) (a b : irop)
    (l : irlabel) (hv : pre → ∀ v ∈ (irins.Branch rt a b l).vars, v ∈ V) :
    Tracks V pre (gen_branch rt a b l) (fun _ => True) :=
  Tracks_of_push _ hv (fun _ _ _ h => gen_branch_ok_iff.mp h)

theorem Tracks_gen_return {V : Set irvar} {pre : Prop} (r : irop)
    (hv : pre → ∀ v ∈ (irins.Return r).vars, v ∈ V) :
    Tracks V pre (gen_return r) (fun _ => True) :=
  Tracks_of_push _ hv (fun _ _ _ h => gen_return_ok_iff.mp h)

theorem Tracks_gen_dec {V : Set irvar} {pre : Prop} (op : irop) (sz : Int)
    (hv : pre → ∀ v ∈ (irins.Dec op sz).vars, v ∈ V) :
    Tracks V pre (gen_dec op sz) (fun _ => True) :=
  Tracks_of_push _ hv (fun _ _ _ h => (gen_dec_ok_iff.mp h).2)

theorem Tracks_gen_call {V : Set irvar} {pre : Prop} (r : irop) (l : irlabel)
    (hv : pre → ∀ v ∈ (irins.Call r l).vars, v ∈ V) :
    Tracks V pre (gen_call r l) (fun _ => True) :=
  Tracks_of_push _ hv (fun _ _ _ h => (gen_call_ok_iff.mp h).2)

theorem Tracks_gen_arg {V : Set irvar} {pre : Prop} (a : irop)
    (hv : pre → ∀ v ∈ (irins.Arg a).vars, v ∈ V) :
    Tracks V pre (gen_arg a) (fun _ => True) :=
  Tracks_of_push _ hv (fun _ _ _ h => gen_arg_ok_iff.mp h)

theorem Tracks_gen_param {V : Set irvar} {pre : Prop} (p : irop)
    (hv : pre → ∀ v ∈ (irins.Param p).vars, v ∈ V) :
    Tracks V pre (gen_param p) (fun _ => True) :=
  Tracks_of_push _ hv (fun _ _ _ h => (gen_param_ok_iff.mp h).2)

theorem Tracks_gen_read {V : Set irvar} {pre : Prop} (r : irop)
    (hv : pre → ∀ v ∈ (irins.Read r).vars, v ∈ V) :
    Tracks V pre (gen_read r) (fun _ => True) :=
  Tracks_of_push _ hv (fun _ _ _ h => (gen_read_ok_iff.mp h).2)

theorem Tracks_gen_write {V : Set irvar} {pre : Prop} (w : irop)
    (hv : pre → ∀ v ∈ (irins.Write w).vars, v ∈ V) :
    Tracks V pre (gen_write w) (fun _ => True) :=
  Tracks_of_push _ hv (fun _ _ _ h => gen_write_ok_iff.mp h)

/-! ## Every translator refers only to allocated variables -/

theorem Tracks_gen_arr_copy_loop {V : Set irvar} (lt rt lo ro : irvar) (sz : Int) :
    ∀ (n : Nat) (i : Int) (pre : Prop), (sz - i).toNat ≤ n →
      (pre → lt ∈ V ∧ rt ∈ V ∧ lo ∈ V ∧ ro ∈ V) →
      Tracks V pre (gen_arr_copy_loop lt rt lo ro sz i) (fun _ => True) := by
  intro n
  induction n with
  | zero =>
    intro i pre hi hv
    rw [IRLab.gen_arr_copy_loop, if_neg (by omega)]
    exact Tracks_pure _ (fun _ => trivial)
  | succ n ih =>
    intro i pre hi hv
    rw [IRLab.gen_arr_copy_loop]
    split
    · repeat' first
      | with_reducible exact Tracks_fail _
      | with_reducible exact Tracks_Assert _ _
      | with_reducible exact Tracks_not_null _
      | with_reducible exact Tracks_get_isref _
      | with_reducible exact Tracks_get_ir _
      | with_reducible exact Tracks_get_ignore_var
      | with_reducible exact Tracks_cast_irlabel _
      | with_reducible exact Tracks_new_var
      | with_reducible exact Tracks_new_label
      | with_reducible exact Tracks_new_named_label _
      | with_reducible exact Tracks_set_isref _ _
      | with_reducible exact Tracks_gen_label _
      | with_reducible exact Tracks_gen_func _
      | with_reducible exact Tracks_gen_goto _
      | with_reducible exact Tracks_skip _
      | (with_reducible refine Tracks_pure _ ?_); (intro h; simp [irins.vars, irop.vars, op_var, op_const, op_ref, op_deref] at h ⊢ <;> tauto)
      | (with_reducible refine Tracks_cast_irvar _ ?_); (intro h; simp [irins.vars, irop.vars, op_var, op_const, op_ref, op_deref] at h ⊢ <;> tauto)
      | (with_reducible refine Tracks_op_rval _ ?_); (intro h; simp [irins.vars, irop.vars, op_var, op_const, op_ref, op_deref] at h ⊢ <;> tauto)
      | (with_reducible refine Tracks_set_ir _ _ ?_); (intro h; simp [irins.vars, irop.vars, op_var, op_const, op_ref, op_deref] at h ⊢ <;> tauto)
      | (with_reducible refine Tracks_gen_assign _ _ ?_); (intro h; simp [irins.vars, irop.vars, op_var, op_const, op_ref, op_deref] at h ⊢ <;> tauto)
      | (with_reducible refine Tracks_gen_add _ _ _ ?_); (intro h; simp [irins.vars, irop.vars, op_var, op_const, op_ref, op_deref] at h ⊢ <;> tauto)
      | (with_reducible refine Tracks_gen_sub _ _ _ ?_); (intro h; simp [irins.vars, irop.vars, op_var, op_const, op_ref, op_deref] at h ⊢ <;> tauto)
      | (with_reducible refine Tracks_gen_mul _ _ _ ?_); (intro h; simp [irins.vars, irop.vars, op_var, op_const, op_ref, op_deref] at h ⊢ <;> tauto)
      | (with_reducible refine Tracks_gen_div _ _ _ ?_); (intro h; simp [irins.vars, irop.vars, op_var, op_const, op_ref, op_deref] at h ⊢ <;> tauto)
      | (with_reducible refine Tracks_gen_branch _ _ _ _ ?_); (intro h; simp [irins.vars, irop.vars, op_var, op_const, op_ref, op_deref] at h ⊢ <;> tauto)
      | (with_reducible refine Tracks_gen_return _ ?_); (intro h; simp [irins.vars, irop.vars, op_var, op_const, op_ref, op_deref] at h ⊢ <;> tauto)
      | (with_reducible refine Tracks_gen_dec _ _ ?_); (intro h; simp [irins.vars, irop.vars, op_var, op_const, op_ref, op_deref] at h ⊢ <;> tauto)
      | (with_reducible refine Tracks_gen_call _ _ ?_); (intro h; simp [irins.vars, irop.vars, op_var, op_const, op_ref, op_deref] at h ⊢ <;> tauto)
      | (with_reducible refine Tracks_gen_arg _ ?_); (intro h; simp [irins.vars, irop.vars, op_var, op_const, op_ref, op_deref] at h ⊢ <;> tauto)
      | (with_reducible refine Tracks_gen_param _ ?_); (intro h; simp [irins.vars, irop.vars, op_var, op_const, op_ref, op_deref] at h ⊢ <;> tauto)
      | (with_reducible refine Tracks_gen_read _ ?_); (intro h; simp [irins.vars, irop.vars, op_var, op_const, op_ref, op_deref] at h ⊢ <;> tauto)
      | (with_reducible refine Tracks_gen_write _ ?_); (intro h; simp [irins.vars, irop.vars, op_var, op_const, op_ref, op_deref] at h ⊢ <;> tauto)
      | with_reducible apply Tracks_bind
      | with_reducible intro _
      | (with_reducible refine ih _ _ (by omega) ?_); (intro h; have := hv (by tauto); tauto)
    · exact Tracks_pure _ (fun _ => trivial)

theorem Tracks_gen_arr_copy {V : Set irvar} {pre : Prop} (lo ro : irvar) (sz : Int)
    (hv : pre → lo ∈ V ∧ ro ∈ V) : Tracks V pre (gen_arr_copy lo ro sz) (fun _ => True) := by
  unfold IRLab.gen_arr_copy
  refine Tracks_bind Tracks_new_var (fun lt => ?_)
  refine Tracks_bind Tracks_new_var (fun rt => ?_)
  exact Tracks_gen_arr_copy_loop _ _ _ _ _ _ _ _ (le_refl _)
    (fun h => ⟨h.1.2, h.2, (hv h.1.1).1, (hv h.1.1).2⟩)

theorem Tracks_gen_args_loop {V : Set irvar} (args : List (String × type))
    (paramArr : List irvar) (argc : Nat) :
    ∀ (n : Nat) (pre : Prop), (pre → ∀ v ∈ paramArr, v ∈ V) →
      Tracks V pre (gen_args_loop args paramArr argc n) (fun _ => True) := by
  intro n
  induction n with
  | zero =>
    intro pre hv
    exact Tracks_pure _ (fun _ => trivial)
  | succ n ih =>
    intro pre hv
    rw [IRLab.gen_args_loop]
    dsimp only
    split
    · rename_i p _ tp hp _
      have hm : p ∈ paramArr := List.get?_mem hp
      split
      · repeat' first
        | with_reducible exact Tracks_fail _
        | with_reducible exact Tracks_Assert _ _
        | with_reducible exact Tracks_not_null _
        | with_reducible exact Tracks_get_isref _
        | with_reducible exact Tracks_get_ir _
        | with_reducible exact Tracks_get_ignore_var
        | with_reducible exact Tracks_cast_irlabel _
        | with_reducible exact Tracks_new_var
        | with_reducible exact Tracks_new_label
        | with_reducible exact Tracks_new_named_label _
        | with_reducible exact Tracks_set_isref _ _
        | with_reducible exact Tracks_gen_label _
        | with_reducible exact Tracks_gen_func _
        | with_reducible exact Tracks_gen_goto _
        | with_reducible exact Tracks_skip _
        | (with_reducible refine Tracks_pure _ ?_); (intro h; simp [irins.vars, irop.vars, op_var, op_const, op_ref, op_deref] at h ⊢ <;> tauto)
        | (with_reducible refine Tracks_cast_irvar _ ?_); (intro h; simp [irins.vars, irop.vars, op_var, op_const, op_ref, op_deref] at h ⊢ <;> tauto)
        | (with_reducible refine Tracks_op_rval _ ?_); (intro h; simp [irins.vars, irop.vars, op_var, op_const, op_ref, op_deref] at h ⊢ <;> tauto)
        | (with_reducible refine Tracks_set_ir _ _ ?_); (intro h; simp [irins.vars, irop.vars, op_var, op_const, op_ref, op_deref] at h ⊢ <;> tauto)
        | (with_reducible refine Tracks_gen_assign _ _ ?_); (intro h; simp [irins.vars, irop.vars, op_var, op_const, op_ref, op_deref] at h ⊢ <;> tauto)
        | (with_reducible refine Tracks_gen_add _ _ _ ?_); (intro h; simp [irins.vars, irop.vars, op_var, op_const, op_ref, op_deref] at h ⊢ <;> tauto)
        | (with_reducible refine Tracks_gen_sub _ _ _ ?_); (intro h; simp [irins.vars, irop.vars, op_var, op_const, op_ref, op_deref] at h ⊢ <;> tauto)
        | (with_reducible refine Tracks_gen_mul _ _ _ ?_); (intro h; simp [irins.vars, irop.vars, op_var, op_const, op_ref, op_deref] at h ⊢ <;> tauto)
        | (with_reducible refine Tracks_gen_div _ _ _ ?_); (intro h; simp [irins.vars, irop.vars, op_var, op_const, op_ref, op_deref] at h ⊢ <;> tauto)
        | (with_reducible refine Tracks_gen_branch _ _ _ _ ?_); (intro h; simp [irins.vars, irop.vars, op_var, op_const, op_ref, op_deref] at h ⊢ <;> tauto)
        | (with_reducible refine Tracks_gen_return _ ?_); (intro h; simp [irins.vars, irop.vars, op_var, op_const, op_ref, op_deref] at h ⊢ <;> tauto)
        | (with_reducible refine Tracks_gen_dec _ _ ?_); (intro h; simp [irins.vars, irop.vars, op_var, op_const, op_ref, op_deref] at h ⊢ <;> tauto)
        | (with_reducible refine Tracks_gen_call _ _ ?_); (intro h; simp [irins.vars, irop.vars, op_var, op_const, op_ref, op_deref] at h ⊢ <;> tauto)
        | (with_reducible refine Tracks_gen_arg _ ?_); (intro h; simp [irins.vars, irop.vars, op_var, op_const, op_ref, op_deref] at h ⊢ <;> tauto)
        | (with_reducible refine Tracks_gen_param _ ?_); (intro h; simp [irins.vars, irop.vars, op_var, op_const, op_ref, op_deref] at h ⊢ <;> tauto)
        | (with_reducible refine Tracks_gen_read _ ?_); (intro h; simp [irins.vars, irop.vars, op_var, op_const, op_ref, op_deref] at h ⊢ <;> tauto)
        | (with_reducible refine Tracks_gen_write _ ?_); (intro h; simp [irins.vars, irop.vars, op_var, op_const, op_ref, op_deref] at h ⊢ <;> tauto)
        | with_reducible apply Tracks_bind
        | with_reducible intro _
        | (with_reducible refine ih _ ?_); (intro h; exact hv (by tauto))
      · repeat' first
        | with_reducible exact Tracks_fail _
        | with_reducible exact Tracks_Assert _ _
        | with_reducible exact Tracks_not_null _
        | with_reducible exact Tracks_get_isref _
        | with_reducible exact Tracks_get_ir _
        | with_reducible exact Tracks_get_ignore_var
        | with_reducible exact Tracks_cast_irlabel _
        | with_reducible exact Tracks_new_var
        | with_reducible exact Tracks_new_label
        | with_reducible exact Tracks_new_named_label _
        | with_reducible exact Tracks_set_isref _ _
        | with_reducible exact Tracks_gen_label _
        | with_reducible exact Tracks_gen_func _
        | with_reducible exact Tracks_gen_goto _
        | with_reducible exact Tracks_skip _
        | (with_reducible refine Tracks_pure _ ?_); (intro h; simp [irins.vars, irop.vars, op_var, op_const, op_ref, op_deref] at h ⊢ <;> tauto)
        | (with_reducible refine Tracks_cast_irvar _ ?_); (intro h; simp [irins.vars, irop.vars, op_var, op_const, op_ref, op_deref] at h ⊢ <;> tauto)
        | (with_reducible refine Tracks_op_rval _ ?_); (intro h; simp [irins.vars, irop.vars, op_var, op_const, op_ref, op_deref] at h ⊢ <;> tauto)
        | (with_reducible refine Tracks_set_ir _ _ ?_); (intro h; simp [irins.vars, irop.vars, op_var, op_const, op_ref, op_deref] at h ⊢ <;> tauto)
        | (with_reducible refine Tracks_gen_assign _ _ ?_); (intro h; simp [irins.vars, irop.vars, op_var, op_const, op_ref, op_deref] at h ⊢ <;> tauto)
        | (with_reducible refine Tracks_gen_add _ _ _ ?_); (intro h; simp [irins.vars, irop.vars, op_var, op_const, op_ref, op_deref] at h ⊢ <;> tauto)
        | (with_reducible refine Tracks_gen_sub _ _ _ ?_); (intro h; simp [irins.vars, irop.vars, op_var, op_const, op_ref, op_deref] at h ⊢ <;> tauto)
        | (with_reducible refine Tracks_gen_mul _ _ _ ?_); (intro h; simp [irins.vars, irop.vars, op_var, op_const, op_ref, op_deref] at h ⊢ <;> tauto)
        | (with_reducible refine Tracks_gen_div _ _ _ ?_); (intro h; simp [irins.vars, irop.vars, op_var, op_const, op_ref, op_deref] at h ⊢ <;> tauto)
        | (with_reducible refine Tracks_gen_branch _ _ _ _ ?_); (intro h; simp [irins.vars, irop.vars, op_var, op_const, op_ref, op_deref] at h ⊢ <;> tauto)
        | (with_reducible refine Tracks_gen_return _ ?_); (intro h; simp [irins.vars, irop.vars, op_var, op_const, op_ref, op_deref] at h ⊢ <;> tauto)
        | (with_reducible refine Tracks_gen_dec _ _ ?_); (intro h; simp [irins.vars, irop.vars, op_var, op_const, op_ref, op_deref] at h ⊢ <;> tauto)
        | (with_reducible refine Tracks_gen_call _ _ ?_); (intro h; simp [irins.vars, irop.vars, op_var, op_const, op_ref, op_deref] at h ⊢ <;> tauto)
        | (with_reducible refine Tracks_gen_arg _ ?_); (intro h; simp [irins.vars, irop.vars, op_var, op_const, op_ref, op_deref] at h ⊢ <;> tauto)
        | (with_reducible refine Tracks_gen_param _ ?_); (intro h; simp [irins.vars, irop.vars, op_var, op_const, op_ref, op_deref] at h ⊢ <;> tauto)
        | (with_reducible refine Tracks_gen_read _ ?_); (intro h; simp [irins.vars, irop.vars, op_var, op_const, op_ref, op_deref] at h ⊢ <;> tauto)
        | (with_reducible refine Tracks_gen_write _ ?_); (intro h; simp [irins.vars, irop.vars, op_var, op_const, op_ref, op_deref] at h ⊢ <;> tauto)
        | with_reducible apply Tracks_bind
        | with_reducible intro _
        | (with_reducible refine ih _ ?_); (intro h; exact hv (by tauto))
    · exact Tracks_fail _

theorem Tracks_bool_value {V : Set irvar} {pre : Prop} (tree : Exp) (target : irvar)
    (hv : pre → target ∈ V)
    (ht : ∀ V pre lt lf, Tracks V pre (translate_Cond tree lt lf) (fun _ => True)) :
    Tracks V pre (bool_value tree target) (fun _ => True) := by
  unfold IRLab.bool_value
  repeat' first
    | with_reducible exact Tracks_fail _
    | with_reducible exact Tracks_Assert _ _
    | with_reducible exact Tracks_not_null _
    | with_reducible exact Tracks_get_isref _
    | with_reducible exact Tracks_get_ir _
    | with_reducible exact Tracks_get_ignore_var
    | with_reducible exact Tracks_cast_irlabel _
    | with_reducible exact Tracks_new_var
    | with_reducible exact Tracks_new_label
    | with_reducible exact Tracks_new_named_label _
    | with_reducible exact Tracks_set_isref _ _
    | with_reducible exact Tracks_gen_label _
    | with_reducible exact Tracks_gen_func _
    | with_reducible exact Tracks_gen_goto _
    | with_reducible exact Tracks_skip _
    | (with_reducible refine Tracks_pure _ ?_); (intro h; simp [irins.vars, irop.vars, op_var, op_const, op_ref, op_deref] at h ⊢ <;> tauto)
    | (with_reducible refine Tracks_cast_irvar _ ?_); (intro h; simp [irins.vars, irop.vars, op_var, op_const, op_ref, op_deref] at h ⊢ <;> tauto)
    | (with_reducible refine Tracks_op_rval _ ?_); (intro h; simp [irins.vars, irop.vars, op_var, op_const, op_ref, op_deref] at h ⊢ <;> tauto)
    | (with_reducible refine Tracks_set_ir _ _ ?_); (intro h; simp [irins.vars, irop.vars, op_var, op_const, op_ref, op_deref] at h ⊢ <;> tauto)
    | (with_reducible refine Tracks_gen_assign _ _ ?_); (intro h; simp [irins.vars, irop.vars, op_var, op_const, op_ref, op_deref] at h ⊢ <;> tauto)
    | (with_reducible refine Tracks_gen_add _ _ _ ?_); (intro h; simp [irins.vars, irop.vars, op_var, op_const, op_ref, op_deref] at h ⊢ <;> tauto)
    | (with_reducible refine Tracks_gen_sub _ _ _ ?_); (intro h; simp [irins.vars, irop.vars, op_var, op_const, op_ref, op_deref] at h ⊢ <;> tauto)
    | (with_reducible refine Tracks_gen_mul _ _ _ ?_); (intro h; simp [irins.vars, irop.vars, op_var, op_const, op_ref, op_deref] at h ⊢ <;> tauto)
    | (with_reducible refine Tracks_gen_div _ _ _ ?_); (intro h; simp [irins.vars, irop.vars, op_var, op_const, op_ref, op_deref] at h ⊢ <;> tauto)
    | (with_reducible refine Tracks_gen_branch _ _ _ _ ?_); (intro h; simp [irins.vars, irop.vars, op_var, op_const, op_ref, op_deref] at h ⊢ <;> tauto)
    | (with_reducible refine Tracks_gen_return _ ?_); (intro h; simp [irins.vars, irop.vars, op_var, op_const, op_ref, op_deref] at h ⊢ <;> tauto)
    | (with_reducible refine Tracks_gen_dec _ _ ?_); (intro h; simp [irins.vars, irop.vars, op_var, op_const, op_ref, op_deref] at h ⊢ <;> tauto)
    | (with_reducible refine Tracks_gen_call _ _ ?_); (intro h; simp [irins.vars, irop.vars, op_var, op_const, op_ref, op_deref] at h ⊢ <;> tauto)
    | (with_reducible refine Tracks_gen_arg _ ?_); (intro h; simp [irins.vars, irop.vars, op_var, op_const, op_ref, op_deref] at h ⊢ <;> tauto)
    | (with_reducible refine Tracks_gen_param _ ?_); (intro h; simp [irins.vars, irop.vars, op_var, op_const, op_ref, op_deref] at h ⊢ <;> tauto)
    | (with_reducible refine Tracks_gen_read _ ?_); (intro h; simp [irins.vars, irop.vars, op_var, op_const, op_ref, op_deref] at h ⊢ <;> tauto)
    | (with_reducible refine Tracks_gen_write _ ?_); (intro h; simp [irins.vars, irop.vars, op_var, op_const, op_ref, op_deref] at h ⊢ <;> tauto)
    | with_reducible apply Tracks_bind
    | with_reducible intro _
    | with_reducible exact ht _ _ _ _

set_option maxHeartbeats 2000000 in
theorem Tracks_translate_Exp_Cond_Args :
    (∀ tree V pre target, (pre → target ∈ V) →
      Tracks V pre (translate_Exp tree target) (fun _ => True)) ∧
    (∀ tree V pre lt lf, Tracks V pre (translate_Cond tree lt lf) (fun _ => True)) ∧
    (∀ args V pre, Tracks V pre (translate_Args args) (fun ps => ∀ v ∈ ps, v ∈ V)) := by
  have h := @translate_induction
    (fun tree => ∀ V pre target, (pre → target ∈ V) →
      Tracks V pre (translate_Exp tree target) (fun _ => True))
    (fun tree => ∀ V pre lt lf, Tracks V pre (translate_Cond tree lt lf) (fun _ => True))
    (fun args => ∀ V pre, Tracks V pre (translate_Args args) (fun ps => ∀ v ∈ ps, v ∈ V))
    ?_ ?_ ?_
  · exact h
  · intro tree ihE ihC ihA ihS V pre target hv
    beta_reduce at ihE ihC ihA ihS
    cases tree with
    | AND tp l r => rw [translate_Exp_AND]; exact Tracks_bool_value _ _ hv (ihS rfl)
    | OR tp l r => rw [translate_Exp_OR]; exact Tracks_bool_value _ _ hv (ihS rfl)
    | RELOP tp l rt r => rw [translate_Exp_RELOP]; exact Tracks_bool_value _ _ hv (ihS rfl)
    | LP tp e => rw [translate_Exp_LP]; exact ihE _ (by first | (simp_wf; omega) | simp_wf) _ _ _ hv
    | ASSIGNOP tp l r =>
      cases l
      case ID ltp val =>
        rw [translate_Exp_ASSIGNOP_ID]
        repeat' first
          | with_reducible exact Tracks_fail _
          | with_reducible exact Tracks_Assert _ _
          | with_reducible exact Tracks_not_null _
          | with_reducible exact Tracks_get_isref _
          | with_reducible exact Tracks_get_ir _
          | with_reducible exact Tracks_get_ignore_var
          | with_reducible exact Tracks_cast_irlabel _
          | with_reducible exact Tracks_new_var
          | with_reducible exact Tracks_new_label
          | with_reducible exact Tracks_new_named_label _
          | with_reducible exact Tracks_set_isref _ _
          | with_reducible exact Tracks_gen_label _
          | with_reducible exact Tracks_gen_func _
          | with_reducible exact Tracks_gen_goto _
          | with_reducible exact Tracks_skip _
          | (with_reducible refine Tracks_pure _ ?_); (intro h; simp [irins.vars, irop.vars, op_var, op_const, op_ref, op_deref] at h ⊢ <;> tauto)
          | (with_reducible refine Tracks_cast_irvar _ ?_); (intro h; simp [irins.vars, irop.vars, op_var, op_const, op_ref, op_deref] at h ⊢ <;> tauto)
          | (with_reducible refine Tracks_op_rval _ ?_); (intro h; simp [irins.vars, irop.vars, op_var, op_const, op_ref, op_deref] at h ⊢ <;> tauto)
          | (with_reducible refine Tracks_set_ir _ _ ?_); (intro h; simp [irins.vars, irop.vars, op_var, op_const, op_ref, op_deref] at h ⊢ <;> tauto)
          | (with_reducible refine Tracks_gen_assign _ _ ?_); (intro h; simp [irins.vars, irop.vars, op_var, op_const, op_ref, op_deref] at h ⊢ <;> tauto)
          | (with_reducible refine Tracks_gen_add _ _ _ ?_); (intro h; simp [irins.vars, irop.vars, op_var, op_const, op_ref, op_deref] at h ⊢ <;> tauto)
          | (with_reducible refine Tracks_gen_sub _ _ _ ?_); (intro h; simp [irins.vars, irop.vars, op_var, op_const, op_ref, op_deref] at h ⊢ <;> tauto)
          | (with_reducible refine Tracks_gen_mul _ _ _ ?_); (intro h; simp [irins.vars, irop.vars, op_var, op_const, op_ref, op_deref] at h ⊢ <;> tauto)
          | (with_reducible refine Tracks_gen_div _ _ _ ?_); (intro h; simp [irins.vars, irop.vars, op_var, op_const, op_ref, op_deref] at h ⊢ <;> tauto)
          | (with_reducible refine Tracks_gen_branch _ _ _ _ ?_); (intro h; simp [irins.vars, irop.vars, op_var, op_const, op_ref, op_deref] at h ⊢ <;> tauto)
          | (with_reducible refine Tracks_gen_return _ ?_); (intro h; simp [irins.vars, irop.vars, op_var, op_const, op_ref, op_deref] at h ⊢ <;> tauto)
          | (with_reducible refine Tracks_gen_dec _ _ ?_); (intro h; simp [irins.vars, irop.vars, op_var, op_const, op_ref, op_deref] at h ⊢ <;> tauto)
          | (with_reducible refine Tracks_gen_call _ _ ?_); (intro h; simp [irins.vars, irop.vars, op_var, op_const, op_ref, op_deref] at h ⊢ <;> tauto)
          | (with_reducible refine Tracks_gen_arg _ ?_); (intro h; simp [irins.vars, irop.vars, op_var, op_const, op_ref, op_deref] at h ⊢ <;> tauto)
          | (with_reducible refine Tracks_gen_param _ ?_); (intro h; simp [irins.vars, irop.vars, op_var, op_const, op_ref, op_deref] at h ⊢ <;> tauto)
          | (with_reducible refine Tracks_gen_read _ ?_); (intro h; simp [irins.vars, irop.vars, op_var, op_const, op_ref, op_deref] at h ⊢ <;> tauto)
          | (with_reducible refine Tracks_gen_write _ ?_); (intro h; simp [irins.vars, irop.vars, op_var, op_const, op_ref, op_deref] at h ⊢ <;> tauto)
          | with_reducible apply Tracks_bind
          | with_reducible intro _
          | (with_reducible refine Tracks_gen_arr_copy _ _ _ ?_; intro h; simp [irins.vars, irop.vars, op_var, op_const, op_ref, op_deref] at h ⊢ <;> tauto)
          | (with_reducible refine ihE _ (by first | (simp_wf; omega) | simp_wf) _ _ _ ?_); (intro h; simp [irins.vars, irop.vars, op_var, op_const, op_ref, op_deref] at h ⊢ <;> tauto)
          | split
      case INDEX ltp le li =>
        rw [translate_Exp_ASSIGNOP_INDEX]
        repeat' first
          | with_reducible exact Tracks_fail _
          | with_reducible exact Tracks_Assert _ _
          | with_reducible exact Tracks_not_null _
          | with_reducible exact Tracks_get_isref _
          | with_reducible exact Tracks_get_ir _
          | with_reducible exact Tracks_get_ignore_var
          | with_reducible exact Tracks_cast_irlabel _
          | with_reducible exact Tracks_new_var
          | with_reducible exact Tracks_new_label
          | with_reducible exact Tracks_new_named_label _
          | with_reducible exact Tracks_set_isref _ _
          | with_reducible exact Tracks_gen_label _
          | with_reducible exact Tracks_gen_func _
          | with_reducible exact Tracks_gen_goto _
          | with_reducible exact Tracks_skip _
          | (with_reducible refine Tracks_pure _ ?_); (intro h; simp [irins.vars, irop.vars, op_var, op_const, op_ref, op_deref] at h ⊢ <;> tauto)
          | (with_reducible refine Tracks_cast_irvar _ ?_); (intro h; simp [irins.vars, irop.vars, op_var, op_const, op_ref, op_deref] at h ⊢ <;> tauto)
          | (with_reducible refine Tracks_op_rval _ ?_); (intro h; simp [irins.vars, irop.vars, op_var, op_const, op_ref, op_deref] at h ⊢ <;> tauto)
          | (with_reducible refine Tracks_set_ir _ _ ?_); (intro h; simp [irins.vars, irop.vars, op_var, op_const, op_ref, op_deref] at h ⊢ <;> tauto)
          | (with_reducible refine Tracks_gen_assign _ _ ?_); (intro h; simp [irins.vars, irop.vars, op_var, op_const, op_ref, op_deref] at h ⊢ <;> tauto)
          | (with_reducible refine Tracks_gen_add _ _ _ ?_); (intro h; simp [irins.vars, irop.vars, op_var, op_const, op_ref, op_deref] at h ⊢ <;> tauto)
          | (with_reducible refine Tracks_gen_sub _ _ _ ?_); (intro h; simp [irins.vars, irop.vars, op_var, op_const, op_ref, op_deref] at h ⊢ <;> tauto)
          | (with_reducible refine Tracks_gen_mul _ _ _ ?_); (intro h; simp [irins.vars, irop.vars, op_var, op_const, op_ref, op_deref] at h ⊢ <;> tauto)
          | (with_reducible refine Tracks_gen_div _ _ _ ?_); (intro h; simp [irins.vars, irop.vars, op_var, op_const, op_ref, op_deref] at h ⊢ <;> tauto)
          | (with_reducible refine Tracks_gen_branch _ _ _ _ ?_); (intro h; simp [irins.vars, irop.vars, op_var, op_const, op_ref, op_deref] at h ⊢ <;> tauto)
          | (with_reducible refine Tracks_gen_return _ ?_); (intro h; simp [irins.vars, irop.vars, op_var, op_const, op_ref, op_deref] at h ⊢ <;> tauto)
          | (with_reducible refine Tracks_gen_dec _ _ ?_); (intro h; simp [irins.vars, irop.vars, op_var, op_const, op_ref, op_deref] at h ⊢ <;> tauto)
          | (with_reducible refine Tracks_gen_call _ _ ?_); (intro h; simp [irins.vars, irop.vars, op_var, op_const, op_ref, op_deref] at h ⊢ <;> tauto)
          | (with_reducible refine Tracks_gen_arg _ ?_); (intro h; simp [irins.vars, irop.vars, op_var, op_const, op_ref, op_deref] at h ⊢ <;> tauto)
          | (with_reducible refine Tracks_gen_param _ ?_); (intro h; simp [irins.vars, irop.vars, op_var, op_const, op_ref, op_deref] at h ⊢ <;> tauto)
          | (with_reducible refine Tracks_gen_read _ ?_); (intro h; simp [irins.vars, irop.vars, op_var, op_const, op_ref, op_deref] at h ⊢ <;> tauto)
          | (with_reducible refine Tracks_gen_write _ ?_); (intro h; simp [irins.vars, irop.vars, op_var, op_const, op_ref, op_deref] at h ⊢ <;> tauto)
          | with_reducible apply Tracks_bind
          | with_reducible intro _
          | (with_reducible refine Tracks_gen_arr_copy _ _ _ ?_; intro h; simp [irins.vars, irop.vars, op_var, op_const, op_ref, op_deref] at h ⊢ <;> tauto)
          | (with_reducible refine ihE _ (by first | (simp_wf; omega) | simp_wf) _ _ _ ?_); (intro h; simp [irins.vars, irop.vars, op_var, op_const, op_ref, op_deref] at h ⊢ <;> tauto)
          | split
      case DOT ltp le lname =>
        rw [translate_Exp_ASSIGNOP_DOT]
        repeat' first
          | with_reducible exact Tracks_fail _
          | with_reducible exact Tracks_Assert _ _
          | with_reducible exact Tracks_not_null _
          | with_reducible exact Tracks_get_isref _
          | with_reducible exact Tracks_get_ir _
          | with_reducible exact Tracks_get_ignore_var
          | with_reducible exact Tracks_cast_irlabel _
          | with_reducible exact Tracks_new_var
          | with_reducible exact Tracks_new_label
          | with_reducible exact Tracks_new_named_label _
          | with_reducible exact Tracks_set_isref _ _
          | with_reducible exact Tracks_gen_label _
          | with_reducible exact Tracks_gen_func _
          | with_reducible exact Tracks_gen_goto _
          | with_reducible exact Tracks_skip _
          | (with_reducible refine Tracks_pure _ ?_); (intro h; simp [irins.vars, irop.vars, op_var, op_const, op_ref, op_deref] at h ⊢ <;> tauto)
          | (with_reducible refine Tracks_cast_irvar _ ?_); (intro h; simp [irins.vars, irop.vars, op_var, op_const, op_ref, op_deref] at h ⊢ <;> tauto)
          | (with_reducible refine Tracks_op_rval _ ?_); (intro h; simp [irins.vars, irop.vars, op_var, op_const, op_ref, op_deref] at h ⊢ <;> tauto)
          | (with_reducible refine Tracks_set_ir _ _ ?_); (intro h; simp [irins.vars, irop.vars, op_var, op_const, op_ref, op_deref] at h ⊢ <;> tauto)
          | (with_reducible refine Tracks_gen_assign _ _ ?_); (intro h; simp [irins.vars, irop.vars, op_var, op_const, op_ref, op_deref] at h ⊢ <;> tauto)
          | (with_reducible refine Tracks_gen_add _ _ _ ?_); (intro h; simp [irins.vars, irop.vars, op_var, op_const, op_ref, op_deref] at h ⊢ <;> tauto)
          | (with_reducible refine Tracks_gen_sub _ _ _ ?_); (intro h; simp [irins.vars, irop.vars, op_var, op_const, op_ref, op_deref] at h ⊢ <;> tauto)
          | (with_reducible refine Tracks_gen_mul _ _ _ ?_); (intro h; simp [irins.vars, irop.vars, op_var, op_const, op_ref, op_deref] at h ⊢ <;> tauto)
          | (with_reducible refine Tracks_gen_div _ _ _ ?_); (intro h; simp [irins.vars, irop.vars, op_var, op_const, op_ref, op_deref] at h ⊢ <;> tauto)
          | (with_reducible refine Tracks_gen_branch _ _ _ _ ?_); (intro h; simp [irins.vars, irop.vars, op_var, op_const, op_ref, op_deref] at h ⊢ <;> tauto)
          | (with_reducible refine Tracks_gen_return _ ?_); (intro h; simp [irins.vars, irop.vars, op_var, op_const, op_ref, op_deref] at h ⊢ <;> tauto)
          | (with_reducible refine Tracks_gen_dec _ _ ?_); (intro h; simp [irins.vars, irop.vars, op_var, op_const, op_ref, op_deref] at h ⊢ <;> tauto)
          | (with_reducible refine Tracks_gen_call _ _ ?_); (intro h; simp [irins.vars, irop.vars, op_var, op_const, op_ref, op_deref] at h ⊢ <;> tauto)
          | (with_reducible refine Tracks_gen_arg _ ?_); (intro h; simp [irins.vars, irop.vars, op_var, op_const, op_ref, op_deref] at h ⊢ <;> tauto)
          | (with_reducible refine Tracks_gen_param _ ?_); (intro h; simp [irins.vars, irop.vars, op_var, op_const, op_ref, op_deref] at h ⊢ <;> tauto)
          | (with_reducible refine Tracks_gen_read _ ?_); (intro h; simp [irins.vars, irop.vars, op_var, op_const, op_ref, op_deref] at h ⊢ <;> tauto)
          | (with_reducible refine Tracks_gen_write _ ?_); (intro h; simp [irins.vars, irop.vars, op_var, op_const, op_ref, op_deref] at h ⊢ <;> tauto)
          | with_reducible apply Tracks_bind
          | with_reducible intro _
          | (with_reducible refine ihE _ (by first | (simp_wf; omega) | simp_wf) _ _ _ ?_); (intro h; simp [irins.vars, irop.vars, op_var, op_const, op_ref, op_deref] at h ⊢ <;> tauto)
          | split
      all_goals (rw [translate_Exp_ASSIGNOP_other _ _ _ _ (by rfl)]; exact Tracks_fail _)
    | _ =>
      simp only [translate_Exp_INT, translate_Exp_FLOAT, translate_Exp_ID, translate_Exp_NEG,
        translate_Exp_NOT, translate_Exp_CALL0, translate_Exp_DOT,
        translate_Exp_PLUS, translate_Exp_MINUS, translate_Exp_STAR, translate_Exp_DIV,
        translate_Exp_CALL, translate_Exp_INDEX]
      repeat' first
        | with_reducible exact Tracks_fail _
        | with_reducible exact Tracks_Assert _ _
        | with_reducible exact Tracks_not_null _
        | with_reducible exact Tracks_get_isref _
        | with_reducible exact Tracks_get_ir _
        | with_reducible exact Tracks_get_ignore_var
        | with_reducible exact Tracks_cast_irlabel _
        | with_reducible exact Tracks_new_var
        | with_reducible exact Tracks_new_label
        | with_reducible exact Tracks_new_named_label _
        | with_reducible exact Tracks_set_isref _ _
        | with_reducible exact Tracks_gen_label _
        | with_reducible exact Tracks_gen_func _
        | with_reducible exact Tracks_gen_goto _
        | with_reducible exact Tracks_skip _
        | (with_reducible refine Tracks_pure _ ?_); (intro h; simp [irins.vars, irop.vars, op_var, op_const, op_ref, op_deref] at h ⊢ <;> tauto)
        | (with_reducible refine Tracks_cast_irvar _ ?_); (intro h; simp [irins.vars, irop.vars, op_var, op_const, op_ref, op_deref] at h ⊢ <;> tauto)
        | (with_reducible refine Tracks_op_rval _ ?_); (intro h; simp [irins.vars, irop.vars, op_var, op_const, op_ref, op_deref] at h ⊢ <;> tauto)
        | (with_reducible refine Tracks_set_ir _ _ ?_); (intro h; simp [irins.vars, irop.vars, op_var, op_const, op_ref, op_deref] at h ⊢ <;> tauto)
        | (with_reducible refine Tracks_gen_assign _ _ ?_); (intro h; simp [irins.vars, irop.vars, op_var, op_const, op_ref, op_deref] at h ⊢ <;> tauto)
        | (with_reducible refine Tracks_gen_add _ _ _ ?_); (intro h; simp [irins.vars, irop.vars, op_var, op_const, op_ref, op_deref] at h ⊢ <;> tauto)
        | (with_reducible refine Tracks_gen_sub _ _ _ ?_); (intro h; simp [irins.vars, irop.vars, op_var, op_const, op_ref, op_deref] at h ⊢ <;> tauto)
        | (with_reducible refine Tracks_gen_mul _ _ _ ?_); (intro h; simp [irins.vars, irop.vars, op_var, op_const, op_ref, op_deref] at h ⊢ <;> tauto)
        | (with_reducible refine Tracks_gen_div _ _ _ ?_); (intro h; simp [irins.vars, irop.vars, op_var, op_const, op_ref, op_deref] at h ⊢ <;> tauto)
        | (with_reducible refine Tracks_gen_branch _ _ _ _ ?_); (intro h; simp [irins.vars, irop.vars, op_var, op_const, op_ref, op_deref] at h ⊢ <;> tauto)
        | (with_reducible refine Tracks_gen_return _ ?_); (intro h; simp [irins.vars, irop.vars, op_var, op_const, op_ref, op_deref] at h ⊢ <;> tauto)
        | (with_reducible refine Tracks_gen_dec _ _ ?_); (intro h; simp [irins.vars, irop.vars, op_var, op_const, op_ref, op_deref] at h ⊢ <;> tauto)
        | (with_reducible refine Tracks_gen_call _ _ ?_); (intro h; simp [irins.vars, irop.vars, op_var, op_const, op_ref, op_deref] at h ⊢ <;> tauto)
        | (with_reducible refine Tracks_gen_arg _ ?_); (intro h; simp [irins.vars, irop.vars, op_var, op_const, op_ref, op_deref] at h ⊢ <;> tauto)
        | (with_reducible refine Tracks_gen_param _ ?_); (intro h; simp [irins.vars, irop.vars, op_var, op_const, op_ref, op_deref] at h ⊢ <;> tauto)
        | (with_reducible refine Tracks_gen_read _ ?_); (intro h; simp [irins.vars, irop.vars, op_var, op_const, op_ref, op_deref] at h ⊢ <;> tauto)
        | (with_reducible refine Tracks_gen_write _ ?_); (intro h; simp [irins.vars, irop.vars, op_var, op_const, op_ref, op_deref] at h ⊢ <;> tauto)
        | with_reducible apply Tracks_bind
        | with_reducible intro _
        | (with_reducible refine Tracks_gen_args_loop _ _ _ _ _ ?_; intro h; simp [irins.vars, irop.vars, op_var, op_const, op_ref, op_deref] at h ⊢ <;> tauto)
        | (with_reducible refine ihE _ (by first | (simp_wf; omega) | simp_wf) _ _ _ ?_); (intro h; simp [irins.vars, irop.vars, op_var, op_const, op_ref, op_deref] at h ⊢ <;> tauto)
        | with_reducible exact ihA _ (by first | (simp_wf; omega) | simp_wf) _ _
        | split
  · intro tree ihE ihC ihS V pre lt lf
    beta_reduce at ihE ihC ihS
    cases tree with
    | NOT tp e => rw [translate_Cond_NOT]; exact ihC _ (by first | (simp_wf; omega) | simp_wf) _ _ _ _
    | LP tp e => rw [translate_Cond_LP]; exact ihC _ (by first | (simp_wf; omega) | simp_wf) _ _ _ _
    | AND tp l r =>
      rw [translate_Cond_AND]
      repeat' first
        | with_reducible exact Tracks_fail _
        | with_reducible exact Tracks_Assert _ _
        | with_reducible exact Tracks_not_null _
        | with_reducible exact Tracks_get_isref _
        | with_reducible exact Tracks_get_ir _
        | with_reducible exact Tracks_get_ignore_var
        | with_reducible exact Tracks_cast_irlabel _
        | with_reducible exact Tracks_new_var
        | with_reducible exact Tracks_new_label
        | with_reducible exact Tracks_new_named_label _
        | with_reducible exact Tracks_set_isref _ _
        | with_reducible exact Tracks_gen_label _
        | with_reducible exact Tracks_gen_func _
        | with_reducible exact Tracks_gen_goto _
        | with_reducible exact Tracks_skip _
        | (with_reducible refine Tracks_pure _ ?_); (intro h; simp [irins.vars, irop.vars, op_var, op_const, op_ref, op_deref] at h ⊢ <;> tauto)
        | (with_reducible refine Tracks_cast_irvar _ ?_); (intro h; simp [irins.vars, irop.vars, op_var, op_const, op_ref, op_deref] at h ⊢ <;> tauto)
        | (with_reducible refine Tracks_op_rval _ ?_); (intro h; simp [irins.vars, irop.vars, op_var, op_const, op_ref, op_deref] at h ⊢ <;> tauto)
        | (with_reducible refine Tracks_set_ir _ _ ?_); (intro h; simp [irins.vars, irop.vars, op_var, op_const, op_ref, op_deref] at h ⊢ <;> tauto)
        | (with_reducible refine Tracks_gen_assign _ _ ?_); (intro h; simp [irins.vars, irop.vars, op_var, op_const, op_ref, op_deref] at h ⊢ <;> tauto)
        | (with_reducible refine Tracks_gen_add _ _ _ ?_); (intro h; simp [irins.vars, irop.vars, op_var, op_const, op_ref, op_deref] at h ⊢ <;> tauto)
        | (with_reducible refine Tracks_gen_sub _ _ _ ?_); (intro h; simp [irins.vars, irop.vars, op_var, op_const, op_ref, op_deref] at h ⊢ <;> tauto)
        | (with_reducible refine Tracks_gen_mul _ _ _ ?_); (intro h; simp [irins.vars, irop.vars, op_var, op_const, op_ref, op_deref] at h ⊢ <;> tauto)
        | (with_reducible refine Tracks_gen_div _ _ _ ?_); (intro h; simp [irins.vars, irop.vars, op_var, op_const, op_ref, op_deref] at h ⊢ <;> tauto)
        | (with_reducible refine Tracks_gen_branch _ _ _ _ ?_); (intro h; simp [irins.vars, irop.vars, op_var, op_const, op_ref, op_deref] at h ⊢ <;> tauto)
        | (with_reducible refine Tracks_gen_return _ ?_); (intro h; simp [irins.vars, irop.vars, op_var, op_const, op_ref, op_deref] at h ⊢ <;> tauto)
        | (with_reducible refine Tracks_gen_dec _ _ ?_); (intro h; simp [irins.vars, irop.vars, op_var, op_const, op_ref, op_deref] at h ⊢ <;> tauto)
        | (with_reducible refine Tracks_gen_call _ _ ?_); (intro h; simp [irins.vars, irop.vars, op_var, op_const, op_ref, op_deref] at h ⊢ <;> tauto)
        | (with_reducible refine Tracks_gen_arg _ ?_); (intro h; simp [irins.vars, irop.vars, op_var, op_const, op_ref, op_deref] at h ⊢ <;> tauto)
        | (with_reducible refine Tracks_gen_param _ ?_); (intro h; simp [irins.vars, irop.vars, op_var, op_const, op_ref, op_deref] at h ⊢ <;> tauto)
        | (with_reducible refine Tracks_gen_read _ ?_); (intro h; simp [irins.vars, irop.vars, op_var, op_const, op_ref, op_deref] at h ⊢ <;> tauto)
        | (with_reducible refine Tracks_gen_write _ ?_); (intro h; simp [irins.vars, irop.vars, op_var, op_const, op_ref, op_deref] at h ⊢ <;> tauto)
        | with_reducible apply Tracks_bind
        | with_reducible intro _
        | with_reducible exact ihC _ (by first | (simp_wf; omega) | simp_wf) _ _ _ _
    | OR tp l r =>
      rw [translate_Cond_OR]
      repeat' first
        | with_reducible exact Tracks_fail _
        | with_reducible exact Tracks_Assert _ _
        | with_reducible exact Tracks_not_null _
        | with_reducible exact Tracks_get_isref _
        | with_reducible exact Tracks_get_ir _
        | with_reducible exact Tracks_get_ignore_var
        | with_reducible exact Tracks_cast_irlabel _
        | with_reducible exact Tracks_new_var
        | with_reducible exact Tracks_new_label
        | with_reducible exact Tracks_new_named_label _
        | with_reducible exact Tracks_set_isref _ _
        | with_reducible exact Tracks_gen_label _
        | with_reducible exact Tracks_gen_func _
        | with_reducible exact Tracks_gen_goto _
        | with_reducible exact Tracks_skip _
        | (with_reducible refine Tracks_pure _ ?_); (intro h; simp [irins.vars, irop.vars, op_var, op_const, op_ref, op_deref] at h ⊢ <;> tauto)
        | (with_reducible refine Tracks_cast_irvar _ ?_); (intro h; simp [irins.vars, irop.vars, op_var, op_const, op_ref, op_deref] at h ⊢ <;> tauto)
        | (with_reducible refine Tracks_op_rval _ ?_); (intro h; simp [irins.vars, irop.vars, op_var, op_const, op_ref, op_deref] at h ⊢ <;> tauto)
        | (with_reducible refine Tracks_set_ir _ _ ?_); (intro h; simp [irins.vars, irop.vars, op_var, op_const, op_ref, op_deref] at h ⊢ <;> tauto)
        | (with_reducible refine Tracks_gen_assign _ _ ?_); (intro h; simp [irins.vars, irop.vars, op_var, op_const, op_ref, op_deref] at h ⊢ <;> tauto)
        | (with_reducible refine Tracks_gen_add _ _ _ ?_); (intro h; simp [irins.vars, irop.vars, op_var, op_const, op_ref, op_deref] at h ⊢ <;> tauto)
        | (with_reducible refine Tracks_gen_sub _ _ _ ?_); (intro h; simp [irins.vars, irop.vars, op_var, op_const, op_ref, op_deref] at h ⊢ <;> tauto)
        | (with_reducible refine Tracks_gen_mul _ _ _ ?_); (intro h; simp [irins.vars, irop.vars, op_var, op_const, op_ref, op_deref] at h ⊢ <;> tauto)
        | (with_reducible refine Tracks_gen_div _ _ _ ?_); (intro h; simp [irins.vars, irop.vars, op_var, op_const, op_ref, op_deref] at h ⊢ <;> tauto)
        | (with_reducible refine Tracks_gen_branch _ _ _ _ ?_); (intro h; simp [irins.vars, irop.vars, op_var, op_const, op_ref, op_deref] at h ⊢ <;> tauto)
        | (with_reducible refine Tracks_gen_return _ ?_); (intro h; simp [irins.vars, irop.vars, op_var, op_const, op_ref, op_deref] at h ⊢ <;> tauto)
        | (with_reducible refine Tracks_gen_dec _ _ ?_); (intro h; simp [irins.vars, irop.vars, op_var, op_const, op_ref, op_deref] at h ⊢ <;> tauto)
        | (with_reducible refine Tracks_gen_call _ _ ?_); (intro h; simp [irins.vars, irop.vars, op_var, op_const, op_ref, op_deref] at h ⊢ <;> tauto)
        | (with_reducible refine Tracks_gen_arg _ ?_); (intro h; simp [irins.vars, irop.vars, op_var, op_const, op_ref, op_deref] at h ⊢ <;> tauto)
        | (with_reducible refine Tracks_gen_param _ ?_); (intro h; simp [irins.vars, irop.vars, op_var, op_const, op_ref, op_deref] at h ⊢ <;> tauto)
        | (with_reducible refine Tracks_gen_read _ ?_); (intro h; simp [irins.vars, irop.vars, op_var, op_const, op_ref, op_deref] at h ⊢ <;> tauto)
        | (with_reducible refine Tracks_gen_write _ ?_); (intro h; simp [irins.vars, irop.vars, op_var, op_const, op_ref, op_deref] at h ⊢ <;> tauto)
        | with_reducible apply Tracks_bind
        | with_reducible intro _
        | with_reducible exact ihC _ (by first | (simp_wf; omega) | simp_wf) _ _ _ _
    | RELOP tp l rt r =>
      rw [translate_Cond_RELOP]
      repeat' first
        | with_reducible exact Tracks_fail _
        | with_reducible exact Tracks_Assert _ _
        | with_reducible exact Tracks_not_null _
        | with_reducible exact Tracks_get_isref _
        | with_reducible exact Tracks_get_ir _
        | with_reducible exact Tracks_get_ignore_var
        | with_reducible exact Tracks_cast_irlabel _
        | with_reducible exact Tracks_new_var
        | with_reducible exact Tracks_new_label
        | with_reducible exact Tracks_new_named_label _
        | with_reducible exact Tracks_set_isref _ _
        | with_reducible exact Tracks_gen_label _
        | with_reducible exact Tracks_gen_func _
        | with_reducible exact Tracks_gen_goto _
        | with_reducible exact Tracks_skip _
        | (with_reducible refine Tracks_pure _ ?_); (intro h; simp [irins.vars, irop.vars, op_var, op_const, op_ref, op_deref] at h ⊢ <;> tauto)
        | (with_reducible refine Tracks_cast_irvar _ ?_); (intro h; simp [irins.vars, irop.vars, op_var, op_const, op_ref, op_deref] at h ⊢ <;> tauto)
        | (with_reducible refine Tracks_op_rval _ ?_); (intro h; simp [irins.vars, irop.vars, op_var, op_const, op_ref, op_deref] at h ⊢ <;> tauto)
        | (with_reducible refine Tracks_set_ir _ _ ?_); (intro h; simp [irins.vars, irop.vars, op_var, op_const, op_ref, op_deref] at h ⊢ <;> tauto)
        | (with_reducible refine Tracks_gen_assign _ _ ?_); (intro h; simp [irins.vars, irop.vars, op_var, op_const, op_ref, op_deref] at h ⊢ <;> tauto)
        | (with_reducible refine Tracks_gen_add _ _ _ ?_); (intro h; simp [irins.vars, irop.vars, op_var, op_const, op_ref, op_deref] at h ⊢ <;> tauto)
        | (with_reducible refine Tracks_gen_sub _ _ _ ?_); (intro h; simp [irins.vars, irop.vars, op_var, op_const, op_ref, op_deref] at h ⊢ <;> tauto)
        | (with_reducible refine Tracks_gen_mul _ _ _ ?_); (intro h; simp [irins.vars, irop.vars, op_var, op_const, op_ref, op_deref] at h ⊢ <;> tauto)
        | (with_reducible refine Tracks_gen_div _ _ _ ?_); (intro h; simp [irins.vars, irop.vars, op_var, op_const, op_ref, op_deref] at h ⊢ <;> tauto)
        | (with_reducible refine Tracks_gen_branch _ _ _ _ ?_); (intro h; simp [irins.vars, irop.vars, op_var, op_const, op_ref, op_deref] at h ⊢ <;> tauto)
        | (with_reducible refine Tracks_gen_return _ ?_); (intro h; simp [irins.vars, irop.vars, op_var, op_const, op_ref, op_deref] at h ⊢ <;> tauto)
        | (with_reducible refine Tracks_gen_dec _ _ ?_); (intro h; simp [irins.vars, irop.vars, op_var, op_const, op_ref, op_deref] at h ⊢ <;> tauto)
        | (with_reducible refine Tracks_gen_call _ _ ?_); (intro h; simp [irins.vars, irop.vars, op_var, op_const, op_ref, op_deref] at h ⊢ <;> tauto)
        | (with_reducible refine Tracks_gen_arg _ ?_); (intro h; simp [irins.vars, irop.vars, op_var, op_const, op_ref, op_deref] at h ⊢ <;> tauto)
        | (with_reducible refine Tracks_gen_param _ ?_); (intro h; simp [irins.vars, irop.vars, op_var, op_const, op_ref, op_deref] at h ⊢ <;> tauto)
        | (with_reducible refine Tracks_gen_read _ ?_); (intro h; simp [irins.vars, irop.vars, op_var, op_const, op_ref, op_deref] at h ⊢ <;> tauto)
        | (with_reducible refine Tracks_gen_write _ ?_); (intro h; simp [irins.vars, irop.vars, op_var, op_const, op_ref, op_deref] at h ⊢ <;> tauto)
        | with_reducible apply Tracks_bind
        | with_reducible intro _
        | (with_reducible refine ihE _ (by first | (simp_wf; omega) | simp_wf) _ _ _ ?_); (intro h; simp [irins.vars, irop.vars, op_var, op_const, op_ref, op_deref] at h ⊢ <;> tauto)
    | _ =>
      have hS := ihS (by simp [Exp.rank, Exp.count, Exp.child0, Exp.child1])
      rw [translate_Cond_default _ _ _ (by rfl)]
      repeat' first
        | with_reducible exact Tracks_fail _
        | with_reducible exact Tracks_Assert _ _
        | with_reducible exact Tracks_not_null _
        | with_reducible exact Tracks_get_isref _
        | with_reducible exact Tracks_get_ir _
        | with_reducible exact Tracks_get_ignore_var
        | with_reducible exact Tracks_cast_irlabel _
        | with_reducible exact Tracks_new_var
        | with_reducible exact Tracks_new_label
        | with_reducible exact Tracks_new_named_label _
        | with_reducible exact Tracks_set_isref _ _
        | with_reducible exact Tracks_gen_label _
        | with_reducible exact Tracks_gen_func _
        | with_reducible exact Tracks_gen_goto _
        | with_reducible exact Tracks_skip _
        | (with_reducible refine Tracks_pure _ ?_); (intro h; simp [irins.vars, irop.vars, op_var, op_const, op_ref, op_deref] at h ⊢ <;> tauto)
        | (with_reducible refine Tracks_cast_irvar _ ?_); (intro h; simp [irins.vars, irop.vars, op_var, op_const, op_ref, op_deref] at h ⊢ <;> tauto)
        | (with_reducible refine Tracks_op_rval _ ?_); (intro h; simp [irins.vars, irop.vars, op_var, op_const, op_ref, op_deref] at h ⊢ <;> tauto)
        | (with_reducible refine Tracks_set_ir _ _ ?_); (intro h; simp [irins.vars, irop.vars, op_var, op_const, op_ref, op_deref] at h ⊢ <;> tauto)
        | (with_reducible refine Tracks_gen_assign _ _ ?_); (intro h; simp [irins.vars, irop.vars, op_var, op_const, op_ref, op_deref] at h ⊢ <;> tauto)
        | (with_reducible refine Tracks_gen_add _ _ _ ?_); (intro h; simp [irins.vars, irop.vars, op_var, op_const, op_ref, op_deref] at h ⊢ <;> tauto)
        | (with_reducible refine Tracks_gen_sub _ _ _ ?_); (intro h; simp [irins.vars, irop.vars, op_var, op_const, op_ref, op_deref] at h ⊢ <;> tauto)
        | (with_reducible refine Tracks_gen_mul _ _ _ ?_); (intro h; simp [irins.vars, irop.vars, op_var, op_const, op_ref, op_deref] at h ⊢ <;> tauto)
        | (with_reducible refine Tracks_gen_div _ _ _ ?_); (intro h; simp [irins.vars, irop.vars, op_var, op_const, op_ref, op_deref] at h ⊢ <;> tauto)
        | (with_reducible refine Tracks_gen_branch _ _ _ _ ?_); (intro h; simp [irins.vars, irop.vars, op_var, op_const, op_ref, op_deref] at h ⊢ <;> tauto)
        | (with_reducible refine Tracks_gen_return _ ?_); (intro h; simp [irins.vars, irop.vars, op_var, op_const, op_ref, op_deref] at h ⊢ <;> tauto)
        | (with_reducible refine Tracks_gen_dec _ _ ?_); (intro h; simp [irins.vars, irop.vars, op_var, op_const, op_ref, op_deref] at h ⊢ <;> tauto)
        | (with_reducible refine Tracks_gen_call _ _ ?_); (intro h; simp [irins.vars, irop.vars, op_var, op_const, op_ref, op_deref] at h ⊢ <;> tauto)
        | (with_reducible refine Tracks_gen_arg _ ?_); (intro h; simp [irins.vars, irop.vars, op_var, op_const, op_ref, op_deref] at h ⊢ <;> tauto)
        | (with_reducible refine Tracks_gen_param _ ?_); (intro h; simp [irins.vars, irop.vars, op_var, op_const, op_ref, op_deref] at h ⊢ <;> tauto)
        | (with_reducible refine Tracks_gen_read _ ?_); (intro h; simp [irins.vars, irop.vars, op_var, op_const, op_ref, op_deref] at h ⊢ <;> tauto)
        | (with_reducible refine Tracks_gen_write _ ?_); (intro h; simp [irins.vars, irop.vars, op_var, op_const, op_ref, op_deref] at h ⊢ <;> tauto)
        | with_reducible apply Tracks_bind
        | with_reducible intro _
        | (with_reducible refine hS _ _ _ ?_); (intro h; simp [irins.vars, irop.vars, op_var, op_const, op_ref, op_deref] at h ⊢ <;> tauto)
  · intro args ihE ihA V pre
    beta_reduce at ihE ihA
    cases args with
    | one e =>
      rw [translate_Args_one]
      repeat' first
        | with_reducible exact Tracks_fail _
        | with_reducible exact Tracks_Assert _ _
        | with_reducible exact Tracks_not_null _
        | with_reducible exact Tracks_get_isref _
        | with_reducible exact Tracks_get_ir _
        | with_reducible exact Tracks_get_ignore_var
        | with_reducible exact Tracks_cast_irlabel _
        | with_reducible exact Tracks_new_var
        | with_reducible exact Tracks_new_label
        | with_reducible exact Tracks_new_named_label _
        | with_reducible exact Tracks_set_isref _ _
        | with_reducible exact Tracks_gen_label _
        | with_reducible exact Tracks_gen_func _
        | with_reducible exact Tracks_gen_goto _
        | with_reducible exact Tracks_skip _
        | (with_reducible refine Tracks_pure _ ?_); (intro h; simp [irins.vars, irop.vars, op_var, op_const, op_ref, op_deref] at h ⊢ <;> tauto)
        | (with_reducible refine Tracks_cast_irvar _ ?_); (intro h; simp [irins.vars, irop.vars, op_var, op_const, op_ref, op_deref] at h ⊢ <;> tauto)
        | (with_reducible refine Tracks_op_rval _ ?_); (intro h; simp [irins.vars, irop.vars, op_var, op_const, op_ref, op_deref] at h ⊢ <;> tauto)
        | (with_reducible refine Tracks_set_ir _ _ ?_); (intro h; simp [irins.vars, irop.vars, op_var, op_const, op_ref, op_deref] at h ⊢ <;> tauto)
        | (with_reducible refine Tracks_gen_assign _ _ ?_); (intro h; simp [irins.vars, irop.vars, op_var, op_const, op_ref, op_deref] at h ⊢ <;> tauto)
        | (with_reducible refine Tracks_gen_add _ _ _ ?_); (intro h; simp [irins.vars, irop.vars, op_var, op_const, op_ref, op_deref] at h ⊢ <;> tauto)
        | (with_reducible refine Tracks_gen_sub _ _ _ ?_); (intro h; simp [irins.vars, irop.vars, op_var, op_const, op_ref, op_deref] at h ⊢ <;> tauto)
        | (with_reducible refine Tracks_gen_mul _ _ _ ?_); (intro h; simp [irins.vars, irop.vars, op_var, op_const, op_ref, op_deref] at h ⊢ <;> tauto)
        | (with_reducible refine Tracks_gen_div _ _ _ ?_); (intro h; simp [irins.vars, irop.vars, op_var, op_const, op_ref, op_deref] at h ⊢ <;> tauto)
        | (with_reducible refine Tracks_gen_branch _ _ _ _ ?_); (intro h; simp [irins.vars, irop.vars, op_var, op_const, op_ref, op_deref] at h ⊢ <;> tauto)
        | (with_reducible refine Tracks_gen_return _ ?_); (intro h; simp [irins.vars, irop.vars, op_var, op_const, op_ref, op_deref] at h ⊢ <;> tauto)
        | (with_reducible refine Tracks_gen_dec _ _ ?_); (intro h; simp [irins.vars, irop.vars, op_var, op_const, op_ref, op_deref] at h ⊢ <;> tauto)
        | (with_reducible refine Tracks_gen_call _ _ ?_); (intro h; simp [irins.vars, irop.vars, op_var, op_const, op_ref, op_deref] at h ⊢ <;> tauto)
        | (with_reducible refine Tracks_gen_arg _ ?_); (intro h; simp [irins.vars, irop.vars, op_var, op_const, op_ref, op_deref] at h ⊢ <;> tauto)
        | (with_reducible refine Tracks_gen_param _ ?_); (intro h; simp [irins.vars, irop.vars, op_var, op_const, op_ref, op_deref] at h ⊢ <;> tauto)
        | (with_reducible refine Tracks_gen_read _ ?_); (intro h; simp [irins.vars, irop.vars, op_var, op_const, op_ref, op_deref] at h ⊢ <;> tauto)
        | (with_reducible refine Tracks_gen_write _ ?_); (intro h; simp [irins.vars, irop.vars, op_var, op_const, op_ref, op_deref] at h ⊢ <;> tauto)
        | with_reducible apply Tracks_bind
        | with_reducible intro _
        | (with_reducible refine ihE _ (by first | (simp_wf; omega) | simp_wf) _ _ _ ?_); (intro h; simp [irins.vars, irop.vars, op_var, op_const, op_ref, op_deref] at h ⊢ <;> tauto)
    | cons e rest =>
      rw [translate_Args_cons]
      repeat' first
        | with_reducible exact Tracks_fail _
        | with_reducible exact Tracks_Assert _ _
        | with_reducible exact Tracks_not_null _
        | with_reducible exact Tracks_get_isref _
        | with_reducible exact Tracks_get_ir _
        | with_reducible exact Tracks_get_ignore_var
        | with_reducible exact Tracks_cast_irlabel _
        | with_reducible exact Tracks_new_var
        | with_reducible exact Tracks_new_label
        | with_reducible exact Tracks_new_named_label _
        | with_reducible exact Tracks_set_isref _ _
        | with_reducible exact Tracks_gen_label _
        | with_reducible exact Tracks_gen_func _
        | with_reducible exact Tracks_gen_goto _
        | with_reducible exact Tracks_skip _
        | (with_reducible refine Tracks_pure _ ?_); (intro h; simp [irins.vars, irop.vars, op_var, op_const, op_ref, op_deref] at h ⊢ <;> tauto)
        | (with_reducible refine Tracks_cast_irvar _ ?_); (intro h; simp [irins.vars, irop.vars, op_var, op_const, op_ref, op_deref] at h ⊢ <;> tauto)
        | (with_reducible refine Tracks_op_rval _ ?_); (intro h; simp [irins.vars, irop.vars, op_var, op_const, op_ref, op_deref] at h ⊢ <;> tauto)
        | (with_reducible refine Tracks_set_ir _ _ ?_); (intro h; simp [irins.vars, irop.vars, op_var, op_const, op_ref, op_deref] at h ⊢ <;> tauto)
        | (with_reducible refine Tracks_gen_assign _ _ ?_); (intro h; simp [irins.vars, irop.vars, op_var, op_const, op_ref, op_deref] at h ⊢ <;> tauto)
        | (with_reducible refine Tracks_gen_add _ _ _ ?_); (intro h; simp [irins.vars, irop.vars, op_var, op_const, op_ref, op_deref] at h ⊢ <;> tauto)
        | (with_reducible refine Tracks_gen_sub _ _ _ ?_); (intro h; simp [irins.vars, irop.vars, op_var, op_const, op_ref, op_deref] at h ⊢ <;> tauto)
        | (with_reducible refine Tracks_gen_mul _ _ _ ?_); (intro h; simp [irins.vars, irop.vars, op_var, op_const, op_ref, op_deref] at h ⊢ <;> tauto)
        | (with_reducible refine Tracks_gen_div _ _ _ ?_); (intro h; simp [irins.vars, irop.vars, op_var, op_const, op_ref, op_deref] at h ⊢ <;> tauto)
        | (with_reducible refine Tracks_gen_branch _ _ _ _ ?_); (intro h; simp [irins.vars, irop.vars, op_var, op_const, op_ref, op_deref] at h ⊢ <;> tauto)
        | (with_reducible refine Tracks_gen_return _ ?_); (intro h; simp [irins.vars, irop.vars, op_var, op_const, op_ref, op_deref] at h ⊢ <;> tauto)
        | (with_reducible refine Tracks_gen_dec _ _ ?_); (intro h; simp [irins.vars, irop.vars, op_var, op_const, op_ref, op_deref] at h ⊢ <;> tauto)
        | (with_reducible refine Tracks_gen_call _ _ ?_); (intro h; simp [irins.vars, irop.vars, op_var, op_const, op_ref, op_deref] at h ⊢ <;> tauto)
        | (with_reducible refine Tracks_gen_arg _ ?_); (intro h; simp [irins.vars, irop.vars, op_var, op_const, op_ref, op_deref] at h ⊢ <;> tauto)
        | (with_reducible refine Tracks_gen_param _ ?_); (intro h; simp [irins.vars, irop.vars, op_var, op_const, op_ref, op_deref] at h ⊢ <;> tauto)
        | (with_reducible refine Tracks_gen_read _ ?_); (intro h; simp [irins.vars, irop.vars, op_var, op_const, op_ref, op_deref] at h ⊢ <;> tauto)
        | (with_reducible refine Tracks_gen_write _ ?_); (intro h; simp [irins.vars, irop.vars, op_var, op_const, op_ref, op_deref] at h ⊢ <;> tauto)
        | with_reducible apply Tracks_bind
        | with_reducible intro _
        | (with_reducible refine ihE _ (by first | (simp_wf; omega) | simp_wf) _ _ _ ?_); (intro h; simp [irins.vars, irop.vars, op_var, op_const, op_ref, op_deref] at h ⊢ <;> tauto)
        | with_reducible exact ihA _ (by first | (simp_wf; omega) | simp_wf) _ _

theorem Tracks_translate_Exp {V : Set irvar} {pre : Prop} (tree : Exp) (target : irvar)
    (hv : pre → target ∈ V) : Tracks V pre (translate_Exp tree target) (fun _ => True) :=
  Tracks_translate_Exp_Cond_Args.1 tree V pre target hv

theorem Tracks_translate_Cond {V : Set irvar} {pre : Prop} (tree : Exp) (lt lf : irlabel) :
    Tracks V pre (translate_Cond tree lt lf) (fun _ => True) :=
  Tracks_translate_Exp_Cond_Args.2.1 tree V pre lt lf

theorem Tracks_translate_FunDec_loop {V : Set irvar} (subev : String → Option symbol)
    (args : List (String × type)) :
    ∀ pre : Prop, Tracks V pre (translate_FunDec_loop subev args) (fun _ => True) := by
  induction args with
  | nil => intro pre; exact Tracks_pure _ (fun _ => trivial)
  | cons a rest ih =>
    intro pre
    obtain ⟨n, tp⟩ := a
    rw [IRLab.translate_FunDec_loop]
    repeat' first
      | with_reducible exact Tracks_fail _
      | with_reducible exact Tracks_Assert _ _
      | with_reducible exact Tracks_not_null _
      | with_reducible exact Tracks_get_isref _
      | with_reducible exact Tracks_get_ir _
      | with_reducible exact Tracks_get_ignore_var
      | with_reducible exact Tracks_cast_irlabel _
      | with_reducible exact Tracks_new_var
      | with_reducible exact Tracks_new_label
      | with_reducible exact Tracks_new_named_label _
      | with_reducible exact Tracks_set_isref _ _
      | with_reducible exact Tracks_gen_label _
      | with_reducible exact Tracks_gen_func _
      | with_reducible exact Tracks_gen_goto _
      | with_reducible exact Tracks_skip _
      | (with_reducible refine Tracks_pure _ ?_); (intro h; simp [irins.vars, irop.vars, op_var, op_const, op_ref, op_deref] at h ⊢ <;> tauto)
      | (with_reducible refine Tracks_cast_irvar _ ?_); (intro h; simp [irins.vars, irop.vars, op_var, op_const, op_ref, op_deref] at h ⊢ <;> tauto)
      | (with_reducible refine Tracks_op_rval _ ?_); (intro h; simp [irins.vars, irop.vars, op_var, op_const, op_ref, op_deref] at h ⊢ <;> tauto)
      | (with_reducible refine Tracks_set_ir _ _ ?_); (intro h; simp [irins.vars, irop.vars, op_var, op_const, op_ref, op_deref] at h ⊢ <;> tauto)
      | (with_reducible refine Tracks_gen_assign _ _ ?_); (intro h; simp [irins.vars, irop.vars, op_var, op_const, op_ref, op_deref] at h ⊢ <;> tauto)
      | (with_reducible refine Tracks_gen_add _ _ _ ?_); (intro h; simp [irins.vars, irop.vars, op_var, op_const, op_ref, op_deref] at h ⊢ <;> tauto)
      | (with_reducible refine Tracks_gen_sub _ _ _ ?_); (intro h; simp [irins.vars, irop.vars, op_var, op_const, op_ref, op_deref] at h ⊢ <;> tauto)
      | (with_reducible refine Tracks_gen_mul _ _ _ ?_); (intro h; simp [irins.vars, irop.vars, op_var, op_const, op_ref, op_deref] at h ⊢ <;> tauto)
      | (with_reducible refine Tracks_gen_div _ _ _ ?_); (intro h; simp [irins.vars, irop.vars, op_var, op_const, op_ref, op_deref] at h ⊢ <;> tauto)
      | (with_reducible refine Tracks_gen_branch _ _ _ _ ?_); (intro h; simp [irins.vars, irop.vars, op_var, op_const, op_ref, op_deref] at h ⊢ <;> tauto)
      | (with_reducible refine Tracks_gen_return _ ?_); (intro h; simp [irins.vars, irop.vars, op_var, op_const, op_ref, op_deref] at h ⊢ <;> tauto)
      | (with_reducible refine Tracks_gen_dec _ _ ?_); (intro h; simp [irins.vars, irop.vars, op_var, op_const, op_ref, op_deref] at h ⊢ <;> tauto)
      | (with_reducible refine Tracks_gen_call _ _ ?_); (intro h; simp [irins.vars, irop.vars, op_var, op_const, op_ref, op_deref] at h ⊢ <;> tauto)
      | (with_reducible refine Tracks_gen_arg _ ?_); (intro h; simp [irins.vars, irop.vars, op_var, op_const, op_ref, op_deref] at h ⊢ <;> tauto)
      | (with_reducible refine Tracks_gen_param _ ?_); (intro h; simp [irins.vars, irop.vars, op_var, op_const, op_ref, op_deref] at h ⊢ <;> tauto)
      | (with_reducible refine Tracks_gen_read _ ?_); (intro h; simp [irins.vars, irop.vars, op_var, op_const, op_ref, op_deref] at h ⊢ <;> tauto)
      | (with_reducible refine Tracks_gen_write _ ?_); (intro h; simp [irins.vars, irop.vars, op_var, op_const, op_ref, op_deref] at h ⊢ <;> tauto)
      | with_reducible apply Tracks_bind
      | with_reducible intro _
      | with_reducible exact ih _
      | split

theorem Tracks_translate_FunDec {V : Set irvar} {pre : Prop} (tree : FunDec) :
    Tracks V pre (translate_FunDec tree) (fun _ => True) := by
  unfold IRLab.translate_FunDec
  repeat' first
    | with_reducible exact Tracks_fail _
    | with_reducible exact Tracks_Assert _ _
    | with_reducible exact Tracks_not_null _
    | with_reducible exact Tracks_get_isref _
    | with_reducible exact Tracks_get_ir _
    | with_reducible exact Tracks_get_ignore_var
    | with_reducible exact Tracks_cast_irlabel _
    | with_reducible exact Tracks_new_var
    | with_reducible exact Tracks_new_label
    | with_reducible exact Tracks_new_named_label _
    | with_reducible exact Tracks_set_isref _ _
    | with_reducible exact Tracks_gen_label _
    | with_reducible exact Tracks_gen_func _
    | with_reducible exact Tracks_gen_goto _
    | with_reducible exact Tracks_skip _
    | (with_reducible refine Tracks_pure _ ?_); (intro h; simp [irins.vars, irop.vars, op_var, op_const, op_ref, op_deref] at h ⊢ <;> tauto)
    | (with_reducible refine Tracks_cast_irvar _ ?_); (intro h; simp [irins.vars, irop.vars, op_var, op_const, op_ref, op_deref] at h ⊢ <;> tauto)
    | (with_reducible refine Tracks_op_rval _ ?_); (intro h; simp [irins.vars, irop.vars, op_var, op_const, op_ref, op_deref] at h ⊢ <;> tauto)
    | (with_reducible refine Tracks_set_ir _ _ ?_); (intro h; simp [irins.vars, irop.vars, op_var, op_const, op_ref, op_deref] at h ⊢ <;> tauto)
    | (with_reducible refine Tracks_gen_assign _ _ ?_); (intro h; simp [irins.vars, irop.vars, op_var, op_const, op_ref, op_deref] at h ⊢ <;> tauto)
    | (with_reducible refine Tracks_gen_add _ _ _ ?_); (intro h; simp [irins.vars, irop.vars, op_var, op_const, op_ref, op_deref] at h ⊢ <;> tauto)
    | (with_reducible refine Tracks_gen_sub _ _ _ ?_); (intro h; simp [irins.vars, irop.vars, op_var, op_const, op_ref, op_deref] at h ⊢ <;> tauto)
    | (with_reducible refine Tracks_gen_mul _ _ _ ?_); (intro h; simp [irins.vars, irop.vars, op_var, op_const, op_ref, op_deref] at h ⊢ <;> tauto)
    | (with_reducible refine Tracks_gen_div _ _ _ ?_); (intro h; simp [irins.vars, irop.vars, op_var, op_const, op_ref, op_deref] at h ⊢ <;> tauto)
    | (with_reducible refine Tracks_gen_branch _ _ _ _ ?_); (intro h; simp [irins.vars, irop.vars, op_var, op_const, op_ref, op_deref] at h ⊢ <;> tauto)
    | (with_reducible refine Tracks_gen_return _ ?_); (intro h; simp [irins.vars, irop.vars, op_var, op_const, op_ref, op_deref] at h ⊢ <;> tauto)
    | (with_reducible refine Tracks_gen_dec _ _ ?_); (intro h; simp [irins.vars, irop.vars, op_var, op_const, op_ref, op_deref] at h ⊢ <;> tauto)
    | (with_reducible refine Tracks_gen_call _ _ ?_); (intro h; simp [irins.vars, irop.vars, op_var, op_const, op_ref, op_deref] at h ⊢ <;> tauto)
    | (with_reducible refine Tracks_gen_arg _ ?_); (intro h; simp [irins.vars, irop.vars, op_var, op_const, op_ref, op_deref] at h ⊢ <;> tauto)
    | (with_reducible refine Tracks_gen_param _ ?_); (intro h; simp [irins.vars, irop.vars, op_var, op_const, op_ref, op_deref] at h ⊢ <;> tauto)
    | (with_reducible refine Tracks_gen_read _ ?_); (intro h; simp [irins.vars, irop.vars, op_var, op_const, op_ref, op_deref] at h ⊢ <;> tauto)
    | (with_reducible refine Tracks_gen_write _ ?_); (intro h; simp [irins.vars, irop.vars, op_var, op_const, op_ref, op_deref] at h ⊢ <;> tauto)
    | with_reducible apply Tracks_bind
    | with_reducible intro _
    | with_reducible exact Tracks_translate_FunDec_loop _ _ _

theorem Tracks_translate_VarDec {V : Set irvar} {pre : Prop} (tree : VarDec) :
    Tracks V pre (translate_VarDec tree) (fun _ => True) := by
  unfold IRLab.translate_VarDec
  repeat' first
    | with_reducible exact Tracks_fail _
    | with_reducible exact Tracks_Assert _ _
    | with_reducible exact Tracks_not_null _
    | with_reducible exact Tracks_get_isref _
    | with_reducible exact Tracks_get_ir _
    | with_reducible exact Tracks_get_ignore_var
    | with_reducible exact Tracks_cast_irlabel _
    | with_reducible exact Tracks_new_var
    | with_reducible exact Tracks_new_label
    | with_reducible exact Tracks_new_named_label _
    | with_reducible exact Tracks_set_isref _ _
    | with_reducible exact Tracks_gen_label _
    | with_reducible exact Tracks_gen_func _
    | with_reducible exact Tracks_gen_goto _
    | with_reducible exact Tracks_skip _
    | (with_reducible refine Tracks_pure _ ?_); (intro h; simp [irins.vars, irop.vars, op_var, op_const, op_ref, op_deref] at h ⊢ <;> tauto)
    | (with_reducible refine Tracks_cast_irvar _ ?_); (intro h; simp [irins.vars, irop.vars, op_var, op_const, op_ref, op_deref] at h ⊢ <;> tauto)
    | (with_reducible refine Tracks_op_rval _ ?_); (intro h; simp [irins.vars, irop.vars, op_var, op_const, op_ref, op_deref] at h ⊢ <;> tauto)
    | (with_reducible refine Tracks_set_ir _ _ ?_); (intro h; simp [irins.vars, irop.vars, op_var, op_const, op_ref, op_deref] at h ⊢ <;> tauto)
    | (with_reducible refine Tracks_gen_assign _ _ ?_); (intro h; simp [irins.vars, irop.vars, op_var, op_const, op_ref, op_deref] at h ⊢ <;> tauto)
    | (with_reducible refine Tracks_gen_add _ _ _ ?_); (intro h; simp [irins.vars, irop.vars, op_var, op_const, op_ref, op_deref] at h ⊢ <;> tauto)
    | (with_reducible refine Tracks_gen_sub _ _ _ ?_); (intro h; simp [irins.vars, irop.vars, op_var, op_const, op_ref, op_deref] at h ⊢ <;> tauto)
    | (with_reducible refine Tracks_gen_mul _ _ _ ?_); (intro h; simp [irins.vars, irop.vars, op_var, op_const, op_ref, op_deref] at h ⊢ <;> tauto)
    | (with_reducible refine Tracks_gen_div _ _ _ ?_); (intro h; simp [irins.vars, irop.vars, op_var, op_const, op_ref, op_deref] at h ⊢ <;> tauto)
    | (with_reducible refine Tracks_gen_branch _ _ _ _ ?_); (intro h; simp [irins.vars, irop.vars, op_var, op_const, op_ref, op_deref] at h ⊢ <;> tauto)
    | (with_reducible refine Tracks_gen_return _ ?_); (intro h; simp [irins.vars, irop.vars, op_var, op_const, op_ref, op_deref] at h ⊢ <;> tauto)
    | (with_reducible refine Tracks_gen_dec _ _ ?_); (intro h; simp [irins.vars, irop.vars, op_var, op_const, op_ref, op_deref] at h ⊢ <;> tauto)
    | (with_reducible refine Tracks_gen_call _ _ ?_); (intro h; simp [irins.vars, irop.vars, op_var, op_const, op_ref, op_deref] at h ⊢ <;> tauto)
    | (with_reducible refine Tracks_gen_arg _ ?_); (intro h; simp [irins.vars, irop.vars, op_var, op_const, op_ref, op_deref] at h ⊢ <;> tauto)
    | (with_reducible refine Tracks_gen_param _ ?_); (intro h; simp [irins.vars, irop.vars, op_var, op_const, op_ref, op_deref] at h ⊢ <;> tauto)
    | (with_reducible refine Tracks_gen_read _ ?_); (intro h; simp [irins.vars, irop.vars, op_var, op_const, op_ref, op_deref] at h ⊢ <;> tauto)
    | (with_reducible refine Tracks_gen_write _ ?_); (intro h; simp [irins.vars, irop.vars, op_var, op_const, op_ref, op_deref] at h ⊢ <;> tauto)
    | with_reducible apply Tracks_bind
    | with_reducible intro _
    | split

theorem Tracks_translate_Dec {V : Set irvar} {pre : Prop} (tree : Dec) :
    Tracks V pre (translate_Dec tree) (fun _ => True) := by
  unfold IRLab.translate_Dec
  repeat' first
    | with_reducible exact Tracks_fail _
    | with_reducible exact Tracks_Assert _ _
    | with_reducible exact Tracks_not_null _
    | with_reducible exact Tracks_get_isref _
    | with_reducible exact Tracks_get_ir _
    | with_reducible exact Tracks_get_ignore_var
    | with_reducible exact Tracks_cast_irlabel _
    | with_reducible exact Tracks_new_var
    | with_reducible exact Tracks_new_label
    | with_reducible exact Tracks_new_named_label _
    | with_reducible exact Tracks_set_isref _ _
    | with_reducible exact Tracks_gen_label _
    | with_reducible exact Tracks_gen_func _
    | with_reducible exact Tracks_gen_goto _
    | with_reducible exact Tracks_skip _
    | (with_reducible refine Tracks_pure _ ?_); (intro h; simp [irins.vars, irop.vars, op_var, op_const, op_ref, op_deref] at h ⊢ <;> tauto)
    | (with_reducible refine Tracks_cast_irvar _ ?_); (intro h; simp [irins.vars, irop.vars, op_var, op_const, op_ref, op_deref] at h ⊢ <;> tauto)
    | (with_reducible refine Tracks_op_rval _ ?_); (intro h; simp [irins.vars, irop.vars, op_var, op_const, op_ref, op_deref] at h ⊢ <;> tauto)
    | (with_reducible refine Tracks_set_ir _ _ ?_); (intro h; simp [irins.vars, irop.vars, op_var, op_const, op_ref, op_deref] at h ⊢ <;> tauto)
    | (with_reducible refine Tracks_gen_assign _ _ ?_); (intro h; simp [irins.vars, irop.vars, op_var, op_const, op_ref, op_deref] at h ⊢ <;> tauto)
    | (with_reducible refine Tracks_gen_add _ _ _ ?_); (intro h; simp [irins.vars, irop.vars, op_var, op_const, op_ref, op_deref] at h ⊢ <;> tauto)
    | (with_reducible refine Tracks_gen_sub _ _ _ ?_); (intro h; simp [irins.vars, irop.vars, op_var, op_const, op_ref, op_deref] at h ⊢ <;> tauto)
    | (with_reducible refine Tracks_gen_mul _ _ _ ?_); (intro h; simp [irins.vars, irop.vars, op_var, op_const, op_ref, op_deref] at h ⊢ <;> tauto)
    | (with_reducible refine Tracks_gen_div _ _ _ ?_); (intro h; simp [irins.vars, irop.vars, op_var, op_const, op_ref, op_deref] at h ⊢ <;> tauto)
    | (with_reducible refine Tracks_gen_branch _ _ _ _ ?_); (intro h; simp [irins.vars, irop.vars, op_var, op_const, op_ref, op_deref] at h ⊢ <;> tauto)
    | (with_reducible refine Tracks_gen_return _ ?_); (intro h; simp [irins.vars, irop.vars, op_var, op_const, op_ref, op_deref] at h ⊢ <;> tauto)
    | (with_reducible refine Tracks_gen_dec _ _ ?_); (intro h; simp [irins.vars, irop.vars, op_var, op_const, op_ref, op_deref] at h ⊢ <;> tauto)
    | (with_reducible refine Tracks_gen_call _ _ ?_); (intro h; simp [irins.vars, irop.vars, op_var, op_const, op_ref, op_deref] at h ⊢ <;> tauto)
    | (with_reducible refine Tracks_gen_arg _ ?_); (intro h; simp [irins.vars, irop.vars, op_var, op_const, op_ref, op_deref] at h ⊢ <;> tauto)
    | (with_reducible refine Tracks_gen_param _ ?_); (intro h; simp [irins.vars, irop.vars, op_var, op_const, op_ref, op_deref] at h ⊢ <;> tauto)
    | (with_reducible refine Tracks_gen_read _ ?_); (intro h; simp [irins.vars, irop.vars, op_var, op_const, op_ref, op_deref] at h ⊢ <;> tauto)
    | (with_reducible refine Tracks_gen_write _ ?_); (intro h; simp [irins.vars, irop.vars, op_var, op_const, op_ref, op_deref] at h ⊢ <;> tauto)
    | with_reducible apply Tracks_bind
    | with_reducible intro _
    | with_reducible exact Tracks_translate_VarDec _
    | (with_reducible refine Tracks_translate_Exp _ _ ?_); (intro h; simp [irins.vars, irop.vars, op_var, op_const, op_ref, op_deref] at h ⊢ <;> tauto)
    | split

theorem Tracks_translate_DecList {V : Set irvar} (tree : DecList) :
    ∀ pre : Prop, Tracks V pre (translate_DecList tree) (fun _ => True) := by
  induction tree with
  | one d => intro pre; exact Tracks_translate_Dec d
  | cons d rest ih =>
    intro pre
    rw [IRLab.translate_DecList]
    exact Tracks_bind (Tracks_translate_Dec d) (fun _ => ih _)

theorem Tracks_translate_DefList {V : Set irvar} (tree : DefList) :
    ∀ pre : Prop, Tracks V pre (translate_DefList tree) (fun _ => True) := by
  induction tree with
  | nil => intro pre; exact Tracks_pure _ (fun _ => trivial)
  | cons d rest ih =>
    intro pre
    rw [IRLab.translate_DefList]
    exact Tracks_bind (Tracks_translate_DecList d.decs _) (fun _ => ih _)

set_option maxHeartbeats 2000000 in
theorem Tracks_translate_Stmt_all {V : Set irvar} :
    (∀ tree (pre : Prop), Tracks V pre (translate_Stmt tree) (fun _ => True)) ∧
    (∀ tree (pre : Prop), Tracks V pre (translate_CompSt tree) (fun _ => True)) ∧
    (∀ tree (pre : Prop), Tracks V pre (translate_StmtList tree) (fun _ => True)) := by
  apply stmt_induction
  all_goals intros
  all_goals first
    | rw [IRLab.translate_Stmt]
    | rw [IRLab.translate_CompSt]
    | rw [IRLab.translate_StmtList]
  all_goals repeat' first
    | with_reducible exact Tracks_fail _
    | with_reducible exact Tracks_Assert _ _
    | with_reducible exact Tracks_not_null _
    | with_reducible exact Tracks_get_isref _
    | with_reducible exact Tracks_get_ir _
    | with_reducible exact Tracks_get_ignore_var
    | with_reducible exact Tracks_cast_irlabel _
    | with_reducible exact Tracks_new_var
    | with_reducible exact Tracks_new_label
    | with_reducible exact Tracks_new_named_label _
    | with_reducible exact Tracks_set_isref _ _
    | with_reducible exact Tracks_gen_label _
    | with_reducible exact Tracks_gen_func _
    | with_reducible exact Tracks_gen_goto _
    | with_reducible exact Tracks_skip _
    | (with_reducible refine Tracks_pure _ ?_); (intro h; simp [irins.vars, irop.vars, op_var, op_const, op_ref, op_deref] at h ⊢ <;> tauto)
    | (with_reducible refine Tracks_cast_irvar _ ?_); (intro h; simp [irins.vars, irop.vars, op_var, op_const, op_ref, op_deref] at h ⊢ <;> tauto)
    | (with_reducible refine Tracks_op_rval _ ?_); (intro h; simp [irins.vars, irop.vars, op_var, op_const, op_ref, op_deref] at h ⊢ <;> tauto)
    | (with_reducible refine Tracks_set_ir _ _ ?_); (intro h; simp [irins.vars, irop.vars, op_var, op_const, op_ref, op_deref] at h ⊢ <;> tauto)
    | (with_reducible refine Tracks_gen_assign _ _ ?_); (intro h; simp [irins.vars, irop.vars, op_var, op_const, op_ref, op_deref] at h ⊢ <;> tauto)
    | (with_reducible refine Tracks_gen_add _ _ _ ?_); (intro h; simp [irins.vars, irop.vars, op_var, op_const, op_ref, op_deref] at h ⊢ <;> tauto)
    | (with_reducible refine Tracks_gen_sub _ _ _ ?_); (intro h; simp [irins.vars, irop.vars, op_var, op_const, op_ref, op_deref] at h ⊢ <;> tauto)
    | (with_reducible refine Tracks_gen_mul _ _ _ ?_); (intro h; simp [irins.vars, irop.vars, op_var, op_const, op_ref, op_deref] at h ⊢ <;> tauto)
    | (with_reducible refine Tracks_gen_div _ _ _ ?_); (intro h; simp [irins.vars, irop.vars, op_var, op_const, op_ref, op_deref] at h ⊢ <;> tauto)
    | (with_reducible refine Tracks_gen_branch _ _ _ _ ?_); (intro h; simp [irins.vars, irop.vars, op_var, op_const, op_ref, op_deref] at h ⊢ <;> tauto)
    | (with_reducible refine Tracks_gen_return _ ?_); (intro h; simp [irins.vars, irop.vars, op_var, op_const, op_ref, op_deref] at h ⊢ <;> tauto)
    | (with_reducible refine Tracks_gen_dec _ _ ?_); (intro h; simp [irins.vars, irop.vars, op_var, op_const, op_ref, op_deref] at h ⊢ <;> tauto)
    | (with_reducible refine Tracks_gen_call _ _ ?_); (intro h; simp [irins.vars, irop.vars, op_var, op_const, op_ref, op_deref] at h ⊢ <;> tauto)
    | (with_reducible refine Tracks_gen_arg _ ?_); (intro h; simp [irins.vars, irop.vars, op_var, op_const, op_ref, op_deref] at h ⊢ <;> tauto)
    | (with_reducible refine Tracks_gen_param _ ?_); (intro h; simp [irins.vars, irop.vars, op_var, op_const, op_ref, op_deref] at h ⊢ <;> tauto)
    | (with_reducible refine Tracks_gen_read _ ?_); (intro h; simp [irins.vars, irop.vars, op_var, op_const, op_ref, op_deref] at h ⊢ <;> tauto)
    | (with_reducible refine Tracks_gen_write _ ?_); (intro h; simp [irins.vars, irop.vars, op_var, op_const, op_ref, op_deref] at h ⊢ <;> tauto)
    | with_reducible apply Tracks_bind
    | with_reducible intro _
    | (with_reducible refine Tracks_translate_Exp _ _ ?_); (intro h; simp [irins.vars, irop.vars, op_var, op_const, op_ref, op_deref] at h ⊢ <;> tauto)
    | with_reducible exact Tracks_translate_Cond _ _ _
    | with_reducible exact Tracks_translate_DefList _ _
    | with_reducible apply_assumption
    | split

theorem Tracks_translate_CompSt {V : Set irvar} {pre : Prop} (tree : CompSt) :
    Tracks V pre (translate_CompSt tree) (fun _ => True) :=
  Tracks_translate_Stmt_all.2.1 tree pre

theorem Tracks_translate_ExtDef {V : Set irvar} {pre : Prop} (tree : ExtDef) :
    Tracks V pre (translate_ExtDef tree) (fun _ => True) := by
  cases tree <;> rw [IRLab.translate_ExtDef]
  · exact Tracks_fail _
  · exact Tracks_pure _ (fun _ => trivial)
  · exact Tracks_bind (Tracks_translate_FunDec _) (fun _ => Tracks_translate_CompSt _)
  · exact Tracks_bind (Tracks_translate_FunDec _) (fun _ => Tracks_fail _)

theorem Tracks_translate_ExtDefList {V : Set irvar} (tree : ExtDefList) :
    ∀ pre : Prop, Tracks V pre (translate_ExtDefList tree) (fun _ => True) := by
  induction tree with
  | nil => intro pre; exact Tracks_pure _ (fun _ => trivial)
  | cons d rest ih =>
    intro pre
    rw [IRLab.translate_ExtDefList]
    exact Tracks_bind (Tracks_translate_ExtDef d) (fun _ => ih _)

theorem Tracks_translate_Program {V : Set irvar} (tree : Program) :
    Tracks V True (translate_Program tree) (fun _ => True) :=
  Tracks_translate_ExtDefList tree.defs _

/-! ## The entry points -/

theorem ir_prepare_ok {s : Emitter} {u : Unit} {s1 : Emitter} (h : ir_prepare s = .ok (u, s1)) :
    0 ≤ s.var_count ∧
    s1 = { s with ir_is_passed := true, irs := [], var_count := s.var_count + 1,
                  vars := ⟨s.var_count + 1, "t" ++ toString (s.var_count + 1)⟩ :: s.vars,
                  isref := Function.update s.isref (s.var_count + 1) false,
                  ignore_var := some ⟨s.var_count + 1, "t" ++ toString (s.var_count + 1)⟩ } := by
  unfold ir_prepare at h
  obtain ⟨a, s2, h1, h2⟩ := IRM.bind_ok_iff.mp h
  obtain ⟨v, s3, h3, h4⟩ := IRM.bind_ok_iff.mp h2
  cases h1
  obtain ⟨h0, rfl, rfl⟩ := new_var_ok_iff.mp h3
  cases h4
  exact ⟨h0, rfl⟩

theorem ir_translate_ok {tree : Program} {s : Emitter} {a : ast} {s' : Emitter}
    (h : ir_translate tree s = .ok (a, s')) :
    translate_Program tree s = .ok ((), s') ∧
    a = { len := s'.irs.length, var_count := s'.var_count, codes := s'.irs.reverse,
          vars := s'.vars } := by
  unfold ir_translate at h
  obtain ⟨u, s2, h1, h2⟩ := IRM.bind_ok_iff.mp h
  cases h2
  exact ⟨h1, rfl⟩

theorem count_defines_le (l : irlabel) (code : List ircode) :
    code.countP (ircode.defines l) ≤ def_count l.addr code := by
  induction code with
  | nil => simp [def_count_nil]
  | cons c r ih =>
    rw [List.countP_cons, show c :: r = [c] ++ r from rfl, def_count_append]
    have : (if ircode.defines l c = true then 1 else 0) ≤ def_count l.addr [c] := by
      split
      · rename_i hd
        simp only [ircode.defines, decide_eq_true_eq] at hd
        rcases hd with hd | hd <;> simp [def_count, label_defs, ircode.defs, hd]
      · exact Nat.zero_le _
    omega

theorem exists_defines_of_mem (l : irlabel) (code : List ircode) (h : l ∈ label_defs code) :
    ∃ c ∈ code, ircode.defines l c = true := by
  induction code with
  | nil => simp [label_defs] at h
  | cons c r ih =>
    simp only [label_defs, List.mem_append] at h
    rcases h with h | h
    · refine ⟨c, List.mem_cons_self _ _, ?_⟩
      unfold ircode.defs at h
      unfold ircode.defines
      split at h <;> simp_all
    · obtain ⟨c', hc', hd⟩ := ih h
      exact ⟨c', List.mem_cons_of_mem _ hc', hd⟩

theorem mem_jump_targets {l : irlabel} {code : List ircode} {c : ircode} (hc : c ∈ code)
    (hl : l ∈ c.jumps) : l ∈ jump_targets code := by
  induction code with
  | nil => simp at hc
  | cons d r ih =>
    simp only [jump_targets, List.mem_append]
    rcases List.mem_cons.mp hc with h | h
    · exact Or.inl (h ▸ hl)
    · exact Or.inr (ih h)

/-- Claim C3: in the instruction array of every completed translation, each
label that a `Goto` or `Branch` jumps to is defined by exactly one `Label` or
`Func` instruction. -/
theorem jump_target_defined_once (tree : Program) (s : Emitter) (a : ast) (s' : Emitter)
    (h : ir_main tree s = .ok (a, s')) :
    ∀ c ∈ a.codes, ∀ l ∈ c.jumps, a.codes.countP (ircode.defines l) = 1 := by
  unfold ir_main at h
  obtain ⟨u, s1, h1, h2⟩ := IRM.bind_ok_iff.mp h
  obtain ⟨h0, rfl⟩ := ir_prepare_ok h1
  obtain ⟨h3, rfl⟩ := ir_translate_ok h2
  obtain ⟨new, e, hle, w⟩ := Labelled_translate_Program tree _ _ _ h3
  simp only [List.append_nil] at e
  intro c hc l hl
  simp only [List.mem_reverse] at hc
  rw [e] at hc ⊢
  rw [List.countP_reverse]
  have hj : l ∈ label_defs new := by
    rcases w.jumps l (mem_jump_targets hc hl) with h | h
    · simp at h
    · exact h
  have h1 : new.countP (ircode.defines l) ≤ 1 := by
    refine le_trans (count_defines_le l new) ?_
    rw [w.count]
    simp only [List.map_nil, List.count_nil, Nat.add_zero]
    split <;> omega
  have h2 : 0 < new.countP (ircode.defines l) := by
    obtain ⟨c', hc', hd⟩ := exists_defines_of_mem l new hj
    exact List.countP_pos.mpr ⟨c', hc', hd⟩
  omega

/-- Claim C4: the translation never aborts on an operand-kind assertion of a
`gen_*` emitter, and in every emitted instruction the target of
`Add`/`Sub`/`Mul`/`Div`, the destination of `Call` and the operand of `Param`,
`Read` and `Dec` is a `Var`, and the left operand of `Assign` is a `Var` or a
`Deref`. -/
theorem operand_kinds_hold (tree : Program) (s : Emitter) :
    (∀ e, ir_main tree s = .error e → e ≠ .wrong_op_type) ∧
    (∀ a s', ir_main tree s = .ok (a, s') → ∀ c ∈ a.codes, c.ins.WellKinded) := by
  constructor
  · intro e h
    unfold ir_main at h
    rcases IRM.bind_error_iff.mp h with h1 | ⟨u, s1, h1, h2⟩
    · unfold ir_prepare at h1
      rcases IRM.bind_error_iff.mp h1 with h3 | ⟨u, s1, h3, h4⟩
      · cases h3
      · cases h3
        rcases IRM.bind_error_iff.mp h4 with h5 | ⟨u, s1, h5, h6⟩
        · exact (Prims_Extends.new_var _).2 _ h5
        · cases h6
    · unfold ir_translate at h2
      rcases IRM.bind_error_iff.mp h2 with h3 | ⟨u, s2, h3, h4⟩
      · exact ((Holds_translate_Program Prims_Extends tree) _).2 _ h3
      · cases h4
  · intro a s' h
    unfold ir_main at h
    obtain ⟨u, s1, h1, h2⟩ := IRM.bind_ok_iff.mp h
    obtain ⟨h0, rfl⟩ := ir_prepare_ok h1
    obtain ⟨h3, rfl⟩ := ir_translate_ok h2
    obtain ⟨new, e, hw⟩ := (((Holds_translate_Program Prims_Extends tree) _).1 _ _ h3).irs
    simp only [List.append_nil] at e
    intro c hc
    simp only [List.mem_reverse] at hc
    rw [e] at hc
    exact (hw c hc).1

/-! ## The variable table -/

theorem vars_upto_length (n : Nat) : (vars_upto n).length = n := by
  induction n with
  | zero => rfl
  | succ n ih => simp [vars_upto, ih]

theorem mem_vars_upto {n : Nat} {v : irvar} (h : v ∈ vars_upto n) :
    ∃ k, 1 ≤ k ∧ k ≤ n ∧ v = nth_var k := by
  induction n with
  | zero => simp [vars_upto] at h
  | succ n ih =>
    rcases List.mem_cons.mp h with h | h
    · exact ⟨n + 1, by omega, le_refl _, h⟩
    · obtain ⟨k, h1, h2, h3⟩ := ih h
      exact ⟨k, h1, by omega, h3⟩

theorem Emitter.VarsOK.new_var {s : Emitter} {v : irvar} {s1 : Emitter} (hs : s.VarsOK)
    (h : IRLab.new_var s = .ok (v, s1)) :
    v = nth_var (s.vars.length + 1) ∧ s1.vars = v :: s.vars ∧ s1.VarsOK := by
  obtain ⟨h0, hv, rfl⟩ := new_var_ok_iff.mp h
  have hv' : v = nth_var (s.vars.length + 1) := by
    rw [hv, hs.count]
    simp [nth_var]
  refine ⟨hv', rfl, ?_, ?_⟩
  · simp [hs.count]
  · show v :: s.vars = vars_upto (s.vars.length + 1)
    rw [vars_upto, ← hs.vars, hv']

/-- A run that leaves `vars` and `var_count` alone keeps the variable table. -/
theorem Holds_of_vars_same {α : Type} {x : IRM α}
    (h : ∀ s a s', x s = .ok (a, s') → s'.vars = s.vars ∧ s'.var_count = s.var_count) :
    Holds (fun s s' => s.VarsOK → s'.VarsOK) (fun _ => True) x := by
  intro s
  refine ⟨fun a s' hx hs => ?_, fun _ _ => trivial⟩
  obtain ⟨h1, h2⟩ := h s a s' hx
  exact ⟨by rw [h1, h2]; exact hs.count, by rw [h1]; exact hs.vars⟩

/-- Every primitive keeps the variable table well formed. -/
theorem Prims_VarsOK : Prims (fun s s' => s.VarsOK → s'.VarsOK) (fun _ => True) where
  refl := fun _ h => h
  trans := fun _ _ _ h12 h23 h => h23 (h12 h)
  panic := fun _ => trivial
  assert := fun _ => trivial
  new_var := fun s => ⟨fun _ _ hx hs => (hs.new_var hx).2.2, fun _ _ => trivial⟩
  new_label := Holds_of_vars_same (fun _ _ _ h => by
    obtain ⟨_, _, rfl⟩ := new_label_ok_iff.mp h; exact ⟨rfl, rfl⟩)
  new_named_label := fun _ => Holds_of_vars_same (fun _ _ _ h => by
    obtain ⟨_, rfl⟩ := new_named_label_ok_iff.mp h; exact ⟨rfl, rfl⟩)
  set_isref := fun _ _ => Holds_of_vars_same (fun _ _ _ h => by
    rw [set_isref_ok_iff.mp h]; exact ⟨rfl, rfl⟩)
  set_ir := fun _ _ => Holds_of_vars_same (fun _ _ _ h => by
    rw [set_ir_ok_iff.mp h]; exact ⟨rfl, rfl⟩)
  gen_label := fun _ => Holds_of_vars_same (fun _ _ _ h => by
    rw [gen_label_ok_iff.mp h]; exact ⟨rfl, rfl⟩)
  gen_func := fun _ => Holds_of_vars_same (fun _ _ _ h => by
    rw [gen_func_ok_iff.mp h]; exact ⟨rfl, rfl⟩)
  gen_assign := fun _ _ _ => Holds_of_vars_same (fun _ _ _ h => by
    rw [(gen_assign_ok_iff.mp h).2]; exact ⟨rfl, rfl⟩)
  gen_add := fun _ _ _ _ => Holds_of_vars_same (fun _ _ _ h => by
    rw [(gen_add_ok_iff.mp h).2]; exact ⟨rfl, rfl⟩)
  gen_sub := fun _ _ _ _ => Holds_of_vars_same (fun _ _ _ h => by
    rw [(gen_sub_ok_iff.mp h).2]; exact ⟨rfl, rfl⟩)
  gen_mul := fun _ _ _ _ => Holds_of_vars_same (fun _ _ _ h => by
    rw [(gen_mul_ok_iff.mp h).2]; exact ⟨rfl, rfl⟩)
  gen_div := fun _ _ _ _ => Holds_of_vars_same (fun _ _ _ h => by
    rw [(gen_div_ok_iff.mp h).2]; exact ⟨rfl, rfl⟩)
  gen_goto := fun _ => Holds_of_vars_same (fun _ _ _ h => by
    rw [gen_goto_ok_iff.mp h]; exact ⟨rfl, rfl⟩)
  gen_branch := fun _ _ _ _ => Holds_of_vars_same (fun _ _ _ h => by
    rw [gen_branch_ok_iff.mp h]; exact ⟨rfl, rfl⟩)
  gen_return := fun _ => Holds_of_vars_same (fun _ _ _ h => by
    rw [gen_return_ok_iff.mp h]; exact ⟨rfl, rfl⟩)
  gen_dec := fun _ _ _ => Holds_of_vars_same (fun _ _ _ h => by
    rw [(gen_dec_ok_iff.mp h).2]; exact ⟨rfl, rfl⟩)
  gen_call := fun _ _ _ => Holds_of_vars_same (fun _ _ _ h => by
    rw [(gen_call_ok_iff.mp h).2]; exact ⟨rfl, rfl⟩)
  gen_arg := fun _ => Holds_of_vars_same (fun _ _ _ h => by
    rw [gen_arg_ok_iff.mp h]; exact ⟨rfl, rfl⟩)
  gen_param := fun _ _ => Holds_of_vars_same (fun _ _ _ h => by
    rw [(gen_param_ok_iff.mp h).2]; exact ⟨rfl, rfl⟩)
  gen_read := fun _ _ => Holds_of_vars_same (fun _ _ _ h => by
    rw [(gen_read_ok_iff.mp h).2]; exact ⟨rfl, rfl⟩)
  gen_write := fun _ => Holds_of_vars_same (fun _ _ _ h => by
    rw [gen_write_ok_iff.mp h]; exact ⟨rfl, rfl⟩)

theorem Emitter.init_VarsOK : Emitter.init.VarsOK := ⟨rfl, rfl⟩

/-- The variable table after a translation, and the variables of its operands:
from a state whose variable table is the one built since program start, the
next call of `new_var` (the `k`-th, when `k - 1` variables exist) returns the
variable with id `k` and name `t<k>`; in the result of a translation the
variable table is `t_n, ..., t_1` for the reported `var_count` `n`, two
variables of the table with the same id are equal, and every variable that an
instruction refers to is in the table, with an id between 1 and `var_count`,
unless it is a label that was read as a variable. -/
theorem operand_vars_allocated :
    (∀ s v s1, s.VarsOK → new_var s = .ok (v, s1) →
      v = nth_var (s.vars.length + 1) ∧ s1.vars = v :: s.vars ∧ s1.VarsOK) ∧
    (∀ tree s a s', s.VarsOK → (∀ x v, s.sym_ir x = some (.var v) → v ∈ s.vars) →
      ir_main tree s = .ok (a, s') →
      a.var_count = a.vars.length ∧ a.vars = vars_upto a.vars.length ∧
      (∀ c ∈ a.codes, ∀ v ∈ c.ins.vars,
        (v ∈ a.vars ∧ 1 ≤ v.id ∧ v.id ≤ a.var_count) ∨ ∃ l, v = s.label_as_var l) ∧
      (∀ v ∈ a.vars, ∀ w ∈ a.vars, v.id = w.id → v = w)) := by
  refine ⟨fun s v s1 hs h => hs.new_var h, ?_⟩
  intro tree s a s' hs hsym h
  unfold ir_main at h
  obtain ⟨u, s1, h1, h2⟩ := IRM.bind_ok_iff.mp h
  obtain ⟨h0, e1⟩ := ir_prepare_ok h1
  obtain ⟨h3, rfl⟩ := ir_translate_ok h2
  have hs1 : s1.VarsOK := by
    rw [e1]
    have hv := hs.new_var (new_var_ok_iff.mpr ⟨h0, rfl, rfl⟩)
    exact ⟨hv.2.2.count, hv.2.2.vars⟩
  have hs' : s'.VarsOK := ((Holds_translate_Program Prims_VarsOK tree) s1).1 _ _ h3 hs1
  obtain ⟨hsuf, hrefs⟩ :=
    @Tracks_translate_Program {v | v ∈ s'.vars ∨ ∃ l, v = s.label_as_var l} tree s1 () s' h3
  have hr1 : s1.Refs {v | v ∈ s'.vars ∨ ∃ l, v = s.label_as_var l} := by
    rw [e1] at hsuf ⊢
    refine ⟨fun c hc => by simp at hc, fun x v hv => ?_, fun v hv => ?_,
      fun l => Or.inr ⟨l, rfl⟩⟩
    · exact Or.inl (hsuf.subset (List.mem_cons_of_mem _ (hsym x v hv)))
    · simp only [Option.some.injEq] at hv
      exact Or.inl (hsuf.subset (hv ▸ List.mem_cons_self _ _))
  have hr := (hrefs (fun new e v hv => Or.inl (by rw [e]; exact List.mem_append_left _ hv))
    hr1 trivial).1
  have hrange : ∀ v ∈ s'.vars, 1 ≤ v.id ∧ v.id ≤ s'.var_count := by
    intro v hv
    rw [hs'.vars] at hv
    obtain ⟨k, k1, k2, rfl⟩ := mem_vars_upto hv
    rw [hs'.count]
    simp only [nth_var]
    omega
  refine ⟨hs'.count, hs'.vars, ?_, ?_⟩
  · intro c hc v hv
    rcases hr.irs c (List.mem_reverse.mp hc) v hv with hm | hm
    · exact Or.inl ⟨hm, hrange v hm⟩
    · exact Or.inr hm
  · intro v hv w hw hvw
    show v = w
    have hv' := hv
    have hw' := hw
    simp only at hv' hw'
    rw [hs'.vars] at hv' hw'
    obtain ⟨k, _, _, rfl⟩ := mem_vars_upto hv'
    obtain ⟨j, _, _, rfl⟩ := mem_vars_upto hw'
    simp only [nth_var, Nat.cast_inj] at hvw
    rw [hvw]

/-! ## Exact emission of conditions -/

theorem Emitter.codes_emit (s : Emitter) (ins : irins) :
    (s.emit ins).codes = s.codes ++ [⟨ins, false⟩] := by
  simp [Emitter.emit, Emitter.codes]

/-- The instructions that a successful run of `translate_Cond` appends. -/
theorem translate_Cond_appends {tree : Exp} {lt lf : irlabel} {s s' : Emitter}
    (h : translate_Cond tree lt lf s = .ok ((), s')) : ∃ code, s'.codes = s.codes ++ code := by
  obtain ⟨new, e, _⟩ := (((Holds_translate_Cond Prims_Extends tree lt lf) s).1 _ _ h).irs
  exact ⟨new.reverse, by simp [Emitter.codes, e]⟩

theorem new_label_addr {s : Emitter} {l : irlabel} {s1 : Emitter}
    (h : new_label s = .ok (l, s1)) : l.addr = s.label_alloc := by
  obtain ⟨_, rfl, _⟩ := new_label_ok_iff.mp h
  rfl

theorem op_rval_eq (v : irvar) (s : Emitter) : op_rval v s = .ok (rval s v, s) := by
  unfold op_rval rval op_deref op_var
  rfl

theorem bool_value_ok_iff (tree : Exp) (target : irvar) (s s' : Emitter) :
    bool_value tree target s = .ok ((), s') ↔ emits_bool_value tree target s s' := by
  unfold bool_value emits_bool_value
  simp only [IRM.bind_ok_iff, gen_assign_ok_iff, gen_label_ok_iff, op_var_kind, true_or, true_and]
  constructor
  · rintro ⟨Lt, s1, h1, Lf, s2, h2, u3, s3, rfl, u4, s4, h4, u5, s5, rfl, u6, s6, rfl, rfl⟩
    obtain ⟨cond, hc⟩ := translate_Cond_appends h4
    have e1 : s1.irs = s.irs := by obtain ⟨_, _, rfl⟩ := new_label_ok_iff.mp h1; rfl
    have e2 : s2.irs = s1.irs := by obtain ⟨_, _, rfl⟩ := new_label_ok_iff.mp h2; rfl
    have hc' : s4.codes = s.codes ++ ⟨.Assign (.Var target) (.Const 0), false⟩ :: cond := by
      rw [hc]; simp [Emitter.codes, e1, e2, op_var, op_const]
    refine ⟨Lt, s1, Lf, s2, s4, cond, h1, h2, h4, hc', rfl, ?_⟩
    show (((s4.emit _).emit _).emit _).codes = _
    simp only [Emitter.codes_emit, hc', op_var, op_const]
    simp
  · rintro ⟨Lt, s1, Lf, s2, s3, cond, h1, h2, h3, _, rfl, _⟩
    exact ⟨Lt, s1, h1, Lf, s2, h2, (), _, rfl, (), s3, h3, (), _, rfl, (), _, rfl, rfl⟩

/-- Claim C7: for `E1 AND E2`, `E1 OR E2` and `E1 RELOP E2`, `translate_Exp`
emits exactly the boolean value form. -/
theorem bool_exp_emits_value_form (tp : type) (l r : Exp) (rt : relop_type) (target : irvar)
    (s s' : Emitter) :
    (translate_Exp (.AND tp l r) target s = .ok ((), s') ↔
      emits_bool_value (.AND tp l r) target s s') ∧
    (translate_Exp (.OR tp l r) target s = .ok ((), s') ↔
      emits_bool_value (.OR tp l r) target s s') ∧
    (translate_Exp (.RELOP tp l rt r) target s = .ok ((), s') ↔
      emits_bool_value (.RELOP tp l rt r) target s s') := by
  rw [translate_Exp_AND, translate_Exp_OR, translate_Exp_RELOP]
  exact ⟨bool_value_ok_iff _ _ _ _, bool_value_ok_iff _ _ _ _, bool_value_ok_iff _ _ _ _⟩

/-- Claim C8: short-circuit lowering of `E1 AND E2` and `E1 OR E2`, for labels
`Lt`, `Lf` that were allocated before. -/
theorem short_circuit_lowering (tp : type) (E1 E2 : Exp) (Lt Lf : irlabel) (s s' : Emitter)
    (hLt : Lt.addr < s.label_alloc) (hLf : Lf.addr < s.label_alloc) :
    (translate_Cond (.AND tp E1 E2) Lt Lf s = .ok ((), s') ↔
      emits_short_circuit true E1 E2 Lt Lf s s') ∧
    (translate_Cond (.OR tp E1 E2) Lt Lf s = .ok ((), s') ↔
      emits_short_circuit false E1 E2 Lt Lf s s') := by
  rw [translate_Cond_AND, translate_Cond_OR]
  unfold emits_short_circuit
  simp only [IRM.bind_ok_iff, gen_label_ok_iff]
  constructor
  · constructor
    · rintro ⟨Ls, s1, h1, u2, s2, h2, u3, s3, rfl, h4⟩
      have ha := new_label_addr h1
      obtain ⟨c1, hc1⟩ := translate_Cond_appends h2
      obtain ⟨c2, hc2⟩ := translate_Cond_appends h4
      have e1 : s1.codes = s.codes := by
        obtain ⟨_, _, rfl⟩ := new_label_ok_iff.mp h1; rfl
      refine ⟨Ls, s1, s2, c1, c2, h1, ?_, ?_, h2, by rw [hc1, e1], h4, ?_⟩
      · intro h; rw [h] at ha; omega
      · intro h; rw [h] at ha; omega
      · rw [hc2]
        show (s2.emit _).codes ++ c2 = _
        rw [Emitter.codes_emit, hc1, e1]
    · rintro ⟨Ls, s1, s2, c1, c2, h1, _, _, h2, _, h4, _⟩
      exact ⟨Ls, s1, h1, (), s2, h2, (), _, rfl, h4⟩
  · constructor
    · rintro ⟨Ls, s1, h1, u2, s2, h2, u3, s3, rfl, h4⟩
      have ha := new_label_addr h1
      obtain ⟨c1, hc1⟩ := translate_Cond_appends h2
      obtain ⟨c2, hc2⟩ := translate_Cond_appends h4
      have e1 : s1.codes = s.codes := by
        obtain ⟨_, _, rfl⟩ := new_label_ok_iff.mp h1; rfl
      refine ⟨Ls, s1, s2, c1, c2, h1, ?_, ?_, h2, by rw [hc1, e1], h4, ?_⟩
      · intro h; rw [h] at ha; omega
      · intro h; rw [h] at ha; omega
      · rw [hc2]
        show (s2.emit _).codes ++ c2 = _
        rw [Emitter.codes_emit, hc1, e1]
    · rintro ⟨Ls, s1, s2, c1, c2, h1, _, _, h2, _, h4, _⟩
      exact ⟨Ls, s1, h1, (), s2, h2, (), _, rfl, h4⟩

/-- Claim C9: `translate_Cond` on `NOT E` is `translate_Cond` on `E` with the
labels swapped (same result, same final state), so a double negation and a
parenthesis leave the lowering unchanged. -/
theorem cond_not_swaps_labels (tp tp' : type) (E : Exp) (Lt Lf : irlabel) (s : Emitter) :
    translate_Cond (.NOT tp E) Lt Lf s = translate_Cond E Lf Lt s ∧
    translate_Cond (.NOT tp (.NOT tp' E)) Lt Lf s = translate_Cond E Lt Lf s ∧
    translate_Cond (.LP tp E) Lt Lf s = translate_Cond E Lt Lf s := by
  simp only [translate_Cond_NOT, translate_Cond_LP, and_self]

theorem relop_ok_iff (tp : type) (E1 : Exp) (rt : relop_type) (E2 : Exp) (Lt Lf : irlabel)
    (s s' : Emitter) :
    translate_Cond (.RELOP tp E1 rt E2) Lt Lf s = .ok ((), s') ↔
      emits_relop E1 rt E2 Lt Lf s s' := by
  rw [translate_Cond_RELOP]
  unfold emits_relop
  simp only [IRM.bind_ok_iff, gen_branch_ok_iff, gen_goto_ok_iff, op_rval_eq, Except.ok.injEq,
    Prod.mk.injEq]
  constructor
  · rintro ⟨v1, s1, h1, v2, s2, h2, u3, s3, h3, u4, s4, h4, o1, s5, ⟨rfl, rfl⟩, o2, s6,
      ⟨rfl, rfl⟩, u7, s7, rfl, rfl⟩
    refine ⟨v1, s1, v2, s2, s3, s4, h1, h2, h3, h4, rfl, ?_⟩
    show ((s4.emit _).emit _).codes = _
    simp [Emitter.codes_emit]
  · rintro ⟨v1, s1, v2, s2, s3, s4, h1, h2, h3, h4, rfl, _⟩
    exact ⟨v1, s1, h1, v2, s2, h2, (), s3, h3, (), s4, h4, _, _, ⟨rfl, rfl⟩, _, _, ⟨rfl, rfl⟩,
      (), _, rfl, rfl⟩

theorem default_cond_ok_iff (tree : Exp) (Lt Lf : irlabel) (s s' : Emitter)
    (h : tree.cond_default = true) :
    translate_Cond tree Lt Lf s = .ok ((), s') ↔ emits_default_cond tree Lt Lf s s' := by
  rw [translate_Cond_default _ _ _ h]
  unfold emits_default_cond
  simp only [IRM.bind_ok_iff, gen_branch_ok_iff, gen_goto_ok_iff, op_rval_eq, Except.ok.injEq,
    Prod.mk.injEq]
  constructor
  · rintro ⟨v1, s1, h1, u3, s3, h3, o1, s5, ⟨rfl, rfl⟩, u7, s7, rfl, rfl⟩
    refine ⟨v1, s1, s3, h1, h3, rfl, ?_⟩
    show ((s3.emit _).emit _).codes = _
    simp [Emitter.codes_emit, op_const]
  · rintro ⟨v1, s1, s3, h1, h3, rfl, _⟩
    exact ⟨v1, s1, h1, (), s3, h3, _, _, ⟨rfl, rfl⟩, (), _, rfl, rfl⟩

/-- Claim C10: a relational condition lowers both sides into fresh `v1`, `v2`
and ends with `Branch (relop, Rval v1, Rval v2, Lt)`, `Goto (Lf)`; every
expression that is not `NOT`, parenthesised, `AND`, `OR` or `RELOP` is lowered
into a fresh `v` and ends with `Branch (NE, Rval v, Const 0, Lt)`, `Goto (Lf)`;
`Rval x` is `Deref x` when `x.isref` is set at that moment, else `Var x`. -/
theorem cond_ends_with_branch_goto (tp : type) (E1 : Exp) (rt : relop_type) (E2 tree : Exp)
    (Lt Lf : irlabel) (s s' : Emitter) (h : tree.cond_default = true) :
    (translate_Cond (.RELOP tp E1 rt E2) Lt Lf s = .ok ((), s') ↔
      emits_relop E1 rt E2 Lt Lf s s') ∧
    (translate_Cond tree Lt Lf s = .ok ((), s') ↔ emits_default_cond tree Lt Lf s s') ∧
    (∀ v, op_rval v s = .ok (if s.isref v.id then .Deref v else .Var v, s)) :=
  ⟨relop_ok_iff _ _ _ _ _ _ _ _, default_cond_ok_iff _ _ _ _ _ h, fun v => op_rval_eq v s⟩

/-! ## Sample programs -/

set_option maxRecDepth 10000 in
theorem ir_run_prog_main : ir_run prog_main = .ok ast_main := by
  simp only [prog_main, ir_run, ir_main, ir_prepare, ir_translate, translate_Program,
    translate_ExtDefList, translate_ExtDef, translate_FunDec, translate_CompSt, translate_DefList,
    translate_StmtList, translate_Stmt, translate_Def, translate_DecList, translate_Dec,
    translate_VarDec, translate_Exp_INT, translate_Exp_ID, translate_Exp_ASSIGNOP_ID,
    translate_Exp_CALL, translate_Exp_PLUS, translate_Exp_NOT, translate_Cond_RELOP,
    translate_Args_one, gen_args_loop, IRM.bind_apply, IRM.pure_apply, bind, pure, new_var,
    new_label, not_null, new_named_label, sym_main, sym_a, sym_write, sym_f, sym_x, set_ir, get_ir,
    gen_func, gen_param, push_ircode, translate_FunDec_loop, type.args, symlist.toList,
    Emitter.init, gen_assign, op_var, op_const, op_rval, op_deref, irop.kind, gen_return, type.cls,
    get_ignore_var, cast_irvar, cast_irlabel, set_isref, get_isref, gen_label, gen_goto,
    gen_branch, gen_add, AssertVar, Assert, gen_write, IRM.fail, Function.update]
  simp
  rfl

set_option maxRecDepth 10000 in
theorem ir_run_prog_f : ir_run prog_f = .ok ast_f := by
  simp only [prog_f, ir_run, ir_main, ir_prepare, ir_translate, translate_Program,
    translate_ExtDefList, translate_ExtDef, translate_FunDec, translate_CompSt, translate_DefList,
    translate_StmtList, translate_Stmt, translate_Def, translate_DecList, translate_Dec,
    translate_VarDec, translate_Exp_INT, translate_Exp_ID, translate_Exp_ASSIGNOP_ID,
    translate_Exp_CALL, translate_Exp_PLUS, translate_Exp_NOT, translate_Cond_RELOP,
    translate_Args_one, gen_args_loop, IRM.bind_apply, IRM.pure_apply, bind, pure, new_var,
    new_label, not_null, new_named_label, sym_main, sym_a, sym_write, sym_f, sym_x, set_ir, get_ir,
    gen_func, gen_param, push_ircode, translate_FunDec_loop, type.args, symlist.toList,
    Emitter.init, gen_assign, op_var, op_const, op_rval, op_deref, irop.kind, gen_return, type.cls,
    get_ignore_var, cast_irvar, cast_irlabel, set_isref, get_isref, gen_label, gen_goto,
    gen_branch, gen_add, AssertVar, Assert, gen_write, IRM.fail, Function.update]
  simp
  rfl

set_option maxRecDepth 10000 in
theorem ir_run_prog_not : ir_run prog_not = .ok ast_not := by
  simp only [prog_not, ir_run, ir_main, ir_prepare, ir_translate, translate_Program,
    translate_ExtDefList, translate_ExtDef, translate_FunDec, translate_CompSt, translate_DefList,
    translate_StmtList, translate_Stmt, translate_Def, translate_DecList, translate_Dec,
    translate_VarDec, translate_Exp_INT, translate_Exp_ID, translate_Exp_ASSIGNOP_ID,
    translate_Exp_CALL, translate_Exp_PLUS, translate_Exp_NOT, translate_Cond_RELOP,
    translate_Args_one, gen_args_loop, IRM.bind_apply, IRM.pure_apply, bind, pure, new_var,
    new_label, not_null, new_named_label, sym_main, sym_a, sym_write, sym_f, sym_x, set_ir, get_ir,
    gen_func, gen_param, push_ircode, translate_FunDec_loop, type.args, symlist.toList,
    Emitter.init, gen_assign, op_var, op_const, op_rval, op_deref, irop.kind, gen_return, type.cls,
    get_ignore_var, cast_irvar, cast_irlabel, set_isref, get_isref, gen_label, gen_goto,
    gen_branch, gen_add, AssertVar, Assert, gen_write, IRM.fail, Function.update]
  simp
  rfl

set_option maxRecDepth 10000 in
theorem ir_run_prog_if : ir_run prog_if = .ok ast_if := by
  simp only [prog_if, ir_run, ir_main, ir_prepare, ir_translate, translate_Program,
    translate_ExtDefList, translate_ExtDef, translate_FunDec, translate_CompSt, translate_DefList,
    translate_StmtList, translate_Stmt, translate_Def, translate_DecList, translate_Dec,
    translate_VarDec, translate_Exp_INT, translate_Exp_ID, translate_Exp_ASSIGNOP_ID,
    translate_Exp_CALL, translate_Exp_PLUS, translate_Exp_NOT, translate_Cond_RELOP,
    translate_Args_one, gen_args_loop, IRM.bind_apply, IRM.pure_apply, bind, pure, new_var,
    new_label, not_null, new_named_label, sym_main, sym_a, sym_write, sym_f, sym_x, set_ir, get_ir,
    gen_func, gen_param, push_ircode, translate_FunDec_loop, type.args, symlist.toList,
    Emitter.init, gen_assign, op_var, op_const, op_rval, op_deref, irop.kind, gen_return, type.cls,
    get_ignore_var, cast_irvar, cast_irlabel, set_isref, get_isref, gen_label, gen_goto,
    gen_branch, gen_add, AssertVar, Assert, gen_write, IRM.fail, Function.update]
  simp
  rfl

/-! ## The end-to-end scenarios -/

theorem ir_run_ok {tree : Program} {a : ast} (h : ir_run tree = .ok a) :
    ∃ s', ir_main tree Emitter.init = .ok (a, s') := by
  unfold ir_run at h
  cases hx : ir_main tree Emitter.init with
  | error e => rw [hx] at h; cases h
  | ok r =>
    rw [hx] at h
    obtain ⟨a', s'⟩ := r
    cases h
    exact ⟨s', rfl⟩

theorem ir_linearise_ast_f : ir_linearise ast_f =
    "FUNCTION f :\nPARAM t2\nt4 := t2\nt5 := #1\nt3 := t4 + t5\nt6 := t3\nRETURN t6\n" := by
  decide

theorem ir_linearise_ast_main :
    ir_linearise ast_main = "FUNCTION main :\nt2 := #0\nt3 := t2\nRETURN t3\n" := by
  decide

theorem ir_linearise_ast_not : ir_linearise ast_not = "FUNCTION main :\nt3 := t2\nRETURN t3\n" := by
  decide

/-- Claim C1, as amended: the first translation of `int f(int x) { return x + 1; }`
prints `FUNCTION f :`, `PARAM t2`, `t4 := t2`, `t5 := #1`, `t3 := t4 + t5`,
`t6 := t3`, `RETURN t6`: the variable of the returned value is allocated
before the temporaries of the operands. -/
theorem f_prints_seven_lines : ir_output prog_f =
    .ok "FUNCTION f :\nPARAM t2\nt4 := t2\nt5 := #1\nt3 := t4 + t5\nt6 := t3\nRETURN t6\n" := by
  rw [ir_output, ir_run_prog_f, ← ir_linearise_ast_f]
  rfl

/-- Claim C1, as stated, fails: the printed text is not `FUNCTION f :`,
`PARAM t2`, `t3 := t2`, `t4 := #1`, `t5 := t3 + t4`, `t6 := t5`, `RETURN t6`. -/
theorem f_output_is_not_as_stated : ir_output prog_f ≠
    .ok "FUNCTION f :\nPARAM t2\nt3 := t2\nt4 := #1\nt5 := t3 + t4\nt6 := t5\nRETURN t6\n" := by
  rw [ir_output, ir_run_prog_f]
  intro h
  have h' : ir_linearise ast_f =
      "FUNCTION f :\nPARAM t2\nt3 := t2\nt4 := #1\nt5 := t3 + t4\nt6 := t5\nRETURN t6\n" :=
    Except.ok.inj h
  rw [ir_linearise_ast_f] at h'
  exact absurd h' (by decide)

/-- Claim C2: the first translation of `int main() { return 0; }` prints
`FUNCTION main :`, `t2 := #0`, `t3 := t2`, `RETURN t3`. -/
theorem main_prints_four_lines : ir_output prog_main =
    .ok "FUNCTION main :\nt2 := #0\nt3 := t2\nRETURN t3\n" := by
  rw [ir_output, ir_run_prog_main, ← ir_linearise_ast_main]
  rfl

/-- Witness of claim C3 on `int main() { int a; a = 3; if (a > 0) write(a); return 0; }`:
the translation completes, its `Branch` jumps to `l1`, and `l1` is defined once. -/
theorem jump_target_defined_once_witness :
    ir_run prog_if = .ok ast_if ∧
    (⟨.Branch .RT_L (.Var ⟨4, "t4"⟩) (.Var ⟨5, "t5"⟩) ⟨1, "l1"⟩, false⟩ : ircode) ∈ ast_if.codes ∧
    ast_if.codes.countP (ircode.defines ⟨1, "l1"⟩) = 1 := by
  obtain ⟨s', h⟩ := ir_run_ok ir_run_prog_if
  have hc : (⟨.Branch .RT_L (.Var ⟨4, "t4"⟩) (.Var ⟨5, "t5"⟩) ⟨1, "l1"⟩, false⟩ : ircode) ∈
      ast_if.codes := by
    simp [ast_if]
  exact ⟨ir_run_prog_if, hc,
    jump_target_defined_once prog_if Emitter.init ast_if s' h _ hc ⟨1, "l1"⟩
      (by simp [ircode.jumps])⟩

/-- Witness of claim C4 on the same program: the run completes and every
instruction of the result is well kinded. -/
theorem operand_kinds_hold_witness :
    ir_run prog_if = .ok ast_if ∧ ∀ c ∈ ast_if.codes, c.ins.WellKinded := by
  obtain ⟨s', h⟩ := ir_run_ok ir_run_prog_if
  exact ⟨ir_run_prog_if, (operand_kinds_hold prog_if Emitter.init).2 ast_if s' h⟩

set_option maxRecDepth 10000 in
theorem ir_main_prog_label_read (w : irlabel → irvar) :
    (ir_main prog_label_read { Emitter.init with label_as_var := w }).map Prod.fst =
      .ok (ast_label_read (w ⟨0, "f"⟩)) := by
  simp only [prog_label_read, ir_main, ir_prepare, ir_translate, translate_Program,
    translate_ExtDefList, translate_ExtDef, translate_FunDec, translate_CompSt, translate_DefList,
    translate_StmtList, translate_Stmt, translate_Exp_INT, translate_Exp_ID,
    IRM.bind_apply, IRM.pure_apply, bind, pure, new_var,
    new_label, not_null, new_named_label, sym_main, sym_f, sym_x, set_ir, get_ir,
    gen_func, gen_param, push_ircode, translate_FunDec_loop, type.args, symlist.toList,
    Emitter.init, gen_assign, op_var, op_const, op_rval, op_deref, irop.kind, gen_return, type.cls,
    get_ignore_var, cast_irvar, cast_irlabel, set_isref, get_isref,
    AssertVar, Assert, IRM.fail, Function.update]
  simp
  rfl

/-- Claim C5 (fails on the code): `new_var` numbers the variables in order, the
table of a translation is `t_n, ..., t_1`, and every variable that an
instruction refers to is in the table unless it is a label read as a variable.
That case occurs: `translate_Exp` casts the `ir` slot of the symbol of an `ID`
to a variable without a check, so in the translation of
`int f(int x) { return 0; } int main() { f; return 0; }` the statement `f;`
becomes `Assign (Var t1, Var g)` with `g` whatever the label of `f` shows when
it is read as a variable; the operands of the result are all in the table
`t6, ..., t1` only if `g` is, and in the first translation of a process `g` is
not. -/
theorem label_read_as_operand :
    (∀ s v s1, s.VarsOK → new_var s = .ok (v, s1) →
      v = nth_var (s.vars.length + 1) ∧ s1.vars = v :: s.vars ∧ s1.VarsOK) ∧
    (∀ tree s a s', s.VarsOK → (∀ x v, s.sym_ir x = some (.var v) → v ∈ s.vars) →
      ir_main tree s = .ok (a, s') →
      a.var_count = a.vars.length ∧ a.vars = vars_upto a.vars.length ∧
      (∀ c ∈ a.codes, ∀ v ∈ c.ins.vars,
        (v ∈ a.vars ∧ 1 ≤ v.id ∧ v.id ≤ a.var_count) ∨ ∃ l, v = s.label_as_var l) ∧
      (∀ v ∈ a.vars, ∀ w ∈ a.vars, v.id = w.id → v = w)) ∧
    (∀ w, (ir_main prog_label_read { Emitter.init with label_as_var := w }).map Prod.fst =
      .ok (ast_label_read (w ⟨0, "f"⟩))) ∧
    (∀ g, (∀ c ∈ (ast_label_read g).codes, ∀ v ∈ c.ins.vars,
        v ∈ (ast_label_read g).vars ∧ 1 ≤ v.id ∧ v.id ≤ (ast_label_read g).var_count) →
      g ∈ (ast_label_read g).vars) ∧
    ir_run prog_label_read = .ok (ast_label_read ⟨0, "f"⟩) ∧
    ¬ (∀ c ∈ (ast_label_read ⟨0, "f"⟩).codes, ∀ v ∈ c.ins.vars,
        v ∈ (ast_label_read ⟨0, "f"⟩).vars ∧ 1 ≤ v.id ∧
          v.id ≤ (ast_label_read ⟨0, "f"⟩).var_count) := by
  have hg : ∀ g, (∀ c ∈ (ast_label_read g).codes, ∀ v ∈ c.ins.vars,
      v ∈ (ast_label_read g).vars ∧ 1 ≤ v.id ∧ v.id ≤ (ast_label_read g).var_count) →
      g ∈ (ast_label_read g).vars ∧ 1 ≤ g.id := by
    intro g h
    have h1 := h ⟨.Assign (.Var ⟨1, "t1"⟩) (.Var g), false⟩ (by simp [ast_label_read]) g
      (by simp [irins.vars, irop.vars])
    exact ⟨h1.1, h1.2.1⟩
  refine ⟨operand_vars_allocated.1, operand_vars_allocated.2, ir_main_prog_label_read,
    fun g h => (hg g h).1, ir_main_prog_label_read _, fun h => ?_⟩
  exact absurd (hg _ h).2 (by decide)

/-- A boolean value form always appends at least five instructions. -/
theorem emits_bool_value_ne (tree : Exp) (target : irvar) (s : Emitter) :
    ¬ emits_bool_value tree target s s := by
  rintro ⟨Lt, s1, Lf, s2, s3, cond, _, _, _, _, _, h⟩
  have hl := congrArg List.length h
  simp at hl

/-- Claim C6 (fails on the code): `translate_Exp` on `!0` returns without
emitting anything and without changing the state, which is not the boolean
value form; the first translation of `int main() { return !0; }` prints
`FUNCTION main :`, `t3 := t2`, `RETURN t3`, where `t2` is never assigned. -/
theorem not_value_emits_nothing :
    (∀ target s, translate_Exp (.NOT .META (.INT .META 0)) target s = .ok ((), s) ∧
      ¬ emits_bool_value (.NOT .META (.INT .META 0)) target s s) ∧
    ir_output prog_not = .ok "FUNCTION main :\nt3 := t2\nRETURN t3\n" := by
  refine ⟨fun target s => ⟨by rw [translate_Exp_NOT]; rfl, emits_bool_value_ne _ _ _⟩, ?_⟩
  rw [ir_output, ir_run_prog_not, ← ir_linearise_ast_not]
  rfl

set_option maxRecDepth 10000 in
theorem cond_and_run :
    translate_Cond (.AND .META (.INT .META 1) (.INT .META 0)) ⟨0, "l1"⟩ ⟨1, "l2"⟩
      state_two_labels = .ok ((), state_and_lowered) := by
  simp only [translate_Cond_AND, translate_Cond_default (.INT .META 1) _ _ rfl,
    translate_Cond_default (.INT .META 0) _ _ rfl, translate_Exp_INT, IRM.bind_apply,
    IRM.pure_apply, bind, pure, new_var, new_label, push_ircode, state_two_labels, Emitter.init,
    gen_assign, gen_label, gen_goto, gen_branch, op_var, op_const, op_rval, op_deref, irop.kind,
    get_isref, AssertVar, Assert, IRM.fail, Function.update, state_and_lowered]
  simp
  first | rfl | decide

set_option maxRecDepth 10000 in
theorem cond_or_run :
    translate_Cond (.OR .META (.INT .META 1) (.INT .META 0)) ⟨0, "l1"⟩ ⟨1, "l2"⟩
      state_two_labels = .ok ((), state_or_lowered) := by
  simp only [translate_Cond_OR, translate_Cond_default (.INT .META 1) _ _ rfl,
    translate_Cond_default (.INT .META 0) _ _ rfl, translate_Exp_INT, IRM.bind_apply,
    IRM.pure_apply, bind, pure, new_var, new_label, push_ircode, state_two_labels, Emitter.init,
    gen_assign, gen_label, gen_goto, gen_branch, op_var, op_const, op_rval, op_deref, irop.kind,
    get_isref, AssertVar, Assert, IRM.fail, Function.update, state_or_lowered]
  simp
  first | rfl | decide

set_option maxRecDepth 10000 in
theorem cond_relop_run :
    translate_Cond (.RELOP .META (.INT .META 1) .RT_L (.INT .META 0)) ⟨0, "l1"⟩ ⟨1, "l2"⟩
      state_two_labels = .ok ((), state_relop_lowered) := by
  simp only [translate_Cond_RELOP, translate_Exp_INT, IRM.bind_apply,
    IRM.pure_apply, bind, pure, new_var, new_label, push_ircode, state_two_labels, Emitter.init,
    gen_assign, gen_label, gen_goto, gen_branch, op_var, op_const, op_rval, op_deref, irop.kind,
    get_isref, AssertVar, Assert, IRM.fail, Function.update, state_relop_lowered]
  simp
  first | rfl | decide

set_option maxRecDepth 10000 in
theorem cond_default_run :
    translate_Cond (.INT .META 1) ⟨0, "l1"⟩ ⟨1, "l2"⟩ state_two_labels =
      .ok ((), state_default_lowered) := by
  simp only [translate_Cond_default (.INT .META 1) _ _ rfl,
    translate_Cond_default (.INT .META 0) _ _ rfl, translate_Exp_INT, IRM.bind_apply,
    IRM.pure_apply, bind, pure, new_var, new_label, push_ircode, state_two_labels, Emitter.init,
    gen_assign, gen_label, gen_goto, gen_branch, op_var, op_const, op_rval, op_deref, irop.kind,
    get_isref, AssertVar, Assert, IRM.fail, Function.update, state_default_lowered]
  simp
  first | rfl | decide

/-- Witness of claim C8 at `1 && 0` and `1 || 0`, with the labels `l1`, `l2`
minted before: both runs return, in the states `state_and_lowered` and
`state_or_lowered`, and have the short-circuit form. -/
theorem short_circuit_lowering_witness :
    ((⟨0, "l1"⟩ : irlabel).addr < state_two_labels.label_alloc ∧
      (⟨1, "l2"⟩ : irlabel).addr < state_two_labels.label_alloc) ∧
    (translate_Cond (.AND .META (.INT .META 1) (.INT .META 0)) ⟨0, "l1"⟩ ⟨1, "l2"⟩
        state_two_labels = .ok ((), state_and_lowered) ∧
      emits_short_circuit true (.INT .META 1) (.INT .META 0) ⟨0, "l1"⟩ ⟨1, "l2"⟩
        state_two_labels state_and_lowered) ∧
    (translate_Cond (.OR .META (.INT .META 1) (.INT .META 0)) ⟨0, "l1"⟩ ⟨1, "l2"⟩
        state_two_labels = .ok ((), state_or_lowered) ∧
      emits_short_circuit false (.INT .META 1) (.INT .META 0) ⟨0, "l1"⟩ ⟨1, "l2"⟩
        state_two_labels state_or_lowered) :=
  ⟨⟨by decide, by decide⟩,
    ⟨cond_and_run,
      (short_circuit_lowering .META _ _ _ _ _ _ (by decide) (by decide)).1.mp cond_and_run⟩,
    ⟨cond_or_run,
      (short_circuit_lowering .META _ _ _ _ _ _ (by decide) (by decide)).2.mp cond_or_run⟩⟩

/-- Witness of claim C10 at the conditions `1 > 0` and `1`: both runs return,
in the states `state_relop_lowered` and `state_default_lowered`, and end with
the branch and the goto. -/
theorem cond_ends_with_branch_goto_witness :
    (Exp.INT .META 1).cond_default = true ∧
    (translate_Cond (.RELOP .META (.INT .META 1) .RT_L (.INT .META 0)) ⟨0, "l1"⟩ ⟨1, "l2"⟩
        state_two_labels = .ok ((), state_relop_lowered) ∧
      emits_relop (.INT .META 1) .RT_L (.INT .META 0) ⟨0, "l1"⟩ ⟨1, "l2"⟩
        state_two_labels state_relop_lowered) ∧
    (translate_Cond (.INT .META 1) ⟨0, "l1"⟩ ⟨1, "l2"⟩ state_two_labels =
        .ok ((), state_default_lowered) ∧
      emits_default_cond (.INT .META 1) ⟨0, "l1"⟩ ⟨1, "l2"⟩ state_two_labels
        state_default_lowered) ∧
    (∀ v, op_rval v state_two_labels =
      .ok (if state_two_labels.isref v.id then .Deref v else .Var v, state_two_labels)) :=
  ⟨by decide,
    ⟨cond_relop_run,
      (cond_ends_with_branch_goto .META _ _ _ (.INT .META 1) _ _ _ _ (by decide)).1.mp
        cond_relop_run⟩,
    ⟨cond_default_run,
      (cond_ends_with_branch_goto .META (.INT .META 1) .RT_L (.INT .META 0) _ _ _ _ _
        (by decide)).2.1.mp cond_default_run⟩,
    (cond_ends_with_branch_goto .META (.INT .META 1) .RT_L (.INT .META 0) (.INT .META 1)
      ⟨0, "l1"⟩ ⟨1, "l2"⟩ state_two_labels state_two_labels (by decide)).2.2⟩

/-! ## External definitions and statements -/

theorem translate_Stmt_appends {tree : Stmt} {s s' : Emitter}
    (h : translate_Stmt tree s = .ok ((), s')) : ∃ code, s'.codes = s.codes ++ code := by
  obtain ⟨new, e, _⟩ := (((Holds_translate_Stmt Prims_Extends tree) s).1 _ _ h).irs
  exact ⟨new.reverse, by simp [Emitter.codes, e]⟩

theorem translate_CompSt_appends {tree : CompSt} {s s' : Emitter}
    (h : translate_CompSt tree s = .ok ((), s')) : ∃ code, s'.codes = s.codes ++ code := by
  obtain ⟨new, e, _⟩ := (((Holds_translate_CompSt Prims_Extends tree) s).1 _ _ h).irs
  exact ⟨new.reverse, by simp [Emitter.codes, e]⟩

theorem translate_FunDec_appends {tree : FunDec} {s s' : Emitter}
    (h : translate_FunDec tree s = .ok ((), s')) : ∃ code, s'.codes = s.codes ++ code := by
  obtain ⟨new, e, _⟩ := (((Holds_translate_FunDec Prims_Extends tree) s).1 _ _ h).irs
  exact ⟨new.reverse, by simp [Emitter.codes, e]⟩

theorem new_label_codes {s : Emitter} {l : irlabel} {s1 : Emitter}
    (h : new_label s = .ok (l, s1)) : s1.codes = s.codes ∧ s1.label_alloc = s.label_alloc + 1 := by
  obtain ⟨_, _, rfl⟩ := new_label_ok_iff.mp h
  exact ⟨rfl, rfl⟩

theorem irlabel_ne_of_addr {a b : irlabel} (h : a.addr ≠ b.addr) : a ≠ b :=
  fun e => h (congrArg irlabel.addr e)

/-- A list of external definitions that holds a global variable or a function
prototype is not translated. -/
theorem translate_ExtDefList_rejects (defs : ExtDefList) (d : ExtDef) (hd : d ∈ defs.toList)
    (hk : d = .ExtDecList ∨ ∃ f, d = .FunDecl f) (s : Emitter) :
    ∃ e, translate_ExtDefList defs s = .error e := by
  induction defs generalizing s with
  | nil => simp [ExtDefList.toList] at hd
  | cons d' rest ih =>
    rw [IRLab.translate_ExtDefList]
    cases h1 : translate_ExtDef d' s with
    | error e => exact ⟨e, by rw [IRM.bind_apply, h1]⟩
    | ok r =>
      obtain ⟨u, s1⟩ := r
      rcases List.mem_cons.mp hd with h | h
      · subst h
        rcases hk with rfl | ⟨f, rfl⟩
        · simp [IRLab.translate_ExtDef, IRM.fail] at h1
        · rw [IRLab.translate_ExtDef, IRM.bind_ok_iff] at h1
          obtain ⟨_, _, _, h2⟩ := h1
          simp [IRM.fail] at h2
      · obtain ⟨e, he⟩ := ih h s1
        exact ⟨e, by rw [IRM.bind_apply, h1]; exact he⟩

/-- Claim C15: `translate_ExtDef` aborts on `Specifier ExtDecList SEMI` and on
`Specifier FunDec SEMI`, and a program that holds one of them yields no IR
program; on `Specifier SEMI` it returns with the state unchanged; on
`Specifier FunDec CompSt` it is the function header followed by the lowering of
the body. -/
theorem extdef_productions (f : FunDec) (body : CompSt) (s s' : Emitter) :
    (∃ e, translate_ExtDef .ExtDecList s = .error e) ∧
    (∃ e, translate_ExtDef (.FunDecl f) s = .error e) ∧
    (∀ tree : Program, (.ExtDecList ∈ tree.defs.toList ∨ .FunDecl f ∈ tree.defs.toList) →
      ∃ e, ir_main tree s = .error e) ∧
    translate_ExtDef .SEMI s = .ok ((), s) ∧
    (translate_ExtDef (.FunDef f body) s = .ok ((), s') ↔
      ∃ s1 header code, translate_FunDec f s = .ok ((), s1) ∧
        s1.codes = s.codes ++ header ∧ translate_CompSt body s1 = .ok ((), s') ∧
        s'.codes = s.codes ++ header ++ code) := by
  refine ⟨⟨_, rfl⟩, ?_, ?_, rfl, ?_⟩
  · rw [IRLab.translate_ExtDef, IRM.bind_apply]
    cases translate_FunDec f s with
    | error e => exact ⟨e, rfl⟩
    | ok r => exact ⟨_, rfl⟩
  · intro tree ht
    have hl : ∀ s1, ∃ e, translate_ExtDefList tree.defs s1 = .error e := by
      intro s1
      rcases ht with h | h
      · exact translate_ExtDefList_rejects _ _ h (Or.inl rfl) s1
      · exact translate_ExtDefList_rejects _ _ h (Or.inr ⟨f, rfl⟩) s1
    unfold ir_main
    rw [IRM.bind_apply]
    cases ir_prepare s with
    | error e => exact ⟨e, rfl⟩
    | ok r =>
      obtain ⟨u, s1⟩ := r
      obtain ⟨e, he⟩ := hl s1
      refine ⟨e, ?_⟩
      show ir_translate tree s1 = .error e
      unfold ir_translate translate_Program
      rw [IRM.bind_apply, he]
  · rw [IRLab.translate_ExtDef, IRM.bind_ok_iff]
    constructor
    · rintro ⟨u, s1, h1, h2⟩
      obtain ⟨header, hh⟩ := translate_FunDec_appends h1
      obtain ⟨code, hc⟩ := translate_CompSt_appends h2
      exact ⟨s1, header, code, h1, hh, h2, by rw [hc, hh]⟩
    · rintro ⟨s1, header, code, h1, _, h2, _⟩
      exact ⟨(), s1, h1, h2⟩

theorem if_else_ok_iff (C : Exp) (S1 S2 : Stmt) (s s' : Emitter) :
    translate_Stmt (.IF_ELSE C S1 S2) s = .ok ((), s') ↔ emits_if_else C S1 S2 s s' := by
  rw [IRLab.translate_Stmt]
  unfold emits_if_else
  simp only [IRM.bind_ok_iff, gen_label_ok_iff, gen_goto_ok_iff]
  constructor
  · rintro ⟨Lt, sa, ha, Lf, sb, hb, Le, sc, hc, u1, sd, hd, u2, s2, rfl, u3, se, he, u4, s4, rfl,
      u5, s5, rfl, u6, sf, hf, h7⟩
    subst h7
    obtain ⟨cC, hcC⟩ := translate_Cond_appends hd
    obtain ⟨c1, hc1⟩ := translate_Stmt_appends he
    obtain ⟨c2, hc2⟩ := translate_Stmt_appends hf
    have a1 := new_label_addr ha
    have a2 := new_label_addr hb
    have a3 := new_label_addr hc
    obtain ⟨e1, n1⟩ := new_label_codes ha
    obtain ⟨e2, n2⟩ := new_label_codes hb
    obtain ⟨e3, n3⟩ := new_label_codes hc
    have hcC' : sd.codes = s.codes ++ cC := by rw [hcC, e3, e2, e1]
    refine ⟨Lt, sa, Lf, sb, Le, sc, sd, se, sf, cC, c1, c2, ha, hb, hc,
      irlabel_ne_of_addr (by omega), irlabel_ne_of_addr (by omega),
      irlabel_ne_of_addr (by omega), hd, hcC', he, hc1, hf, hc2, rfl, ?_⟩
    show (sf.emit _).codes = _
    rw [Emitter.codes_emit]
    have hc2' : sf.codes = ((se.emit (.Goto Le)).emit (.Label Lf)).codes ++ c2 := hc2
    have hc1' : se.codes = (sd.emit (.Label Lt)).codes ++ c1 := hc1
    rw [hc2', Emitter.codes_emit, Emitter.codes_emit, hc1', Emitter.codes_emit, hcC']
    simp
  · rintro ⟨Lt, sa, Lf, sb, Le, sc, sd, se, sf, cC, c1, c2, ha, hb, hc, _, _, _, hd, _, he, _,
      hf, _, rfl, _⟩
    exact ⟨Lt, sa, ha, Lf, sb, hb, Le, sc, hc, (), sd, hd, (), _, rfl, (), se, he, (), _, rfl,
      (), _, rfl, (), sf, hf, rfl⟩

theorem while_ok_iff (C : Exp) (S : Stmt) (s s' : Emitter) :
    translate_Stmt (.WHILE C S) s = .ok ((), s') ↔ emits_while C S s s' := by
  rw [IRLab.translate_Stmt]
  unfold emits_while
  simp only [IRM.bind_ok_iff, gen_label_ok_iff, gen_goto_ok_iff]
  constructor
  · rintro ⟨Lt, sa, ha, Lf, sb, hb, Ls, sc, hc, u1, s1, rfl, u2, sd, hd, u3, s3, rfl, u4, se, he,
      u5, s5, rfl, h7⟩
    subst h7
    obtain ⟨cC, hcC⟩ := translate_Cond_appends hd
    obtain ⟨cS, hcS⟩ := translate_Stmt_appends he
    have a1 := new_label_addr ha
    have a2 := new_label_addr hb
    have a3 := new_label_addr hc
    obtain ⟨e1, n1⟩ := new_label_codes ha
    obtain ⟨e2, n2⟩ := new_label_codes hb
    obtain ⟨e3, n3⟩ := new_label_codes hc
    have hcC' : sd.codes = (sc.emit (.Label Ls)).codes ++ cC := hcC
    have hcS' : se.codes = (sd.emit (.Label Lt)).codes ++ cS := hcS
    refine ⟨Lt, sa, Lf, sb, Ls, sc, sd, se, cC, cS, ha, hb, hc,
      irlabel_ne_of_addr (by omega), irlabel_ne_of_addr (by omega),
      irlabel_ne_of_addr (by omega), hd, hcC', he, hcS', rfl, ?_⟩
    show ((se.emit _).emit _).codes = _
    rw [Emitter.codes_emit, Emitter.codes_emit, hcS', Emitter.codes_emit, hcC',
      Emitter.codes_emit, e3, e2, e1]
    simp
  · rintro ⟨Lt, sa, Lf, sb, Ls, sc, sd, se, cC, cS, ha, hb, hc, _, _, _, hd, _, he, _, rfl, _⟩
    exact ⟨Lt, sa, ha, Lf, sb, hb, Ls, sc, hc, (), _, rfl, (), sd, hd, (), _, rfl, (), se, he,
      (), _, rfl, rfl⟩

/-- Claim C18: `translate_Stmt` on `IF (C) S1 ELSE S2` mints `Lt`, `Lf`, `Le`
in that order, pairwise distinct, and emits exactly the instructions of the
condition with `(Lt, Lf)`, `Label (Lt)`, the lowering of `S1`, `Goto (Le)`,
`Label (Lf)`, the lowering of `S2`, `Label (Le)`. -/
theorem if_else_lowering (C : Exp) (S1 S2 : Stmt) (s s' : Emitter) :
    translate_Stmt (.IF_ELSE C S1 S2) s = .ok ((), s') ↔ emits_if_else C S1 S2 s s' :=
  if_else_ok_iff C S1 S2 s s'

/-- Claim C19: `translate_Stmt` on `WHILE (C) S` mints three pairwise distinct
labels and emits exactly `Label (Ls)`, the instructions of the condition with
`(Lt, Lf)`, `Label (Lt)`, the lowering of `S`, `Goto (Ls)`, `Label (Lf)`. -/
theorem while_lowering (C : Exp) (S : Stmt) (s s' : Emitter) :
    translate_Stmt (.WHILE C S) s = .ok ((), s') ↔ emits_while C S s s' :=
  while_ok_iff C S s s'

/-! ## The counters across translations -/

set_option maxRecDepth 10000 in
theorem prepare_again_prog_if :
    (prepare_again prog_if Emitter.init).map Prod.fst = .ok (some ⟨9, "t9"⟩, "l3") := by
  simp only [prog_if, prepare_again, ir_run, ir_main, ir_prepare, ir_translate, translate_Program,
    translate_ExtDefList, translate_ExtDef, translate_FunDec, translate_CompSt, translate_DefList,
    translate_StmtList, translate_Stmt, translate_Def, translate_DecList, translate_Dec,
    translate_VarDec, translate_Exp_INT, translate_Exp_ID, translate_Exp_ASSIGNOP_ID,
    translate_Exp_CALL, translate_Exp_PLUS, translate_Exp_NOT, translate_Cond_RELOP,
    translate_Args_one, gen_args_loop, IRM.bind_apply, IRM.pure_apply, bind, pure, new_var,
    new_label, not_null, new_named_label, sym_main, sym_a, sym_write, sym_f, sym_x, set_ir, get_ir,
    gen_func, gen_param, push_ircode, translate_FunDec_loop, type.args, symlist.toList,
    Emitter.init, gen_assign, op_var, op_const, op_rval, op_deref, irop.kind, gen_return, type.cls,
    get_ignore_var, cast_irvar, cast_irlabel, set_isref, get_isref, gen_label, gen_goto,
    gen_branch, gen_add, AssertVar, Assert, gen_write, IRM.fail, Function.update]
  simp
  rfl

theorem ir_prepare_returns (s : Emitter) (h : 0 ≤ s.var_count) :
    ir_prepare s = .ok ((),
      { s with ir_is_passed := true, irs := [], var_count := s.var_count + 1,
               vars := ⟨s.var_count + 1, "t" ++ toString (s.var_count + 1)⟩ :: s.vars,
               isref := Function.update s.isref (s.var_count + 1) false,
               ignore_var := some ⟨s.var_count + 1, "t" ++ toString (s.var_count + 1)⟩ }) := by
  simp [ir_prepare, new_var, IRM.bind_apply, bind, h]

/-- Claim C14, as stated, fails: when `ir_prepare` is called again after a
translation that allocated eight variables and two labels, `ignore_var` is `t9`
and the first label minted is `l3`, not `t1` and `l1`. -/
theorem second_prepare_keeps_counters :
    (prepare_again prog_if Emitter.init).map Prod.fst = .ok (some ⟨9, "t9"⟩, "l3") ∧
    (prepare_again prog_if Emitter.init).map Prod.fst ≠ .ok (some ⟨1, "t1"⟩, "l1") := by
  rw [prepare_again_prog_if]
  refine ⟨rfl, fun h => ?_⟩
  have h1 : ((some ⟨9, "t9"⟩, "l3") : Option irvar × String) = (some ⟨1, "t1"⟩, "l1") :=
    Except.ok.inj h
  exact absurd (congrArg Prod.snd h1) (by decide)

/-- Claim C14, as amended: from a state in which `k` variables (`0 ≤ k`) and
`c` labels have been allocated, `ir_prepare` returns with the instruction list
empty and `ignore_var` the fresh variable `t(k+1)`, and the first label that
`new_label` mints then is named `l(c+1)`: the counters are not reset.  For the
first call of a process these are `t1` and `l1`. -/
theorem ir_prepare_keeps_counters (s : Emitter) (h : 0 ≤ s.var_count) :
    (∃ s', ir_prepare s = .ok ((), s') ∧ s'.irs = [] ∧
      s'.ignore_var = some ⟨s.var_count + 1, "t" ++ toString (s.var_count + 1)⟩ ∧
      s'.var_count = s.var_count + 1 ∧ s'.count = s.count ∧
      ∀ l s'', new_label s' = .ok (l, s'') → l.name = "l" ++ toString (s.count + 1)) ∧
    (∃ s' l s'', ir_prepare Emitter.init = .ok ((), s') ∧ s'.irs = [] ∧
      s'.ignore_var = some ⟨1, "t1"⟩ ∧ new_label s' = .ok (l, s'') ∧ l.name = "l1") := by
  constructor
  · refine ⟨_, ir_prepare_returns s h, rfl, rfl, rfl, rfl, ?_⟩
    intro l s'' hl
    obtain ⟨_, rfl, _⟩ := new_label_ok_iff.mp hl
    rfl
  · exact ⟨_, ⟨0, "l1"⟩, _, ir_prepare_returns Emitter.init (by decide), rfl, rfl,
      new_label_ok_iff.mpr ⟨by decide, rfl, rfl⟩, rfl⟩

/-- Witness of claim C14 (amended) in the state `state_two_labels`, where two
labels and no variable have been allocated: `ignore_var` becomes `t1` and the
next label is `l3`. -/
theorem ir_prepare_keeps_counters_witness :
    0 ≤ state_two_labels.var_count ∧
    ∃ s', ir_prepare state_two_labels = .ok ((), s') ∧ s'.irs = [] ∧
      s'.ignore_var = some ⟨0 + 1, "t" ++ toString ((0 : Int) + 1)⟩ ∧
      s'.var_count = 0 + 1 ∧ s'.count = 2 ∧
      ∀ l s'', new_label s' = .ok (l, s'') → l.name = "l" ++ toString ((2 : Int) + 1) :=
  ⟨by decide, (ir_prepare_keeps_counters state_two_labels (by decide)).1⟩

/-! ## The printer -/

theorem printOprand_eq (op : irop) : printOprand op = operand_text op := by
  cases op <;> rfl

theorem var_name_eq {op : irop} (h : op.kind = .IRO_Variable) : op.var_name = operand_text op := by
  cases op <;> first | rfl | cases h

theorem print_relop_eq (rt : relop_type) : print_relop rt = " " ++ relop_text rt ++ " " := by
  cases rt <;> decide

theorem print_ircode_eq (ins : irins) (h : ins.WellKinded) :
    print_ircode ⟨ins, false⟩ = text_form ins ++ "\n" := by
  cases ins <;>
    simp only [print_ircode, text_form, printOprand_eq, print_relop_eq, String.append_assoc,
      irins.WellKinded] at h ⊢ <;>
    simp [var_name_eq, h, String.append_assoc] <;> rfl

theorem ir_linearise_loop_eq (codes : List ircode)
    (h : ∀ c ∈ codes, c.ignore = false ∧ c.ins.WellKinded) :
    ir_linearise_loop codes =
      (codes.map (fun c => text_form c.ins ++ "\n")).foldr (fun line rest => line ++ rest) "" := by
  induction codes with
  | nil => rfl
  | cons c rest ih =>
    obtain ⟨ins, ig⟩ := c
    obtain ⟨h1, h2⟩ := h _ (List.mem_cons_self _ _)
    cases h1
    rw [ir_linearise_loop, print_ircode_eq ins h2, ih (fun c hc => h c (List.mem_cons_of_mem _ hc))]
    rfl

/-- Claim C12: `ir_linearise` prints every instruction that passes the
operand-kind assertions in the text form of the table of spec §6, one per line,
operands as `name`, `#k`, `&name`, `*name`, and the relational operators `L S LE
SE E NE` as `> < >= <= == !=`. -/
theorem printer_text_forms :
    (∀ ins : irins, ins.WellKinded → print_ircode ⟨ins, false⟩ = text_form ins ++ "\n") ∧
    (∀ a : ast, a.len = a.codes.length → (∀ c ∈ a.codes, c.ignore = false ∧ c.ins.WellKinded) →
      ir_linearise a =
        (a.codes.map (fun c => text_form c.ins ++ "\n")).foldr (fun line rest => line ++ rest) "") ∧
    (∀ v k, printOprand (.Var v) = v.name ∧ printOprand (.Const k) = "#" ++ toString k ∧
      printOprand (.Ref v) = "&" ++ v.name ∧ printOprand (.Deref v) = "*" ++ v.name) ∧
    (∀ rt a b L, print_ircode ⟨.Branch rt a b L, false⟩ =
      "IF " ++ printOprand a ++ " " ++ relop_text rt ++ " " ++ printOprand b ++ " GOTO " ++
        L.name ++ "\n") ∧
    relop_text .RT_L = ">" ∧ relop_text .RT_S = "<" ∧ relop_text .RT_LE = ">=" ∧
    relop_text .RT_SE = "<=" ∧ relop_text .RT_E = "==" ∧ relop_text .RT_NE = "!=" := by
  refine ⟨print_ircode_eq, ?_, fun v k => ⟨rfl, rfl, rfl, rfl⟩, ?_, rfl, rfl, rfl, rfl, rfl, rfl⟩
  · intro a hl h
    rw [ir_linearise, hl, List.take_length]
    exact ir_linearise_loop_eq _ h
  · intro rt a b L
    rw [print_ircode_eq (.Branch rt a b L) trivial]
    simp [text_form, printOprand_eq, String.append_assoc]

/-- Witness of claim C12 on the result of the first translation of the sample
program. -/
theorem printer_text_forms_witness :
    (ast_if.len = ast_if.codes.length ∧
      ∀ c ∈ ast_if.codes, c.ignore = false ∧ c.ins.WellKinded) ∧
    ir_linearise ast_if =
      (ast_if.codes.map (fun c => text_form c.ins ++ "\n")).foldr (fun line rest => line ++ rest) "" :=
  have h1 : ast_if.len = ast_if.codes.length := rfl
  have h2 : ∀ c ∈ ast_if.codes, c.ignore = false ∧ c.ins.WellKinded := by
    intro c hc
    simp only [ast_if, List.mem_cons, List.mem_singleton, List.not_mem_nil, or_false] at hc
    rcases hc with h | h | h | h | h | h | h | h | h | h | h | h | h | h | h | h <;> subst h <;>
      simp [irins.WellKinded, irop.kind]
  ⟨⟨h1, h2⟩, printer_text_forms.2.1 ast_if h1 h2⟩

/-! ## Function headers -/

theorem translate_FunDec_loop_cons (subev : String → Option symbol) (name : String) (tp : type)
    (rest : List (String × type)) (p : symbol) (s : Emitter) (hp : subev name = some p)
    (hv : 0 ≤ s.var_count) :
    translate_FunDec_loop subev ((name, tp) :: rest) s =
      translate_FunDec_loop subev rest (s.with_param tp p) := by
  rw [IRLab.translate_FunDec_loop]
  by_cases ha : tp.cls = .TC_STRUCT ∨ tp.cls = .TC_ARRAY
  · simp [hp, not_null, new_var, hv, ha, set_isref, set_ir, gen_param, AssertVar, op_var,
      irop.kind, push_ircode, IRM.bind_apply, IRM.pure_apply, bind, pure, Emitter.with_param,
      type.aggregate]
  · simp [hp, not_null, new_var, hv, ha, set_isref, set_ir, gen_param, AssertVar, op_var,
      irop.kind, push_ircode, IRM.bind_apply, IRM.pure_apply, bind, pure, Emitter.with_param,
      type.aggregate]

theorem fresh_vars_length (k : Int) (n : Nat) : (fresh_vars k n).length = n := by
  induction n generalizing k with
  | zero => rfl
  | succ n ih => simp [fresh_vars, ih]

theorem fresh_vars_gt (k : Int) (n : Nat) : ∀ v ∈ fresh_vars k n, k < v.id := by
  induction n generalizing k with
  | zero => simp [fresh_vars]
  | succ n ih =>
    intro v hv
    rcases List.mem_cons.mp hv with h | h
    · subst h; show k < k + 1; omega
    · have := ih (k + 1) v h; omega

theorem fresh_vars_pairwise (k : Int) (n : Nat) :
    (fresh_vars k n).Pairwise (fun v w => v.id < w.id) := by
  induction n generalizing k with
  | zero => exact List.Pairwise.nil
  | succ n ih =>
    refine List.Pairwise.cons (fun w hw => ?_) (ih (k + 1))
    exact fresh_vars_gt (k + 1) n w hw

/-- The loop of `translate_FunDec` returns and handles the formals in order. -/
theorem translate_FunDec_loop_returns (subev : String → Option symbol)
    (args : List (String × type)) (params : List symbol)
    (hparams : List.Forall₂ (fun a p => subev a.1 = some p) args params) :
    ∀ s : Emitter, 0 ≤ s.var_count → (params.map symbol.addr).Nodup →
    ∃ s', translate_FunDec_loop subev args s = .ok ((), s') ∧
      s'.irs = ((fresh_vars s.var_count args.length).map
        (fun v => (⟨.Param (.Var v), false⟩ : ircode))).reverse ++ s.irs ∧
      s'.vars = (fresh_vars s.var_count args.length).reverse ++ s.vars ∧
      s'.var_count = s.var_count + args.length ∧
      (∀ id, id ≤ s.var_count → s'.isref id = s.isref id) ∧
      (∀ a, a ∉ params.map symbol.addr → s'.sym_ir a = s.sym_ir a) ∧
      List.Forall₂ (fun v p => s'.sym_ir p.addr = some (.var v))
        (fresh_vars s.var_count args.length) params ∧
      List.Forall₂ (fun v a => s'.isref v.id = a.2.aggregate)
        (fresh_vars s.var_count args.length) args := by
  induction hparams with
  | nil =>
    intro s _ _
    exact ⟨s, rfl, by simp [fresh_vars], by simp [fresh_vars], by simp,
      fun _ _ => rfl, fun _ _ => rfl, by simp [fresh_vars], by simp [fresh_vars]⟩
  | @cons a p args params hp _ ih =>
    intro s hv hnd
    obtain ⟨name, tp⟩ := a
    rw [List.map_cons, List.nodup_cons] at hnd
    obtain ⟨s', h, hirs, hvars, hcount, hisref, hsym, hrec, hagg⟩ :=
      ih (s.with_param tp p) (by show 0 ≤ s.var_count + 1; omega) hnd.2
    have e1 : (s.with_param tp p).var_count = s.var_count + 1 := rfl
    rw [e1] at hirs hvars hcount hisref hrec hagg
    refine ⟨s', ?_, ?_, ?_, ?_, ?_, ?_, ?_, ?_⟩
    · rw [translate_FunDec_loop_cons subev name tp args p s hp hv]; exact h
    · rw [hirs]; simp [fresh_vars, Emitter.with_param]
    · rw [hvars]; simp [fresh_vars, Emitter.with_param]
    · rw [hcount]; simp; omega
    · intro id hid
      rw [hisref id (by omega)]
      show Function.update s.isref (s.var_count + 1) tp.aggregate id = s.isref id
      rw [Function.update_noteq (by omega)]
    · intro x hx
      rw [List.map_cons, List.mem_cons, not_or] at hx
      rw [hsym x hx.2]
      show Function.update s.sym_ir p.addr _ x = s.sym_ir x
      rw [Function.update_noteq hx.1]
    · refine List.Forall₂.cons ?_ hrec
      rw [hsym p.addr hnd.1]
      show Function.update s.sym_ir p.addr _ p.addr = _
      rw [Function.update_same]
    · refine List.Forall₂.cons ?_ hagg
      show s'.isref (s.var_count + 1) = tp.aggregate
      rw [hisref (s.var_count + 1) (le_refl _)]
      show Function.update s.isref (s.var_count + 1) tp.aggregate (s.var_count + 1) = _
      rw [Function.update_same]

theorem translate_FunDec_returns (f : FunDec) (sym : symbol) (params : List symbol)
    (s : Emitter) (hsym : f.sym = some sym)
    (hparams : List.Forall₂ (fun a p => f.subev a.1 = some p) sym.tp.args params)
    (hv : 0 ≤ s.var_count) (hnd : (sym.addr :: params.map symbol.addr).Nodup) :
    ∃ s', translate_FunDec f s = .ok ((), s') ∧
      s'.codes = s.codes ++ ⟨.Func ⟨s.label_alloc, sym.name⟩, false⟩ ::
        (fresh_vars s.var_count sym.tp.args.length).map (fun v => ⟨.Param (.Var v), false⟩) ∧
      s'.sym_ir sym.addr = some (.label ⟨s.label_alloc, sym.name⟩) ∧
      s'.vars = (fresh_vars s.var_count sym.tp.args.length).reverse ++ s.vars ∧
      List.Forall₂ (fun v p => s'.sym_ir p.addr = some (.var v))
        (fresh_vars s.var_count sym.tp.args.length) params ∧
      List.Forall₂ (fun v a => (s'.isref v.id = true ↔ a.2.cls = .TC_STRUCT ∨ a.2.cls = .TC_ARRAY))
        (fresh_vars s.var_count sym.tp.args.length) sym.tp.args := by
  rw [List.nodup_cons] at hnd
  obtain ⟨s', h, hirs, hvars, hcount, hisref, hsymir, hrec, hagg⟩ :=
    translate_FunDec_loop_returns f.subev sym.tp.args params hparams
      { s with label_alloc := s.label_alloc + 1,
               sym_ir := Function.update s.sym_ir sym.addr (some (.label ⟨s.label_alloc, sym.name⟩)),
               irs := ⟨.Func ⟨s.label_alloc, sym.name⟩, false⟩ :: s.irs } hv hnd.2
  refine ⟨s', ?_, ?_, ?_, hvars, hrec, ?_⟩
  · unfold IRLab.translate_FunDec
    simp only [hsym, not_null, new_named_label, set_ir, gen_func, push_ircode, IRM.bind_apply,
      IRM.pure_apply, bind, pure]
    exact h
  · simp [Emitter.codes, hirs]
  · rw [hsymir sym.addr hnd.1]
    show Function.update s.sym_ir sym.addr _ sym.addr = _
    rw [Function.update_same]
  · refine hagg.imp ?_
    intro v a hva
    rw [hva]
    simp [type.aggregate]

/-- Claim C20: for a function symbol with `n` formals, all found in the
function's environment, `translate_FunDec` returns having emitted exactly
`Func (L)` and `Param (Var v1)`, ..., `Param (Var vn)`, where `L` is a new label
with the function's name, recorded on the function's symbol, and `vi` is the
`i`-th fresh variable, recorded on the symbol of the `i`-th formal, with
increasing ids and `isref` set exactly for `STRUCT` and `ARRAY` formals. -/
theorem fundec_emits_header (f : FunDec) (sym : symbol) (params : List symbol) (s : Emitter)
    (hsym : f.sym = some sym)
    (hparams : List.Forall₂ (fun a p => f.subev a.1 = some p) sym.tp.args params)
    (hv : 0 ≤ s.var_count) (hnd : (sym.addr :: params.map symbol.addr).Nodup) :
    ∃ s' L vs, translate_FunDec f s = .ok ((), s') ∧
      L = ⟨s.label_alloc, sym.name⟩ ∧ vs = fresh_vars s.var_count sym.tp.args.length ∧
      vs.length = sym.tp.args.length ∧
      s'.codes = s.codes ++ ⟨.Func L, false⟩ :: vs.map (fun v => ⟨.Param (.Var v), false⟩) ∧
      s'.codes.length = s.codes.length + (sym.tp.args.length + 1) ∧
      s'.sym_ir sym.addr = some (.label L) ∧
      s'.vars = vs.reverse ++ s.vars ∧ (∀ v ∈ vs, s.var_count < v.id) ∧
      vs.Pairwise (fun v w => v.id < w.id) ∧
      List.Forall₂ (fun v p => s'.sym_ir p.addr = some (.var v)) vs params ∧
      List.Forall₂ (fun v a => (s'.isref v.id = true ↔ a.2.cls = .TC_STRUCT ∨ a.2.cls = .TC_ARRAY))
        vs sym.tp.args := by
  obtain ⟨s', h, hc, hl, hvars, hrec, hagg⟩ := translate_FunDec_returns f sym params s hsym hparams hv hnd
  refine ⟨s', _, _, h, rfl, rfl, fresh_vars_length _ _, hc, ?_, hl, hvars, fresh_vars_gt _ _,
    fresh_vars_pairwise _ _, hrec, hagg⟩
  rw [hc]
  simp [fresh_vars_length]

/-- Witness of claim C20 on the header of `int f(int x)`, as the first function
of a translation. -/
theorem fundec_emits_header_witness :
    (fundec_f.sym = some sym_f ∧
      List.Forall₂ (fun a p => fundec_f.subev a.1 = some p) sym_f.tp.args [sym_x] ∧
      0 ≤ Emitter.init.var_count ∧ (sym_f.addr :: [sym_x].map symbol.addr).Nodup) ∧
    ∃ s' L vs, translate_FunDec fundec_f Emitter.init = .ok ((), s') ∧
      L = ⟨Emitter.init.label_alloc, sym_f.name⟩ ∧
      vs = fresh_vars Emitter.init.var_count sym_f.tp.args.length ∧
      vs.length = sym_f.tp.args.length ∧
      s'.codes = Emitter.init.codes ++
        ⟨.Func L, false⟩ :: vs.map (fun v => ⟨.Param (.Var v), false⟩) ∧
      s'.codes.length = Emitter.init.codes.length + (sym_f.tp.args.length + 1) ∧
      s'.sym_ir sym_f.addr = some (.label L) ∧
      s'.vars = vs.reverse ++ Emitter.init.vars ∧ (∀ v ∈ vs, Emitter.init.var_count < v.id) ∧
      vs.Pairwise (fun v w => v.id < w.id) ∧
      List.Forall₂ (fun v p => s'.sym_ir p.addr = some (.var v)) vs [sym_x] ∧
      List.Forall₂ (fun v a => (s'.isref v.id = true ↔ a.2.cls = .TC_STRUCT ∨ a.2.cls = .TC_ARRAY))
        vs sym_f.tp.args :=
  have h1 : fundec_f.sym = some sym_f := rfl
  have h2 : List.Forall₂ (fun a p => fundec_f.subev a.1 = some p) sym_f.tp.args [sym_x] :=
    List.Forall₂.cons rfl List.Forall₂.nil
  have h3 : 0 ≤ Emitter.init.var_count := by decide
  have h4 : (sym_f.addr :: [sym_x].map symbol.addr).Nodup := by decide
  ⟨⟨h1, h2, h3, h4⟩, fundec_emits_header fundec_f sym_f [sym_x] Emitter.init h1 h2 h3 h4⟩

/-! ## Calls -/

theorem translate_Args_ok_iff : ∀ (args : Args) (ps : List irvar) (s s' : Emitter),
    translate_Args args s = .ok (ps, s') ↔ lowers_args args.toList ps s s'
  | .one e, ps, s, s' => by
    rw [translate_Args_one, Args.toList]
    simp only [IRM.bind_ok_iff]
    constructor
    · rintro ⟨p, s1, h1, u, s2, h2, h3⟩
      cases h3
      exact ⟨s1, s', h1, h2, rfl⟩
    · intro h
      match ps, h with
      | [p], ⟨s1, s2, h1, h2, h3⟩ =>
        cases h3
        exact ⟨p, s1, h1, (), _, h2, rfl⟩
      | p :: q :: ps, ⟨s1, s2, h1, h2, h3⟩ => exact h3.elim
  | .cons e rest, ps, s, s' => by
    rw [translate_Args_cons, Args.toList]
    simp only [IRM.bind_ok_iff]
    constructor
    · rintro ⟨p, s1, h1, u, s2, h2, next, s3, h3, h4⟩
      cases h4
      exact ⟨s1, s2, h1, h2, (translate_Args_ok_iff rest next s2 s').mp h3⟩
    · intro h
      match ps, h with
      | p :: ps, ⟨s1, s2, h1, h2, h3⟩ =>
        exact ⟨p, s1, h1, (), s2, h2, ps, s', (translate_Args_ok_iff rest ps s2 s').mpr h3, rfl⟩

theorem lowers_args_length : ∀ (es : List Exp) (ps : List irvar) (s s' : Emitter),
    lowers_args es ps s s' → ps.length = es.length
  | [], [], _, _, _ => rfl
  | [], _ :: _, _, _, h => h.elim
  | _ :: _, [], _, _, h => h.elim
  | e :: es, p :: ps, s, s', ⟨_, s2, _, _, h3⟩ => by
    simp [lowers_args_length es ps s2 s' h3]

theorem gen_args_loop_succ (formals : List (String × type)) (ps : List irvar)
    (hlen : ps.length = formals.length) (n : Nat) (hn : n < formals.length) (s : Emitter)
    (p : irvar) (a : String × type) (hp : ps.get? n = some p) (ha : formals.get? n = some a) :
    gen_args_loop formals ps.reverse formals.length (n + 1) s =
      if a.2.aggregate then
        (if s.isref p.id then
          gen_args_loop formals ps.reverse formals.length n (s.emit (.Arg (.Var p)))
        else .error (.assert "eq"))
      else gen_args_loop formals ps.reverse formals.length n (s.emit (.Arg (rval s p))) := by
  have hp' : ps.reverse.get? (formals.length - (n + 1)) = some p := by
    rw [List.get?_eq_getElem?, List.getElem?_reverse (by omega)]
    rw [show ps.length - 1 - (formals.length - (n + 1)) = n by omega, ← List.get?_eq_getElem?]
    exact hp
  obtain ⟨name, tp⟩ := a
  rw [gen_args_loop]
  simp only [hp', ha]
  by_cases hagg : tp.cls = .TC_ARRAY ∨ tp.cls = .TC_STRUCT
  · have h2 : tp.aggregate = true := by
      simp only [type.aggregate, decide_eq_true_eq]; exact hagg.symm
    by_cases hi : s.isref p.id = true
    · simp [hagg, h2, hi, get_isref, Assert, gen_arg, push_ircode, op_var, IRM.bind_apply,
        IRM.pure_apply, bind, pure, Emitter.emit]
    · simp [hagg, h2, hi, get_isref, Assert, gen_arg, push_ircode, op_var, IRM.bind_apply,
        IRM.pure_apply, bind, pure, Emitter.emit, IRM.fail]
  · have h2 : tp.aggregate = false := by
      simp only [type.aggregate, decide_eq_false_iff_not]; exact fun h => hagg h.symm
    simp [hagg, h2, op_rval_eq, gen_arg, push_ircode, IRM.bind_apply, bind, Emitter.emit]

/-- The loop over the arguments of a call, with `n` iterations left: it emits
the `Arg` instructions for `p(n), ..., p1`. -/
theorem gen_args_loop_ok_iff (formals : List (String × type)) (ps : List irvar)
    (hlen : ps.length = formals.length) :
    ∀ (n : Nat) (s s' : Emitter), n ≤ formals.length →
      (gen_args_loop formals ps.reverse formals.length n s = .ok ((), s') ↔
        (∀ pa ∈ (ps.zip formals).take n, pa.2.2.aggregate = true → s.isref pa.1.id = true) ∧
        s' = { s with irs := (((ps.zip formals).take n).map
          (fun pa => (⟨.Arg (arg_operand s pa.2.2 pa.1), false⟩ : ircode)) ++ s.irs) }) := by
  intro n
  induction n with
  | zero =>
    intro s s' _
    rw [gen_args_loop, IRM.pure_apply]
    constructor
    · intro h; cases h; exact ⟨by simp, rfl⟩
    · rintro ⟨_, h⟩; rw [h]; rfl
  | succ n ih =>
    intro s s' hn
    have hn1 : n < formals.length := hn
    have hn2 : n < ps.length := by omega
    have hp : ps.get? n = some (ps.get ⟨n, hn2⟩) := List.get?_eq_get hn2
    have ha : formals.get? n = some (formals.get ⟨n, hn1⟩) := List.get?_eq_get hn1
    have hz : (ps.zip formals).take (n + 1) =
        (ps.zip formals).take n ++ [(ps.get ⟨n, hn2⟩, formals.get ⟨n, hn1⟩)] := by
      rw [List.take_succ, List.getElem?_zip_eq_some.mpr ⟨?_, ?_⟩]
      · rfl
      · simp [List.getElem?_eq_getElem hn2]
      · simp [List.getElem?_eq_getElem hn1]
    rw [gen_args_loop_succ formals ps hlen n hn1 s _ _ hp ha, hz]
    generalize ps.get ⟨n, hn2⟩ = p
    generalize formals.get ⟨n, hn1⟩ = a
    obtain ⟨name, tp⟩ := a
    simp only [List.mem_append, List.mem_singleton, List.map_append, List.map_cons, List.map_nil,
      List.append_assoc, List.singleton_append]
    by_cases hagg : tp.aggregate = true
    · by_cases hi : s.isref p.id = true
      · rw [if_pos hagg, if_pos hi, ih _ _ (by omega)]
        constructor
        · rintro ⟨h1, h2⟩
          refine ⟨?_, ?_⟩
          · rintro pa (h | h) hpa
            · exact h1 pa h hpa
            · subst h; exact hi
          · rw [h2]; simp [Emitter.emit, arg_operand, hagg, rval]
        · rintro ⟨h1, h2⟩
          refine ⟨fun pa h hpa => h1 pa (Or.inl h) hpa, ?_⟩
          rw [h2]; simp [Emitter.emit, arg_operand, hagg, rval]
      · rw [if_pos hagg, if_neg hi]
        constructor
        · intro h; cases h
        · rintro ⟨h1, _⟩
          exact absurd (h1 (p, name, tp) (Or.inr rfl) hagg) hi
    · rw [if_neg hagg, ih _ _ (by omega)]
      constructor
      · rintro ⟨h1, h2⟩
        refine ⟨?_, ?_⟩
        · rintro pa (h | h) hpa
          · exact h1 pa h hpa
          · subst h; exact absurd hpa hagg
        · rw [h2]; simp [Emitter.emit, arg_operand, hagg, rval]
      · rintro ⟨h1, h2⟩
        refine ⟨fun pa h hpa => h1 pa (Or.inl h) hpa, ?_⟩
        rw [h2]; simp [Emitter.emit, arg_operand, hagg, rval]

theorem cast_irlabel_ok_iff {p : Option irptr} {s : Emitter} {l : irlabel} {s' : Emitter} :
    cast_irlabel p s = .ok (l, s') ↔ p = some (.label l) ∧ s' = s := by
  unfold cast_irlabel
  split
  · constructor
    · intro h; cases h; exact ⟨rfl, rfl⟩
    · rintro ⟨h, rfl⟩; cases h; rfl
  · constructor
    · intro h; cases h
    · rintro ⟨h, _⟩; cases h
  · constructor
    · intro h; cases h
    · rintro ⟨h, _⟩; cases h

theorem call_ok_iff (tp : type) (val : symbol) (args : Args) (target : irvar) (s s' : Emitter)
    (hname : val.name ≠ "write") (hcls : val.tp.cls = .TC_FUNC)
    (hn : args.toList.length = val.tp.args.length) :
    translate_Exp (.CALL tp (some val) args) target s = .ok ((), s') ↔
      emits_call val args target s s' := by
  have e : translate_Exp (.CALL tp (some val) args) target = (do
      let params ← translate_Args args
      gen_args_loop val.tp.args params.reverse val.tp.args.length val.tp.args.length
      let l ← cast_irlabel (← get_ir val)
      gen_call (op_var target) l) := by
    rw [translate_Exp_CALL]
    simp [not_null, Assert, hcls, hname]
  rw [e]
  unfold emits_call
  simp only [IRM.bind_ok_iff, gen_call_ok_iff, cast_irlabel_ok_iff, translate_Args_ok_iff]
  constructor
  · rintro ⟨ps, s1, h1, u, s2, h2, o, s3, h3, l, s4, ⟨h4, rfl⟩, _, rfl⟩
    cases h3
    have hlen : ps.length = val.tp.args.length := by rw [lowers_args_length _ _ _ _ h1, hn]
    rw [gen_args_loop_ok_iff _ _ hlen _ _ _ (le_refl _)] at h2
    have htake : (ps.zip val.tp.args).take val.tp.args.length = ps.zip val.tp.args :=
      List.take_of_length_le (by simp [hlen])
    rw [htake] at h2
    obtain ⟨h2a, rfl⟩ := h2
    refine ⟨ps, s1, l, h1, hlen, h2a, h4, rfl, ?_⟩
    simp [Emitter.codes, op_var]
  · rintro ⟨ps, s1, l, h1, hlen, h2a, h4, rfl, _⟩
    have htake : (ps.zip val.tp.args).take val.tp.args.length = ps.zip val.tp.args :=
      List.take_of_length_le (by simp [hlen])
    refine ⟨ps, s1, h1, (), _, (gen_args_loop_ok_iff _ _ hlen _ _ _ (le_refl _)).mpr
      ⟨by rw [htake]; exact h2a, rfl⟩, _, _, rfl, l, _, ⟨h4, rfl⟩, rfl, ?_⟩
    rw [htake]
    rfl

/-- Claim C11: a call `f (a1, ..., an)` of a function other than `write` with
`n` formals lowers the arguments in source order into fresh `p1, ..., pn`, emits
exactly the `Arg` instructions for `pn, ..., p1` (`Arg (Var pi)` for a formal of
`ARRAY` or `STRUCT` type, which requires `pi.isref`, and `Arg (Rval pi)`
otherwise), and last `Call (Var target, l)` with `l` the label recorded on the
symbol of `f`. -/
theorem call_lowering (tp : type) (val : symbol) (args : Args) (target : irvar) (s s' : Emitter)
    (hname : val.name ≠ "write") (hcls : val.tp.cls = .TC_FUNC)
    (hn : args.toList.length = val.tp.args.length) :
    (translate_Exp (.CALL tp (some val) args) target s = .ok ((), s') ↔
      emits_call val args target s s') ∧
    (∀ ps s1, translate_Args args s = .ok (ps, s1) ↔ lowers_args args.toList ps s s1) :=
  ⟨call_ok_iff tp val args target s s' hname hcls hn,
    fun ps s1 => translate_Args_ok_iff args ps s s1⟩

set_option maxRecDepth 10000 in
theorem call_g_run :
    translate_Exp (.CALL .META (some sym_g) (.one (.ID sym_b.tp (some sym_b)))) ⟨1, "t1"⟩
      state_aggregates = .ok ((), state_call_lowered) := by
  simp only [translate_Exp_CALL, translate_Exp_ID, translate_Args_one, gen_args_loop,
    IRM.bind_apply, IRM.pure_apply, bind, pure, new_var, not_null, sym_g, sym_b, get_ir,
    push_ircode, type.args, symlist.toList, state_aggregates, Emitter.init, gen_assign, gen_arg,
    gen_call, op_var, op_const, op_rval, op_deref, irop.kind, type.cls, cast_irvar, cast_irlabel,
    set_isref, get_isref, AssertVar, Assert, IRM.fail, Function.update, state_call_lowered]
  simp
  refine ⟨by decide, ?_⟩
  funext id
  by_cases h : id = 6 <;> simp [Function.update_apply, h]

/-- Witness of claim C11 at the call `g (b)` of a function with one formal of
array type, in the state `state_aggregates`: the run returns, in the state
`state_call_lowered`, with the argument lowered into `t6`, `ARG t6` and
`t1 := CALL g`. -/
theorem call_lowering_witness :
    (sym_g.name ≠ "write" ∧ sym_g.tp.cls = .TC_FUNC ∧
      (Args.one (.ID sym_b.tp (some sym_b))).toList.length = sym_g.tp.args.length) ∧
    (translate_Exp (.CALL .META (some sym_g) (.one (.ID sym_b.tp (some sym_b)))) ⟨1, "t1"⟩
        state_aggregates = .ok ((), state_call_lowered) ∧
      emits_call sym_g (.one (.ID sym_b.tp (some sym_b))) ⟨1, "t1"⟩
        state_aggregates state_call_lowered) ∧
    (∀ ps s1, translate_Args (.one (.ID sym_b.tp (some sym_b))) state_aggregates =
        .ok (ps, s1) ↔
      lowers_args (Args.one (.ID sym_b.tp (some sym_b))).toList ps state_aggregates s1) :=
  have h1 : sym_g.name ≠ "write" := by decide
  have h2 : sym_g.tp.cls = .TC_FUNC := rfl
  have h3 : (Args.one (.ID sym_b.tp (some sym_b))).toList.length = sym_g.tp.args.length := rfl
  ⟨⟨h1, h2, h3⟩,
    ⟨call_g_run, (call_lowering .META sym_g _ _ _ _ h1 h2 h3).1.mp call_g_run⟩,
    (call_lowering .META sym_g (.one (.ID sym_b.tp (some sym_b))) ⟨1, "t1"⟩ state_aggregates
      state_call_lowered h1 h2 h3).2⟩

theorem split_at_separator {a a' r r' : List Char} {x y : Char}
    (ha : ∀ c ∈ a, Char.inToken c) (ha' : ∀ c ∈ a', Char.inToken c)
    (hx : ¬ Char.inToken x) (hy : ¬ Char.inToken y)
    (h : a ++ x :: r = a' ++ y :: r') : a = a' ∧ x = y ∧ r = r' := by
  induction a generalizing a' with
  | nil =>
    cases a' with
    | nil => simpa using h
    | cons c cs =>
      simp only [List.nil_append, List.cons_append, List.cons.injEq] at h
      exact absurd (ha' c (List.mem_cons_self _ _)) (h.1 ▸ hx)
  | cons c cs ih =>
    cases a' with
    | nil =>
      simp only [List.nil_append, List.cons_append, List.cons.injEq] at h
      exact absurd (ha c (List.mem_cons_self _ _)) (h.1 ▸ hy)
    | cons c' cs' =>
      simp only [List.cons_append, List.cons.injEq] at h
      obtain ⟨e1, e2, e3⟩ := ih (fun d hd => ha d (List.mem_cons_of_mem _ hd))
        (fun d hd => ha' d (List.mem_cons_of_mem _ hd)) h.2
      exact ⟨by rw [h.1, e1], e2, e3⟩

theorem render_append_inj : ∀ (ts ts' : List (List Char)) (rest rest' : List Char),
    ts ≠ [] → ts' ≠ [] → (∀ t ∈ ts, ∀ c ∈ t, Char.inToken c) →
    (∀ t ∈ ts', ∀ c ∈ t, Char.inToken c) →
    render ts ++ rest = render ts' ++ rest' → ts = ts' ∧ rest = rest'
  | [], _, _, _, h, _, _, _, _ => absurd rfl h
  | _ :: _, [], _, _, _, h, _, _, _ => absurd rfl h
  | [t], [t'], rest, rest', _, _, ht, ht', h => by
    simp only [render, List.append_assoc, List.singleton_append] at h
    obtain ⟨e1, _, e3⟩ := split_at_separator (ht t (List.mem_singleton_self _))
      (ht' t' (List.mem_singleton_self _)) (by simp [Char.inToken]) (by simp [Char.inToken]) h
    exact ⟨by rw [e1], e3⟩
  | [t], t' :: u' :: ts', rest, rest', _, _, ht, ht', h => by
    simp only [render, List.append_assoc, List.singleton_append, List.cons_append] at h
    obtain ⟨_, e2, _⟩ := split_at_separator (ht t (List.mem_singleton_self _))
      (ht' t' (List.mem_cons_self _ _)) (by simp [Char.inToken]) (by simp [Char.inToken]) h
    exact absurd e2 (by decide)
  | t :: u :: ts, [t'], rest, rest', _, _, ht, ht', h => by
    simp only [render, List.append_assoc, List.singleton_append, List.cons_append] at h
    obtain ⟨_, e2, _⟩ := split_at_separator (ht t (List.mem_cons_self _ _))
      (ht' t' (List.mem_singleton_self _)) (by simp [Char.inToken]) (by simp [Char.inToken]) h
    exact absurd e2 (by decide)
  | t :: u :: ts, t' :: u' :: ts', rest, rest', _, _, ht, ht', h => by
    simp only [render, List.append_assoc, List.cons_append] at h
    obtain ⟨e1, _, e3⟩ := split_at_separator (ht t (List.mem_cons_self _ _))
      (ht' t' (List.mem_cons_self _ _)) (by simp [Char.inToken]) (by simp [Char.inToken]) h
    obtain ⟨e4, e5⟩ := render_append_inj (u :: ts) (u' :: ts') rest rest' (by simp) (by simp)
      (fun t ht1 => ht t (List.mem_cons_of_mem _ ht1))
      (fun t ht1 => ht' t (List.mem_cons_of_mem _ ht1)) e3
    exact ⟨by rw [e1, e4], e5⟩

theorem digitChar_value (k : Nat) (h : k < 10) : (Nat.digitChar k).toNat - 48 = k := by
  interval_cases k <;> rfl

theorem digitChar_isDigit (k : Nat) (h : k < 10) : (Nat.digitChar k).isDigit = true := by
  interval_cases k <;> rfl

theorem toDigitsCore_value : ∀ (fuel n : Nat) (ds : List Char), n < fuel →
    (Nat.toDigitsCore 10 fuel n ds).foldl (fun acc c => 10 * acc + (c.toNat - 48)) 0 =
      ds.foldl (fun acc c => 10 * acc + (c.toNat - 48)) n := by
  intro fuel
  induction fuel with
  | zero => intro n ds h; omega
  | succ fuel ih =>
    intro n ds h
    rw [Nat.toDigitsCore]
    split
    · rename_i h0
      have hn : n < 10 := by
        by_contra hc
        have : 1 ≤ n / 10 := Nat.div_pos (by omega) (by decide)
        omega
      rw [List.foldl_cons, digitChar_value _ (Nat.mod_lt _ (by decide)), Nat.mod_eq_of_lt hn]
      congr 1
      omega
    · rename_i h0
      rw [ih (n / 10) _ (by omega), List.foldl_cons,
        digitChar_value _ (Nat.mod_lt _ (by decide))]
      congr 1
      omega

theorem toDigitsCore_isDigit : ∀ (fuel n : Nat) (ds : List Char),
    (∀ c ∈ ds, c.isDigit = true) → ∀ c ∈ Nat.toDigitsCore 10 fuel n ds, c.isDigit = true := by
  intro fuel
  induction fuel with
  | zero => intro n ds h; simpa [Nat.toDigitsCore] using h
  | succ fuel ih =>
    intro n ds h
    rw [Nat.toDigitsCore]
    have hd : ∀ c ∈ Nat.digitChar (n % 10) :: ds, c.isDigit = true := by
      intro c hc
      rcases List.mem_cons.mp hc with h1 | h1
      · rw [h1]; exact digitChar_isDigit _ (Nat.mod_lt _ (by decide))
      · exact h c h1
    split
    · exact hd
    · exact ih _ _ hd

theorem toDigitsCore_ne_nil : ∀ (fuel n : Nat) (ds : List Char), 0 < fuel →
    Nat.toDigitsCore 10 fuel n ds ≠ [] := by
  intro fuel
  induction fuel with
  | zero => intro n ds h; omega
  | succ fuel ih =>
    intro n ds _
    rw [Nat.toDigitsCore]
    split
    · simp
    · cases fuel with
      | zero => simp [Nat.toDigitsCore]
      | succ f => exact ih _ _ (by omega)

theorem nat_repr_data (n : Nat) : (toString n).data = Nat.toDigits 10 n := rfl

theorem nat_toString_value (n : Nat) : digits_value (toString n).data = n := by
  rw [nat_repr_data, digits_value, Nat.toDigits, toDigitsCore_value _ _ _ (by omega)]
  rfl

theorem nat_toString_isDigit (n : Nat) : ∀ c ∈ (toString n).data, c.isDigit = true := by
  rw [nat_repr_data, Nat.toDigits]
  exact toDigitsCore_isDigit _ _ _ (by simp)

theorem nat_toString_ne_nil (n : Nat) : (toString n).data ≠ [] := by
  rw [nat_repr_data, Nat.toDigits]
  exact toDigitsCore_ne_nil _ _ _ (by omega)

theorem int_toString_ofNat (n : Nat) : toString (Int.ofNat n) = toString n := rfl

theorem int_toString_negSucc (n : Nat) :
    toString (Int.negSucc n) = "-" ++ toString (n + 1) := rfl

theorem int_toString_injective {a b : Int} (h : toString a = toString b) : a = b := by
  have hd := congrArg String.data h
  cases a with
  | ofNat m =>
    cases b with
    | ofNat n =>
      rw [int_toString_ofNat, int_toString_ofNat] at hd
      have := congrArg digits_value hd
      rw [nat_toString_value, nat_toString_value] at this
      rw [this]
    | negSucc n =>
      rw [int_toString_ofNat, int_toString_negSucc, String.data_append] at hd
      have h1 := nat_toString_isDigit m '-' (by rw [hd]; simp)
      exact absurd h1 (by decide)
  | negSucc m =>
    cases b with
    | ofNat n =>
      rw [int_toString_ofNat, int_toString_negSucc, String.data_append] at hd
      have h1 := nat_toString_isDigit n '-' (by rw [← hd]; simp)
      exact absurd h1 (by decide)
    | negSucc n =>
      rw [int_toString_negSucc, int_toString_negSucc, String.data_append,
        String.data_append] at hd
      have h2 : (toString (m + 1)).data = (toString (n + 1)).data := by simpa using hd
      have := congrArg digits_value h2
      rw [nat_toString_value, nat_toString_value] at this
      have : m = n := by omega
      rw [this]

theorem int_toString_chars (a : Int) : ∀ c ∈ (toString a).data, c.isDigit = true ∨ c = '-' := by
  cases a with
  | ofNat m =>
    rw [int_toString_ofNat]
    exact fun c hc => Or.inl (nat_toString_isDigit m c hc)
  | negSucc m =>
    rw [int_toString_negSucc, String.data_append]
    intro c hc
    rcases List.mem_append.mp hc with h | h
    · right; simpa using h
    · exact Or.inl (nat_toString_isDigit _ c h)

theorem int_toString_ne_nil (a : Int) : (toString a).data ≠ [] := by
  cases a with
  | ofNat m => rw [int_toString_ofNat]; exact nat_toString_ne_nil m
  | negSucc m => rw [int_toString_negSucc, String.data_append]; simp


/-! ## The printed text determines the instructions -/

theorem text_line_eq_render (ins : irins) :
    (text_form ins ++ "\n").data = render (ins.tokens.map String.data) := by
  cases ins <;> simp only [text_form, irins.tokens, String.data_append, List.map_cons,
    List.map_nil, render, List.append_assoc] <;> rfl

theorem inToken_of_isDigit {c : Char} (h : c.isDigit = true) : Char.inToken c := by
  constructor <;> rintro rfl <;> exact absurd h (by decide)

theorem inToken_of_isAlphanum {c : Char} (h : c.isAlphanum = true) : Char.inToken c := by
  constructor <;> rintro rfl <;> exact absurd h (by decide)

theorem inToken_identifier {name : String} (h : is_identifier name) :
    ∀ c ∈ name.data, Char.inToken c := by
  intro c hc
  rcases h.2 c hc with h1 | rfl
  · exact inToken_of_isAlphanum h1
  · exact ⟨by decide, by decide⟩

theorem inToken_int (k : Int) : ∀ c ∈ (toString k).data, Char.inToken c := by
  intro c hc
  rcases int_toString_chars k c hc with h1 | rfl
  · exact inToken_of_isDigit h1
  · exact ⟨by decide, by decide⟩

theorem inToken_append {a b : String} (ha : ∀ c ∈ a.data, Char.inToken c)
    (hb : ∀ c ∈ b.data, Char.inToken c) : ∀ c ∈ (a ++ b).data, Char.inToken c := by
  intro c hc
  rw [String.data_append] at hc
  rcases List.mem_append.mp hc with h | h
  · exact ha c h
  · exact hb c h

theorem inToken_single (x : Char) (hx : Char.inToken x) :
    ∀ c ∈ (String.mk [x]).data, Char.inToken c := by
  intro c hc
  rw [List.mem_singleton.mp hc]
  exact hx

theorem inToken_named_var {v : irvar} (h : v.name = "t" ++ toString v.id) :
    ∀ c ∈ v.name.data, Char.inToken c := by
  rw [h]
  exact inToken_append (inToken_single 't' ⟨by decide, by decide⟩) (inToken_int _)

theorem inToken_operand {op : irop} (h : op.named) :
    ∀ c ∈ (operand_text op).data, Char.inToken c := by
  cases op with
  | Var v => exact inToken_named_var h
  | Const k => exact inToken_append (inToken_single '#' ⟨by decide, by decide⟩) (inToken_int _)
  | Ref v =>
    exact inToken_append (inToken_single '&' ⟨by decide, by decide⟩) (inToken_named_var h)
  | Deref v =>
    exact inToken_append (inToken_single '*' ⟨by decide, by decide⟩) (inToken_named_var h)

theorem inToken_keyword (k : String) (h : k.data.all (fun c => c != ' ' && c != '\n') = true) :
    ∀ c ∈ k.data, Char.inToken c := by
  intro c hc
  have := List.all_eq_true.mp h c hc
  simp only [Bool.and_eq_true, bne_iff_ne, ne_eq] at this
  exact this

theorem inToken_relop (rt : relop_type) : ∀ c ∈ (relop_text rt).data, Char.inToken c := by
  cases rt <;> exact inToken_keyword _ (by decide)

theorem tokens_inToken (ins : irins) (h : ins.named) :
    ∀ t ∈ ins.tokens, ∀ c ∈ t.data, Char.inToken c := by
  cases ins <;> simp only [irins.named] at h <;>
    simp only [irins.tokens, List.mem_cons, List.mem_singleton, List.not_mem_nil, or_false,
      forall_eq_or_imp, forall_eq] <;>
    repeat' constructor
  all_goals first
    | decide
    | exact inToken_keyword _ (by decide)
    | exact inToken_relop _
    | exact inToken_int _
    | exact inToken_identifier h
    | exact inToken_identifier h.2
    | exact inToken_identifier h.2.2
    | exact inToken_operand h
    | exact inToken_operand h.1
    | exact inToken_operand h.2.1
    | exact inToken_operand h.2.2
    | exact inToken_operand h.2
    | decide

theorem string_append_left_cancel {p a b : String} (h : p ++ a = p ++ b) : a = b := by
  have hd := congrArg String.data h
  rw [String.data_append, String.data_append] at hd
  exact String.ext (List.append_cancel_left hd)

theorem named_var_inj {v w : irvar} (hv : v.name = "t" ++ toString v.id)
    (hw : w.name = "t" ++ toString w.id) (h : v.name = w.name) : v = w := by
  rw [hv, hw] at h
  have hid : v.id = w.id := int_toString_injective (string_append_left_cancel h)
  obtain ⟨vi, vn⟩ := v
  obtain ⟨wi, wn⟩ := w
  simp only at hv hw hid
  subst hid
  rw [hv, hw]

/-- The first character of the text of an operand tells its kind. -/
theorem operand_text_head {op : irop} (h : op.named) :
    (operand_text op).data.head? = some (match op with
      | .Var _ => 't' | .Const _ => '#' | .Ref _ => '&' | .Deref _ => '*') := by
  cases op <;> simp only [irop.named] at h <;> simp only [operand_text, h, String.data_append] <;>
    rfl

theorem operand_text_inj {a b : irop} (ha : a.named) (hb : b.named)
    (h : operand_text a = operand_text b) : a = b := by
  have hh := operand_text_head ha
  rw [h, operand_text_head hb] at hh
  cases a <;> cases b <;> simp only [Option.some.injEq] at hh <;>
    first
      | exact absurd hh (by decide)
      | skip
  · exact congrArg irop.Var (named_var_inj ha hb h)
  · exact congrArg irop.Const (int_toString_injective (string_append_left_cancel h)).symm.symm
  · exact congrArg irop.Ref (named_var_inj ha hb (string_append_left_cancel h))
  · exact congrArg irop.Deref (named_var_inj ha hb (string_append_left_cancel h))

theorem operand_text_ne_keyword {op : irop} (h : op.named) (k : String)
    (hk : k.data.head? ≠ some 't' ∧ k.data.head? ≠ some '#' ∧ k.data.head? ≠ some '&' ∧
      k.data.head? ≠ some '*') : operand_text op ≠ k := by
  intro e
  have hh := operand_text_head h
  rw [e] at hh
  cases op
  · exact hk.1 hh
  · exact hk.2.1 hh
  · exact hk.2.2.1 hh
  · exact hk.2.2.2 hh

theorem relop_text_inj {a b : relop_type} (h : relop_text a = relop_text b) : a = b := by
  cases a <;> cases b <;> first | rfl | exact absurd h (by decide)

theorem operand_text_inj_iff {a b : irop} (ha : a.named) (hb : b.named) :
    operand_text a = operand_text b ↔ a = b :=
  ⟨operand_text_inj ha hb, fun h => by rw [h]⟩

theorem relop_text_inj_iff {a b : relop_type} : relop_text a = relop_text b ↔ a = b :=
  ⟨relop_text_inj, fun h => by rw [h]⟩

theorem int_toString_inj_iff {a b : Int} : toString a = toString b ↔ a = b :=
  ⟨int_toString_injective, fun h => by rw [h]⟩

theorem tokens_inj (a b : irins) (ha : a.named) (hb : b.named) (h : a.tokens = b.tokens) :
    a.erase_addr = b.erase_addr := by
  cases a <;> cases b <;> simp [irins.tokens] at h <;> simp only [irins.named] at ha hb <;>
    first
      | exact absurd h.1 (operand_text_ne_keyword ha.1 _ (by decide))
      | exact absurd h.1 (operand_text_ne_keyword ha _ (by decide))
      | exact absurd h.1.symm (operand_text_ne_keyword hb.1 _ (by decide))
      | exact absurd h.1.symm (operand_text_ne_keyword hb _ (by decide))
      | (simp only [irins.erase_addr]
         simp [operand_text_inj_iff, relop_text_inj_iff, int_toString_inj_iff, ha, hb] at h ⊢
         simp [h])

theorem render_ne_nil : ∀ ts : List (List Char), ts ≠ [] → render ts ≠ []
  | [], h => absurd rfl h
  | [t], _ => by simp [render]
  | t :: u :: ts, _ => by simp [render]

theorem print_ircode_data (c : ircode) (h : c.printable) :
    (print_ircode c).data = render (c.ins.tokens.map String.data) := by
  obtain ⟨ins, ig⟩ := c
  obtain ⟨h1, h2, _⟩ := h
  cases h1
  rw [print_ircode_eq ins h2, text_line_eq_render]

theorem tokens_ne_nil (ins : irins) : ins.tokens.map String.data ≠ [] := by
  cases ins <;> simp [irins.tokens]

theorem tokens_data_inToken (c : ircode) (h : c.printable) :
    ∀ t ∈ c.ins.tokens.map String.data, ∀ x ∈ t, Char.inToken x := by
  intro t ht
  obtain ⟨tok, htok, rfl⟩ := List.mem_map.mp ht
  exact tokens_inToken c.ins h.2.2 tok htok

theorem string_data_injective : Function.Injective String.data :=
  fun _ _ h => String.ext h

theorem ir_linearise_loop_inj : ∀ (a b : List ircode), (∀ c ∈ a, c.printable) →
    (∀ c ∈ b, c.printable) → ir_linearise_loop a = ir_linearise_loop b →
    a.map (fun c => c.ins.erase_addr) = b.map (fun c => c.ins.erase_addr)
  | [], [], _, _, _ => rfl
  | [], d :: bs, _, hb, h => by
    have hd := congrArg String.data h
    rw [ir_linearise_loop, ir_linearise_loop, String.data_append,
      print_ircode_data d (hb d (List.mem_cons_self _ _))] at hd
    have : render (d.ins.tokens.map String.data) = [] :=
      (List.append_eq_nil.mp hd.symm).1
    exact absurd this (render_ne_nil _ (tokens_ne_nil _))
  | c :: as, [], ha, _, h => by
    have hd := congrArg String.data h
    rw [ir_linearise_loop, ir_linearise_loop, String.data_append,
      print_ircode_data c (ha c (List.mem_cons_self _ _))] at hd
    have : render (c.ins.tokens.map String.data) = [] :=
      (List.append_eq_nil.mp hd).1
    exact absurd this (render_ne_nil _ (tokens_ne_nil _))
  | c :: as, d :: bs, ha, hb, h => by
    have hc := ha c (List.mem_cons_self _ _)
    have hd := hb d (List.mem_cons_self _ _)
    have e := congrArg String.data h
    rw [ir_linearise_loop, ir_linearise_loop, String.data_append, String.data_append,
      print_ircode_data c hc, print_ircode_data d hd] at e
    obtain ⟨e1, e2⟩ := render_append_inj _ _ _ _ (tokens_ne_nil _) (tokens_ne_nil _)
      (tokens_data_inToken c hc) (tokens_data_inToken d hd) e
    have e3 : c.ins.tokens = d.ins.tokens := List.map_injective_iff.mpr string_data_injective e1
    have e4 := tokens_inj c.ins d.ins hc.2.2 hd.2.2 e3
    have e5 := ir_linearise_loop_inj as bs (fun x hx => ha x (List.mem_cons_of_mem _ hx))
      (fun x hx => hb x (List.mem_cons_of_mem _ hx)) (String.ext e2)
    rw [List.map_cons, List.map_cons, e4, e5]

/-- Claim C13: two instruction sequences without ignored instructions, whose
instructions pass the operand-kind assertions, whose variables are named
`t<id>` and whose label names are identifiers, and for which `ir_linearise`
prints the same text, are equal instruction by instruction: same kinds, same
operands (kind, variable, constant, size) and same label names. -/
theorem printer_injective (a b : ast) (ha : a.len = a.codes.length)
    (hb : b.len = b.codes.length) (pa : ∀ c ∈ a.codes, c.printable)
    (pb : ∀ c ∈ b.codes, c.printable) (h : ir_linearise a = ir_linearise b) :
    a.codes.map (fun c => c.ins.erase_addr) = b.codes.map (fun c => c.ins.erase_addr) := by
  rw [ir_linearise, ir_linearise, ha, hb, List.take_length, List.take_length] at h
  exact ir_linearise_loop_inj _ _ pa pb h

theorem ast_if_printable : ∀ c ∈ ast_if.codes, c.printable := by
  intro c hc
  simp only [ast_if, List.mem_cons, List.mem_singleton, List.not_mem_nil, or_false] at hc
  rcases hc with h | h | h | h | h | h | h | h | h | h | h | h | h | h | h | h <;> subst h <;>
    refine ⟨rfl, ?_, ?_⟩ <;>
    simp [irins.WellKinded, irins.named, irop.named, irop.kind, is_identifier] <;> decide

theorem ast_if_moved_printable : ∀ c ∈ ast_if_moved.codes, c.printable := by
  intro c hc
  simp only [ast_if_moved, ast_if, List.map_cons, List.map_nil, irins.erase_addr, List.mem_cons,
    List.mem_singleton, List.not_mem_nil, or_false] at hc
  rcases hc with h | h | h | h | h | h | h | h | h | h | h | h | h | h | h | h <;> subst h <;>
    refine ⟨rfl, ?_, ?_⟩ <;>
    simp [irins.WellKinded, irins.named, irop.named, irop.kind, is_identifier] <;> decide

/-- Witness of claim C13: the sample result and its copy with the labels at
other addresses print the same text and agree up to the label addresses. -/
theorem printer_injective_witness :
    (ast_if.len = ast_if.codes.length ∧ ast_if_moved.len = ast_if_moved.codes.length ∧
      (∀ c ∈ ast_if.codes, c.printable) ∧ (∀ c ∈ ast_if_moved.codes, c.printable) ∧
      ir_linearise ast_if = ir_linearise ast_if_moved) ∧
    ast_if.codes.map (fun c => c.ins.erase_addr) =
      ast_if_moved.codes.map (fun c => c.ins.erase_addr) :=
  have h1 : ast_if.len = ast_if.codes.length := rfl
  have h2 : ast_if_moved.len = ast_if_moved.codes.length := rfl
  have h3 : ir_linearise ast_if = ir_linearise ast_if_moved := by decide
  ⟨⟨h1, h2, ast_if_printable, ast_if_moved_printable, h3⟩,
    printer_injective ast_if ast_if_moved h1 h2 ast_if_printable ast_if_moved_printable h3⟩

/-! ## A logic of runs -/

theorem Sat_bind {α β : Type} {L : Logic} {pre : Prop} {x : IRM α} {f : α → IRM β}
    {Q : α → Prop} {Q' : β → Prop} (hx : Sat L pre x Q)
    (hf : ∀ a, Sat L (pre ∧ Q a) (f a) Q') : Sat L pre (x >>= f) Q' := by
  intro s b s' h hI hp
  obtain ⟨a, s1, h1, h2⟩ := IRM.bind_ok_iff.mp h
  obtain ⟨i1, r1, q1⟩ := hx _ _ _ h1 hI hp
  obtain ⟨i2, r2, q2⟩ := hf a _ _ _ h2 i1 ⟨hp, q1⟩
  exact ⟨i2, L.trans _ _ _ r1 r2, q2⟩

/-- A run that does not change the state. -/
theorem Sat_of_same {α : Type} {L : Logic} {pre : Prop} {x : IRM α} {Q : α → Prop}
    (h : ∀ s a s', x s = .ok (a, s') → s' = s ∧ (pre → Q a)) : Sat L pre x Q := by
  intro s a s' hx hI hp
  obtain ⟨rfl, hq⟩ := h s a s' hx
  exact ⟨hI, L.refl _, hq hp⟩

theorem Sat_pure {α : Type} {L : Logic} {pre : Prop} {Q : α → Prop} (a : α)
    (h : pre → Q a) : Sat L pre (pure a : IRM α) Q :=
  Sat_of_same (fun _ _ _ hx => by cases hx; exact ⟨rfl, h⟩)

theorem Sat_skip {α : Type} {L : Logic} {pre : Prop} (a : α) :
    Sat L pre (Pure.pure a : IRM α) (fun _ => True) :=
  Sat_pure a (fun _ => trivial)

theorem Sat_fail {α : Type} {L : Logic} {pre : Prop} {Q : α → Prop} (e : Err) :
    Sat L pre (IRM.fail e : IRM α) Q := by
  intro s a s' hx
  cases hx

theorem Sat_weaken {α : Type} {L : Logic} {pre pre' : Prop} {x : IRM α} {Q Q' : α → Prop}
    (h : Sat L pre x Q) (hp : pre' → pre) (hq : ∀ a, Q a → Q' a) : Sat L pre' x Q' := by
  intro s a s' hx hI hp'
  obtain ⟨i, r, q⟩ := h s a s' hx hI (hp hp')
  exact ⟨i, r, hq a q⟩

theorem Sat_Assert {L : Logic} {pre : Prop} (c : Bool) (msg : String) :
    Sat L pre (Assert c msg) (fun _ => True) := by
  unfold IRLab.Assert
  split
  · exact Sat_pure _ (fun _ => trivial)
  · exact Sat_fail _

theorem Sat_not_null {L : Logic} {pre : Prop} (val : Option symbol) :
    Sat L pre (not_null val) (fun _ => True) := by
  unfold IRLab.not_null
  split
  · exact Sat_pure _ (fun _ => trivial)
  · exact Sat_fail _

theorem Sat_get_isref {L : Logic} {pre : Prop} (v : irvar) :
    Sat L pre (get_isref v) (fun _ => True) :=
  Sat_of_same (fun _ _ _ hx => by cases hx; exact ⟨rfl, fun _ => trivial⟩)

theorem Sat_get_ir {L : Logic} {pre : Prop} (sym : symbol) :
    Sat L pre (get_ir sym) (fun _ => True) :=
  Sat_of_same (fun _ _ _ hx => by cases hx; exact ⟨rfl, fun _ => trivial⟩)

theorem Sat_cast_irvar {L : Logic} {pre : Prop} (p : Option irptr) :
    Sat L pre (cast_irvar p) (fun _ => True) := by
  unfold IRLab.cast_irvar
  split
  · exact Sat_pure _ (fun _ => trivial)
  · exact Sat_of_same (fun _ _ _ hx => by cases hx; exact ⟨rfl, fun _ => trivial⟩)
  · exact Sat_fail _

theorem Sat_cast_irlabel {L : Logic} {pre : Prop} (p : Option irptr) :
    Sat L pre (cast_irlabel p) (fun _ => True) := by
  unfold IRLab.cast_irlabel
  split
  · exact Sat_pure _ (fun _ => trivial)
  · exact Sat_fail _
  · exact Sat_fail _

theorem Sat_op_rval {L : Logic} {pre : Prop} (v : irvar) :
    Sat L pre (op_rval v) (fun op => ∀ w, op ≠ .Ref w) :=
  Sat_of_same (fun s _ _ hx => by
    obtain ⟨rfl, rfl⟩ := op_rval_ok_iff.mp hx
    refine ⟨rfl, fun _ w => ?_⟩
    split <;> simp [op_deref, op_var])

theorem Sat_new_var {L : Logic} {pre : Prop} : Sat L pre new_var (fun v => L.okV v) :=
  fun s v s' hx hI _ => L.alloc_var s v s' hI hx

theorem Sat_new_label {L : Logic} {pre : Prop} : Sat L pre new_label (fun _ => True) :=
  fun s l s' hx hI _ => ⟨(L.alloc_label s l s' hI hx).1, (L.alloc_label s l s' hI hx).2, trivial⟩

theorem Sat_new_named_label {L : Logic} {pre : Prop} (name : String) :
    Sat L pre (new_named_label name) (fun _ => True) :=
  fun s l s' hx hI _ =>
    ⟨(L.alloc_named name s l s' hI hx).1, (L.alloc_named name s l s' hI hx).2, trivial⟩

theorem Sat_set_isref {L : Logic} {pre : Prop} (v : irvar) (b : Bool) (h : pre → L.okV v) :
    Sat L pre (set_isref v b) (fun _ => True) := by
  intro s u s' hx hI hp
  rw [set_isref_ok_iff.mp hx]
  exact ⟨(L.flag s v b hI (h hp)).1, (L.flag s v b hI (h hp)).2, trivial⟩

theorem Sat_set_ir {L : Logic} {pre : Prop} (sym : symbol) (p : irptr) :
    Sat L pre (set_ir sym p) (fun _ => True) := by
  intro s u s' hx hI _
  rw [set_ir_ok_iff.mp hx]
  exact ⟨(L.record s sym p hI).1, (L.record s sym p hI).2, trivial⟩

/-- A run that pushes one instruction without `Ref` operand. -/
theorem Sat_of_push {L : Logic} {pre : Prop} {x : IRM Unit} (ins : irins)
    (hv : pre → ins.NoRef)
    (h : ∀ s a s', x s = .ok (a, s') → s' = { s with irs := ⟨ins, false⟩ :: s.irs }) :
    Sat L pre x (fun _ => True) := by
  intro s a s' hx hI hp
  rw [h s a s' hx]
  exact ⟨(L.push s ins hI (hv hp)).1, (L.push s ins hI (hv hp)).2, trivial⟩

theorem Sat_gen_label {L : Logic} {pre : Prop} (l : irlabel) :
    Sat L pre (gen_label l) (fun _ => True) :=
  Sat_of_push (.Label l) (fun _ _ h => by simp [irins.operands] at h)
    (fun _ _ _ h => gen_label_ok_iff.mp h)

theorem Sat_gen_func {L : Logic} {pre : Prop} (l : irlabel) :
    Sat L pre (gen_func l) (fun _ => True) :=
  Sat_of_push (.Func l) (fun _ _ h => by simp [irins.operands] at h)
    (fun _ _ _ h => gen_func_ok_iff.mp h)

theorem Sat_gen_goto {L : Logic} {pre : Prop} (l : irlabel) :
    Sat L pre (gen_goto l) (fun _ => True) :=
  Sat_of_push (.Goto l) (fun _ _ h => by simp [irins.operands] at h)
    (fun _ _ _ h => gen_goto_ok_iff.mp h)

theorem Sat_gen_assign {L : Logic} {pre : Prop} (l r : irop)
    (hv : pre → (irins.Assign l r).NoRef) : Sat L pre (gen_assign l r) (fun _ => True) :=
  Sat_of_push _ hv (fun _ _ _ h => (gen_assign_ok_iff.mp h).2)

theorem Sat_gen_add {L : Logic} {pre : Prop} (t a b : irop)
    (hv : pre → (irins.Add t a b).NoRef) : Sat L pre (gen_add t a b) (fun _ => True) :=
  Sat_of_push _ hv (fun _ _ _ h => (gen_add_ok_iff.mp h).2)

theorem Sat_gen_sub {L : Logic} {pre : Prop} (t a b : irop)
    (hv : pre → (irins.Sub t a b).NoRef) : Sat L pre (gen_sub t a b) (fun _ => True) :=
  Sat_of_push _ hv (fun _ _ _ h => (gen_sub_ok_iff.mp h).2)

theorem Sat_gen_mul {L : Logic} {pre : Prop} (t a b : irop)
    (hv : pre → (irins.Mul t a b).NoRef) : Sat L pre (gen_mul t a b) (fun _ => True) :=
  Sat_of_push _ hv (fun _ _ _ h => (gen_mul_ok_iff.mp h).2)

theorem Sat_gen_div {L : Logic} {pre : Prop} (t a b : irop)
    (hv : pre → (irins.Div t a b).NoRef) : Sat L pre (gen_div t a b) (fun _ => True) :=
  Sat_of_push _ hv (fun _ _ _ h => (gen_div_ok_iff.mp h).2)

theorem Sat_gen_branch {L : Logic} {pre : Prop} (rt : relop_type) (a b : irop) (l : irlabel)
    (hv : pre → (irins.Branch rt a b l).NoRef) :
    Sat L pre (gen_branch rt a b l) (fun _ => True) :=
  Sat_of_push _ hv (fun _ _ _ h => gen_branch_ok_iff.mp h)

theorem Sat_gen_return {L : Logic} {pre : Prop} (r : irop)
    (hv : pre → (irins.Return r).NoRef) : Sat L pre (gen_return r) (fun _ => True) :=
  Sat_of_push _ hv (fun _ _ _ h => gen_return_ok_iff.mp h)

theorem Sat_gen_dec {L : Logic} {pre : Prop} (op : irop) (sz : Int)
    (hv : pre → (irins.Dec op sz).NoRef) : Sat L pre (gen_dec op sz) (fun _ => True) :=
  Sat_of_push _ hv (fun _ _ _ h => (gen_dec_ok_iff.mp h).2)

theorem Sat_gen_call {L : Logic} {pre : Prop} (r : irop) (l : irlabel)
    (hv : pre → (irins.Call r l).NoRef) : Sat L pre (gen_call r l) (fun _ => True) :=
  Sat_of_push _ hv (fun _ _ _ h => (gen_call_ok_iff.mp h).2)

theorem Sat_gen_arg {L : Logic} {pre : Prop} (a : irop)
    (hv : pre → (irins.Arg a).NoRef) : Sat L pre (gen_arg a) (fun _ => True) :=
  Sat_of_push _ hv (fun _ _ _ h => gen_arg_ok_iff.mp h)

theorem Sat_gen_param {L : Logic} {pre : Prop} (p : irop)
    (hv : pre → (irins.Param p).NoRef) : Sat L pre (gen_param p) (fun _ => True) :=
  Sat_of_push _ hv (fun _ _ _ h => (gen_param_ok_iff.mp h).2)

theorem Sat_gen_read {L : Logic} {pre : Prop} (r : irop)
    (hv : pre → (irins.Read r).NoRef) : Sat L pre (gen_read r) (fun _ => True) :=
  Sat_of_push _ hv (fun _ _ _ h => (gen_read_ok_iff.mp h).2)

theorem Sat_gen_write {L : Logic} {pre : Prop} (w : irop)
    (hv : pre → (irins.Write w).NoRef) : Sat L pre (gen_write w) (fun _ => True) :=
  Sat_of_push _ hv (fun _ _ _ h => gen_write_ok_iff.mp h)

/-! ## Every translator respects a logic of runs -/

theorem Sat_gen_arr_copy_loop {L : Logic} (lt rt lo ro : irvar) (sz : Int) :
    ∀ (n : Nat) (i : Int) (pre : Prop), (sz - i).toNat ≤ n →
      Sat L pre (gen_arr_copy_loop lt rt lo ro sz i) (fun _ => True) := by
  intro n
  induction n with
  | zero =>
    intro i pre hi
    rw [IRLab.gen_arr_copy_loop, if_neg (by omega)]
    exact Sat_skip _
  | succ n ih =>
    intro i pre hi
    rw [IRLab.gen_arr_copy_loop]
    split
    · repeat' first
      | with_reducible exact Sat_fail _
      | with_reducible exact Sat_Assert _ _
      | with_reducible exact Sat_not_null _
      | with_reducible exact Sat_get_isref _
      | with_reducible exact Sat_get_ir _
      | with_reducible exact Sat_cast_irlabel _
      | with_reducible exact Sat_cast_irvar _
      | with_reducible exact Sat_op_rval _
      | with_reducible exact Sat_new_var
      | with_reducible exact Sat_new_label
      | with_reducible exact Sat_new_named_label _
      | with_reducible exact Sat_set_ir _ _
      | with_reducible exact Sat_gen_label _
      | with_reducible exact Sat_gen_func _
      | with_reducible exact Sat_gen_goto _
      | with_reducible exact Sat_skip _
      | (with_reducible refine Sat_set_isref _ _ ?_); (intro h; first | tauto | (simp [irins.NoRef, irins.operands, op_var, op_const, op_deref] at h ⊢ <;> tauto))
      | (with_reducible refine Sat_gen_assign _ _ ?_); (intro h; first | tauto | (simp [irins.NoRef, irins.operands, op_var, op_const, op_deref] at h ⊢ <;> tauto))
      | (with_reducible refine Sat_gen_add _ _ _ ?_); (intro h; first | tauto | (simp [irins.NoRef, irins.operands, op_var, op_const, op_deref] at h ⊢ <;> tauto))
      | (with_reducible refine Sat_gen_sub _ _ _ ?_); (intro h; first | tauto | (simp [irins.NoRef, irins.operands, op_var, op_const, op_deref] at h ⊢ <;> tauto))
      | (with_reducible refine Sat_gen_mul _ _ _ ?_); (intro h; first | tauto | (simp [irins.NoRef, irins.operands, op_var, op_const, op_deref] at h ⊢ <;> tauto))
      | (with_reducible refine Sat_gen_div _ _ _ ?_); (intro h; first | tauto | (simp [irins.NoRef, irins.operands, op_var, op_const, op_deref] at h ⊢ <;> tauto))
      | (with_reducible refine Sat_gen_branch _ _ _ _ ?_); (intro h; first | tauto | (simp [irins.NoRef, irins.operands, op_var, op_const, op_deref] at h ⊢ <;> tauto))
      | (with_reducible refine Sat_gen_return _ ?_); (intro h; first | tauto | (simp [irins.NoRef, irins.operands, op_var, op_const, op_deref] at h ⊢ <;> tauto))
      | (with_reducible refine Sat_gen_dec _ _ ?_); (intro h; first | tauto | (simp [irins.NoRef, irins.operands, op_var, op_const, op_deref] at h ⊢ <;> tauto))
      | (with_reducible refine Sat_gen_call _ _ ?_); (intro h; first | tauto | (simp [irins.NoRef, irins.operands, op_var, op_const, op_deref] at h ⊢ <;> tauto))
      | (with_reducible refine Sat_gen_arg _ ?_); (intro h; first | tauto | (simp [irins.NoRef, irins.operands, op_var, op_const, op_deref] at h ⊢ <;> tauto))
      | (with_reducible refine Sat_gen_param _ ?_); (intro h; first | tauto | (simp [irins.NoRef, irins.operands, op_var, op_const, op_deref] at h ⊢ <;> tauto))
      | (with_reducible refine Sat_gen_read _ ?_); (intro h; first | tauto | (simp [irins.NoRef, irins.operands, op_var, op_const, op_deref] at h ⊢ <;> tauto))
      | (with_reducible refine Sat_gen_write _ ?_); (intro h; first | tauto | (simp [irins.NoRef, irins.operands, op_var, op_const, op_deref] at h ⊢ <;> tauto))
      | with_reducible apply Sat_bind
      | with_reducible intro _
      | with_reducible exact ih _ _ (by omega)
    · exact Sat_skip _

theorem Sat_gen_arr_copy {L : Logic} {pre : Prop} (lo ro : irvar) (sz : Int) :
    Sat L pre (gen_arr_copy lo ro sz) (fun _ => True) := by
  unfold IRLab.gen_arr_copy
  refine Sat_bind Sat_new_var (fun lt => ?_)
  refine Sat_bind Sat_new_var (fun rt => ?_)
  exact Sat_gen_arr_copy_loop _ _ _ _ _ _ _ _ (le_refl _)

theorem Sat_gen_args_loop {L : Logic} (args : List (String × type))
    (paramArr : List irvar) (argc : Nat) :
    ∀ (n : Nat) (pre : Prop), Sat L pre (gen_args_loop args paramArr argc n) (fun _ => True) := by
  intro n
  induction n with
  | zero =>
    intro pre
    exact Sat_skip _
  | succ n ih =>
    intro pre
    rw [IRLab.gen_args_loop]
    dsimp only
    split
    · split
      · repeat' first
        | with_reducible exact Sat_fail _
        | with_reducible exact Sat_Assert _ _
        | with_reducible exact Sat_not_null _
        | with_reducible exact Sat_get_isref _
        | with_reducible exact Sat_get_ir _
        | with_reducible exact Sat_cast_irlabel _
        | with_reducible exact Sat_cast_irvar _
        | with_reducible exact Sat_op_rval _
        | with_reducible exact Sat_new_var
        | with_reducible exact Sat_new_label
        | with_reducible exact Sat_new_named_label _
        | with_reducible exact Sat_set_ir _ _
        | with_reducible exact Sat_gen_label _
        | with_reducible exact Sat_gen_func _
        | with_reducible exact Sat_gen_goto _
        | with_reducible exact Sat_skip _
        | (with_reducible refine Sat_set_isref _ _ ?_); (intro h; first | tauto | (simp [irins.NoRef, irins.operands, op_var, op_const, op_deref] at h ⊢ <;> tauto))
        | (with_reducible refine Sat_gen_assign _ _ ?_); (intro h; first | tauto | (simp [irins.NoRef, irins.operands, op_var, op_const, op_deref] at h ⊢ <;> tauto))
        | (with_reducible refine Sat_gen_add _ _ _ ?_); (intro h; first | tauto | (simp [irins.NoRef, irins.operands, op_var, op_const, op_deref] at h ⊢ <;> tauto))
        | (with_reducible refine Sat_gen_sub _ _ _ ?_); (intro h; first | tauto | (simp [irins.NoRef, irins.operands, op_var, op_const, op_deref] at h ⊢ <;> tauto))
        | (with_reducible refine Sat_gen_mul _ _ _ ?_); (intro h; first | tauto | (simp [irins.NoRef, irins.operands, op_var, op_const, op_deref] at h ⊢ <;> tauto))
        | (with_reducible refine Sat_gen_div _ _ _ ?_); (intro h; first | tauto | (simp [irins.NoRef, irins.operands, op_var, op_const, op_deref] at h ⊢ <;> tauto))
        | (with_reducible refine Sat_gen_branch _ _ _ _ ?_); (intro h; first | tauto | (simp [irins.NoRef, irins.operands, op_var, op_const, op_deref] at h ⊢ <;> tauto))
        | (with_reducible refine Sat_gen_return _ ?_); (intro h; first | tauto | (simp [irins.NoRef, irins.operands, op_var, op_const, op_deref] at h ⊢ <;> tauto))
        | (with_reducible refine Sat_gen_dec _ _ ?_); (intro h; first | tauto | (simp [irins.NoRef, irins.operands, op_var, op_const, op_deref] at h ⊢ <;> tauto))
        | (with_reducible refine Sat_gen_call _ _ ?_); (intro h; first | tauto | (simp [irins.NoRef, irins.operands, op_var, op_const, op_deref] at h ⊢ <;> tauto))
        | (with_reducible refine Sat_gen_arg _ ?_); (intro h; first | tauto | (simp [irins.NoRef, irins.operands, op_var, op_const, op_deref] at h ⊢ <;> tauto))
        | (with_reducible refine Sat_gen_param _ ?_); (intro h; first | tauto | (simp [irins.NoRef, irins.operands, op_var, op_const, op_deref] at h ⊢ <;> tauto))
        | (with_reducible refine Sat_gen_read _ ?_); (intro h; first | tauto | (simp [irins.NoRef, irins.operands, op_var, op_const, op_deref] at h ⊢ <;> tauto))
        | (with_reducible refine Sat_gen_write _ ?_); (intro h; first | tauto | (simp [irins.NoRef, irins.operands, op_var, op_const, op_deref] at h ⊢ <;> tauto))
        | with_reducible apply Sat_bind
        | with_reducible intro _
        | with_reducible exact ih _
      · repeat' first
        | with_reducible exact Sat_fail _
        | with_reducible exact Sat_Assert _ _
        | with_reducible exact Sat_not_null _
        | with_reducible exact Sat_get_isref _
        | with_reducible exact Sat_get_ir _
        | with_reducible exact Sat_cast_irlabel _
        | with_reducible exact Sat_cast_irvar _
        | with_reducible exact Sat_op_rval _
        | with_reducible exact Sat_new_var
        | with_reducible exact Sat_new_label
        | with_reducible exact Sat_new_named_label _
        | with_reducible exact Sat_set_ir _ _
        | with_reducible exact Sat_gen_label _
        | with_reducible exact Sat_gen_func _
        | with_reducible exact Sat_gen_goto _
        | with_reducible exact Sat_skip _
        | (with_reducible refine Sat_set_isref _ _ ?_); (intro h; first | tauto | (simp [irins.NoRef, irins.operands, op_var, op_const, op_deref] at h ⊢ <;> tauto))
        | (with_reducible refine Sat_gen_assign _ _ ?_); (intro h; first | tauto | (simp [irins.NoRef, irins.operands, op_var, op_const, op_deref] at h ⊢ <;> tauto))
        | (with_reducible refine Sat_gen_add _ _ _ ?_); (intro h; first | tauto | (simp [irins.NoRef, irins.operands, op_var, op_const, op_deref] at h ⊢ <;> tauto))
        | (with_reducible refine Sat_gen_sub _ _ _ ?_); (intro h; first | tauto | (simp [irins.NoRef, irins.operands, op_var, op_const, op_deref] at h ⊢ <;> tauto))
        | (with_reducible refine Sat_gen_mul _ _ _ ?_); (intro h; first | tauto | (simp [irins.NoRef, irins.operands, op_var, op_const, op_deref] at h ⊢ <;> tauto))
        | (with_reducible refine Sat_gen_div _ _ _ ?_); (intro h; first | tauto | (simp [irins.NoRef, irins.operands, op_var, op_const, op_deref] at h ⊢ <;> tauto))
        | (with_reducible refine Sat_gen_branch _ _ _ _ ?_); (intro h; first | tauto | (simp [irins.NoRef, irins.operands, op_var, op_const, op_deref] at h ⊢ <;> tauto))
        | (with_reducible refine Sat_gen_return _ ?_); (intro h; first | tauto | (simp [irins.NoRef, irins.operands, op_var, op_const, op_deref] at h ⊢ <;> tauto))
        | (with_reducible refine Sat_gen_dec _ _ ?_); (intro h; first | tauto | (simp [irins.NoRef, irins.operands, op_var, op_const, op_deref] at h ⊢ <;> tauto))
        | (with_reducible refine Sat_gen_call _ _ ?_); (intro h; first | tauto | (simp [irins.NoRef, irins.operands, op_var, op_const, op_deref] at h ⊢ <;> tauto))
        | (with_reducible refine Sat_gen_arg _ ?_); (intro h; first | tauto | (simp [irins.NoRef, irins.operands, op_var, op_const, op_deref] at h ⊢ <;> tauto))
        | (with_reducible refine Sat_gen_param _ ?_); (intro h; first | tauto | (simp [irins.NoRef, irins.operands, op_var, op_const, op_deref] at h ⊢ <;> tauto))
        | (with_reducible refine Sat_gen_read _ ?_); (intro h; first | tauto | (simp [irins.NoRef, irins.operands, op_var, op_const, op_deref] at h ⊢ <;> tauto))
        | (with_reducible refine Sat_gen_write _ ?_); (intro h; first | tauto | (simp [irins.NoRef, irins.operands, op_var, op_const, op_deref] at h ⊢ <;> tauto))
        | with_reducible apply Sat_bind
        | with_reducible intro _
        | with_reducible exact ih _
    · exact Sat_fail _

theorem Sat_bool_value {L : Logic} {pre : Prop} (tree : Exp) (target : irvar)
    (ht : ∀ pre lt lf, Sat L pre (translate_Cond tree lt lf) (fun _ => True)) :
    Sat L pre (bool_value tree target) (fun _ => True) := by
  unfold IRLab.bool_value
  repeat' first
    | with_reducible exact Sat_fail _
    | with_reducible exact Sat_Assert _ _
    | with_reducible exact Sat_not_null _
    | with_reducible exact Sat_get_isref _
    | with_reducible exact Sat_get_ir _
    | with_reducible exact Sat_cast_irlabel _
    | with_reducible exact Sat_cast_irvar _
    | with_reducible exact Sat_op_rval _
    | with_reducible exact Sat_new_var
    | with_reducible exact Sat_new_label
    | with_reducible exact Sat_new_named_label _
    | with_reducible exact Sat_set_ir _ _
    | with_reducible exact Sat_gen_label _
    | with_reducible exact Sat_gen_func _
    | with_reducible exact Sat_gen_goto _
    | with_reducible exact Sat_skip _
    | (with_reducible refine Sat_set_isref _ _ ?_); (intro h; first | tauto | (simp [irins.NoRef, irins.operands, op_var, op_const, op_deref] at h ⊢ <;> tauto))
    | (with_reducible refine Sat_gen_assign _ _ ?_); (intro h; first | tauto | (simp [irins.NoRef, irins.operands, op_var, op_const, op_deref] at h ⊢ <;> tauto))
    | (with_reducible refine Sat_gen_add _ _ _ ?_); (intro h; first | tauto | (simp [irins.NoRef, irins.operands, op_var, op_const, op_deref] at h ⊢ <;> tauto))
    | (with_reducible refine Sat_gen_sub _ _ _ ?_); (intro h; first | tauto | (simp [irins.NoRef, irins.operands, op_var, op_const, op_deref] at h ⊢ <;> tauto))
    | (with_reducible refine Sat_gen_mul _ _ _ ?_); (intro h; first | tauto | (simp [irins.NoRef, irins.operands, op_var, op_const, op_deref] at h ⊢ <;> tauto))
    | (with_reducible refine Sat_gen_div _ _ _ ?_); (intro h; first | tauto | (simp [irins.NoRef, irins.operands, op_var, op_const, op_deref] at h ⊢ <;> tauto))
    | (with_reducible refine Sat_gen_branch _ _ _ _ ?_); (intro h; first | tauto | (simp [irins.NoRef, irins.operands, op_var, op_const, op_deref] at h ⊢ <;> tauto))
    | (with_reducible refine Sat_gen_return _ ?_); (intro h; first | tauto | (simp [irins.NoRef, irins.operands, op_var, op_const, op_deref] at h ⊢ <;> tauto))
    | (with_reducible refine Sat_gen_dec _ _ ?_); (intro h; first | tauto | (simp [irins.NoRef, irins.operands, op_var, op_const, op_deref] at h ⊢ <;> tauto))
    | (with_reducible refine Sat_gen_call _ _ ?_); (intro h; first | tauto | (simp [irins.NoRef, irins.operands, op_var, op_const, op_deref] at h ⊢ <;> tauto))
    | (with_reducible refine Sat_gen_arg _ ?_); (intro h; first | tauto | (simp [irins.NoRef, irins.operands, op_var, op_const, op_deref] at h ⊢ <;> tauto))
    | (with_reducible refine Sat_gen_param _ ?_); (intro h; first | tauto | (simp [irins.NoRef, irins.operands, op_var, op_const, op_deref] at h ⊢ <;> tauto))
    | (with_reducible refine Sat_gen_read _ ?_); (intro h; first | tauto | (simp [irins.NoRef, irins.operands, op_var, op_const, op_deref] at h ⊢ <;> tauto))
    | (with_reducible refine Sat_gen_write _ ?_); (intro h; first | tauto | (simp [irins.NoRef, irins.operands, op_var, op_const, op_deref] at h ⊢ <;> tauto))
    | with_reducible apply Sat_bind
    | with_reducible intro _
    | with_reducible exact ht _ _ _

set_option maxHeartbeats 2000000 in
theorem Sat_translate_Exp_Cond_Args (L : Logic) :
    (∀ tree pre target, (pre → L.okV target) →
      Sat L pre (translate_Exp tree target) (fun _ => True)) ∧
    (∀ tree pre lt lf, Sat L pre (translate_Cond tree lt lf) (fun _ => True)) ∧
    (∀ args pre, Sat L pre (translate_Args args) (fun _ => True)) := by
  have h := @translate_induction
    (fun tree => ∀ pre target, (pre → L.okV target) →
      Sat L pre (translate_Exp tree target) (fun _ => True))
    (fun tree => ∀ pre lt lf, Sat L pre (translate_Cond tree lt lf) (fun _ => True))
    (fun args => ∀ pre, Sat L pre (translate_Args args) (fun _ => True))
    ?_ ?_ ?_
  · exact h
  · intro tree ihE ihC ihA ihS pre target hv
    beta_reduce at ihE ihC ihA ihS
    cases tree with
    | AND tp l r => rw [translate_Exp_AND]; exact Sat_bool_value _ _ (ihS rfl)
    | OR tp l r => rw [translate_Exp_OR]; exact Sat_bool_value _ _ (ihS rfl)
    | RELOP tp l rt r => rw [translate_Exp_RELOP]; exact Sat_bool_value _ _ (ihS rfl)
    | LP tp e => rw [translate_Exp_LP]; exact ihE _ (by first | (simp_wf; omega) | simp_wf) _ _ hv
    | ASSIGNOP tp l r =>
      cases l
      case ID ltp val =>
        rw [translate_Exp_ASSIGNOP_ID]
        repeat' first
          | with_reducible exact Sat_fail _
          | with_reducible exact Sat_Assert _ _
          | with_reducible exact Sat_not_null _
          | with_reducible exact Sat_get_isref _
          | with_reducible exact Sat_get_ir _
          | with_reducible exact Sat_cast_irlabel _
          | with_reducible exact Sat_cast_irvar _
          | with_reducible exact Sat_op_rval _
          | with_reducible exact Sat_new_var
          | with_reducible exact Sat_new_label
          | with_reducible exact Sat_new_named_label _
          | with_reducible exact Sat_set_ir _ _
          | with_reducible exact Sat_gen_label _
          | with_reducible exact Sat_gen_func _
          | with_reducible exact Sat_gen_goto _
          | with_reducible exact Sat_skip _
          | (with_reducible refine Sat_set_isref _ _ ?_); (intro h; first | tauto | (simp [irins.NoRef, irins.operands, op_var, op_const, op_deref] at h ⊢ <;> tauto))
          | (with_reducible refine Sat_gen_assign _ _ ?_); (intro h; first | tauto | (simp [irins.NoRef, irins.operands, op_var, op_const, op_deref] at h ⊢ <;> tauto))
          | (with_reducible refine Sat_gen_add _ _ _ ?_); (intro h; first | tauto | (simp [irins.NoRef, irins.operands, op_var, op_const, op_deref] at h ⊢ <;> tauto))
          | (with_reducible refine Sat_gen_sub _ _ _ ?_); (intro h; first | tauto | (simp [irins.NoRef, irins.operands, op_var, op_const, op_deref] at h ⊢ <;> tauto))
          | (with_reducible refine Sat_gen_mul _ _ _ ?_); (intro h; first | tauto | (simp [irins.NoRef, irins.operands, op_var, op_const, op_deref] at h ⊢ <;> tauto))
          | (with_reducible refine Sat_gen_div _ _ _ ?_); (intro h; first | tauto | (simp [irins.NoRef, irins.operands, op_var, op_const, op_deref] at h ⊢ <;> tauto))
          | (with_reducible refine Sat_gen_branch _ _ _ _ ?_); (intro h; first | tauto | (simp [irins.NoRef, irins.operands, op_var, op_const, op_deref] at h ⊢ <;> tauto))
          | (with_reducible refine Sat_gen_return _ ?_); (intro h; first | tauto | (simp [irins.NoRef, irins.operands, op_var, op_const, op_deref] at h ⊢ <;> tauto))
          | (with_reducible refine Sat_gen_dec _ _ ?_); (intro h; first | tauto | (simp [irins.NoRef, irins.operands, op_var, op_const, op_deref] at h ⊢ <;> tauto))
          | (with_reducible refine Sat_gen_call _ _ ?_); (intro h; first | tauto | (simp [irins.NoRef, irins.operands, op_var, op_const, op_deref] at h ⊢ <;> tauto))
          | (with_reducible refine Sat_gen_arg _ ?_); (intro h; first | tauto | (simp [irins.NoRef, irins.operands, op_var, op_const, op_deref] at h ⊢ <;> tauto))
          | (with_reducible refine Sat_gen_param _ ?_); (intro h; first | tauto | (simp [irins.NoRef, irins.operands, op_var, op_const, op_deref] at h ⊢ <;> tauto))
          | (with_reducible refine Sat_gen_read _ ?_); (intro h; first | tauto | (simp [irins.NoRef, irins.operands, op_var, op_const, op_deref] at h ⊢ <;> tauto))
          | (with_reducible refine Sat_gen_write _ ?_); (intro h; first | tauto | (simp [irins.NoRef, irins.operands, op_var, op_const, op_deref] at h ⊢ <;> tauto))
          | with_reducible apply Sat_bind
          | with_reducible intro _
          | with_reducible exact Sat_gen_arr_copy _ _ _
          | (with_reducible refine ihE _ (by first | (simp_wf; omega) | simp_wf) _ _ ?_); (intro h; first | tauto | (simp [irins.NoRef, irins.operands, op_var, op_const, op_deref] at h ⊢ <;> tauto))
          | split
      case INDEX ltp le li =>
        rw [translate_Exp_ASSIGNOP_INDEX]
        repeat' first
          | with_reducible exact Sat_fail _
          | with_reducible exact Sat_Assert _ _
          | with_reducible exact Sat_not_null _
          | with_reducible exact Sat_get_isref _
          | with_reducible exact Sat_get_ir _
          | with_reducible exact Sat_cast_irlabel _
          | with_reducible exact Sat_cast_irvar _
          | with_reducible exact Sat_op_rval _
          | with_reducible exact Sat_new_var
          | with_reducible exact Sat_new_label
          | with_reducible exact Sat_new_named_label _
          | with_reducible exact Sat_set_ir _ _
          | with_reducible exact Sat_gen_label _
          | with_reducible exact Sat_gen_func _
          | with_reducible exact Sat_gen_goto _
          | with_reducible exact Sat_skip _
          | (with_reducible refine Sat_set_isref _ _ ?_); (intro h; first | tauto | (simp [irins.NoRef, irins.operands, op_var, op_const, op_deref] at h ⊢ <;> tauto))
          | (with_reducible refine Sat_gen_assign _ _ ?_); (intro h; first | tauto | (simp [irins.NoRef, irins.operands, op_var, op_const, op_deref] at h ⊢ <;> tauto))
          | (with_reducible refine Sat_gen_add _ _ _ ?_); (intro h; first | tauto | (simp [irins.NoRef, irins.operands, op_var, op_const, op_deref] at h ⊢ <;> tauto))
          | (with_reducible refine Sat_gen_sub _ _ _ ?_); (intro h; first | tauto | (simp [irins.NoRef, irins.operands, op_var, op_const, op_deref] at h ⊢ <;> tauto))
          | (with_reducible refine Sat_gen_mul _ _ _ ?_); (intro h; first | tauto | (simp [irins.NoRef, irins.operands, op_var, op_const, op_deref] at h ⊢ <;> tauto))
          | (with_reducible refine Sat_gen_div _ _ _ ?_); (intro h; first | tauto | (simp [irins.NoRef, irins.operands, op_var, op_const, op_deref] at h ⊢ <;> tauto))
          | (with_reducible refine Sat_gen_branch _ _ _ _ ?_); (intro h; first | tauto | (simp [irins.NoRef, irins.operands, op_var, op_const, op_deref] at h ⊢ <;> tauto))
          | (with_reducible refine Sat_gen_return _ ?_); (intro h; first | tauto | (simp [irins.NoRef, irins.operands, op_var, op_const, op_deref] at h ⊢ <;> tauto))
          | (with_reducible refine Sat_gen_dec _ _ ?_); (intro h; first | tauto | (simp [irins.NoRef, irins.operands, op_var, op_const, op_deref] at h ⊢ <;> tauto))
          | (with_reducible refine Sat_gen_call _ _ ?_); (intro h; first | tauto | (simp [irins.NoRef, irins.operands, op_var, op_const, op_deref] at h ⊢ <;> tauto))
          | (with_reducible refine Sat_gen_arg _ ?_); (intro h; first | tauto | (simp [irins.NoRef, irins.operands, op_var, op_const, op_deref] at h ⊢ <;> tauto))
          | (with_reducible refine Sat_gen_param _ ?_); (intro h; first | tauto | (simp [irins.NoRef, irins.operands, op_var, op_const, op_deref] at h ⊢ <;> tauto))
          | (with_reducible refine Sat_gen_read _ ?_); (intro h; first | tauto | (simp [irins.NoRef, irins.operands, op_var, op_const, op_deref] at h ⊢ <;> tauto))
          | (with_reducible refine Sat_gen_write _ ?_); (intro h; first | tauto | (simp [irins.NoRef, irins.operands, op_var, op_const, op_deref] at h ⊢ <;> tauto))
          | with_reducible apply Sat_bind
          | with_reducible intro _
          | with_reducible exact Sat_gen_arr_copy _ _ _
          | (with_reducible refine ihE _ (by first | (simp_wf; omega) | simp_wf) _ _ ?_); (intro h; first | tauto | (simp [irins.NoRef, irins.operands, op_var, op_const, op_deref] at h ⊢ <;> tauto))
          | split
      case DOT ltp le lname =>
        rw [translate_Exp_ASSIGNOP_DOT]
        repeat' first
          | with_reducible exact Sat_fail _
          | with_reducible exact Sat_Assert _ _
          | with_reducible exact Sat_not_null _
          | with_reducible exact Sat_get_isref _
          | with_reducible exact Sat_get_ir _
          | with_reducible exact Sat_cast_irlabel _
          | with_reducible exact Sat_cast_irvar _
          | with_reducible exact Sat_op_rval _
          | with_reducible exact Sat_new_var
          | with_reducible exact Sat_new_label
          | with_reducible exact Sat_new_named_label _
          | with_reducible exact Sat_set_ir _ _
          | with_reducible exact Sat_gen_label _
          | with_reducible exact Sat_gen_func _
          | with_reducible exact Sat_gen_goto _
          | with_reducible exact Sat_skip _
          | (with_reducible refine Sat_set_isref _ _ ?_); (intro h; first | tauto | (simp [irins.NoRef, irins.operands, op_var, op_const, op_deref] at h ⊢ <;> tauto))
          | (with_reducible refine Sat_gen_assign _ _ ?_); (intro h; first | tauto | (simp [irins.NoRef, irins.operands, op_var, op_const, op_deref] at h ⊢ <;> tauto))
          | (with_reducible refine Sat_gen_add _ _ _ ?_); (intro h; first | tauto | (simp [irins.NoRef, irins.operands, op_var, op_const, op_deref] at h ⊢ <;> tauto))
          | (with_reducible refine Sat_gen_sub _ _ _ ?_); (intro h; first | tauto | (simp [irins.NoRef, irins.operands, op_var, op_const, op_deref] at h ⊢ <;> tauto))
          | (with_reducible refine Sat_gen_mul _ _ _ ?_); (intro h; first | tauto | (simp [irins.NoRef, irins.operands, op_var, op_const, op_deref] at h ⊢ <;> tauto))
          | (with_reducible refine Sat_gen_div _ _ _ ?_); (intro h; first | tauto | (simp [irins.NoRef, irins.operands, op_var, op_const, op_deref] at h ⊢ <;> tauto))
          | (with_reducible refine Sat_gen_branch _ _ _ _ ?_); (intro h; first | tauto | (simp [irins.NoRef, irins.operands, op_var, op_const, op_deref] at h ⊢ <;> tauto))
          | (with_reducible refine Sat_gen_return _ ?_); (intro h; first | tauto | (simp [irins.NoRef, irins.operands, op_var, op_const, op_deref] at h ⊢ <;> tauto))
          | (with_reducible refine Sat_gen_dec _ _ ?_); (intro h; first | tauto | (simp [irins.NoRef, irins.operands, op_var, op_const, op_deref] at h ⊢ <;> tauto))
          | (with_reducible refine Sat_gen_call _ _ ?_); (intro h; first | tauto | (simp [irins.NoRef, irins.operands, op_var, op_const, op_deref] at h ⊢ <;> tauto))
          | (with_reducible refine Sat_gen_arg _ ?_); (intro h; first | tauto | (simp [irins.NoRef, irins.operands, op_var, op_const, op_deref] at h ⊢ <;> tauto))
          | (with_reducible refine Sat_gen_param _ ?_); (intro h; first | tauto | (simp [irins.NoRef, irins.operands, op_var, op_const, op_deref] at h ⊢ <;> tauto))
          | (with_reducible refine Sat_gen_read _ ?_); (intro h; first | tauto | (simp [irins.NoRef, irins.operands, op_var, op_const, op_deref] at h ⊢ <;> tauto))
          | (with_reducible refine Sat_gen_write _ ?_); (intro h; first | tauto | (simp [irins.NoRef, irins.operands, op_var, op_const, op_deref] at h ⊢ <;> tauto))
          | with_reducible apply Sat_bind
          | with_reducible intro _
          | (with_reducible refine ihE _ (by first | (simp_wf; omega) | simp_wf) _ _ ?_); (intro h; first | tauto | (simp [irins.NoRef, irins.operands, op_var, op_const, op_deref] at h ⊢ <;> tauto))
          | split
      all_goals (rw [translate_Exp_ASSIGNOP_other _ _ _ _ (by rfl)]; exact Sat_fail _)
    | _ =>
      simp only [translate_Exp_INT, translate_Exp_FLOAT, translate_Exp_ID, translate_Exp_NEG,
        translate_Exp_NOT, translate_Exp_CALL0, translate_Exp_DOT,
        translate_Exp_PLUS, translate_Exp_MINUS, translate_Exp_STAR, translate_Exp_DIV,
        translate_Exp_CALL, translate_Exp_INDEX]
      repeat' first
        | with_reducible exact Sat_fail _
        | with_reducible exact Sat_Assert _ _
        | with_reducible exact Sat_not_null _
        | with_reducible exact Sat_get_isref _
        | with_reducible exact Sat_get_ir _
        | with_reducible exact Sat_cast_irlabel _
        | with_reducible exact Sat_cast_irvar _
        | with_reducible exact Sat_op_rval _
        | with_reducible exact Sat_new_var
        | with_reducible exact Sat_new_label
        | with_reducible exact Sat_new_named_label _
        | with_reducible exact Sat_set_ir _ _
        | with_reducible exact Sat_gen_label _
        | with_reducible exact Sat_gen_func _
        | with_reducible exact Sat_gen_goto _
        | with_reducible exact Sat_skip _
        | (with_reducible refine Sat_set_isref _ _ ?_); (intro h; first | tauto | (simp [irins.NoRef, irins.operands, op_var, op_const, op_deref] at h ⊢ <;> tauto))
        | (with_reducible refine Sat_gen_assign _ _ ?_); (intro h; first | tauto | (simp [irins.NoRef, irins.operands, op_var, op_const, op_deref] at h ⊢ <;> tauto))
        | (with_reducible refine Sat_gen_add _ _ _ ?_); (intro h; first | tauto | (simp [irins.NoRef, irins.operands, op_var, op_const, op_deref] at h ⊢ <;> tauto))
        | (with_reducible refine Sat_gen_sub _ _ _ ?_); (intro h; first | tauto | (simp [irins.NoRef, irins.operands, op_var, op_const, op_deref] at h ⊢ <;> tauto))
        | (with_reducible refine Sat_gen_mul _ _ _ ?_); (intro h; first | tauto | (simp [irins.NoRef, irins.operands, op_var, op_const, op_deref] at h ⊢ <;> tauto))
        | (with_reducible refine Sat_gen_div _ _ _ ?_); (intro h; first | tauto | (simp [irins.NoRef, irins.operands, op_var, op_const, op_deref] at h ⊢ <;> tauto))
        | (with_reducible refine Sat_gen_branch _ _ _ _ ?_); (intro h; first | tauto | (simp [irins.NoRef, irins.operands, op_var, op_const, op_deref] at h ⊢ <;> tauto))
        | (with_reducible refine Sat_gen_return _ ?_); (intro h; first | tauto | (simp [irins.NoRef, irins.operands, op_var, op_const, op_deref] at h ⊢ <;> tauto))
        | (with_reducible refine Sat_gen_dec _ _ ?_); (intro h; first | tauto | (simp [irins.NoRef, irins.operands, op_var, op_const, op_deref] at h ⊢ <;> tauto))
        | (with_reducible refine Sat_gen_call _ _ ?_); (intro h; first | tauto | (simp [irins.NoRef, irins.operands, op_var, op_const, op_deref] at h ⊢ <;> tauto))
        | (with_reducible refine Sat_gen_arg _ ?_); (intro h; first | tauto | (simp [irins.NoRef, irins.operands, op_var, op_const, op_deref] at h ⊢ <;> tauto))
        | (with_reducible refine Sat_gen_param _ ?_); (intro h; first | tauto | (simp [irins.NoRef, irins.operands, op_var, op_const, op_deref] at h ⊢ <;> tauto))
        | (with_reducible refine Sat_gen_read _ ?_); (intro h; first | tauto | (simp [irins.NoRef, irins.operands, op_var, op_const, op_deref] at h ⊢ <;> tauto))
        | (with_reducible refine Sat_gen_write _ ?_); (intro h; first | tauto | (simp [irins.NoRef, irins.operands, op_var, op_const, op_deref] at h ⊢ <;> tauto))
        | with_reducible apply Sat_bind
        | with_reducible intro _
        | with_reducible exact Sat_gen_args_loop _ _ _ _ _
        | (with_reducible refine ihE _ (by first | (simp_wf; omega) | simp_wf) _ _ ?_); (intro h; first | tauto | (simp [irins.NoRef, irins.operands, op_var, op_const, op_deref] at h ⊢ <;> tauto))
        | with_reducible exact ihA _ (by first | (simp_wf; omega) | simp_wf) _
        | split
  · intro tree ihE ihC ihS pre lt lf
    beta_reduce at ihE ihC ihS
    cases tree with
    | NOT tp e => rw [translate_Cond_NOT]; exact ihC _ (by first | (simp_wf; omega) | simp_wf) _ _ _
    | LP tp e => rw [translate_Cond_LP]; exact ihC _ (by first | (simp_wf; omega) | simp_wf) _ _ _
    | AND tp l r =>
      rw [translate_Cond_AND]
      repeat' first
        | with_reducible exact Sat_fail _
        | with_reducible exact Sat_Assert _ _
        | with_reducible exact Sat_not_null _
        | with_reducible exact Sat_get_isref _
        | with_reducible exact Sat_get_ir _
        | with_reducible exact Sat_cast_irlabel _
        | with_reducible exact Sat_cast_irvar _
        | with_reducible exact Sat_op_rval _
        | with_reducible exact Sat_new_var
        | with_reducible exact Sat_new_label
        | with_reducible exact Sat_new_named_label _
        | with_reducible exact Sat_set_ir _ _
        | with_reducible exact Sat_gen_label _
        | with_reducible exact Sat_gen_func _
        | with_reducible exact Sat_gen_goto _
        | with_reducible exact Sat_skip _
        | (with_reducible refine Sat_set_isref _ _ ?_); (intro h; first | tauto | (simp [irins.NoRef, irins.operands, op_var, op_const, op_deref] at h ⊢ <;> tauto))
        | (with_reducible refine Sat_gen_assign _ _ ?_); (intro h; first | tauto | (simp [irins.NoRef, irins.operands, op_var, op_const, op_deref] at h ⊢ <;> tauto))
        | (with_reducible refine Sat_gen_add _ _ _ ?_); (intro h; first | tauto | (simp [irins.NoRef, irins.operands, op_var, op_const, op_deref] at h ⊢ <;> tauto))
        | (with_reducible refine Sat_gen_sub _ _ _ ?_); (intro h; first | tauto | (simp [irins.NoRef, irins.operands, op_var, op_const, op_deref] at h ⊢ <;> tauto))
        | (with_reducible refine Sat_gen_mul _ _ _ ?_); (intro h; first | tauto | (simp [irins.NoRef, irins.operands, op_var, op_const, op_deref] at h ⊢ <;> tauto))
        | (with_reducible refine Sat_gen_div _ _ _ ?_); (intro h; first | tauto | (simp [irins.NoRef, irins.operands, op_var, op_const, op_deref] at h ⊢ <;> tauto))
        | (with_reducible refine Sat_gen_branch _ _ _ _ ?_); (intro h; first | tauto | (simp [irins.NoRef, irins.operands, op_var, op_const, op_deref] at h ⊢ <;> tauto))
        | (with_reducible refine Sat_gen_return _ ?_); (intro h; first | tauto | (simp [irins.NoRef, irins.operands, op_var, op_const, op_deref] at h ⊢ <;> tauto))
        | (with_reducible refine Sat_gen_dec _ _ ?_); (intro h; first | tauto | (simp [irins.NoRef, irins.operands, op_var, op_const, op_deref] at h ⊢ <;> tauto))
        | (with_reducible refine Sat_gen_call _ _ ?_); (intro h; first | tauto | (simp [irins.NoRef, irins.operands, op_var, op_const, op_deref] at h ⊢ <;> tauto))
        | (with_reducible refine Sat_gen_arg _ ?_); (intro h; first | tauto | (simp [irins.NoRef, irins.operands, op_var, op_const, op_deref] at h ⊢ <;> tauto))
        | (with_reducible refine Sat_gen_param _ ?_); (intro h; first | tauto | (simp [irins.NoRef, irins.operands, op_var, op_const, op_deref] at h ⊢ <;> tauto))
        | (with_reducible refine Sat_gen_read _ ?_); (intro h; first | tauto | (simp [irins.NoRef, irins.operands, op_var, op_const, op_deref] at h ⊢ <;> tauto))
        | (with_reducible refine Sat_gen_write _ ?_); (intro h; first | tauto | (simp [irins.NoRef, irins.operands, op_var, op_const, op_deref] at h ⊢ <;> tauto))
        | with_reducible apply Sat_bind
        | with_reducible intro _
        | with_reducible exact ihC _ (by first | (simp_wf; omega) | simp_wf) _ _ _
    | OR tp l r =>
      rw [translate_Cond_OR]
      repeat' first
        | with_reducible exact Sat_fail _
        | with_reducible exact Sat_Assert _ _
        | with_reducible exact Sat_not_null _
        | with_reducible exact Sat_get_isref _
        | with_reducible exact Sat_get_ir _
        | with_reducible exact Sat_cast_irlabel _
        | with_reducible exact Sat_cast_irvar _
        | with_reducible exact Sat_op_rval _
        | with_reducible exact Sat_new_var
        | with_reducible exact Sat_new_label
        | with_reducible exact Sat_new_named_label _
        | with_reducible exact Sat_set_ir _ _
        | with_reducible exact Sat_gen_label _
        | with_reducible exact Sat_gen_func _
        | with_reducible exact Sat_gen_goto _
        | with_reducible exact Sat_skip _
        | (with_reducible refine Sat_set_isref _ _ ?_); (intro h; first | tauto | (simp [irins.NoRef, irins.operands, op_var, op_const, op_deref] at h ⊢ <;> tauto))
        | (with_reducible refine Sat_gen_assign _ _ ?_); (intro h; first | tauto | (simp [irins.NoRef, irins.operands, op_var, op_const, op_deref] at h ⊢ <;> tauto))
        | (with_reducible refine Sat_gen_add _ _ _ ?_); (intro h; first | tauto | (simp [irins.NoRef, irins.operands, op_var, op_const, op_deref] at h ⊢ <;> tauto))
        | (with_reducible refine Sat_gen_sub _ _ _ ?_); (intro h; first | tauto | (simp [irins.NoRef, irins.operands, op_var, op_const, op_deref] at h ⊢ <;> tauto))
        | (with_reducible refine Sat_gen_mul _ _ _ ?_); (intro h; first | tauto | (simp [irins.NoRef, irins.operands, op_var, op_const, op_deref] at h ⊢ <;> tauto))
        | (with_reducible refine Sat_gen_div _ _ _ ?_); (intro h; first | tauto | (simp [irins.NoRef, irins.operands, op_var, op_const, op_deref] at h ⊢ <;> tauto))
        | (with_reducible refine Sat_gen_branch _ _ _ _ ?_); (intro h; first | tauto | (simp [irins.NoRef, irins.operands, op_var, op_const, op_deref] at h ⊢ <;> tauto))
        | (with_reducible refine Sat_gen_return _ ?_); (intro h; first | tauto | (simp [irins.NoRef, irins.operands, op_var, op_const, op_deref] at h ⊢ <;> tauto))
        | (with_reducible refine Sat_gen_dec _ _ ?_); (intro h; first | tauto | (simp [irins.NoRef, irins.operands, op_var, op_const, op_deref] at h ⊢ <;> tauto))
        | (with_reducible refine Sat_gen_call _ _ ?_); (intro h; first | tauto | (simp [irins.NoRef, irins.operands, op_var, op_const, op_deref] at h ⊢ <;> tauto))
        | (with_reducible refine Sat_gen_arg _ ?_); (intro h; first | tauto | (simp [irins.NoRef, irins.operands, op_var, op_const, op_deref] at h ⊢ <;> tauto))
        | (with_reducible refine Sat_gen_param _ ?_); (intro h; first | tauto | (simp [irins.NoRef, irins.operands, op_var, op_const, op_deref] at h ⊢ <;> tauto))
        | (with_reducible refine Sat_gen_read _ ?_); (intro h; first | tauto | (simp [irins.NoRef, irins.operands, op_var, op_const, op_deref] at h ⊢ <;> tauto))
        | (with_reducible refine Sat_gen_write _ ?_); (intro h; first | tauto | (simp [irins.NoRef, irins.operands, op_var, op_const, op_deref] at h ⊢ <;> tauto))
        | with_reducible apply Sat_bind
        | with_reducible intro _
        | with_reducible exact ihC _ (by first | (simp_wf; omega) | simp_wf) _ _ _
    | RELOP tp l rt r =>
      rw [translate_Cond_RELOP]
      repeat' first
        | with_reducible exact Sat_fail _
        | with_reducible exact Sat_Assert _ _
        | with_reducible exact Sat_not_null _
        | with_reducible exact Sat_get_isref _
        | with_reducible exact Sat_get_ir _
        | with_reducible exact Sat_cast_irlabel _
        | with_reducible exact Sat_cast_irvar _
        | with_reducible exact Sat_op_rval _
        | with_reducible exact Sat_new_var
        | with_reducible exact Sat_new_label
        | with_reducible exact Sat_new_named_label _
        | with_reducible exact Sat_set_ir _ _
        | with_reducible exact Sat_gen_label _
        | with_reducible exact Sat_gen_func _
        | with_reducible exact Sat_gen_goto _
        | with_reducible exact Sat_skip _
        | (with_reducible refine Sat_set_isref _ _ ?_); (intro h; first | tauto | (simp [irins.NoRef, irins.operands, op_var, op_const, op_deref] at h ⊢ <;> tauto))
        | (with_reducible refine Sat_gen_assign _ _ ?_); (intro h; first | tauto | (simp [irins.NoRef, irins.operands, op_var, op_const, op_deref] at h ⊢ <;> tauto))
        | (with_reducible refine Sat_gen_add _ _ _ ?_); (intro h; first | tauto | (simp [irins.NoRef, irins.operands, op_var, op_const, op_deref] at h ⊢ <;> tauto))
        | (with_reducible refine Sat_gen_sub _ _ _ ?_); (intro h; first | tauto | (simp [irins.NoRef, irins.operands, op_var, op_const, op_deref] at h ⊢ <;> tauto))
        | (with_reducible refine Sat_gen_mul _ _ _ ?_); (intro h; first | tauto | (simp [irins.NoRef, irins.operands, op_var, op_const, op_deref] at h ⊢ <;> tauto))
        | (with_reducible refine Sat_gen_div _ _ _ ?_); (intro h; first | tauto | (simp [irins.NoRef, irins.operands, op_var, op_const, op_deref] at h ⊢ <;> tauto))
        | (with_reducible refine Sat_gen_branch _ _ _ _ ?_); (intro h; first | tauto | (simp [irins.NoRef, irins.operands, op_var, op_const, op_deref] at h ⊢ <;> tauto))
        | (with_reducible refine Sat_gen_return _ ?_); (intro h; first | tauto | (simp [irins.NoRef, irins.operands, op_var, op_const, op_deref] at h ⊢ <;> tauto))
        | (with_reducible refine Sat_gen_dec _ _ ?_); (intro h; first | tauto | (simp [irins.NoRef, irins.operands, op_var, op_const, op_deref] at h ⊢ <;> tauto))
        | (with_reducible refine Sat_gen_call _ _ ?_); (intro h; first | tauto | (simp [irins.NoRef, irins.operands, op_var, op_const, op_deref] at h ⊢ <;> tauto))
        | (with_reducible refine Sat_gen_arg _ ?_); (intro h; first | tauto | (simp [irins.NoRef, irins.operands, op_var, op_const, op_deref] at h ⊢ <;> tauto))
        | (with_reducible refine Sat_gen_param _ ?_); (intro h; first | tauto | (simp [irins.NoRef, irins.operands, op_var, op_const, op_deref] at h ⊢ <;> tauto))
        | (with_reducible refine Sat_gen_read _ ?_); (intro h; first | tauto | (simp [irins.NoRef, irins.operands, op_var, op_const, op_deref] at h ⊢ <;> tauto))
        | (with_reducible refine Sat_gen_write _ ?_); (intro h; first | tauto | (simp [irins.NoRef, irins.operands, op_var, op_const, op_deref] at h ⊢ <;> tauto))
        | with_reducible apply Sat_bind
        | with_reducible intro _
        | (with_reducible refine ihE _ (by first | (simp_wf; omega) | simp_wf) _ _ ?_); (intro h; first | tauto | (simp [irins.NoRef, irins.operands, op_var, op_const, op_deref] at h ⊢ <;> tauto))
    | _ =>
      have hS := ihS (by simp [Exp.rank, Exp.count, Exp.child0, Exp.child1])
      rw [translate_Cond_default _ _ _ (by rfl)]
      repeat' first
        | with_reducible exact Sat_fail _
        | with_reducible exact Sat_Assert _ _
        | with_reducible exact Sat_not_null _
        | with_reducible exact Sat_get_isref _
        | with_reducible exact Sat_get_ir _
        | with_reducible exact Sat_cast_irlabel _
        | with_reducible exact Sat_cast_irvar _
        | with_reducible exact Sat_op_rval _
        | with_reducible exact Sat_new_var
        | with_reducible exact Sat_new_label
        | with_reducible exact Sat_new_named_label _
        | with_reducible exact Sat_set_ir _ _
        | with_reducible exact Sat_gen_label _
        | with_reducible exact Sat_gen_func _
        | with_reducible exact Sat_gen_goto _
        | with_reducible exact Sat_skip _
        | (with_reducible refine Sat_set_isref _ _ ?_); (intro h; first | tauto | (simp [irins.NoRef, irins.operands, op_var, op_const, op_deref] at h ⊢ <;> tauto))
        | (with_reducible refine Sat_gen_assign _ _ ?_); (intro h; first | tauto | (simp [irins.NoRef, irins.operands, op_var, op_const, op_deref] at h ⊢ <;> tauto))
        | (with_reducible refine Sat_gen_add _ _ _ ?_); (intro h; first | tauto | (simp [irins.NoRef, irins.operands, op_var, op_const, op_deref] at h ⊢ <;> tauto))
        | (with_reducible refine Sat_gen_sub _ _ _ ?_); (intro h; first | tauto | (simp [irins.NoRef, irins.operands, op_var, op_const, op_deref] at h ⊢ <;> tauto))
        | (with_reducible refine Sat_gen_mul _ _ _ ?_); (intro h; first | tauto | (simp [irins.NoRef, irins.operands, op_var, op_const, op_deref] at h ⊢ <;> tauto))
        | (with_reducible refine Sat_gen_div _ _ _ ?_); (intro h; first | tauto | (simp [irins.NoRef, irins.operands, op_var, op_const, op_deref] at h ⊢ <;> tauto))
        | (with_reducible refine Sat_gen_branch _ _ _ _ ?_); (intro h; first | tauto | (simp [irins.NoRef, irins.operands, op_var, op_const, op_deref] at h ⊢ <;> tauto))
        | (with_reducible refine Sat_gen_return _ ?_); (intro h; first | tauto | (simp [irins.NoRef, irins.operands, op_var, op_const, op_deref] at h ⊢ <;> tauto))
        | (with_reducible refine Sat_gen_dec _ _ ?_); (intro h; first | tauto | (simp [irins.NoRef, irins.operands, op_var, op_const, op_deref] at h ⊢ <;> tauto))
        | (with_reducible refine Sat_gen_call _ _ ?_); (intro h; first | tauto | (simp [irins.NoRef, irins.operands, op_var, op_const, op_deref] at h ⊢ <;> tauto))
        | (with_reducible refine Sat_gen_arg _ ?_); (intro h; first | tauto | (simp [irins.NoRef, irins.operands, op_var, op_const, op_deref] at h ⊢ <;> tauto))
        | (with_reducible refine Sat_gen_param _ ?_); (intro h; first | tauto | (simp [irins.NoRef, irins.operands, op_var, op_const, op_deref] at h ⊢ <;> tauto))
        | (with_reducible refine Sat_gen_read _ ?_); (intro h; first | tauto | (simp [irins.NoRef, irins.operands, op_var, op_const, op_deref] at h ⊢ <;> tauto))
        | (with_reducible refine Sat_gen_write _ ?_); (intro h; first | tauto | (simp [irins.NoRef, irins.operands, op_var, op_const, op_deref] at h ⊢ <;> tauto))
        | with_reducible apply Sat_bind
        | with_reducible intro _
        | (with_reducible refine hS _ _ ?_); (intro h; first | tauto | (simp [irins.NoRef, irins.operands, op_var, op_const, op_deref] at h ⊢ <;> tauto))
  · intro args ihE ihA pre
    beta_reduce at ihE ihA
    cases args with
    | one e =>
      rw [translate_Args_one]
      repeat' first
        | with_reducible exact Sat_fail _
        | with_reducible exact Sat_Assert _ _
        | with_reducible exact Sat_not_null _
        | with_reducible exact Sat_get_isref _
        | with_reducible exact Sat_get_ir _
        | with_reducible exact Sat_cast_irlabel _
        | with_reducible exact Sat_cast_irvar _
        | with_reducible exact Sat_op_rval _
        | with_reducible exact Sat_new_var
        | with_reducible exact Sat_new_label
        | with_reducible exact Sat_new_named_label _
        | with_reducible exact Sat_set_ir _ _
        | with_reducible exact Sat_gen_label _
        | with_reducible exact Sat_gen_func _
        | with_reducible exact Sat_gen_goto _
        | with_reducible exact Sat_skip _
        | (with_reducible refine Sat_set_isref _ _ ?_); (intro h; first | tauto | (simp [irins.NoRef, irins.operands, op_var, op_const, op_deref] at h ⊢ <;> tauto))
        | (with_reducible refine Sat_gen_assign _ _ ?_); (intro h; first | tauto | (simp [irins.NoRef, irins.operands, op_var, op_const, op_deref] at h ⊢ <;> tauto))
        | (with_reducible refine Sat_gen_add _ _ _ ?_); (intro h; first | tauto | (simp [irins.NoRef, irins.operands, op_var, op_const, op_deref] at h ⊢ <;> tauto))
        | (with_reducible refine Sat_gen_sub _ _ _ ?_); (intro h; first | tauto | (simp [irins.NoRef, irins.operands, op_var, op_const, op_deref] at h ⊢ <;> tauto))
        | (with_reducible refine Sat_gen_mul _ _ _ ?_); (intro h; first | tauto | (simp [irins.NoRef, irins.operands, op_var, op_const, op_deref] at h ⊢ <;> tauto))
        | (with_reducible refine Sat_gen_div _ _ _ ?_); (intro h; first | tauto | (simp [irins.NoRef, irins.operands, op_var, op_const, op_deref] at h ⊢ <;> tauto))
        | (with_reducible refine Sat_gen_branch _ _ _ _ ?_); (intro h; first | tauto | (simp [irins.NoRef, irins.operands, op_var, op_const, op_deref] at h ⊢ <;> tauto))
        | (with_reducible refine Sat_gen_return _ ?_); (intro h; first | tauto | (simp [irins.NoRef, irins.operands, op_var, op_const, op_deref] at h ⊢ <;> tauto))
        | (with_reducible refine Sat_gen_dec _ _ ?_); (intro h; first | tauto | (simp [irins.NoRef, irins.operands, op_var, op_const, op_deref] at h ⊢ <;> tauto))
        | (with_reducible refine Sat_gen_call _ _ ?_); (intro h; first | tauto | (simp [irins.NoRef, irins.operands, op_var, op_const, op_deref] at h ⊢ <;> tauto))
        | (with_reducible refine Sat_gen_arg _ ?_); (intro h; first | tauto | (simp [irins.NoRef, irins.operands, op_var, op_const, op_deref] at h ⊢ <;> tauto))
        | (with_reducible refine Sat_gen_param _ ?_); (intro h; first | tauto | (simp [irins.NoRef, irins.operands, op_var, op_const, op_deref] at h ⊢ <;> tauto))
        | (with_reducible refine Sat_gen_read _ ?_); (intro h; first | tauto | (simp [irins.NoRef, irins.operands, op_var, op_const, op_deref] at h ⊢ <;> tauto))
        | (with_reducible refine Sat_gen_write _ ?_); (intro h; first | tauto | (simp [irins.NoRef, irins.operands, op_var, op_const, op_deref] at h ⊢ <;> tauto))
        | with_reducible apply Sat_bind
        | with_reducible intro _
        | (with_reducible refine ihE _ (by first | (simp_wf; omega) | simp_wf) _ _ ?_); (intro h; first | tauto | (simp [irins.NoRef, irins.operands, op_var, op_const, op_deref] at h ⊢ <;> tauto))
    | cons e rest =>
      rw [translate_Args_cons]
      repeat' first
        | with_reducible exact Sat_fail _
        | with_reducible exact Sat_Assert _ _
        | with_reducible exact Sat_not_null _
        | with_reducible exact Sat_get_isref _
        | with_reducible exact Sat_get_ir _
        | with_reducible exact Sat_cast_irlabel _
        | with_reducible exact Sat_cast_irvar _
        | with_reducible exact Sat_op_rval _
        | with_reducible exact Sat_new_var
        | with_reducible exact Sat_new_label
        | with_reducible exact Sat_new_named_label _
        | with_reducible exact Sat_set_ir _ _
        | with_reducible exact Sat_gen_label _
        | with_reducible exact Sat_gen_func _
        | with_reducible exact Sat_gen_goto _
        | with_reducible exact Sat_skip _
        | (with_reducible refine Sat_set_isref _ _ ?_); (intro h; first | tauto | (simp [irins.NoRef, irins.operands, op_var, op_const, op_deref] at h ⊢ <;> tauto))
        | (with_reducible refine Sat_gen_assign _ _ ?_); (intro h; first | tauto | (simp [irins.NoRef, irins.operands, op_var, op_const, op_deref] at h ⊢ <;> tauto))
        | (with_reducible refine Sat_gen_add _ _ _ ?_); (intro h; first | tauto | (simp [irins.NoRef, irins.operands, op_var, op_const, op_deref] at h ⊢ <;> tauto))
        | (with_reducible refine Sat_gen_sub _ _ _ ?_); (intro h; first | tauto | (simp [irins.NoRef, irins.operands, op_var, op_const, op_deref] at h ⊢ <;> tauto))
        | (with_reducible refine Sat_gen_mul _ _ _ ?_); (intro h; first | tauto | (simp [irins.NoRef, irins.operands, op_var, op_const, op_deref] at h ⊢ <;> tauto))
        | (with_reducible refine Sat_gen_div _ _ _ ?_); (intro h; first | tauto | (simp [irins.NoRef, irins.operands, op_var, op_const, op_deref] at h ⊢ <;> tauto))
        | (with_reducible refine Sat_gen_branch _ _ _ _ ?_); (intro h; first | tauto | (simp [irins.NoRef, irins.operands, op_var, op_const, op_deref] at h ⊢ <;> tauto))
        | (with_reducible refine Sat_gen_return _ ?_); (intro h; first | tauto | (simp [irins.NoRef, irins.operands, op_var, op_const, op_deref] at h ⊢ <;> tauto))
        | (with_reducible refine Sat_gen_dec _ _ ?_); (intro h; first | tauto | (simp [irins.NoRef, irins.operands, op_var, op_const, op_deref] at h ⊢ <;> tauto))
        | (with_reducible refine Sat_gen_call _ _ ?_); (intro h; first | tauto | (simp [irins.NoRef, irins.operands, op_var, op_const, op_deref] at h ⊢ <;> tauto))
        | (with_reducible refine Sat_gen_arg _ ?_); (intro h; first | tauto | (simp [irins.NoRef, irins.operands, op_var, op_const, op_deref] at h ⊢ <;> tauto))
        | (with_reducible refine Sat_gen_param _ ?_); (intro h; first | tauto | (simp [irins.NoRef, irins.operands, op_var, op_const, op_deref] at h ⊢ <;> tauto))
        | (with_reducible refine Sat_gen_read _ ?_); (intro h; first | tauto | (simp [irins.NoRef, irins.operands, op_var, op_const, op_deref] at h ⊢ <;> tauto))
        | (with_reducible refine Sat_gen_write _ ?_); (intro h; first | tauto | (simp [irins.NoRef, irins.operands, op_var, op_const, op_deref] at h ⊢ <;> tauto))
        | with_reducible apply Sat_bind
        | with_reducible intro _
        | (with_reducible refine ihE _ (by first | (simp_wf; omega) | simp_wf) _ _ ?_); (intro h; first | tauto | (simp [irins.NoRef, irins.operands, op_var, op_const, op_deref] at h ⊢ <;> tauto))
        | with_reducible exact ihA _ (by first | (simp_wf; omega) | simp_wf) _

theorem Sat_translate_Exp {L : Logic} {pre : Prop} (tree : Exp) (target : irvar)
    (hv : pre → L.okV target) : Sat L pre (translate_Exp tree target) (fun _ => True) :=
  (Sat_translate_Exp_Cond_Args L).1 tree pre target hv

theorem Sat_translate_Cond {L : Logic} {pre : Prop} (tree : Exp) (lt lf : irlabel) :
    Sat L pre (translate_Cond tree lt lf) (fun _ => True) :=
  (Sat_translate_Exp_Cond_Args L).2.1 tree pre lt lf

theorem Sat_translate_Args {L : Logic} {pre : Prop} (args : Args) :
    Sat L pre (translate_Args args) (fun _ => True) :=
  (Sat_translate_Exp_Cond_Args L).2.2 args pre

theorem Sat_translate_FunDec_loop {L : Logic} (subev : String → Option symbol)
    (args : List (String × type)) :
    ∀ pre : Prop, Sat L pre (translate_FunDec_loop subev args) (fun _ => True) := by
  induction args with
  | nil => intro pre; exact Sat_skip _
  | cons a rest ih =>
    intro pre
    obtain ⟨n, tp⟩ := a
    rw [IRLab.translate_FunDec_loop]
    repeat' first
      | with_reducible exact Sat_fail _
      | with_reducible exact Sat_Assert _ _
      | with_reducible exact Sat_not_null _
      | with_reducible exact Sat_get_isref _
      | with_reducible exact Sat_get_ir _
      | with_reducible exact Sat_cast_irlabel _
      | with_reducible exact Sat_cast_irvar _
      | with_reducible exact Sat_op_rval _
      | with_reducible exact Sat_new_var
      | with_reducible exact Sat_new_label
      | with_reducible exact Sat_new_named_label _
      | with_reducible exact Sat_set_ir _ _
      | with_reducible exact Sat_gen_label _
      | with_reducible exact Sat_gen_func _
      | with_reducible exact Sat_gen_goto _
      | with_reducible exact Sat_skip _
      | (with_reducible refine Sat_set_isref _ _ ?_); (intro h; first | tauto | (simp [irins.NoRef, irins.operands, op_var, op_const, op_deref] at h ⊢ <;> tauto))
      | (with_reducible refine Sat_gen_assign _ _ ?_); (intro h; first | tauto | (simp [irins.NoRef, irins.operands, op_var, op_const, op_deref] at h ⊢ <;> tauto))
      | (with_reducible refine Sat_gen_add _ _ _ ?_); (intro h; first | tauto | (simp [irins.NoRef, irins.operands, op_var, op_const, op_deref] at h ⊢ <;> tauto))
      | (with_reducible refine Sat_gen_sub _ _ _ ?_); (intro h; first | tauto | (simp [irins.NoRef, irins.operands, op_var, op_const, op_deref] at h ⊢ <;> tauto))
      | (with_reducible refine Sat_gen_mul _ _ _ ?_); (intro h; first | tauto | (simp [irins.NoRef, irins.operands, op_var, op_const, op_deref] at h ⊢ <;> tauto))
      | (with_reducible refine Sat_gen_div _ _ _ ?_); (intro h; first | tauto | (simp [irins.NoRef, irins.operands, op_var, op_const, op_deref] at h ⊢ <;> tauto))
      | (with_reducible refine Sat_gen_branch _ _ _ _ ?_); (intro h; first | tauto | (simp [irins.NoRef, irins.operands, op_var, op_const, op_deref] at h ⊢ <;> tauto))
      | (with_reducible refine Sat_gen_return _ ?_); (intro h; first | tauto | (simp [irins.NoRef, irins.operands, op_var, op_const, op_deref] at h ⊢ <;> tauto))
      | (with_reducible refine Sat_gen_dec _ _ ?_); (intro h; first | tauto | (simp [irins.NoRef, irins.operands, op_var, op_const, op_deref] at h ⊢ <;> tauto))
      | (with_reducible refine Sat_gen_call _ _ ?_); (intro h; first | tauto | (simp [irins.NoRef, irins.operands, op_var, op_const, op_deref] at h ⊢ <;> tauto))
      | (with_reducible refine Sat_gen_arg _ ?_); (intro h; first | tauto | (simp [irins.NoRef, irins.operands, op_var, op_const, op_deref] at h ⊢ <;> tauto))
      | (with_reducible refine Sat_gen_param _ ?_); (intro h; first | tauto | (simp [irins.NoRef, irins.operands, op_var, op_const, op_deref] at h ⊢ <;> tauto))
      | (with_reducible refine Sat_gen_read _ ?_); (intro h; first | tauto | (simp [irins.NoRef, irins.operands, op_var, op_const, op_deref] at h ⊢ <;> tauto))
      | (with_reducible refine Sat_gen_write _ ?_); (intro h; first | tauto | (simp [irins.NoRef, irins.operands, op_var, op_const, op_deref] at h ⊢ <;> tauto))
      | with_reducible apply Sat_bind
      | with_reducible intro _
      | with_reducible exact ih _
      | split

theorem Sat_translate_FunDec {L : Logic} {pre : Prop} (tree : FunDec) :
    Sat L pre (translate_FunDec tree) (fun _ => True) := by
  unfold IRLab.translate_FunDec
  repeat' first
    | with_reducible exact Sat_fail _
    | with_reducible exact Sat_Assert _ _
    | with_reducible exact Sat_not_null _
    | with_reducible exact Sat_get_isref _
    | with_reducible exact Sat_get_ir _
    | with_reducible exact Sat_cast_irlabel _
    | with_reducible exact Sat_cast_irvar _
    | with_reducible exact Sat_op_rval _
    | with_reducible exact Sat_new_var
    | with_reducible exact Sat_new_label
    | with_reducible exact Sat_new_named_label _
    | with_reducible exact Sat_set_ir _ _
    | with_reducible exact Sat_gen_label _
    | with_reducible exact Sat_gen_func _
    | with_reducible exact Sat_gen_goto _
    | with_reducible exact Sat_skip _
    | (with_reducible refine Sat_set_isref _ _ ?_); (intro h; first | tauto | (simp [irins.NoRef, irins.operands, op_var, op_const, op_deref] at h ⊢ <;> tauto))
    | (with_reducible refine Sat_gen_assign _ _ ?_); (intro h; first | tauto | (simp [irins.NoRef, irins.operands, op_var, op_const, op_deref] at h ⊢ <;> tauto))
    | (with_reducible refine Sat_gen_add _ _ _ ?_); (intro h; first | tauto | (simp [irins.NoRef, irins.operands, op_var, op_const, op_deref] at h ⊢ <;> tauto))
    | (with_reducible refine Sat_gen_sub _ _ _ ?_); (intro h; first | tauto | (simp [irins.NoRef, irins.operands, op_var, op_const, op_deref] at h ⊢ <;> tauto))
    | (with_reducible refine Sat_gen_mul _ _ _ ?_); (intro h; first | tauto | (simp [irins.NoRef, irins.operands, op_var, op_const, op_deref] at h ⊢ <;> tauto))
    | (with_reducible refine Sat_gen_div _ _ _ ?_); (intro h; first | tauto | (simp [irins.NoRef, irins.operands, op_var, op_const, op_deref] at h ⊢ <;> tauto))
    | (with_reducible refine Sat_gen_branch _ _ _ _ ?_); (intro h; first | tauto | (simp [irins.NoRef, irins.operands, op_var, op_const, op_deref] at h ⊢ <;> tauto))
    | (with_reducible refine Sat_gen_return _ ?_); (intro h; first | tauto | (simp [irins.NoRef, irins.operands, op_var, op_const, op_deref] at h ⊢ <;> tauto))
    | (with_reducible refine Sat_gen_dec _ _ ?_); (intro h; first | tauto | (simp [irins.NoRef, irins.operands, op_var, op_const, op_deref] at h ⊢ <;> tauto))
    | (with_reducible refine Sat_gen_call _ _ ?_); (intro h; first | tauto | (simp [irins.NoRef, irins.operands, op_var, op_const, op_deref] at h ⊢ <;> tauto))
    | (with_reducible refine Sat_gen_arg _ ?_); (intro h; first | tauto | (simp [irins.NoRef, irins.operands, op_var, op_const, op_deref] at h ⊢ <;> tauto))
    | (with_reducible refine Sat_gen_param _ ?_); (intro h; first | tauto | (simp [irins.NoRef, irins.operands, op_var, op_const, op_deref] at h ⊢ <;> tauto))
    | (with_reducible refine Sat_gen_read _ ?_); (intro h; first | tauto | (simp [irins.NoRef, irins.operands, op_var, op_const, op_deref] at h ⊢ <;> tauto))
    | (with_reducible refine Sat_gen_write _ ?_); (intro h; first | tauto | (simp [irins.NoRef, irins.operands, op_var, op_const, op_deref] at h ⊢ <;> tauto))
    | with_reducible apply Sat_bind
    | with_reducible intro _
    | with_reducible exact Sat_translate_FunDec_loop _ _ _

/-- The reading of `ignore_var` in a logic in which `ignore_var` may be assigned. -/
theorem Sat_get_ignore_var {L : Logic} {pre : Prop}
    (hig : ∀ s v, L.I s → s.ignore_var = some v → L.okV v) :
    Sat L pre get_ignore_var (fun o => ∀ v, o = some v → L.okV v) := by
  intro s a s' hx hI _
  cases hx
  exact ⟨hI, L.refl _, fun v hv => hig s v hI hv⟩

theorem Sat_translate_Dec {L : Logic} {pre : Prop}
    (hvd : ∀ vd pre, Sat L pre (translate_VarDec vd) (fun _ => True)) (tree : Dec) :
    Sat L pre (translate_Dec tree) (fun _ => True) := by
  unfold IRLab.translate_Dec
  repeat' first
    | with_reducible exact Sat_fail _
    | with_reducible exact Sat_Assert _ _
    | with_reducible exact Sat_not_null _
    | with_reducible exact Sat_get_isref _
    | with_reducible exact Sat_get_ir _
    | with_reducible exact Sat_cast_irlabel _
    | with_reducible exact Sat_cast_irvar _
    | with_reducible exact Sat_op_rval _
    | with_reducible exact Sat_new_var
    | with_reducible exact Sat_new_label
    | with_reducible exact Sat_new_named_label _
    | with_reducible exact Sat_set_ir _ _
    | with_reducible exact Sat_gen_label _
    | with_reducible exact Sat_gen_func _
    | with_reducible exact Sat_gen_goto _
    | with_reducible exact Sat_skip _
    | (with_reducible refine Sat_set_isref _ _ ?_); (intro h; first | tauto | (simp [irins.NoRef, irins.operands, op_var, op_const, op_deref] at h ⊢ <;> tauto))
    | (with_reducible refine Sat_gen_assign _ _ ?_); (intro h; first | tauto | (simp [irins.NoRef, irins.operands, op_var, op_const, op_deref] at h ⊢ <;> tauto))
    | (with_reducible refine Sat_gen_add _ _ _ ?_); (intro h; first | tauto | (simp [irins.NoRef, irins.operands, op_var, op_const, op_deref] at h ⊢ <;> tauto))
    | (with_reducible refine Sat_gen_sub _ _ _ ?_); (intro h; first | tauto | (simp [irins.NoRef, irins.operands, op_var, op_const, op_deref] at h ⊢ <;> tauto))
    | (with_reducible refine Sat_gen_mul _ _ _ ?_); (intro h; first | tauto | (simp [irins.NoRef, irins.operands, op_var, op_const, op_deref] at h ⊢ <;> tauto))
    | (with_reducible refine Sat_gen_div _ _ _ ?_); (intro h; first | tauto | (simp [irins.NoRef, irins.operands, op_var, op_const, op_deref] at h ⊢ <;> tauto))
    | (with_reducible refine Sat_gen_branch _ _ _ _ ?_); (intro h; first | tauto | (simp [irins.NoRef, irins.operands, op_var, op_const, op_deref] at h ⊢ <;> tauto))
    | (with_reducible refine Sat_gen_return _ ?_); (intro h; first | tauto | (simp [irins.NoRef, irins.operands, op_var, op_const, op_deref] at h ⊢ <;> tauto))
    | (with_reducible refine Sat_gen_dec _ _ ?_); (intro h; first | tauto | (simp [irins.NoRef, irins.operands, op_var, op_const, op_deref] at h ⊢ <;> tauto))
    | (with_reducible refine Sat_gen_call _ _ ?_); (intro h; first | tauto | (simp [irins.NoRef, irins.operands, op_var, op_const, op_deref] at h ⊢ <;> tauto))
    | (with_reducible refine Sat_gen_arg _ ?_); (intro h; first | tauto | (simp [irins.NoRef, irins.operands, op_var, op_const, op_deref] at h ⊢ <;> tauto))
    | (with_reducible refine Sat_gen_param _ ?_); (intro h; first | tauto | (simp [irins.NoRef, irins.operands, op_var, op_const, op_deref] at h ⊢ <;> tauto))
    | (with_reducible refine Sat_gen_read _ ?_); (intro h; first | tauto | (simp [irins.NoRef, irins.operands, op_var, op_const, op_deref] at h ⊢ <;> tauto))
    | (with_reducible refine Sat_gen_write _ ?_); (intro h; first | tauto | (simp [irins.NoRef, irins.operands, op_var, op_const, op_deref] at h ⊢ <;> tauto))
    | with_reducible apply Sat_bind
    | with_reducible intro _
    | with_reducible exact hvd _ _
    | (with_reducible refine Sat_translate_Exp _ _ ?_); (intro h; first | tauto | (simp [irins.NoRef, irins.operands, op_var, op_const, op_deref] at h ⊢ <;> tauto))
    | split

theorem Sat_translate_DecList {L : Logic}
    (hvd : ∀ vd pre, Sat L pre (translate_VarDec vd) (fun _ => True)) (tree : DecList) :
    ∀ pre : Prop, Sat L pre (translate_DecList tree) (fun _ => True) := by
  induction tree with
  | one d => intro pre; exact Sat_translate_Dec hvd d
  | cons d rest ih =>
    intro pre
    rw [IRLab.translate_DecList]
    exact Sat_bind (Sat_translate_Dec hvd d) (fun _ => ih _)

theorem Sat_translate_DefList {L : Logic}
    (hvd : ∀ vd pre, Sat L pre (translate_VarDec vd) (fun _ => True)) (tree : DefList) :
    ∀ pre : Prop, Sat L pre (translate_DefList tree) (fun _ => True) := by
  induction tree with
  | nil => intro pre; exact Sat_skip _
  | cons d rest ih =>
    intro pre
    rw [IRLab.translate_DefList]
    exact Sat_bind (Sat_translate_DecList hvd d.decs _) (fun _ => ih _)

set_option maxHeartbeats 2000000 in
theorem Sat_translate_Stmt_all {L : Logic}
    (hig : ∀ s v, L.I s → s.ignore_var = some v → L.okV v)
    (hvd : ∀ vd pre, Sat L pre (translate_VarDec vd) (fun _ => True)) :
    (∀ tree (pre : Prop), Sat L pre (translate_Stmt tree) (fun _ => True)) ∧
    (∀ tree (pre : Prop), Sat L pre (translate_CompSt tree) (fun _ => True)) ∧
    (∀ tree (pre : Prop), Sat L pre (translate_StmtList tree) (fun _ => True)) := by
  apply stmt_induction
  all_goals intros
  all_goals first
    | rw [IRLab.translate_Stmt]
    | rw [IRLab.translate_CompSt]
    | rw [IRLab.translate_StmtList]
  all_goals repeat' first
    | with_reducible exact Sat_fail _
    | with_reducible exact Sat_Assert _ _
    | with_reducible exact Sat_not_null _
    | with_reducible exact Sat_get_isref _
    | with_reducible exact Sat_get_ir _
    | with_reducible exact Sat_cast_irlabel _
    | with_reducible exact Sat_cast_irvar _
    | with_reducible exact Sat_op_rval _
    | with_reducible exact Sat_new_var
    | with_reducible exact Sat_new_label
    | with_reducible exact Sat_new_named_label _
    | with_reducible exact Sat_set_ir _ _
    | with_reducible exact Sat_gen_label _
    | with_reducible exact Sat_gen_func _
    | with_reducible exact Sat_gen_goto _
    | with_reducible exact Sat_skip _
    | (with_reducible refine Sat_set_isref _ _ ?_); (intro h; first | tauto | (simp [irins.NoRef, irins.operands, op_var, op_const, op_deref] at h ⊢ <;> tauto))
    | (with_reducible refine Sat_gen_assign _ _ ?_); (intro h; first | tauto | (simp [irins.NoRef, irins.operands, op_var, op_const, op_deref] at h ⊢ <;> tauto))
    | (with_reducible refine Sat_gen_add _ _ _ ?_); (intro h; first | tauto | (simp [irins.NoRef, irins.operands, op_var, op_const, op_deref] at h ⊢ <;> tauto))
    | (with_reducible refine Sat_gen_sub _ _ _ ?_); (intro h; first | tauto | (simp [irins.NoRef, irins.operands, op_var, op_const, op_deref] at h ⊢ <;> tauto))
    | (with_reducible refine Sat_gen_mul _ _ _ ?_); (intro h; first | tauto | (simp [irins.NoRef, irins.operands, op_var, op_const, op_deref] at h ⊢ <;> tauto))
    | (with_reducible refine Sat_gen_div _ _ _ ?_); (intro h; first | tauto | (simp [irins.NoRef, irins.operands, op_var, op_const, op_deref] at h ⊢ <;> tauto))
    | (with_reducible refine Sat_gen_branch _ _ _ _ ?_); (intro h; first | tauto | (simp [irins.NoRef, irins.operands, op_var, op_const, op_deref] at h ⊢ <;> tauto))
    | (with_reducible refine Sat_gen_return _ ?_); (intro h; first | tauto | (simp [irins.NoRef, irins.operands, op_var, op_const, op_deref] at h ⊢ <;> tauto))
    | (with_reducible refine Sat_gen_dec _ _ ?_); (intro h; first | tauto | (simp [irins.NoRef, irins.operands, op_var, op_const, op_deref] at h ⊢ <;> tauto))
    | (with_reducible refine Sat_gen_call _ _ ?_); (intro h; first | tauto | (simp [irins.NoRef, irins.operands, op_var, op_const, op_deref] at h ⊢ <;> tauto))
    | (with_reducible refine Sat_gen_arg _ ?_); (intro h; first | tauto | (simp [irins.NoRef, irins.operands, op_var, op_const, op_deref] at h ⊢ <;> tauto))
    | (with_reducible refine Sat_gen_param _ ?_); (intro h; first | tauto | (simp [irins.NoRef, irins.operands, op_var, op_const, op_deref] at h ⊢ <;> tauto))
    | (with_reducible refine Sat_gen_read _ ?_); (intro h; first | tauto | (simp [irins.NoRef, irins.operands, op_var, op_const, op_deref] at h ⊢ <;> tauto))
    | (with_reducible refine Sat_gen_write _ ?_); (intro h; first | tauto | (simp [irins.NoRef, irins.operands, op_var, op_const, op_deref] at h ⊢ <;> tauto))
    | with_reducible apply Sat_bind
    | with_reducible intro _
    | with_reducible exact Sat_get_ignore_var hig
    | (with_reducible refine Sat_translate_Exp _ _ ?_); (intro h; first | tauto | (simp [irins.NoRef, irins.operands, op_var, op_const, op_deref] at h ⊢ <;> tauto))
    | with_reducible exact Sat_translate_Cond _ _ _
    | with_reducible exact Sat_translate_DefList hvd _ _
    | with_reducible apply_assumption
    | split

theorem Sat_translate_CompSt {L : Logic} {pre : Prop}
    (hig : ∀ s v, L.I s → s.ignore_var = some v → L.okV v)
    (hvd : ∀ vd pre, Sat L pre (translate_VarDec vd) (fun _ => True)) (tree : CompSt) :
    Sat L pre (translate_CompSt tree) (fun _ => True) :=
  (Sat_translate_Stmt_all hig hvd).2.1 tree pre

theorem Sat_translate_ExtDef {L : Logic} {pre : Prop}
    (hig : ∀ s v, L.I s → s.ignore_var = some v → L.okV v)
    (hvd : ∀ vd pre, Sat L pre (translate_VarDec vd) (fun _ => True)) (tree : ExtDef) :
    Sat L pre (translate_ExtDef tree) (fun _ => True) := by
  cases tree <;> rw [IRLab.translate_ExtDef]
  · exact Sat_fail _
  · exact Sat_skip _
  · exact Sat_bind (Sat_translate_FunDec _) (fun _ => Sat_translate_CompSt hig hvd _)
  · exact Sat_bind (Sat_translate_FunDec _) (fun _ => Sat_fail _)

theorem Sat_translate_ExtDefList {L : Logic}
    (hig : ∀ s v, L.I s → s.ignore_var = some v → L.okV v)
    (hvd : ∀ vd pre, Sat L pre (translate_VarDec vd) (fun _ => True)) (tree : ExtDefList) :
    ∀ pre : Prop, Sat L pre (translate_ExtDefList tree) (fun _ => True) := by
  induction tree with
  | nil => intro pre; exact Sat_skip _
  | cons d rest ih =>
    intro pre
    rw [IRLab.translate_ExtDefList]
    exact Sat_bind (Sat_translate_ExtDef hig hvd d) (fun _ => ih _)

theorem Sat_translate_Program {L : Logic}
    (hig : ∀ s v, L.I s → s.ignore_var = some v → L.okV v)
    (hvd : ∀ vd pre, Sat L pre (translate_VarDec vd) (fun _ => True)) (tree : Program) :
    Sat L True (translate_Program tree) (fun _ => True) :=
  Sat_translate_ExtDefList hig hvd tree.defs _

/-! ## The `isref` flags across a call of `translate_Exp` -/

/-- The logic of runs that leave the `isref` flag of every variable with id at
most `N`, other than `t`, as it was. -/
theorem frame_logic (N : Int) (t : irvar) : ∃ L : Logic,
    (∀ s, L.I s ↔ N ≤ s.var_count) ∧
    (∀ s s', L.R s s' ↔ ∀ id, id ≤ N → id ≠ t.id → s'.isref id = s.isref id) ∧
    (∀ v, L.okV v ↔ (v.id = t.id ∨ N < v.id)) := by
  refine ⟨{ I := fun s => N ≤ s.var_count
            R := fun s s' => ∀ id, id ≤ N → id ≠ t.id → s'.isref id = s.isref id
            okV := fun v => v.id = t.id ∨ N < v.id
            refl := fun _ _ _ _ => rfl
            trans := fun _ _ _ h1 h2 id hid hne => (h2 id hid hne).trans (h1 id hid hne)
            alloc_var := ?_, alloc_label := ?_, alloc_named := ?_, flag := ?_, record := ?_,
            push := ?_ }, fun _ => Iff.rfl, fun _ _ => Iff.rfl, fun _ => Iff.rfl⟩
  · intro s v s' hI h
    obtain ⟨h0, rfl, rfl⟩ := new_var_ok_iff.mp h
    refine ⟨?_, ?_, ?_⟩
    · show N ≤ s.var_count + 1
      omega
    · intro id hid _
      show Function.update s.isref (s.var_count + 1) false id = s.isref id
      rw [Function.update_noteq (by omega)]
    · right
      show N < s.var_count + 1
      omega
  · intro s l s' hI h
    obtain ⟨_, _, rfl⟩ := new_label_ok_iff.mp h
    exact ⟨hI, fun _ _ _ => rfl⟩
  · intro name s l s' hI h
    obtain ⟨_, rfl⟩ := new_named_label_ok_iff.mp h
    exact ⟨hI, fun _ _ _ => rfl⟩
  · intro s v b hI hv
    refine ⟨hI, fun id hid hne => ?_⟩
    show Function.update s.isref v.id b id = s.isref id
    rw [Function.update_noteq]
    rcases hv with h | h
    · rw [h]; exact hne
    · omega
  · intro s sym p hI
    exact ⟨hI, fun _ _ _ => rfl⟩
  · intro s ins hI _
    exact ⟨hI, fun _ _ _ => rfl⟩

/-- A call of `translate_Exp` changes the `isref` flag of its target and of
variables that it allocates itself only. -/
theorem translate_Exp_isref_frame {tree : Exp} {target : irvar} {s s' : Emitter}
    (h : translate_Exp tree target s = .ok ((), s')) :
    s.var_count ≤ s'.var_count ∧
    ∀ id, id ≤ s.var_count → id ≠ target.id → s'.isref id = s.isref id := by
  obtain ⟨L, hI, hR, hV⟩ := frame_logic s.var_count target
  obtain ⟨i, r, _⟩ := @Sat_translate_Exp L True tree target
    (fun _ => (hV _).mpr (Or.inl rfl)) s () s' h ((hI s).mpr (le_refl _)) trivial
  exact ⟨(hI _).mp i, (hR _ _).mp r⟩

/-- A call of `translate_Cond` changes the `isref` flag of variables that it
allocates itself only. -/
theorem translate_Cond_isref_frame {tree : Exp} {lt lf : irlabel} {s s' : Emitter}
    (h : translate_Cond tree lt lf s = .ok ((), s')) :
    s.var_count ≤ s'.var_count ∧ ∀ id, id ≤ s.var_count → s'.isref id = s.isref id := by
  obtain ⟨L, hI, hR, hV⟩ := frame_logic s.var_count ⟨s.var_count + 1, ""⟩
  obtain ⟨i, r, _⟩ := @Sat_translate_Cond L True tree lt lf s () s' h
    ((hI s).mpr (le_refl _)) trivial
  refine ⟨(hI _).mp i, fun id hid => (hR _ _).mp r id hid ?_⟩
  show id ≠ s.var_count + 1
  omega

set_option maxRecDepth 10000 in
theorem isref_history_eq :
    (isref_history Emitter.init).map Prod.fst = .ok (true, false, true) := by
  simp only [isref_history, emitted_dest, ir_prepare, translate_FunDec, translate_DefList,
    translate_StmtList, translate_Stmt, translate_Def, translate_DecList, translate_Dec,
    translate_VarDec, translate_Exp_INT, translate_Exp_ID, translate_Exp_ASSIGNOP_ID,
    translate_Exp_INDEX, IRM.bind_apply, IRM.pure_apply, bind, pure, new_var,
    new_label, not_null, new_named_label, sym_main, sym_a, sym_b, set_ir, get_ir,
    gen_func, gen_param, push_ircode, translate_FunDec_loop, type.args, symlist.toList,
    Emitter.init, gen_assign, gen_dec, gen_mul, op_var, op_const, op_rval, op_deref, op_ref,
    irop.kind, type.cls, type_sizeof,
    get_ignore_var, cast_irvar, cast_irlabel, set_isref, get_isref, gen_label, gen_goto,
    gen_branch, gen_add, AssertVar, Assert, IRM.fail, Function.update]
  simp [irins.dest]
  rfl

/-- Claim C17, as stated, fails for `ignore_var`: in
`int main() { int b[2]; int a; a = 1; b[0]; return 0; }`, after `a = 1;` the
variable `t1` is the destination of an emitted instruction and its `isref` flag
is clear; the later call of `translate_Exp` for `b[0];` sets it. -/
theorem ignore_var_isref_changes :
    (isref_history Emitter.init).map Prod.fst = .ok (true, false, true) :=
  isref_history_eq

/-! ## `Ref` operands -/

theorem RefOK_append {a b : List ircode} (ha : RefOK a) (hb : RefOK b) : RefOK (a ++ b) := by
  induction ha with
  | nil => exact hb
  | plain c rest hc _ ih => exact RefOK.plain c _ hc ih
  | dec v sz x rest hx _ ih => exact RefOK.dec v sz x _ hx ih

/-- Where a `Ref` operand stands in a sequence that is `RefOK`. -/
theorem RefOK_position {code : List ircode} (h : RefOK code) :
    ∀ (pre : List ircode) (c : ircode) (post : List ircode) (v : irvar),
      code = pre ++ c :: post → .Ref v ∈ c.ins.operands →
      (∃ x, c.ins = .Assign x (.Ref v) ∧ ∀ w, x ≠ .Ref w) ∧
      ∃ pre' sz, pre = pre' ++ [⟨.Dec (.Var v) sz, false⟩] := by
  induction h with
  | nil => intro pre c post v e; simp at e
  | plain c0 rest hc _ ih =>
    intro pre c post v e hv
    cases pre with
    | nil =>
      simp only [List.nil_append, List.cons.injEq] at e
      rw [← e.1] at hv
      exact absurd rfl (hc _ hv v)
    | cons p ps =>
      simp only [List.cons_append, List.cons.injEq] at e
      obtain ⟨hx, pre', sz, hp⟩ := ih ps c post v e.2 hv
      exact ⟨hx, p :: pre', sz, by rw [hp]; rfl⟩
  | dec v0 sz0 x rest hx _ ih =>
    intro pre c post v e hv
    cases pre with
    | nil =>
      simp only [List.nil_append, List.cons.injEq] at e
      rw [← e.1] at hv
      simp [irins.operands] at hv
    | cons p ps =>
      cases ps with
      | nil =>
        simp only [List.cons_append, List.nil_append, List.cons.injEq] at e
        rw [← e.2.1] at hv ⊢
        simp only [irins.operands, List.mem_cons, List.mem_singleton, List.not_mem_nil,
          or_false] at hv
        rcases hv with h1 | h1
        · exact absurd h1.symm (hx v)
        · cases h1
          exact ⟨⟨x, rfl, hx⟩, [], sz0, by rw [← e.1]; rfl⟩
      | cons q qs =>
        simp only [List.cons_append, List.cons.injEq] at e
        obtain ⟨hx', pre', sz, hp⟩ := ih qs c post v e.2.2 hv
        exact ⟨hx', p :: q :: pre', sz, by rw [hp]; rfl⟩

/-- The logic of runs that emit a `RefOK` segment. -/
theorem ref_logic : ∃ L : Logic, (∀ s, L.I s) ∧ (∀ v, L.okV v) ∧
    (∀ s s', L.R s s' ↔ ∃ new, s'.irs = new ++ s.irs ∧ RefOK new.reverse) := by
  refine ⟨{ I := fun _ => True
            R := fun s s' => ∃ new, s'.irs = new ++ s.irs ∧ RefOK new.reverse
            okV := fun _ => True
            refl := fun _ => ⟨[], rfl, RefOK.nil⟩
            trans := ?_
            alloc_var := ?_, alloc_label := ?_, alloc_named := ?_, flag := ?_, record := ?_,
            push := ?_ }, fun _ => trivial, fun _ => trivial, fun _ _ => Iff.rfl⟩
  · rintro s1 s2 s3 ⟨n1, e1, r1⟩ ⟨n2, e2, r2⟩
    refine ⟨n2 ++ n1, by rw [e2, e1, List.append_assoc], ?_⟩
    rw [List.reverse_append]
    exact RefOK_append r1 r2
  · intro s v s' _ h
    obtain ⟨h0, rfl, rfl⟩ := new_var_ok_iff.mp h
    exact ⟨trivial, ⟨[], rfl, RefOK.nil⟩, trivial⟩
  · intro s l s' _ h
    obtain ⟨_, _, rfl⟩ := new_label_ok_iff.mp h
    exact ⟨trivial, [], rfl, RefOK.nil⟩
  · intro name s l s' _ h
    obtain ⟨_, rfl⟩ := new_named_label_ok_iff.mp h
    exact ⟨trivial, [], rfl, RefOK.nil⟩
  · intro s v b _ _
    exact ⟨trivial, [], rfl, RefOK.nil⟩
  · intro s sym p _
    exact ⟨trivial, [], rfl, RefOK.nil⟩
  · intro s ins _ hn
    exact ⟨trivial, [⟨ins, false⟩], rfl, RefOK.plain _ _ hn RefOK.nil⟩

/-- The aggregate case of `translate_VarDec`: `Dec`, then the `Assign` of the
`Ref`. -/
theorem VarDec_aggregate_emits {sym : symbol} {var : irvar} {sz : Int} {s s' : Emitter}
    (h : (do
      let tmp ← new_var
      gen_dec (op_var tmp) sz
      gen_assign (op_var var) (op_ref tmp)
      set_isref var true
      set_ir sym (.var var) : IRM Unit) s = .ok ((), s')) :
    ∃ tmp, s'.irs =
      ⟨.Assign (.Var var) (.Ref tmp), false⟩ :: ⟨.Dec (.Var tmp) sz, false⟩ :: s.irs := by
  obtain ⟨tmp, s2, h3, h4⟩ := IRM.bind_ok_iff.mp h
  obtain ⟨_, _, rfl⟩ := new_var_ok_iff.mp h3
  obtain ⟨_, s3, h5, h6⟩ := IRM.bind_ok_iff.mp h4
  obtain ⟨_, rfl⟩ := gen_dec_ok_iff.mp h5
  obtain ⟨_, s4, h7, h8⟩ := IRM.bind_ok_iff.mp h6
  obtain ⟨_, rfl⟩ := gen_assign_ok_iff.mp h7
  obtain ⟨_, s5, h9, h10⟩ := IRM.bind_ok_iff.mp h8
  rw [set_isref_ok_iff] at h9
  rw [set_ir_ok_iff] at h10
  subst h9
  subst h10
  exact ⟨_, rfl⟩

/-- The instructions that `translate_VarDec` emits: none, or `Dec` followed by
the `Assign` of the `Ref`. -/
theorem translate_VarDec_emits {tree : VarDec} {s s' : Emitter}
    (h : translate_VarDec tree s = .ok ((), s')) :
    s'.irs = s.irs ∨ ∃ v tmp sz, s'.irs =
      ⟨.Assign (.Var v) (.Ref tmp), false⟩ :: ⟨.Dec (.Var tmp) sz, false⟩ :: s.irs := by
  unfold translate_VarDec at h
  obtain ⟨var, s1, h1, h2⟩ := IRM.bind_ok_iff.mp h
  obtain ⟨_, _, rfl⟩ := new_var_ok_iff.mp h1
  cases hc : tree.sym.tp.cls <;> simp only [hc] at h2
  case TC_STRUCT =>
    obtain ⟨tmp, e⟩ := VarDec_aggregate_emits h2
    exact Or.inr ⟨_, tmp, _, e⟩
  case TC_ARRAY =>
    obtain ⟨tmp, e⟩ := VarDec_aggregate_emits h2
    exact Or.inr ⟨_, tmp, _, e⟩
  case TC_META =>
    rw [set_ir_ok_iff] at h2
    subst h2
    exact Or.inl rfl
  all_goals cases h2

theorem translate_Program_RefOK {tree : Program} {s s' : Emitter}
    (h : translate_Program tree s = .ok ((), s')) :
    ∃ new, s'.irs = new ++ s.irs ∧ RefOK new.reverse := by
  obtain ⟨L, hI, hV, hR⟩ := ref_logic
  have hvd : ∀ vd pre, Sat L pre (translate_VarDec vd) (fun _ => True) := by
    intro vd pre s1 u s2 h1 _ _
    refine ⟨hI _, (hR _ _).mpr ?_, trivial⟩
    rcases translate_VarDec_emits h1 with e | ⟨v, tmp, sz, e⟩
    · exact ⟨[], e, RefOK.nil⟩
    · exact ⟨[_, _], e, RefOK.dec tmp sz (.Var v) [] (fun w hw => by cases hw) RefOK.nil⟩
  obtain ⟨_, r, _⟩ := Sat_translate_Program (fun _ v _ _ => hV v) hvd tree s () s' h (hI s)
    trivial
  exact (hR _ _).mp r

set_option maxRecDepth 10000 in
theorem ir_run_prog_arr : ir_run prog_arr = .ok ast_arr := by
  simp only [prog_arr, ir_run, ir_main, ir_prepare, ir_translate, translate_Program,
    translate_ExtDefList, translate_ExtDef, translate_FunDec, translate_CompSt, translate_DefList,
    translate_StmtList, translate_Stmt, translate_Def, translate_DecList, translate_Dec,
    translate_VarDec, translate_Exp_INT, IRM.bind_apply, IRM.pure_apply, bind, pure, new_var,
    new_label, not_null, new_named_label, sym_main, sym_b, set_ir, get_ir,
    gen_func, gen_param, push_ircode, translate_FunDec_loop, type.args, symlist.toList,
    Emitter.init, gen_assign, gen_dec, op_var, op_const, op_rval, op_deref, op_ref, irop.kind,
    gen_return, type.cls, type_sizeof, get_ignore_var, cast_irvar, cast_irlabel, set_isref,
    get_isref, AssertVar, Assert, IRM.fail, Function.update]
  simp
  rfl

theorem translate_FunDec_emits_func {tree : FunDec} {s s' : Emitter}
    (h : translate_FunDec tree s = .ok ((), s')) :
    ∃ l new, s'.irs = new ++ ⟨.Func l, false⟩ :: s.irs := by
  unfold translate_FunDec at h
  obtain ⟨sym, s1, h1, h2⟩ := IRM.bind_ok_iff.mp h
  obtain ⟨l, s2, h3, h4⟩ := IRM.bind_ok_iff.mp h2
  obtain ⟨_, s3, h5, h6⟩ := IRM.bind_ok_iff.mp h4
  obtain ⟨_, s4, h7, h8⟩ := IRM.bind_ok_iff.mp h6
  have e1 : s1 = s := by
    cases hs : tree.sym with
    | none => rw [hs] at h1; cases h1
    | some sym0 => rw [hs] at h1; cases h1; rfl
  obtain ⟨_, rfl⟩ := new_named_label_ok_iff.mp h3
  rw [set_ir_ok_iff] at h5
  rw [gen_func_ok_iff] at h7
  subst h5 h7 e1
  obtain ⟨new, e, _⟩ := (((Holds_translate_FunDec_loop Prims_Extends _ _) _).1 _ _ h8).irs
  exact ⟨l, new, e⟩

theorem HeadFunc_append {code : List ircode} (h : HeadFunc code) (more : List ircode)
    (hm : code = [] → HeadFunc more) : HeadFunc (code ++ more) := by
  rcases h with rfl | ⟨l, rest, rfl⟩
  · exact hm rfl
  · exact Or.inr ⟨l, rest ++ more, rfl⟩

theorem translate_ExtDef_HeadFunc {tree : ExtDef} {s s' : Emitter}
    (h : translate_ExtDef tree s = .ok ((), s')) (hs : HeadFunc s.codes) : HeadFunc s'.codes := by
  cases tree with
  | ExtDecList => cases h
  | SEMI => cases h; exact hs
  | FunDef f body =>
    rw [IRLab.translate_ExtDef] at h
    obtain ⟨_, s1, h1, h2⟩ := IRM.bind_ok_iff.mp h
    obtain ⟨l, new, e1⟩ := translate_FunDec_emits_func h1
    obtain ⟨new2, e2, _⟩ := (((Holds_translate_CompSt Prims_Extends body) s1).1 _ _ h2).irs
    have e : s'.codes = s.codes ++ (⟨.Func l, false⟩ :: (new.reverse ++ new2.reverse)) := by
      simp [Emitter.codes, e2, e1]
    rw [e]
    exact HeadFunc_append hs _ (fun _ => Or.inr ⟨l, _, rfl⟩)
  | FunDecl f =>
    rw [IRLab.translate_ExtDef] at h
    obtain ⟨_, s1, _, h2⟩ := IRM.bind_ok_iff.mp h
    cases h2

theorem translate_ExtDefList_HeadFunc (tree : ExtDefList) :
    ∀ {s s' : Emitter}, translate_ExtDefList tree s = .ok ((), s') → HeadFunc s.codes →
      HeadFunc s'.codes := by
  induction tree with
  | nil => intro s s' h hs; cases h; exact hs
  | cons d rest ih =>
    intro s s' h hs
    rw [IRLab.translate_ExtDefList] at h
    obtain ⟨_, s1, h1, h2⟩ := IRM.bind_ok_iff.mp h
    exact ih h2 (translate_ExtDef_HeadFunc h1 hs)

/-- The part of a sequence after its last `Func` instruction. -/
theorem last_Func_split (code : List ircode) (h : ∃ c ∈ code, ∃ l, c.ins = .Func l) :
    ∃ p1 c p2, code = p1 ++ c :: p2 ∧ (∃ l, c.ins = .Func l) ∧
      ∀ c' ∈ p2, ∀ l', c'.ins ≠ .Func l' := by
  induction code with
  | nil => obtain ⟨c, hc, _⟩ := h; simp at hc
  | cons x xs ih =>
    by_cases hx : ∃ c ∈ xs, ∃ l, c.ins = .Func l
    · obtain ⟨p1, c, p2, e, hc, hp⟩ := ih hx
      exact ⟨x :: p1, c, p2, by rw [e]; rfl, hc, hp⟩
    · obtain ⟨c, hc, l, hl⟩ := h
      rcases List.mem_cons.mp hc with rfl | hc'
      · refine ⟨[], c, xs, rfl, ⟨l, hl⟩, fun c' hc' l' hl' => hx ⟨c', hc', l', hl'⟩⟩
      · exact absurd ⟨c, hc', l, hl⟩ hx

theorem ir_main_codes {tree : Program} {s : Emitter} {a : ast} {s' : Emitter}
    (h : ir_main tree s = .ok (a, s')) :
    RefOK a.codes ∧ HeadFunc a.codes ∧ ∀ c ∈ a.codes, c.ignore = false := by
  unfold ir_main at h
  obtain ⟨u, s1, h1, h2⟩ := IRM.bind_ok_iff.mp h
  obtain ⟨h0, rfl⟩ := ir_prepare_ok h1
  obtain ⟨h3, rfl⟩ := ir_translate_ok h2
  obtain ⟨new, e, r⟩ := translate_Program_RefOK h3
  simp only [List.append_nil] at e
  refine ⟨by rw [e]; exact r, translate_ExtDefList_HeadFunc tree.defs h3 (Or.inl rfl), ?_⟩
  obtain ⟨new2, e2, w⟩ := (((Holds_translate_Program Prims_Extends tree) _).1 _ _ h3).irs
  simp only [List.append_nil] at e2
  intro c hc
  rw [List.mem_reverse, e2] at hc
  exact (w c hc).2

/-- Claim C16: in the instruction array of a completed translation, an
instruction `c` with an operand `Ref (v)` is an `Assign` with `Ref (v)` as its
right operand, it immediately follows `Dec (Var v, size)`, and this `Dec` lies
after the nearest `Func` instruction that precedes `c`. -/
theorem ref_follows_dec (tree : Program) (s : Emitter) (a : ast) (s' : Emitter)
    (h : ir_main tree s = .ok (a, s')) (pre : List ircode) (c : ircode) (post : List ircode)
    (v : irvar) (hc : a.codes = pre ++ c :: post) (hv : .Ref v ∈ c.ins.operands) :
    (∃ x, c.ins = .Assign x (.Ref v) ∧ ∀ w, x ≠ .Ref w) ∧
    ∃ p1 l p2 sz, pre = p1 ++ ⟨.Func l, false⟩ :: (p2 ++ [⟨.Dec (.Var v) sz, false⟩]) ∧
      ∀ c' ∈ p2, ∀ l', c'.ins ≠ .Func l' := by
  obtain ⟨hr, hf, hig⟩ := ir_main_codes h
  obtain ⟨hx, pre', sz, hp⟩ := RefOK_position hr pre c post v hc hv
  refine ⟨hx, ?_⟩
  have hne : ∃ c0 ∈ pre', ∃ l, c0.ins = .Func l := by
    rcases hf with e | ⟨l, rest, e⟩
    · rw [hc] at e; simp at e
    · rw [hc, hp] at e
      cases pre' with
      | nil => simp at e
      | cons p ps =>
        simp only [List.cons_append, List.cons.injEq] at e
        exact ⟨p, List.mem_cons_self _ _, l, by rw [e.1]⟩
  obtain ⟨p1, c0, p2, e, ⟨l, hl⟩, hp2⟩ := last_Func_split pre' hne
  have h0 : c0.ignore = false := hig c0 (by rw [hc, hp, e]; simp)
  obtain ⟨ins0, ig0⟩ := c0
  simp only at hl h0
  subst hl h0
  exact ⟨p1, l, p2, sz, by rw [hp, e]; simp, hp2⟩

/-- Witness of claim C16 on `int main() { int b[2]; return 0; }`: the only
`Ref` is in `t2 := &t3`, right after `DEC t3 8`, in the function `main`. -/
theorem ref_follows_dec_witness :
    ir_run prog_arr = .ok ast_arr ∧
    (ast_arr.codes = [⟨.Func ⟨0, "main"⟩, false⟩, ⟨.Dec (.Var ⟨3, "t3"⟩) 8, false⟩] ++
        ⟨.Assign (.Var ⟨2, "t2"⟩) (.Ref ⟨3, "t3"⟩), false⟩ ::
        [⟨.Assign (.Var ⟨4, "t4"⟩) (.Const 0), false⟩,
         ⟨.Assign (.Var ⟨5, "t5"⟩) (.Var ⟨4, "t4"⟩), false⟩,
         ⟨.Return (.Var ⟨5, "t5"⟩), false⟩] ∧
      irop.Ref ⟨3, "t3"⟩ ∈ (irins.Assign (.Var ⟨2, "t2"⟩) (.Ref ⟨3, "t3"⟩)).operands) ∧
    ((∃ x, (⟨.Assign (.Var ⟨2, "t2"⟩) (.Ref ⟨3, "t3"⟩), false⟩ : ircode).ins =
          .Assign x (.Ref ⟨3, "t3"⟩) ∧ ∀ w, x ≠ .Ref w) ∧
      ∃ p1 l p2 sz,
        ([⟨.Func ⟨0, "main"⟩, false⟩, ⟨.Dec (.Var ⟨3, "t3"⟩) 8, false⟩] : List ircode) =
          p1 ++ ⟨.Func l, false⟩ :: (p2 ++ [⟨.Dec (.Var ⟨3, "t3"⟩) sz, false⟩]) ∧
        ∀ c' ∈ p2, ∀ l', c'.ins ≠ .Func l') := by
  obtain ⟨s', h⟩ := ir_run_ok ir_run_prog_arr
  have hc : ast_arr.codes =
      [⟨.Func ⟨0, "main"⟩, false⟩, ⟨.Dec (.Var ⟨3, "t3"⟩) 8, false⟩] ++
        ⟨.Assign (.Var ⟨2, "t2"⟩) (.Ref ⟨3, "t3"⟩), false⟩ ::
        [⟨.Assign (.Var ⟨4, "t4"⟩) (.Const 0), false⟩,
         ⟨.Assign (.Var ⟨5, "t5"⟩) (.Var ⟨4, "t4"⟩), false⟩,
         ⟨.Return (.Var ⟨5, "t5"⟩), false⟩] := rfl
  have hv : irop.Ref ⟨3, "t3"⟩ ∈
      (irins.Assign (.Var ⟨2, "t2"⟩) (.Ref ⟨3, "t3"⟩)).operands := by
    simp [irins.operands]
  exact ⟨ir_run_prog_arr, ⟨hc, hv⟩,
    ref_follows_dec prog_arr Emitter.init ast_arr s' h _ _ _ _ hc hv⟩

/-! ## Local variables -/

/-- The function `new_var` returns unless `var_count` has overflowed. -/
theorem new_var_returns (s : Emitter) (h : 0 ≤ s.var_count) :
    ∃ v s1, new_var s = .ok (v, s1) ∧ s1.var_count = s.var_count + 1 :=
  ⟨_, _, new_var_ok_iff.mpr ⟨h, rfl, rfl⟩, rfl⟩

theorem aggregate_dec_returns (sym : symbol) (s : Emitter) (h : 0 ≤ s.var_count) :
    ∃ s', (do
      let var ← new_var
      let tmp ← new_var
      gen_dec (op_var tmp) (type_sizeof sym.tp)
      gen_assign (op_var var) (op_ref tmp)
      set_isref var true
      set_ir sym (.var var) : IRM Unit) s = .ok ((), s') := by
  obtain ⟨v, s1, h1, e1⟩ := new_var_returns s h
  obtain ⟨t, s2, h2, _⟩ := new_var_returns s1 (by omega)
  simp only [IRM.bind_ok_iff, gen_dec_ok_iff, gen_assign_ok_iff, set_isref_ok_iff,
    set_ir_ok_iff, op_var_kind, true_or, true_and]
  exact ⟨_, v, s1, h1, t, s2, h2, (), _, rfl, (), _, rfl, (), _, rfl, rfl⟩

theorem aggregate_dec_ok_iff (sym : symbol) (s s' : Emitter) :
    (do
      let var ← new_var
      let tmp ← new_var
      gen_dec (op_var tmp) (type_sizeof sym.tp)
      gen_assign (op_var var) (op_ref tmp)
      set_isref var true
      set_ir sym (.var var) : IRM Unit) s = .ok ((), s') ↔ emits_aggregate_dec sym s s' := by
  unfold emits_aggregate_dec
  simp only [IRM.bind_ok_iff, gen_dec_ok_iff, gen_assign_ok_iff, set_isref_ok_iff,
    set_ir_ok_iff, op_var_kind, true_or, true_and]
  constructor
  · rintro ⟨v, s1, h1, t, s2, h2, u3, s3, rfl, u4, s4, rfl, u5, s5, rfl, rfl⟩
    obtain ⟨hv, rfl, rfl⟩ := new_var_ok_iff.mp h1
    obtain ⟨ht, rfl, rfl⟩ := new_var_ok_iff.mp h2
    refine ⟨_, _, _, _, h1, h2, rfl, ?_, rfl, ?_, ?_, ?_⟩
    · simp [Emitter.codes, op_var, op_ref]
    · simp
    · simp [Function.update]
    · simp
  · rintro ⟨v, s1, t, s2, h1, h2, rfl, _⟩
    exact ⟨v, s1, h1, t, s2, h2, (), _, rfl, (), _, rfl, (), _, rfl, rfl⟩

theorem scalar_dec_ok_iff (sym : symbol) (s s' : Emitter) :
    (do
      let var ← new_var
      set_ir sym (.var var) : IRM Unit) s = .ok ((), s') ↔ emits_scalar_dec sym s s' := by
  unfold emits_scalar_dec
  simp only [IRM.bind_ok_iff, set_ir_ok_iff]
  constructor
  · rintro ⟨v, s1, h1, rfl⟩
    obtain ⟨hv, rfl, rfl⟩ := new_var_ok_iff.mp h1
    refine ⟨_, _, h1, rfl, rfl, rfl, ?_, ?_⟩
    · simp
    · simp
  · rintro ⟨v, s1, h1, rfl, _⟩
    exact ⟨v, s1, h1, rfl⟩

/-- Claim C21: for a symbol of `ARRAY` or `STRUCT` type `translate_VarDec`
allocates the reference variable `v`, then the storage variable `t`, emits
exactly `Dec (Var t, sizeof tp)` followed by `Assign (Var v, Ref t)`, sets
`v.isref` and records `v` on the symbol; for a symbol of `META` type it
allocates one variable with `isref` clear, records it and emits nothing.  In
both cases the call returns whenever `var_count` has not overflowed. -/
theorem vardec_lowering (sym : symbol) (s s' : Emitter) :
    (sym.tp.cls = .TC_ARRAY ∨ sym.tp.cls = .TC_STRUCT →
      (translate_VarDec ⟨sym⟩ s = .ok ((), s') ↔ emits_aggregate_dec sym s s')) ∧
    (sym.tp.cls = .TC_META →
      (translate_VarDec ⟨sym⟩ s = .ok ((), s') ↔ emits_scalar_dec sym s s')) ∧
    (0 ≤ s.var_count →
      sym.tp.cls = .TC_ARRAY ∨ sym.tp.cls = .TC_STRUCT ∨ sym.tp.cls = .TC_META →
      ∃ s'', translate_VarDec ⟨sym⟩ s = .ok ((), s'')) := by
  have ha : sym.tp.cls = .TC_ARRAY ∨ sym.tp.cls = .TC_STRUCT → translate_VarDec ⟨sym⟩ = (do
      let var ← new_var
      let tmp ← new_var
      gen_dec (op_var tmp) (type_sizeof sym.tp)
      gen_assign (op_var var) (op_ref tmp)
      set_isref var true
      set_ir sym (.var var) : IRM Unit) := by
    rintro (h | h) <;> simp only [translate_VarDec, h]
  have hm : sym.tp.cls = .TC_META → translate_VarDec ⟨sym⟩ = (do
      let var ← new_var
      set_ir sym (.var var) : IRM Unit) := by
    intro h
    simp only [translate_VarDec, h]
  refine ⟨fun h => by rw [ha h]; exact aggregate_dec_ok_iff sym s s',
    fun h => by rw [hm h]; exact scalar_dec_ok_iff sym s s', ?_⟩
  intro hv hc
  obtain ⟨v, s1, h1, e1⟩ := new_var_returns s hv
  rcases hc with h | h | h
  · rw [ha (Or.inl h)]
    exact aggregate_dec_returns sym s hv
  · rw [ha (Or.inr h)]
    exact aggregate_dec_returns sym s hv
  · rw [hm h]
    simp only [IRM.bind_ok_iff, set_ir_ok_iff]
    exact ⟨_, v, s1, h1, rfl⟩
/-! ## Member access, indexing and the intrinsics -/

theorem Assert_ok_iff {c : Bool} {msg : String} {s : Emitter} {u : Unit} {s' : Emitter} :
    Assert c msg s = .ok (u, s') ↔ c = true ∧ s' = s := by
  cases c <;> simp [Assert, IRM.fail, IRM.pure_apply, eq_comm]

theorem get_isref_ok_iff {v : irvar} {s : Emitter} {b : Bool} {s' : Emitter} :
    get_isref v s = .ok (b, s') ↔ b = s.isref v.id ∧ s' = s := by
  simp [get_isref, eq_comm]

theorem get_ir_ok_iff {sym : symbol} {s : Emitter} {p : Option irptr} {s' : Emitter} :
    get_ir sym s = .ok (p, s') ↔ p = s.sym_ir sym.addr ∧ s' = s := by
  simp [get_ir, eq_comm]

/-- The instructions that a successful run of `translate_Exp` appends. -/
theorem translate_Exp_extends {tree : Exp} {target : irvar} {s s' : Emitter}
    (h : translate_Exp tree target s = .ok ((), s')) : s.Extends s' :=
  ((Holds_translate_Exp Prims_Extends tree target) s).1 _ _ h

theorem new_var_irs {s : Emitter} {v : irvar} {s1 : Emitter} (h : new_var s = .ok (v, s1)) :
    s1.irs = s.irs := by
  obtain ⟨_, _, rfl⟩ := new_var_ok_iff.mp h
  rfl

theorem new_var_id {s : Emitter} {v : irvar} {s1 : Emitter} (h : new_var s = .ok (v, s1)) :
    v.id = s.var_count + 1 ∧ s1.var_count = s.var_count + 1 := by
  obtain ⟨_, rfl, rfl⟩ := new_var_ok_iff.mp h
  exact ⟨rfl, rfl⟩

/-- Allocating two variables leaves `Rval` of an older variable unchanged. -/
theorem rval_after_new_vars {s s1 s2 : Emitter} {t1 t2 v : irvar}
    (h1 : new_var s = .ok (t1, s1)) (h2 : new_var s1 = .ok (t2, s2))
    (hv : v.id ≤ s.var_count) : rval s2 v = rval s v := by
  obtain ⟨_, rfl, rfl⟩ := new_var_ok_iff.mp h1
  obtain ⟨_, rfl, rfl⟩ := new_var_ok_iff.mp h2
  have a1 : v.id ≠ s.var_count + 1 + 1 := by omega
  have a2 : v.id ≠ s.var_count + 1 := by omega
  simp [rval, Function.update, a1, a2]

/-- The loop of the member access stops at the first member of that name: the
offset is the total size of the members declared before it. -/
theorem member_offset_eq (name : String) (mtp : type) (post : List (String × type)) :
    ∀ pre : List (String × type), (∀ m ∈ pre, m.1 ≠ name) →
      member_offset name (pre ++ (name, mtp) :: post) =
        (pre.map (fun m => type_sizeof m.2)).sum
  | [], _ => by simp [member_offset]
  | (n, tp) :: pre, h => by
    have hn : n ≠ name := h (n, tp) (List.mem_cons_self _ _)
    have ih := member_offset_eq name mtp post pre
      (fun m hm => h m (List.mem_cons_of_mem _ hm))
    simp [member_offset, hn, ih]

theorem member_ok_iff (tp : type) (e : Exp) (name : String) (target : irvar) (s s' : Emitter)
    (hs : e.tp.cls = .TC_STRUCT) :
    translate_Exp (.DOT tp e name) target s = .ok ((), s') ↔
      emits_member e (member_offset name e.tp.mems) target s s' := by
  rw [translate_Exp_DOT]
  unfold emits_member
  simp only [IRM.bind_ok_iff, gen_add_ok_iff, gen_assign_ok_iff, set_isref_ok_iff,
    Assert_ok_iff, get_isref_ok_iff, op_var_kind, true_or, true_and, hs, beq_self_eq_true]
  constructor
  · rintro ⟨offset, s1, h1, u2, s2, h2, b, s3, ⟨rfl, rfl⟩, u4, s4, ⟨h4, rfl⟩, u5, s5, rfl, t1,
      s6, h6, u7, s7, rfl, u8, s8, rfl, rfl⟩
    have e6 := new_var_irs h6
    refine ⟨offset, s1, _, t1, _, h1, h2, by simpa using h4, h6, rfl, ?_, by simp⟩
    simp [Emitter.codes, op_var, op_const, e6]
  · rintro ⟨offset, s1, s2, t1, s3, h1, h2, h3, h4, rfl, _⟩
    exact ⟨offset, s1, h1, (), s2, h2, _, _, ⟨rfl, rfl⟩, (), _, ⟨by simpa using h3, rfl⟩, (), _,
      rfl, t1, s3, h4, (), _, rfl, (), _, rfl, rfl⟩

/-- Claim C22: for a member access `E.m` where `E` has a struct type whose
members are `pre`, then the first member called `m`, then `post`,
`translate_Exp` lowers `E` into a fresh `offset`, which must have `isref` set,
and emits as its last two instructions `Add (Var t1, Var offset, Const sz)` and
`Assign (Var target, Var t1)` with `t1` fresh and `sz` the sum of the sizes of
the members of `pre`, and sets `target.isref`. -/
theorem member_access_lowering (tp : type) (e : Exp) (name : String) (target : irvar)
    (s s' : Emitter) (mems : symlist) (pre post : List (String × type)) (mtp : type)
    (hs : e.tp = .STRUCT mems) (hm : mems.toList = pre ++ (name, mtp) :: post)
    (hfirst : ∀ m ∈ pre, m.1 ≠ name) :
    translate_Exp (.DOT tp e name) target s = .ok ((), s') ↔
      emits_member e ((pre.map (fun m => type_sizeof m.2)).sum) target s s' := by
  rw [member_ok_iff tp e name target s s' (by rw [hs]; rfl), hs]
  show emits_member e (member_offset name mems.toList) target s s' ↔ _
  rw [hm, member_offset_eq name mtp post pre hfirst]

set_option maxRecDepth 10000 in
theorem member_y_run :
    translate_Exp (.DOT .META (.ID sym_p.tp (some sym_p)) "y") ⟨1, "t1"⟩ state_aggregates =
      .ok ((), state_member_lowered) := by
  simp only [translate_Exp_DOT, translate_Exp_ID, member_offset, type.mems, type_sizeof, Exp.tp,
    IRM.bind_apply, IRM.pure_apply, bind, pure, new_var, not_null, sym_p, get_ir,
    push_ircode, type.args, symlist.toList, state_aggregates, Emitter.init, gen_assign, gen_add,
    op_var, op_const, op_rval, op_deref, irop.kind, type.cls, cast_irvar,
    set_isref, get_isref, AssertVar, Assert, IRM.fail, Function.update, state_member_lowered]
  simp
  refine ⟨by decide, ?_⟩
  funext id
  simp only [Function.update_apply]
  by_cases h1 : id = 1
  · subst h1; rfl
  by_cases h7 : id = 7
  · subst h7; rfl
  by_cases h6 : id = 6 <;> simp [h1, h6, h7]

/-- Witness of claim C22 at `p.y` for `struct { int x; int y; } p`, in the state
`state_aggregates`: the run returns, in the state `state_member_lowered`, with
the address of `p` lowered into `t6`, then `t7 := t6 + #4` and `t1 := t7`. -/
theorem member_access_lowering_witness :
    ((Exp.ID sym_p.tp (some sym_p)).tp = .STRUCT (.cons "x" .META (.cons "y" .META .nil)) ∧
      (symlist.cons "x" .META (.cons "y" .META .nil)).toList =
        [("x", type.META)] ++ ("y", type.META) :: [] ∧
      ∀ m ∈ [("x", type.META)], m.1 ≠ "y") ∧
    translate_Exp (.DOT .META (.ID sym_p.tp (some sym_p)) "y") ⟨1, "t1"⟩ state_aggregates =
      .ok ((), state_member_lowered) ∧
    emits_member (.ID sym_p.tp (some sym_p))
      (([("x", type.META)].map (fun m => type_sizeof m.2)).sum) ⟨1, "t1"⟩
      state_aggregates state_member_lowered :=
  have h1 : (Exp.ID sym_p.tp (some sym_p)).tp =
      .STRUCT (.cons "x" .META (.cons "y" .META .nil)) := rfl
  have h2 : (symlist.cons "x" .META (.cons "y" .META .nil)).toList =
      [("x", type.META)] ++ ("y", type.META) :: [] := rfl
  have h3 : ∀ m ∈ [("x", type.META)], m.1 ≠ "y" := by
    intro m hm
    rw [List.mem_singleton.mp hm]
    decide
  ⟨⟨h1, h2, h3⟩, member_y_run,
    (member_access_lowering .META _ "y" _ _ _ _ [("x", type.META)] [] .META h1 h2 h3).mp
      member_y_run⟩

/-- Claim C23: for an index expression `E[i]` whose own static type is `tp`,
`translate_Exp` lowers `E` into a fresh `offset`, which must have `isref` set,
then `i` into a fresh `index`, and emits as its last three instructions
`Mul (Var t1, Rval index, Const (sizeof tp))`, `Add (Var t2, Var offset, Var t1)`,
`Assign (Var target, Var t2)` with `t1`, `t2` fresh, and sets `target.isref`, so
that a later `Rval (target)` is `Deref (target)`. -/
theorem index_lowering (tp : type) (e i : Exp) (target : irvar) (s s' : Emitter) :
    translate_Exp (.INDEX tp e i) target s = .ok ((), s') ↔ emits_index tp e i target s s' := by
  rw [translate_Exp_INDEX]
  unfold emits_index
  simp only [IRM.bind_ok_iff, gen_add_ok_iff, gen_mul_ok_iff, gen_assign_ok_iff,
    set_isref_ok_iff, Assert_ok_iff, get_isref_ok_iff, op_var_kind, true_or, true_and,
    op_rval_eq, Except.ok.injEq, Prod.mk.injEq]
  constructor
  · rintro ⟨offset, s1, h1, u2, s2, h2, b, s3, ⟨rfl, rfl⟩, u4, s4, ⟨h4, rfl⟩, index, s5, h5,
      u6, s6, h6, t1, s7, h7, t2, s8, h8, o, s9, ⟨rfl, rfl⟩, u10, s10, rfl, u11, s11, rfl, u12,
      s12, rfl, rfl⟩
    have hr := rval_after_new_vars h7 h8
      (le_trans (le_of_eq (new_var_id h5).1) (le_trans (le_of_eq (new_var_id h5).2.symm)
        (translate_Exp_extends h6).var_count))
    have e7 := new_var_irs h7
    have e8 := new_var_irs h8
    refine ⟨offset, s1, _, index, s5, s6, t1, s7, t2, _, h1, h2, by simpa using h4, h5, h6, h7,
      h8, ?_, ?_, by simp, ?_⟩
    · rw [hr]; rfl
    · rw [hr]; simp [Emitter.codes, op_var, op_const, e7, e8]
    · simp [rval]
  · rintro ⟨offset, s1, s2, index, s3, s4, t1, s5, t2, s6, h1, h2, h3, h4, h5, h6, h7, rfl, _⟩
    have hr := rval_after_new_vars h6 h7
      (le_trans (le_of_eq (new_var_id h4).1) (le_trans (le_of_eq (new_var_id h4).2.symm)
        (translate_Exp_extends h5).var_count))
    refine ⟨offset, s1, h1, (), s2, h2, _, _, ⟨rfl, rfl⟩, (), _, ⟨by simpa using h3, rfl⟩, _, _,
      h4, (), s4, h5, _, _, h6, _, _, h7, _, _, ⟨rfl, rfl⟩, (), _, rfl, (), _, rfl, (), _, rfl,
      ?_⟩
    rw [hr]; rfl
theorem write_ok_iff (tp : type) (w : symbol) (E : Exp) (target : irvar) (s s' : Emitter)
    (hw : w.name = "write") (hwf : w.tp.cls = .TC_FUNC) :
    translate_Exp (.CALL tp (some w) (.one E)) target s = .ok ((), s') ↔
      emits_write E target s s' := by
  have e : translate_Exp (.CALL tp (some w) (.one E)) target = (do
      let v ← new_var
      translate_Exp E v
      gen_write (← op_rval v)
      gen_assign (op_var target) (op_const 0)) := by
    rw [translate_Exp_CALL, translate_Args_one]
    simp [not_null, Assert, hwf, hw]
  rw [e]
  unfold emits_write
  simp only [IRM.bind_ok_iff, gen_write_ok_iff, gen_assign_ok_iff, op_rval_eq, op_var_kind,
    true_or, true_and, Except.ok.injEq, Prod.mk.injEq]
  constructor
  · rintro ⟨v, s1, h1, u2, s2, h2, o, s3, ⟨rfl, rfl⟩, u4, s4, rfl, rfl⟩
    refine ⟨v, s1, _, h1, h2, rfl, ?_⟩
    show ((Emitter.emit _ _).emit _).codes = _
    simp [Emitter.codes_emit, op_var, op_const]
  · rintro ⟨v, s1, s2, h1, h2, rfl, _⟩
    exact ⟨v, s1, h1, (), s2, h2, _, _, ⟨rfl, rfl⟩, (), _, rfl, rfl⟩

/-- Claim C26: `write (E)` lowers `E` into a fresh `v` and then emits exactly
`Write (Rval v)` followed by `Assign (Var target, Const 0)`, hence no `Arg` and
no `Call`; `read ()` emits exactly `Read (Var target)`. -/
theorem write_read_lowering (tp : type) (w r : symbol) (E : Exp) (target : irvar)
    (s s' : Emitter) (hw : w.name = "write") (hwf : w.tp.cls = .TC_FUNC)
    (hr : r.name = "read") (hrf : r.tp.cls = .TC_FUNC) :
    (translate_Exp (.CALL tp (some w) (.one E)) target s = .ok ((), s') ↔
      emits_write E target s s') ∧
    translate_Exp (.CALL0 tp (some r)) target s = .ok ((), s.emit (.Read (.Var target))) ∧
    (s.emit (.Read (.Var target))).codes = s.codes ++ [⟨.Read (.Var target), false⟩] := by
  refine ⟨write_ok_iff tp w E target s s' hw hwf, ?_, Emitter.codes_emit _ _⟩
  have e : translate_Exp (.CALL0 tp (some r)) target = gen_read (op_var target) := by
    rw [translate_Exp_CALL0]
    simp [not_null, Assert, hrf, hr]
  rw [e]
  exact gen_read_ok_iff.mpr ⟨rfl, rfl⟩

/-- Witness of claim C26 at `write (1)` and `read ()`. -/
theorem write_read_lowering_witness :
    (sym_write.name = "write" ∧ sym_write.tp.cls = .TC_FUNC ∧ sym_read.name = "read" ∧
      sym_read.tp.cls = .TC_FUNC) ∧
    ((translate_Exp (.CALL .META (some sym_write) (.one (.INT .META 1))) ⟨1, "t1"⟩
          Emitter.init = .ok ((), Emitter.init) ↔
        emits_write (.INT .META 1) ⟨1, "t1"⟩ Emitter.init Emitter.init) ∧
      translate_Exp (.CALL0 .META (some sym_read)) ⟨1, "t1"⟩ Emitter.init =
        .ok ((), Emitter.init.emit (.Read (.Var ⟨1, "t1"⟩))) ∧
      (Emitter.init.emit (.Read (.Var ⟨1, "t1"⟩))).codes =
        Emitter.init.codes ++ [⟨.Read (.Var ⟨1, "t1"⟩), false⟩]) :=
  ⟨⟨rfl, rfl, rfl, rfl⟩, write_read_lowering _ _ _ _ _ _ _ rfl rfl rfl rfl⟩
/-! ## Aggregate copy -/

theorem copy_from_eq (lt rt dst src : irvar) : ∀ (m : Nat) (off : Int),
    copy_from lt rt dst src off m =
      (List.range m).flatMap (fun k => copy_triple lt rt dst src (off + 4 * (k : Int)))
  | 0, _ => rfl
  | m + 1, off => by
    rw [copy_from, copy_from_eq lt rt dst src m (off + 4), List.range_succ_eq_map]
    simp only [List.flatMap_cons, List.flatMap_map, Nat.cast_zero, mul_zero, add_zero,
      Function.comp, Nat.cast_succ]
    congr 2
    funext k
    congr 1
    ring

theorem copy_from_zero (lt rt dst src : irvar) (m : Nat) :
    copy_from lt rt dst src 0 m = copy_code lt rt dst src m := by
  rw [copy_from_eq, copy_code]
  simp

theorem copy_code_length (lt rt dst src : irvar) (m : Nat) :
    (copy_code lt rt dst src m).length = 3 * m := by
  rw [← copy_from_zero]
  generalize (0 : Int) = off
  induction m generalizing off with
  | zero => rfl
  | succ m ih => simp [copy_from, copy_triple, ih]; omega

theorem gen_arr_copy_loop_ok (lt rt lo ro : irvar) (sz : Int) :
    ∀ (m : Nat) (i : Int) (s : Emitter), copy_words (sz - i) = m →
      gen_arr_copy_loop lt rt lo ro sz i s =
        .ok ((), { s with irs := (copy_from lt rt lo ro i m).reverse ++ s.irs }) := by
  intro m
  induction m with
  | zero =>
    intro i s h
    have hi : ¬ i < sz := by unfold copy_words at h; omega
    rw [gen_arr_copy_loop, if_neg hi]
    rfl
  | succ m ih =>
    intro i s h
    have hi : i < sz := by unfold copy_words at h; omega
    have hm : copy_words (sz - (i + 4)) = m := by unfold copy_words at h ⊢; omega
    rw [gen_arr_copy_loop, if_pos hi]
    refine IRM.bind_ok_iff.mpr ⟨(), _, gen_add_ok_iff.mpr ⟨rfl, rfl⟩,
      IRM.bind_ok_iff.mpr ⟨(), _, gen_add_ok_iff.mpr ⟨rfl, rfl⟩,
        IRM.bind_ok_iff.mpr ⟨(), _, gen_assign_ok_iff.mpr ⟨Or.inr rfl, rfl⟩, ?_⟩⟩⟩
    rw [ih (i + 4) _ hm]
    simp [copy_from, copy_triple, op_var, op_deref, op_const]

theorem arr_copy_ok_iff (dst src : irvar) (n : Int) (s s' : Emitter) :
    gen_arr_copy dst src n s = .ok ((), s') ↔ emits_arr_copy dst src n s s' := by
  unfold gen_arr_copy emits_arr_copy
  simp only [IRM.bind_ok_iff]
  constructor
  · rintro ⟨lt, s1, h1, rt, s2, h2, h3⟩
    rw [gen_arr_copy_loop_ok lt rt dst src n (copy_words n) 0 s2 (by simp), copy_from_zero] at h3
    have e : s' = { s2 with
        irs := (copy_code lt rt dst src (copy_words n)).reverse ++ s2.irs } :=
      (congrArg Prod.snd (Except.ok.inj h3)).symm
    have e1 := new_var_irs h1
    have e2 := new_var_irs h2
    refine ⟨lt, s1, rt, s2, h1, h2, e, ?_, ?_⟩
    · rw [e]; simp [Emitter.codes, e1, e2]
    · rw [e]
      obtain ⟨_, rfl, rfl⟩ := new_var_ok_iff.mp h1
      obtain ⟨_, rfl, rfl⟩ := new_var_ok_iff.mp h2
      rfl
  · rintro ⟨lt, s1, rt, s2, h1, h2, rfl, _⟩
    refine ⟨lt, s1, h1, rt, s2, h2, ?_⟩
    rw [gen_arr_copy_loop_ok lt rt dst src n (copy_words n) 0 s2 (by simp), copy_from_zero]

/-- Claim C24: for every byte count `n`, `gen_arr_copy (dst, src, n)` allocates
exactly two fresh variables `lt`, `rt` and emits exactly the triples
`Add (Var lt, Var dst, Const 4k)`, `Add (Var rt, Var src, Const 4k)`,
`Assign (Deref lt, Deref rt)` for `k = 0, ..., ceil (n / 4) - 1` in increasing
order: `3 * ceil (n / 4)` instructions when `n > 0` and none when `n ≤ 0`; when
`n` is a positive multiple of 4 the last offset is `n - 4`.  The call returns
whenever `var_count` has not overflowed, and for `n ≤ 2147483644`, which covers
every multiple of 4 that an `int` holds, the loop counter stays within `int`. -/
theorem arr_copy_lowering (dst src : irvar) (n : Int) (s s' : Emitter) :
    (gen_arr_copy dst src n s = .ok ((), s') ↔ emits_arr_copy dst src n s s') ∧
    (0 ≤ s.var_count → ∃ s'', gen_arr_copy dst src n s = .ok ((), s'')) ∧
    (∀ lt rt, (copy_code lt rt dst src (copy_words n)).length = 3 * copy_words n) ∧
    (0 < n → 4 * ((copy_words n : Int) - 1) < n ∧ n ≤ 4 * (copy_words n : Int)) ∧
    (n ≤ 0 → copy_words n = 0) ∧
    (0 < n → n % 4 = 0 → 4 * ((copy_words n : Int) - 1) = n - 4) ∧
    (n ≤ 2147483644 → 4 * (copy_words n : Int) ≤ 2147483647) := by
  refine ⟨arr_copy_ok_iff dst src n s s', ?_, fun lt rt => copy_code_length _ _ _ _ _, ?_, ?_, ?_,
    ?_⟩
  · intro h
    obtain ⟨lt, s1, h1, e1⟩ := new_var_returns s h
    obtain ⟨rt, s2, h2, _⟩ := new_var_returns s1 (by omega)
    exact ⟨_, (arr_copy_ok_iff dst src n s _).mpr ⟨lt, s1, rt, s2, h1, h2, rfl, by
      simp [Emitter.codes, new_var_irs h1, new_var_irs h2], by
      obtain ⟨_, rfl, rfl⟩ := new_var_ok_iff.mp h1
      obtain ⟨_, rfl, rfl⟩ := new_var_ok_iff.mp h2
      rfl⟩⟩
  · intro h
    unfold copy_words
    omega
  · intro h
    unfold copy_words
    omega
  · intro h h4
    unfold copy_words
    omega
  · intro h
    unfold copy_words
    omega
/-! ## Assignment to an array variable -/

theorem cast_irvar_ok_iff {p : Option irptr} {s : Emitter} {v : irvar} {s' : Emitter} :
    cast_irvar p s = .ok (v, s') ↔
      (p = some (.var v) ∨ ∃ l, p = some (.label l) ∧ v = s.label_as_var l) ∧ s' = s := by
  unfold cast_irvar
  split
  · constructor
    · intro h; cases h; exact ⟨Or.inl rfl, rfl⟩
    · rintro ⟨h | ⟨l, h, _⟩, rfl⟩
      · cases h; rfl
      · cases h
  · constructor
    · intro h; cases h; exact ⟨Or.inr ⟨_, rfl, rfl⟩, rfl⟩
    · rintro ⟨h | ⟨l, h, rfl⟩, rfl⟩
      · cases h
      · cases h; rfl
  · constructor
    · intro h; cases h
    · rintro ⟨h | ⟨l, h, _⟩, _⟩ <;> cases h

/-- A run that returns no result aborts. -/
theorem aborts_of_not_ok {α : Type} (x : Except Err α) (h : ¬ ∃ a, x = .ok a) :
    ∃ e, x = .error e :=
  match x, h with
  | .error e, _ => ⟨e, rfl⟩
  | .ok a, h => (h ⟨a, rfl⟩).elim

theorem array_assign_eq (tp ltp : type) (val : symbol) (r : Exp) (target : irvar)
    (h : ltp.cls = .TC_ARRAY) :
    translate_Exp (.ASSIGNOP tp (.ID ltp (some val)) r) target = (do
      let var ← cast_irvar (← get_ir val)
      let temp ← new_var
      translate_Exp r temp
      Assert ((← get_isref var) == true) "eq"
      Assert ((← get_isref temp) == true) "eq"
      gen_arr_copy var temp (min (type_sizeof ltp) (type_sizeof r.tp))
      gen_assign (op_var target) (op_var temp)
      set_isref target true) := by
  have hmin : (if type_sizeof ltp < type_sizeof r.tp then type_sizeof ltp else type_sizeof r.tp) =
      min (type_sizeof ltp) (type_sizeof r.tp) := by
    rw [min_def]
    split_ifs <;> omega
  rw [translate_Exp_ASSIGNOP_ID]
  simp only [h, hmin]
  simp [not_null]

theorem array_assign_ok_iff (tp ltp : type) (val : symbol) (r : Exp) (target : irvar)
    (s s' : Emitter) (h : ltp.cls = .TC_ARRAY) :
    translate_Exp (.ASSIGNOP tp (.ID ltp (some val)) r) target s = .ok ((), s') ↔
      emits_array_assign val ltp r target s s' := by
  rw [array_assign_eq tp ltp val r target h]
  unfold emits_array_assign slot_var
  simp only [IRM.bind_ok_iff, gen_assign_ok_iff, set_isref_ok_iff, Assert_ok_iff,
    get_isref_ok_iff, get_ir_ok_iff, cast_irvar_ok_iff, op_var_kind, true_or,
    true_and]
  constructor
  · rintro ⟨p, s0, ⟨rfl, rfl⟩, v, s1, ⟨hp, rfl⟩, temp, s2, h1, u3, s3, h2, b, s4, ⟨rfl, rfl⟩,
      u5, s5, ⟨h4, rfl⟩, b', s6, ⟨rfl, rfl⟩, u7, s7, ⟨h6, rfl⟩, u8, s8, h7, u9, s9, rfl, rfl⟩
    refine ⟨v, temp, s2, _, s8, hp, h1, h2, by simpa using h4, by simpa using h6,
      (arr_copy_ok_iff _ _ _ _ _).mp h7, rfl, ?_, by simp⟩
    simp [Emitter.codes, op_var]
  · rintro ⟨v, temp, s1, s2, s3, hp, h1, h2, h4, h6, h7, rfl, _⟩
    exact ⟨_, _, ⟨rfl, rfl⟩, v, _, ⟨hp, rfl⟩, temp, s1, h1, (), s2, h2, _, _, ⟨rfl, rfl⟩, (), _,
      ⟨by simpa using h4, rfl⟩, _, _, ⟨rfl, rfl⟩, (), _, ⟨by simpa using h6, rfl⟩, (), s3,
      (arr_copy_ok_iff _ _ _ _ _).mpr h7, (), _, rfl, rfl⟩

/-- Claim C25: for `ID = E` with `ID` of `ARRAY` type, `translate_Exp` lowers `E`
into a fresh `temp`, requires `isref` of the variable `v` of `ID` and of `temp`
(it aborts on the assertion otherwise), emits the aggregate copy from `temp` to
`v` of exactly `min (sizeof (type of ID), sizeof (type of E))` bytes, then
`Assign (Var target, Var temp)` last, and sets `target.isref`; for `ID` of
`STRUCT` type it aborts. -/
theorem array_assign_lowering (tp ltp : type) (val : symbol) (r : Exp) (target : irvar)
    (s s' : Emitter) :
    (ltp.cls = .TC_ARRAY →
      (translate_Exp (.ASSIGNOP tp (.ID ltp (some val)) r) target s = .ok ((), s') ↔
        emits_array_assign val ltp r target s s')) ∧
    (ltp.cls = .TC_ARRAY → ∀ v temp s1 s2, s.sym_ir val.addr = some (.var v) →
      new_var s = .ok (temp, s1) → translate_Exp r temp s1 = .ok ((), s2) →
      s2.isref v.id = false ∨ s2.isref temp.id = false →
      translate_Exp (.ASSIGNOP tp (.ID ltp (some val)) r) target s = .error (.assert "eq")) ∧
    (ltp.cls = .TC_STRUCT →
      ∃ e, translate_Exp (.ASSIGNOP tp (.ID ltp (some val)) r) target s = .error e) := by
  refine ⟨array_assign_ok_iff tp ltp val r target s s', ?_, ?_⟩
  · intro h v temp s1 s2 hp h1 h2 hv
    rw [array_assign_eq tp ltp val r target h]
    rcases hv with hv | hv
    · simp [IRM.bind_apply, get_ir, hp, cast_irvar, IRM.pure_apply, h1, h2, get_isref, Assert,
        IRM.fail, hv]
    · cases hb : s2.isref v.id <;>
        simp [IRM.bind_apply, get_ir, hp, cast_irvar, IRM.pure_apply, h1, h2, get_isref, Assert,
          IRM.fail, hv, hb]
  · intro h
    apply aborts_of_not_ok
    rintro ⟨⟨⟨⟩, s''⟩, hok⟩
    rw [translate_Exp_ASSIGNOP_ID] at hok
    simp only [h] at hok
    simp only [IRM.bind_ok_iff] at hok
    obtain ⟨_, _, _, _, _, _, _, _, _, _, _, _, _, _, _, hok⟩ := hok
    cases hok
/-! ## The printed text, line by line -/

theorem print_ircode_ignored (c : ircode) (h : c.ignore = true) : print_ircode c = "" := by
  simp [print_ircode, h]

theorem print_ircode_line_end (c : ircode) (h : c.ignore = false) :
    ∃ body, print_ircode c = body ++ "\n" := by
  obtain ⟨ins, ig⟩ := c
  cases h
  cases ins
  case Label l => exact ⟨"LABEL " ++ l.name ++ " :", by rw [String.append_assoc]; rfl⟩
  case Func l => exact ⟨"FUNCTION " ++ l.name ++ " :", by rw [String.append_assoc]; rfl⟩
  all_goals exact ⟨_, rfl⟩

/-- The text of a line of tokens ends with the line end and has no other. -/
theorem render_one_line : ∀ ts : List (List Char), ts ≠ [] →
    (∀ t ∈ ts, ∀ x ∈ t, Char.inToken x) → ∃ line, render ts = line ++ ['\n'] ∧ '\n' ∉ line
  | [], h, _ => absurd rfl h
  | [t], _, ht => by
    refine ⟨t, rfl, ?_⟩
    intro hx
    exact (ht t (List.mem_singleton.mpr rfl) _ hx).2 rfl
  | t :: u :: ts, _, ht => by
    obtain ⟨line, e, hl⟩ := render_one_line (u :: ts) (by simp)
      (fun t' ht' => ht t' (List.mem_cons_of_mem _ ht'))
    refine ⟨t ++ ' ' :: line, by simp [render, e], ?_⟩
    intro hx
    rcases List.mem_append.mp hx with h1 | h1
    · exact (ht t (List.mem_cons_self _ _) _ h1).2 rfl
    · rcases List.mem_cons.mp h1 with h2 | h2
      · exact absurd h2 (by decide)
      · exact hl h2

theorem print_ircode_one_line (c : ircode) (h : c.printable) :
    ∃ line, (print_ircode c).data = line ++ ['\n'] ∧ '\n' ∉ line := by
  rw [print_ircode_data c h]
  exact render_one_line _ (tokens_ne_nil _) (tokens_data_inToken c h)

theorem ir_linearise_loop_lines (codes : List ircode) :
    ir_linearise_loop codes =
      (printed_lines codes).foldr (fun line rest => line ++ rest) "" := by
  induction codes with
  | nil => rfl
  | cons c rest ih =>
    rw [ir_linearise_loop, ih]
    cases hc : c.ignore
    · simp [printed_lines, hc]
    · simp [printed_lines, hc, print_ircode_ignored c hc]

/-- The array of a completed translation is the reversal of the prepend list,
and `len` is its length. -/
theorem ir_main_array {tree : Program} {s : Emitter} {a : ast} {s' : Emitter}
    (h : ir_main tree s = .ok (a, s')) : a.codes = s'.irs.reverse ∧ a.len = s'.irs.length := by
  unfold ir_main at h
  obtain ⟨u, s1, h1, h2⟩ := IRM.bind_ok_iff.mp h
  obtain ⟨h3, rfl⟩ := ir_translate_ok h2
  exact ⟨rfl, rfl⟩

/-- Claim C29: the instruction array of a completed translation and its length
are the emission sequence in emission order, the reversal of the list that
`push_ircode` prepends to; the text of `ir_linearise` is the concatenation, in
array order, of the texts of the instructions whose `ignore` flag is clear, each
of them one line that ends with the line end; an instruction whose `ignore` flag
is set contributes nothing. -/
theorem linearise_prints_emission (tree : Program) (s : Emitter) (a : ast) (s' : Emitter)
    (h : ir_main tree s = .ok (a, s')) :
    (a.codes = s'.irs.reverse ∧ a.len = s'.irs.length ∧ a.len = a.codes.length) ∧
    (∀ c s0, push_ircode c s0 = .ok ((), { s0 with irs := c :: s0.irs }) ∧
      ({ s0 with irs := c :: s0.irs } : Emitter).codes = s0.codes ++ [c]) ∧
    (∀ b : ast, ir_linearise b =
      (printed_lines (b.codes.take b.len)).foldr (fun line rest => line ++ rest) "") ∧
    ir_linearise a = (printed_lines a.codes).foldr (fun line rest => line ++ rest) "" ∧
    (printed_lines a.codes = a.codes.map print_ircode ∧ (printed_lines a.codes).length = a.len) ∧
    (∀ c : ircode, c.ignore = true → print_ircode c = "") ∧
    (∀ c : ircode, c.ignore = false → ∃ body, print_ircode c = body ++ "\n") ∧
    (∀ c : ircode, c.printable →
      ∃ line, (print_ircode c).data = line ++ ['\n'] ∧ '\n' ∉ line) := by
  have hi := (ir_main_codes h).2.2
  obtain ⟨e1, e2⟩ := ir_main_array h
  have hlen : a.len = a.codes.length := by rw [e2, e1, List.length_reverse]
  have hall : printed_lines a.codes = a.codes.map print_ircode := by
    unfold printed_lines
    rw [List.filter_eq_self.mpr (fun c hc => by simp [hi c hc])]
  refine ⟨⟨e1, e2, hlen⟩, fun c s0 => ⟨rfl, by simp [Emitter.codes]⟩,
    fun b => ir_linearise_loop_lines _, ?_, ⟨hall, by rw [hall, List.length_map, hlen]⟩,
    print_ircode_ignored, print_ircode_line_end, print_ircode_one_line⟩
  rw [ir_linearise, hlen, List.take_length]
  exact ir_linearise_loop_lines _

/-- Witness of claim C29 on the sample program: the run completes and the text
is the concatenation of the lines of its sixteen instructions. -/
theorem linearise_prints_emission_witness :
    ir_run prog_if = .ok ast_if ∧
    ir_linearise ast_if =
      (printed_lines ast_if.codes).foldr (fun line rest => line ++ rest) "" ∧
    (printed_lines ast_if.codes).length = 16 := by
  obtain ⟨s', h⟩ := ir_run_ok ir_run_prog_if
  have w := linearise_prints_emission prog_if Emitter.init ast_if s' h
  exact ⟨ir_run_prog_if, w.2.2.2.1, w.2.2.2.2.1.2⟩

/-! ## Calls of functions defined later -/

set_option maxRecDepth 10000 in
theorem ir_run_prog_call_later : ir_run prog_call_later = .error (.assert "not null") := by
  simp only [prog_call_later, ir_run, ir_main, ir_prepare, ir_translate, translate_Program,
    translate_ExtDefList, translate_ExtDef, translate_FunDec, translate_CompSt, translate_DefList,
    translate_StmtList, translate_Stmt, translate_Exp_INT, translate_Exp_CALL0, translate_Exp_NOT,
    IRM.bind_apply, IRM.pure_apply, bind, pure, new_var,
    new_label, not_null, new_named_label, sym_main, sym_h, set_ir, get_ir,
    gen_func, gen_param, push_ircode, translate_FunDec_loop, type.args, symlist.toList,
    Emitter.init, gen_assign, op_var, op_const, op_rval, op_deref, irop.kind, gen_return, type.cls,
    get_ignore_var, cast_irvar, cast_irlabel, set_isref, get_isref, gen_call, gen_read,
    AssertVar, Assert, IRM.fail, Function.update]
  simp
  rfl

set_option maxRecDepth 10000 in
theorem ir_run_prog_not_call_later : ir_run prog_not_call_later = .ok ast_not_call_later := by
  simp only [prog_not_call_later, ir_run, ir_main, ir_prepare, ir_translate, translate_Program,
    translate_ExtDefList, translate_ExtDef, translate_FunDec, translate_CompSt, translate_DefList,
    translate_StmtList, translate_Stmt, translate_Exp_INT, translate_Exp_CALL0, translate_Exp_NOT,
    IRM.bind_apply, IRM.pure_apply, bind, pure, new_var,
    new_label, not_null, new_named_label, sym_main, sym_h, set_ir, get_ir,
    gen_func, gen_param, push_ircode, translate_FunDec_loop, type.args, symlist.toList,
    Emitter.init, gen_assign, op_var, op_const, op_rval, op_deref, irop.kind, gen_return, type.cls,
    get_ignore_var, cast_irvar, cast_irlabel, set_isref, get_isref, gen_call, gen_read,
    AssertVar, Assert, IRM.fail, Function.update]
  simp
  rfl

set_option maxRecDepth 10000 in
theorem ir_run_prog_call_earlier : ir_run prog_call_earlier = .ok ast_call_earlier := by
  simp only [prog_call_earlier, ir_run, ir_main, ir_prepare, ir_translate, translate_Program,
    translate_ExtDefList, translate_ExtDef, translate_FunDec, translate_CompSt, translate_DefList,
    translate_StmtList, translate_Stmt, translate_Exp_INT, translate_Exp_CALL0, translate_Exp_NOT,
    IRM.bind_apply, IRM.pure_apply, bind, pure, new_var,
    new_label, not_null, new_named_label, sym_main, sym_h, set_ir, get_ir,
    gen_func, gen_param, push_ircode, translate_FunDec_loop, type.args, symlist.toList,
    Emitter.init, gen_assign, op_var, op_const, op_rval, op_deref, irop.kind, gen_return, type.cls,
    get_ignore_var, cast_irvar, cast_irlabel, set_isref, get_isref, gen_call, gen_read,
    AssertVar, Assert, IRM.fail, Function.update]
  simp
  rfl

theorem ir_linearise_ast_not_call_later : ir_linearise ast_not_call_later =
    "FUNCTION main :\nt3 := t2\nRETURN t3\nFUNCTION h :\nt4 := #0\nt5 := t4\nRETURN t5\n" := by
  rfl

theorem ir_linearise_ast_call_earlier : ir_linearise ast_call_earlier =
    "FUNCTION h :\nt2 := CALL h\nt3 := t2\nRETURN t3\nFUNCTION main :\nt4 := CALL h\nt5 := t4\nRETURN t5\n" := by
  rfl

/-- A call `f ()` of a function other than `read` returns exactly when the `ir`
slot of the symbol of `f` holds a label, which `translate_FunDec` stores there;
the instruction emitted is `Call (Var target, l)`.  With an empty slot the call
aborts on the assertion that the slot is not null. -/
theorem call0_lowering (tp : type) (val : symbol) (target : irvar) (s s' : Emitter)
    (hname : val.name ≠ "read") (hcls : val.tp.cls = .TC_FUNC) :
    (translate_Exp (.CALL0 tp (some val)) target s = .ok ((), s') ↔
      ∃ l, s.sym_ir val.addr = some (.label l) ∧ s' = s.emit (.Call (.Var target) l)) ∧
    (s.sym_ir val.addr = none →
      translate_Exp (.CALL0 tp (some val)) target s = .error (.assert "not null")) := by
  have e : translate_Exp (.CALL0 tp (some val)) target = (do
      let l ← cast_irlabel (← get_ir val)
      gen_call (op_var target) l) := by
    rw [translate_Exp_CALL0]
    simp [not_null, Assert, hcls, hname]
  rw [e]
  constructor
  · simp only [IRM.bind_ok_iff, get_ir_ok_iff, cast_irlabel_ok_iff, gen_call_ok_iff, op_var_kind,
      true_and]
    constructor
    · rintro ⟨p, s1, ⟨rfl, rfl⟩, l, s2, ⟨hp, rfl⟩, rfl⟩
      exact ⟨l, hp, rfl⟩
    · rintro ⟨l, hp, rfl⟩
      exact ⟨_, _, ⟨rfl, rfl⟩, l, _, ⟨hp, rfl⟩, rfl⟩
  · intro hn
    simp [IRM.bind_apply, get_ir, hn, cast_irlabel, IRM.fail]

/-- Claim C27 (fails on the code): the first translation of
`int main() { return h(); } int h() { return 0; }` aborts on the assertion that
the label of `h` is not null, and the calls of
`int h() { return h(); } int main() { return h(); }` are lowered to `CALL h`;
but `int main() { return !h(); } int h() { return 0; }`, whose `main` calls the
later function `h`, is translated without abort: `translate_Exp` emits nothing
for `NOT E` and does not lower `E`, whatever `E` is, so no `CALL` is printed. -/
theorem later_call_under_not_is_translated :
    (∀ tp E target s, translate_Exp (.NOT tp E) target s = .ok ((), s)) ∧
    ir_run prog_call_later = .error (.assert "not null") ∧
    ir_output prog_call_earlier = .ok
      "FUNCTION h :\nt2 := CALL h\nt3 := t2\nRETURN t3\nFUNCTION main :\nt4 := CALL h\nt5 := t4\nRETURN t5\n" ∧
    ir_output prog_not_call_later = .ok
      "FUNCTION main :\nt3 := t2\nRETURN t3\nFUNCTION h :\nt4 := #0\nt5 := t4\nRETURN t5\n" := by
  refine ⟨fun tp E target s => by rw [translate_Exp_NOT]; rfl, ir_run_prog_call_later, ?_, ?_⟩
  · rw [ir_output, ir_run_prog_call_earlier, ← ir_linearise_ast_call_earlier]
    rfl
  · rw [ir_output, ir_run_prog_not_call_later, ← ir_linearise_ast_not_call_later]
    rfl
/-! ## Names of the label and function lines -/

theorem label_names_append (a b : List ircode) :
    label_names (a ++ b) = label_names a ++ label_names b := by
  induction a with
  | nil => rfl
  | cons c r ih => simp [label_names, ih]

theorem func_names_append (a b : List ircode) :
    func_names (a ++ b) = func_names a ++ func_names b := by
  induction a with
  | nil => rfl
  | cons c r ih => simp [func_names, ih]

theorem label_names_reverse (a : List ircode) :
    (label_names a.reverse).Perm (label_names a) := by
  induction a with
  | nil => exact List.Perm.refl _
  | cons c r ih =>
    rw [List.reverse_cons, label_names_append]
    simp only [label_names, List.append_nil]
    exact (List.perm_append_comm).trans (List.Perm.append_left _ ih)

theorem func_names_reverse (a : List ircode) :
    func_names a.reverse = (func_names a).reverse := by
  induction a with
  | nil => rfl
  | cons c r ih =>
    rw [List.reverse_cons, func_names_append, ih]
    cases c with
    | mk ins ig => cases ins <;> simp [func_names, ircode.func_name]

theorem minted_names_append : ∀ (m n : Nat) (lo : Int),
    minted_names lo (m + n) = minted_names lo m ++ minted_names (lo + m) n
  | 0, n, lo => by simp [minted_names]
  | m + 1, n, lo => by
    rw [Nat.add_right_comm, minted_names, minted_names, minted_names_append m n (lo + 1)]
    simp only [List.cons_append, Nat.cast_succ]
    congr 3
    ring

theorem minted_names_split {lo mid hi : Int} (h1 : lo ≤ mid) (h2 : mid ≤ hi) :
    minted_names lo (hi - lo).toNat =
      minted_names lo (mid - lo).toNat ++ minted_names mid (hi - mid).toNat := by
  have e : (hi - lo).toNat = (mid - lo).toNat + (hi - mid).toNat := by omega
  have e2 : lo + ((mid - lo).toNat : Int) = mid := by omega
  rw [e, minted_names_append, e2]

theorem mem_minted_names : ∀ (n : Nat) (lo : Int) (x : String), x ∈ minted_names lo n →
    ∃ k : Int, lo < k ∧ k ≤ lo + n ∧ x = "l" ++ toString k
  | 0, _, _, h => by simp [minted_names] at h
  | n + 1, lo, x, h => by
    rw [minted_names, List.mem_cons] at h
    rcases h with h | h
    · exact ⟨lo + 1, by omega, by push_cast; omega, h⟩
    · obtain ⟨k, h1, h2, h3⟩ := mem_minted_names n (lo + 1) x h
      exact ⟨k, by omega, by push_cast; omega, h3⟩

theorem minted_name_injective {a b : Int} (h : "l" ++ toString a = "l" ++ toString b) : a = b :=
  int_toString_injective (string_append_left_cancel h)

theorem minted_names_nodup : ∀ (n : Nat) (lo : Int), (minted_names lo n).Nodup
  | 0, _ => List.nodup_nil
  | n + 1, lo => by
    rw [minted_names, List.nodup_cons]
    refine ⟨?_, minted_names_nodup n (lo + 1)⟩
    intro h
    obtain ⟨k, h1, _, h3⟩ := mem_minted_names n (lo + 1) _ h
    have := minted_name_injective h3
    omega

theorem Named_bind {α β : Type} {p1 p2 : List irlabel} {f1 f2 : List String} {x : IRM α}
    {f : α → IRM β} (hx : Named p1 f1 x) (hf : ∀ a, Named p2 f2 (f a)) :
    Named (p1 ++ p2) (f2 ++ f1) (x >>= f) := by
  intro s b s' h
  obtain ⟨a, s1, h1, h2⟩ := IRM.bind_ok_iff.mp h
  obtain ⟨n1, e1, l1, w1, g1⟩ := hx _ _ _ h1
  obtain ⟨n2, e2, l2, w2, g2⟩ := hf a _ _ _ h2
  refine ⟨n2 ++ n1, by rw [e2, e1, List.append_assoc], le_trans l1 l2, ?_,
    by rw [func_names_append, g1, g2]⟩
  rw [label_names_append, minted_names_split l1 l2, List.map_append]
  refine (List.perm_append_comm.trans (w1.append w2)).trans ?_
  rw [List.perm_iff_count]
  intro n
  simp only [List.count_append]
  omega

/-- Sequencing of two runs that are handed no label and emit no function line. -/
theorem Named_seq {α β : Type} {x : IRM α} {f : α → IRM β}
    (hx : Named [] [] x) (hf : ∀ a, Named [] [] (f a)) : Named [] [] (x >>= f) :=
  Named_bind hx hf

/-- Sequencing of two runs that emit no function line. -/
theorem Named_bind_labels {α β : Type} {p1 p2 : List irlabel} {x : IRM α} {f : α → IRM β}
    (hx : Named p1 [] x) (hf : ∀ a, Named p2 [] (f a)) : Named (p1 ++ p2) [] (x >>= f) :=
  Named_bind hx hf

theorem Named_perm {α : Type} {p p' : List irlabel} {fns : List String} {x : IRM α}
    (hx : Named p fns x) (hp : p.Perm p') : Named p' fns x := by
  intro s a s' h
  obtain ⟨n, e, l, w, g⟩ := hx s a s' h
  exact ⟨n, e, l, w.trans ((hp.map irlabel.name).append_right _), g⟩

/-- A run that leaves `irs` and the label counter alone. -/
theorem Named_of_same {α : Type} {x : IRM α}
    (h : ∀ s a s', x s = .ok (a, s') → s'.irs = s.irs ∧ s'.count = s.count) :
    Named [] [] x := by
  intro s a s' hx
  obtain ⟨h1, h2⟩ := h s a s' hx
  refine ⟨[], by simpa using h1, by omega, ?_, rfl⟩
  rw [h2]
  simp [label_names, minted_names]

/-- A run that pushes one instruction that is neither `Label` nor `Func`. -/
theorem Named_of_push {x : IRM Unit} (ins : irins) (hl : ∀ l, ins ≠ .Label l)
    (hf : ∀ l, ins ≠ .Func l)
    (h : ∀ s a s', x s = .ok (a, s') → s' = { s with irs := ⟨ins, false⟩ :: s.irs }) :
    Named [] [] x := by
  intro s a s' hx
  rw [h s a s' hx]
  refine ⟨[⟨ins, false⟩], rfl, le_refl _, ?_, ?_⟩
  · cases ins <;> simp [label_names, ircode.label_name, minted_names] at hl ⊢
  · cases ins <;> simp [func_names, ircode.func_name] at hf ⊢

theorem Named_pure {α : Type} (a : α) : Named [] [] (pure a : IRM α) :=
  Named_of_same (fun _ _ _ h => by cases h; exact ⟨rfl, rfl⟩)

theorem Named_fail {α : Type} (p : List irlabel) (fns : List String) (e : Err) :
    Named p fns (IRM.fail e : IRM α) := by
  intro s a s' h
  cases h

theorem Named_Assert (c : Bool) (msg : String) : Named [] [] (Assert c msg) := by
  unfold IRLab.Assert
  split
  · exact Named_pure _
  · exact Named_fail _ _ _

theorem Named_read {α : Type} (r : Emitter → α) :
    Named [] [] (fun s => .ok (r s, s) : IRM α) :=
  Named_of_same (fun _ _ _ h => by cases h; exact ⟨rfl, rfl⟩)

theorem Named_op_rval (v : irvar) : Named [] [] (op_rval v) := Named_read _

theorem Named_get_isref (v : irvar) : Named [] [] (get_isref v) := Named_read _

theorem Named_get_ir (sym : symbol) : Named [] [] (get_ir sym) := Named_read _

theorem Named_get_ignore_var : Named [] [] get_ignore_var := Named_read _

theorem Named_not_null (val : Option symbol) : Named [] [] (not_null val) := by
  unfold IRLab.not_null
  split
  · exact Named_pure _
  · exact Named_fail _ _ _

theorem Named_cast_irvar (p : Option irptr) : Named [] [] (cast_irvar p) := by
  unfold IRLab.cast_irvar
  split
  · exact Named_pure _
  · exact Named_read _
  · exact Named_fail _ _ _

theorem Named_cast_irlabel (p : Option irptr) : Named [] [] (cast_irlabel p) := by
  unfold IRLab.cast_irlabel
  split
  · exact Named_pure _
  · exact Named_fail _ _ _
  · exact Named_fail _ _ _

theorem Named_new_var : Named [] [] new_var :=
  Named_of_same (fun _ _ _ h => by
    obtain ⟨_, _, rfl⟩ := new_var_ok_iff.mp h
    exact ⟨rfl, rfl⟩)

theorem Named_new_named_label (name : String) : Named [] [] (new_named_label name) :=
  Named_of_same (fun _ _ _ h => by
    obtain ⟨_, rfl⟩ := new_named_label_ok_iff.mp h
    exact ⟨rfl, rfl⟩)

theorem Named_set_isref (v : irvar) (b : Bool) : Named [] [] (set_isref v b) :=
  Named_of_same (fun _ _ _ h => by rw [set_isref_ok_iff.mp h]; exact ⟨rfl, rfl⟩)

theorem Named_set_ir (sym : symbol) (p : irptr) : Named [] [] (set_ir sym p) :=
  Named_of_same (fun _ _ _ h => by rw [set_ir_ok_iff.mp h]; exact ⟨rfl, rfl⟩)

theorem Named_gen_assign (l r : irop) : Named [] [] (gen_assign l r) :=
  Named_of_push (.Assign l r) (by simp) (by simp) (fun _ _ _ h => (gen_assign_ok_iff.mp h).2)

theorem Named_gen_add (t a b : irop) : Named [] [] (gen_add t a b) :=
  Named_of_push (.Add t a b) (by simp) (by simp) (fun _ _ _ h => (gen_add_ok_iff.mp h).2)

theorem Named_gen_sub (t a b : irop) : Named [] [] (gen_sub t a b) :=
  Named_of_push (.Sub t a b) (by simp) (by simp) (fun _ _ _ h => (gen_sub_ok_iff.mp h).2)

theorem Named_gen_mul (t a b : irop) : Named [] [] (gen_mul t a b) :=
  Named_of_push (.Mul t a b) (by simp) (by simp) (fun _ _ _ h => (gen_mul_ok_iff.mp h).2)

theorem Named_gen_div (t a b : irop) : Named [] [] (gen_div t a b) :=
  Named_of_push (.Div t a b) (by simp) (by simp) (fun _ _ _ h => (gen_div_ok_iff.mp h).2)

theorem Named_gen_return (r : irop) : Named [] [] (gen_return r) :=
  Named_of_push (.Return r) (by simp) (by simp) (fun _ _ _ h => gen_return_ok_iff.mp h)

theorem Named_gen_dec (op : irop) (sz : Int) : Named [] [] (gen_dec op sz) :=
  Named_of_push (.Dec op sz) (by simp) (by simp) (fun _ _ _ h => (gen_dec_ok_iff.mp h).2)

theorem Named_gen_call (r : irop) (l : irlabel) : Named [] [] (gen_call r l) :=
  Named_of_push (.Call r l) (by simp) (by simp) (fun _ _ _ h => (gen_call_ok_iff.mp h).2)

theorem Named_gen_arg (a : irop) : Named [] [] (gen_arg a) :=
  Named_of_push (.Arg a) (by simp) (by simp) (fun _ _ _ h => gen_arg_ok_iff.mp h)

theorem Named_gen_param (p : irop) : Named [] [] (gen_param p) :=
  Named_of_push (.Param p) (by simp) (by simp) (fun _ _ _ h => (gen_param_ok_iff.mp h).2)

theorem Named_gen_read (r : irop) : Named [] [] (gen_read r) :=
  Named_of_push (.Read r) (by simp) (by simp) (fun _ _ _ h => (gen_read_ok_iff.mp h).2)

theorem Named_gen_write (w : irop) : Named [] [] (gen_write w) :=
  Named_of_push (.Write w) (by simp) (by simp) (fun _ _ _ h => gen_write_ok_iff.mp h)

theorem Named_gen_goto (l : irlabel) : Named [] [] (gen_goto l) :=
  Named_of_push (.Goto l) (by simp) (by simp) (fun _ _ _ h => gen_goto_ok_iff.mp h)

theorem Named_gen_branch (rt : relop_type) (a b : irop) (l : irlabel) :
    Named [] [] (gen_branch rt a b l) :=
  Named_of_push (.Branch rt a b l) (by simp) (by simp) (fun _ _ _ h => gen_branch_ok_iff.mp h)

theorem Named_gen_label (l : irlabel) : Named [l] [] (gen_label l) := by
  intro s u s' hx
  rw [gen_label_ok_iff.mp hx]
  refine ⟨[⟨.Label l, false⟩], rfl, le_refl _, ?_, rfl⟩
  simp [label_names, ircode.label_name, minted_names]

theorem Named_gen_func (l : irlabel) : Named [] [l.name] (gen_func l) := by
  intro s u s' hx
  rw [gen_func_ok_iff.mp hx]
  refine ⟨[⟨.Func l, false⟩], rfl, le_refl _, ?_, rfl⟩
  simp [label_names, ircode.label_name, minted_names]

/-- Minting a label that the continuation places: its name becomes one of the
names minted by the run. -/
theorem Named_new_label {β : Type} {p : List irlabel} {fns : List String}
    {f : irlabel → IRM β} (hf : ∀ l, Named (l :: p) fns (f l)) :
    Named p fns (new_label >>= f) := by
  intro s b s' h
  obtain ⟨l, s1, h1, h2⟩ := IRM.bind_ok_iff.mp h
  obtain ⟨_, rfl, rfl⟩ := new_label_ok_iff.mp h1
  obtain ⟨new, e, le, w, g⟩ := hf _ _ _ _ h2
  have le' : s.count + 1 ≤ s'.count := le
  refine ⟨new, e, by omega, ?_, g⟩
  have e2 : (s'.count - s.count).toNat = (s'.count - (s.count + 1)).toNat + 1 := by omega
  rw [e2, minted_names]
  refine w.trans ?_
  simp only [List.map_cons, List.cons_append]
  exact List.perm_middle.symm
/-! ## Every translator names its label lines apart -/

theorem Named_gen_arr_copy_loop (lt rt lo ro : irvar) (sz : Int) :
    ∀ (n : Nat) (i : Int), (sz - i).toNat ≤ n →
      Named [] [] (gen_arr_copy_loop lt rt lo ro sz i) := by
  intro n
  induction n with
  | zero =>
    intro i hi
    rw [IRLab.gen_arr_copy_loop, if_neg (by omega)]
    exact Named_pure _
  | succ n ih =>
    intro i hi
    rw [IRLab.gen_arr_copy_loop]
    split
    · repeat' with_reducible first
      | exact Named_pure _
      | exact Named_fail _ _ _
      | exact Named_get_isref _
      | exact Named_get_ir _
      | exact Named_get_ignore_var
      | exact Named_op_rval _
      | exact Named_Assert _ _
      | exact Named_not_null _
      | exact Named_cast_irvar _
      | exact Named_cast_irlabel _
      | exact Named_new_var
      | exact Named_set_isref _ _
      | exact Named_set_ir _ _
      | exact Named_gen_assign _ _
      | exact Named_gen_add _ _ _
      | exact Named_gen_sub _ _ _
      | exact Named_gen_mul _ _ _
      | exact Named_gen_div _ _ _
      | exact Named_gen_return _
      | exact Named_gen_dec _ _
      | exact Named_gen_call _ _
      | exact Named_gen_arg _
      | exact Named_gen_param _
      | exact Named_gen_read _
      | exact Named_gen_write _
      | exact Named_gen_goto _
      | exact Named_gen_branch _ _ _ _
      | refine Named_seq ?_ (fun _ => ?_)
      | exact ih _ (by omega)
    · exact Named_pure _

theorem Named_gen_arr_copy (lo ro : irvar) (sz : Int) :
    Named [] [] (gen_arr_copy lo ro sz) := by
  unfold IRLab.gen_arr_copy
  refine Named_seq Named_new_var (fun _ => ?_)
  refine Named_seq Named_new_var (fun _ => ?_)
  exact Named_gen_arr_copy_loop _ _ _ _ _ _ _ (le_refl _)

theorem Named_gen_args_loop (args : List (String × type))
    (paramArr : List irvar) (argc : Nat) :
    ∀ n, Named [] [] (gen_args_loop args paramArr argc n) := by
  intro n
  induction n with
  | zero => exact Named_pure _
  | succ n ih =>
    rw [IRLab.gen_args_loop]
    dsimp only
    repeat' with_reducible first
      | exact Named_pure _
      | exact Named_fail _ _ _
      | exact Named_get_isref _
      | exact Named_get_ir _
      | exact Named_get_ignore_var
      | exact Named_op_rval _
      | exact Named_Assert _ _
      | exact Named_not_null _
      | exact Named_cast_irvar _
      | exact Named_cast_irlabel _
      | exact Named_new_var
      | exact Named_set_isref _ _
      | exact Named_set_ir _ _
      | exact Named_gen_assign _ _
      | exact Named_gen_add _ _ _
      | exact Named_gen_sub _ _ _
      | exact Named_gen_mul _ _ _
      | exact Named_gen_div _ _ _
      | exact Named_gen_return _
      | exact Named_gen_dec _ _
      | exact Named_gen_call _ _
      | exact Named_gen_arg _
      | exact Named_gen_param _
      | exact Named_gen_read _
      | exact Named_gen_write _
      | exact Named_gen_goto _
      | exact Named_gen_branch _ _ _ _
      | refine Named_seq ?_ (fun _ => ?_)
      | exact ih
      | split

theorem Named_bool_value (tree : Exp) (target : irvar)
    (ht : ∀ lt lf, Named [] [] (translate_Cond tree lt lf)) :
    Named [] [] (bool_value tree target) := by
  unfold IRLab.bool_value
  refine Named_new_label (fun t => Named_new_label (fun f => ?_))
  apply Named_perm
  · repeat' with_reducible first
    | exact Named_pure _
    | exact Named_fail _ _ _
    | exact Named_get_isref _
    | exact Named_get_ir _
    | exact Named_get_ignore_var
    | exact Named_op_rval _
    | exact Named_Assert _ _
    | exact Named_not_null _
    | exact Named_cast_irvar _
    | exact Named_cast_irlabel _
    | exact Named_new_var
    | exact Named_set_isref _ _
    | exact Named_set_ir _ _
    | exact Named_gen_assign _ _
    | exact Named_gen_add _ _ _
    | exact Named_gen_sub _ _ _
    | exact Named_gen_mul _ _ _
    | exact Named_gen_div _ _ _
    | exact Named_gen_return _
    | exact Named_gen_dec _ _
    | exact Named_gen_call _ _
    | exact Named_gen_arg _
    | exact Named_gen_param _
    | exact Named_gen_read _
    | exact Named_gen_write _
    | exact Named_gen_goto _
    | exact Named_gen_branch _ _ _ _
    | exact Named_gen_label _
    | apply Named_bind_labels
    | intro _
    | exact ht _ _
  · exact List.Perm.swap _ _ _

set_option maxHeartbeats 2000000 in
theorem Named_translate_Exp_Cond_Args :
    (∀ tree target, Named [] [] (translate_Exp tree target)) ∧
    (∀ tree lt lf, Named [] [] (translate_Cond tree lt lf)) ∧
    (∀ args, Named [] [] (translate_Args args)) := by
  have h := @translate_induction
    (fun tree => ∀ target, Named [] [] (translate_Exp tree target))
    (fun tree => ∀ lt lf, Named [] [] (translate_Cond tree lt lf))
    (fun args => Named [] [] (translate_Args args))
    ?_ ?_ ?_
  · exact h
  · intro tree ihE ihC ihA ihS target
    beta_reduce at ihE ihC ihA ihS
    cases tree with
    | AND tp l r => rw [translate_Exp_AND]; exact Named_bool_value _ _ (ihS rfl)
    | OR tp l r => rw [translate_Exp_OR]; exact Named_bool_value _ _ (ihS rfl)
    | RELOP tp l rt r => rw [translate_Exp_RELOP]; exact Named_bool_value _ _ (ihS rfl)
    | ASSIGNOP tp l r =>
      cases l
      case ID ltp val =>
        rw [translate_Exp_ASSIGNOP_ID]
        repeat' with_reducible first
          | exact Named_pure _
          | exact Named_fail _ _ _
          | exact Named_get_isref _
          | exact Named_get_ir _
          | exact Named_get_ignore_var
          | exact Named_op_rval _
          | exact Named_Assert _ _
          | exact Named_not_null _
          | exact Named_cast_irvar _
          | exact Named_cast_irlabel _
          | exact Named_new_var
          | exact Named_set_isref _ _
          | exact Named_set_ir _ _
          | exact Named_gen_assign _ _
          | exact Named_gen_add _ _ _
          | exact Named_gen_sub _ _ _
          | exact Named_gen_mul _ _ _
          | exact Named_gen_div _ _ _
          | exact Named_gen_return _
          | exact Named_gen_dec _ _
          | exact Named_gen_call _ _
          | exact Named_gen_arg _
          | exact Named_gen_param _
          | exact Named_gen_read _
          | exact Named_gen_write _
          | exact Named_gen_goto _
          | exact Named_gen_branch _ _ _ _
          | refine Named_seq ?_ (fun _ => ?_)
          | exact Named_gen_arr_copy _ _ _
          | exact ihE _ (by first | (simp_wf; omega) | simp_wf) _
          | split
      case INDEX ltp le li =>
        rw [translate_Exp_ASSIGNOP_INDEX]
        repeat' with_reducible first
          | exact Named_pure _
          | exact Named_fail _ _ _
          | exact Named_get_isref _
          | exact Named_get_ir _
          | exact Named_get_ignore_var
          | exact Named_op_rval _
          | exact Named_Assert _ _
          | exact Named_not_null _
          | exact Named_cast_irvar _
          | exact Named_cast_irlabel _
          | exact Named_new_var
          | exact Named_set_isref _ _
          | exact Named_set_ir _ _
          | exact Named_gen_assign _ _
          | exact Named_gen_add _ _ _
          | exact Named_gen_sub _ _ _
          | exact Named_gen_mul _ _ _
          | exact Named_gen_div _ _ _
          | exact Named_gen_return _
          | exact Named_gen_dec _ _
          | exact Named_gen_call _ _
          | exact Named_gen_arg _
          | exact Named_gen_param _
          | exact Named_gen_read _
          | exact Named_gen_write _
          | exact Named_gen_goto _
          | exact Named_gen_branch _ _ _ _
          | refine Named_seq ?_ (fun _ => ?_)
          | exact Named_gen_arr_copy _ _ _
          | exact ihE _ (by first | (simp_wf; omega) | simp_wf) _
          | split
      case DOT ltp le lname =>
        rw [translate_Exp_ASSIGNOP_DOT]
        repeat' with_reducible first
          | exact Named_pure _
          | exact Named_fail _ _ _
          | exact Named_get_isref _
          | exact Named_get_ir _
          | exact Named_get_ignore_var
          | exact Named_op_rval _
          | exact Named_Assert _ _
          | exact Named_not_null _
          | exact Named_cast_irvar _
          | exact Named_cast_irlabel _
          | exact Named_new_var
          | exact Named_set_isref _ _
          | exact Named_set_ir _ _
          | exact Named_gen_assign _ _
          | exact Named_gen_add _ _ _
          | exact Named_gen_sub _ _ _
          | exact Named_gen_mul _ _ _
          | exact Named_gen_div _ _ _
          | exact Named_gen_return _
          | exact Named_gen_dec _ _
          | exact Named_gen_call _ _
          | exact Named_gen_arg _
          | exact Named_gen_param _
          | exact Named_gen_read _
          | exact Named_gen_write _
          | exact Named_gen_goto _
          | exact Named_gen_branch _ _ _ _
          | refine Named_seq ?_ (fun _ => ?_)
          | exact ihE _ (by first | (simp_wf; omega) | simp_wf) _
          | split
      all_goals (rw [translate_Exp_ASSIGNOP_other _ _ _ _ (by rfl)]; exact Named_fail _ _ _)
    | _ =>
      simp only [translate_Exp_INT, translate_Exp_FLOAT, translate_Exp_ID, translate_Exp_NEG,
        translate_Exp_NOT, translate_Exp_LP, translate_Exp_CALL0, translate_Exp_DOT,
        translate_Exp_PLUS, translate_Exp_MINUS, translate_Exp_STAR, translate_Exp_DIV,
        translate_Exp_CALL, translate_Exp_INDEX]
      repeat' with_reducible first
        | exact Named_pure _
        | exact Named_fail _ _ _
        | exact Named_get_isref _
        | exact Named_get_ir _
        | exact Named_get_ignore_var
        | exact Named_op_rval _
        | exact Named_Assert _ _
        | exact Named_not_null _
        | exact Named_cast_irvar _
        | exact Named_cast_irlabel _
        | exact Named_new_var
        | exact Named_set_isref _ _
        | exact Named_set_ir _ _
        | exact Named_gen_assign _ _
        | exact Named_gen_add _ _ _
        | exact Named_gen_sub _ _ _
        | exact Named_gen_mul _ _ _
        | exact Named_gen_div _ _ _
        | exact Named_gen_return _
        | exact Named_gen_dec _ _
        | exact Named_gen_call _ _
        | exact Named_gen_arg _
        | exact Named_gen_param _
        | exact Named_gen_read _
        | exact Named_gen_write _
        | exact Named_gen_goto _
        | exact Named_gen_branch _ _ _ _
        | refine Named_seq ?_ (fun _ => ?_)
        | exact Named_gen_args_loop _ _ _ _
        | exact ihE _ (by first | (simp_wf; omega) | simp_wf) _
        | exact ihA _ (by first | (simp_wf; omega) | simp_wf)
        | split
  · intro tree ihE ihC ihS lt lf
    beta_reduce at ihE ihC ihS
    cases tree with
    | NOT tp e => rw [translate_Cond_NOT]; exact ihC _ (by first | (simp_wf; omega) | simp_wf) _ _
    | LP tp e => rw [translate_Cond_LP]; exact ihC _ (by first | (simp_wf; omega) | simp_wf) _ _
    | AND tp l r =>
      rw [translate_Cond_AND]
      refine Named_new_label (fun sl => ?_)
      apply Named_perm
      · repeat' with_reducible first
        | exact Named_pure _
        | exact Named_fail _ _ _
        | exact Named_get_isref _
        | exact Named_get_ir _
        | exact Named_get_ignore_var
        | exact Named_op_rval _
        | exact Named_Assert _ _
        | exact Named_not_null _
        | exact Named_cast_irvar _
        | exact Named_cast_irlabel _
        | exact Named_new_var
        | exact Named_set_isref _ _
        | exact Named_set_ir _ _
        | exact Named_gen_assign _ _
        | exact Named_gen_add _ _ _
        | exact Named_gen_sub _ _ _
        | exact Named_gen_mul _ _ _
        | exact Named_gen_div _ _ _
        | exact Named_gen_return _
        | exact Named_gen_dec _ _
        | exact Named_gen_call _ _
        | exact Named_gen_arg _
        | exact Named_gen_param _
        | exact Named_gen_read _
        | exact Named_gen_write _
        | exact Named_gen_goto _
        | exact Named_gen_branch _ _ _ _
        | exact Named_gen_label _
            | apply Named_bind_labels
        | intro _
        | exact ihC _ (by first | (simp_wf; omega) | simp_wf) _ _
      · exact List.Perm.refl _
    | OR tp l r =>
      rw [translate_Cond_OR]
      refine Named_new_label (fun sl => ?_)
      apply Named_perm
      · repeat' with_reducible first
        | exact Named_pure _
        | exact Named_fail _ _ _
        | exact Named_get_isref _
        | exact Named_get_ir _
        | exact Named_get_ignore_var
        | exact Named_op_rval _
        | exact Named_Assert _ _
        | exact Named_not_null _
        | exact Named_cast_irvar _
        | exact Named_cast_irlabel _
        | exact Named_new_var
        | exact Named_set_isref _ _
        | exact Named_set_ir _ _
        | exact Named_gen_assign _ _
        | exact Named_gen_add _ _ _
        | exact Named_gen_sub _ _ _
        | exact Named_gen_mul _ _ _
        | exact Named_gen_div _ _ _
        | exact Named_gen_return _
        | exact Named_gen_dec _ _
        | exact Named_gen_call _ _
        | exact Named_gen_arg _
        | exact Named_gen_param _
        | exact Named_gen_read _
        | exact Named_gen_write _
        | exact Named_gen_goto _
        | exact Named_gen_branch _ _ _ _
        | exact Named_gen_label _
            | apply Named_bind_labels
        | intro _
        | exact ihC _ (by first | (simp_wf; omega) | simp_wf) _ _
      · exact List.Perm.refl _
    | RELOP tp l rt r =>
      rw [translate_Cond_RELOP]
      repeat' with_reducible first
        | exact Named_pure _
        | exact Named_fail _ _ _
        | exact Named_get_isref _
        | exact Named_get_ir _
        | exact Named_get_ignore_var
        | exact Named_op_rval _
        | exact Named_Assert _ _
        | exact Named_not_null _
        | exact Named_cast_irvar _
        | exact Named_cast_irlabel _
        | exact Named_new_var
        | exact Named_set_isref _ _
        | exact Named_set_ir _ _
        | exact Named_gen_assign _ _
        | exact Named_gen_add _ _ _
        | exact Named_gen_sub _ _ _
        | exact Named_gen_mul _ _ _
        | exact Named_gen_div _ _ _
        | exact Named_gen_return _
        | exact Named_gen_dec _ _
        | exact Named_gen_call _ _
        | exact Named_gen_arg _
        | exact Named_gen_param _
        | exact Named_gen_read _
        | exact Named_gen_write _
        | exact Named_gen_goto _
        | exact Named_gen_branch _ _ _ _
        | refine Named_seq ?_ (fun _ => ?_)
        | exact ihE _ (by first | (simp_wf; omega) | simp_wf) _
    | _ =>
      have hS := ihS (by simp [Exp.rank, Exp.count, Exp.child0, Exp.child1])
      rw [translate_Cond_default _ _ _ (by rfl)]
      repeat' with_reducible first
        | exact Named_pure _
        | exact Named_fail _ _ _
        | exact Named_get_isref _
        | exact Named_get_ir _
        | exact Named_get_ignore_var
        | exact Named_op_rval _
        | exact Named_Assert _ _
        | exact Named_not_null _
        | exact Named_cast_irvar _
        | exact Named_cast_irlabel _
        | exact Named_new_var
        | exact Named_set_isref _ _
        | exact Named_set_ir _ _
        | exact Named_gen_assign _ _
        | exact Named_gen_add _ _ _
        | exact Named_gen_sub _ _ _
        | exact Named_gen_mul _ _ _
        | exact Named_gen_div _ _ _
        | exact Named_gen_return _
        | exact Named_gen_dec _ _
        | exact Named_gen_call _ _
        | exact Named_gen_arg _
        | exact Named_gen_param _
        | exact Named_gen_read _
        | exact Named_gen_write _
        | exact Named_gen_goto _
        | exact Named_gen_branch _ _ _ _
        | refine Named_seq ?_ (fun _ => ?_)
        | exact hS _
  · intro args ihE ihA
    beta_reduce at ihE ihA
    cases args with
    | one e =>
      rw [translate_Args_one]
      repeat' with_reducible first
        | exact Named_pure _
        | exact Named_fail _ _ _
        | exact Named_get_isref _
        | exact Named_get_ir _
        | exact Named_get_ignore_var
        | exact Named_op_rval _
        | exact Named_Assert _ _
        | exact Named_not_null _
        | exact Named_cast_irvar _
        | exact Named_cast_irlabel _
        | exact Named_new_var
        | exact Named_set_isref _ _
        | exact Named_set_ir _ _
        | exact Named_gen_assign _ _
        | exact Named_gen_add _ _ _
        | exact Named_gen_sub _ _ _
        | exact Named_gen_mul _ _ _
        | exact Named_gen_div _ _ _
        | exact Named_gen_return _
        | exact Named_gen_dec _ _
        | exact Named_gen_call _ _
        | exact Named_gen_arg _
        | exact Named_gen_param _
        | exact Named_gen_read _
        | exact Named_gen_write _
        | exact Named_gen_goto _
        | exact Named_gen_branch _ _ _ _
        | refine Named_seq ?_ (fun _ => ?_)
        | exact ihE _ (by first | (simp_wf; omega) | simp_wf) _
    | cons e rest =>
      rw [translate_Args_cons]
      repeat' with_reducible first
        | exact Named_pure _
        | exact Named_fail _ _ _
        | exact Named_get_isref _
        | exact Named_get_ir _
        | exact Named_get_ignore_var
        | exact Named_op_rval _
        | exact Named_Assert _ _
        | exact Named_not_null _
        | exact Named_cast_irvar _
        | exact Named_cast_irlabel _
        | exact Named_new_var
        | exact Named_set_isref _ _
        | exact Named_set_ir _ _
        | exact Named_gen_assign _ _
        | exact Named_gen_add _ _ _
        | exact Named_gen_sub _ _ _
        | exact Named_gen_mul _ _ _
        | exact Named_gen_div _ _ _
        | exact Named_gen_return _
        | exact Named_gen_dec _ _
        | exact Named_gen_call _ _
        | exact Named_gen_arg _
        | exact Named_gen_param _
        | exact Named_gen_read _
        | exact Named_gen_write _
        | exact Named_gen_goto _
        | exact Named_gen_branch _ _ _ _
        | refine Named_seq ?_ (fun _ => ?_)
        | exact ihE _ (by first | (simp_wf; omega) | simp_wf) _
        | exact ihA _ (by first | (simp_wf; omega) | simp_wf)

theorem Named_translate_Exp (tree : Exp) (target : irvar) :
    Named [] [] (translate_Exp tree target) :=
  Named_translate_Exp_Cond_Args.1 tree target

theorem Named_translate_Cond (tree : Exp) (lt lf : irlabel) : Named [] [] (translate_Cond tree lt lf) :=
  Named_translate_Exp_Cond_Args.2.1 tree lt lf

theorem Named_translate_FunDec_loop (subev : String → Option symbol)
    (args : List (String × type)) : Named [] [] (translate_FunDec_loop subev args) := by
  induction args with
  | nil => exact Named_pure _
  | cons a rest ih =>
    obtain ⟨n, tp⟩ := a
    rw [IRLab.translate_FunDec_loop]
    repeat' with_reducible first
      | exact Named_pure _
      | exact Named_fail _ _ _
      | exact Named_get_isref _
      | exact Named_get_ir _
      | exact Named_get_ignore_var
      | exact Named_op_rval _
      | exact Named_Assert _ _
      | exact Named_not_null _
      | exact Named_cast_irvar _
      | exact Named_cast_irlabel _
      | exact Named_new_var
      | exact Named_set_isref _ _
      | exact Named_set_ir _ _
      | exact Named_gen_assign _ _
      | exact Named_gen_add _ _ _
      | exact Named_gen_sub _ _ _
      | exact Named_gen_mul _ _ _
      | exact Named_gen_div _ _ _
      | exact Named_gen_return _
      | exact Named_gen_dec _ _
      | exact Named_gen_call _ _
      | exact Named_gen_arg _
      | exact Named_gen_param _
      | exact Named_gen_read _
      | exact Named_gen_write _
      | exact Named_gen_goto _
      | exact Named_gen_branch _ _ _ _
      | refine Named_seq ?_ (fun _ => ?_)
      | exact ih
      | split

theorem Named_translate_VarDec (tree : VarDec) :
    Named [] [] (translate_VarDec tree) := by
  unfold IRLab.translate_VarDec
  repeat' with_reducible first
    | exact Named_pure _
    | exact Named_fail _ _ _
    | exact Named_get_isref _
    | exact Named_get_ir _
    | exact Named_get_ignore_var
    | exact Named_op_rval _
    | exact Named_Assert _ _
    | exact Named_not_null _
    | exact Named_cast_irvar _
    | exact Named_cast_irlabel _
    | exact Named_new_var
    | exact Named_set_isref _ _
    | exact Named_set_ir _ _
    | exact Named_gen_assign _ _
    | exact Named_gen_add _ _ _
    | exact Named_gen_sub _ _ _
    | exact Named_gen_mul _ _ _
    | exact Named_gen_div _ _ _
    | exact Named_gen_return _
    | exact Named_gen_dec _ _
    | exact Named_gen_call _ _
    | exact Named_gen_arg _
    | exact Named_gen_param _
    | exact Named_gen_read _
    | exact Named_gen_write _
    | exact Named_gen_goto _
    | exact Named_gen_branch _ _ _ _
    | refine Named_seq ?_ (fun _ => ?_)
    | split

theorem Named_translate_Dec (tree : Dec) :
    Named [] [] (translate_Dec tree) := by
  unfold IRLab.translate_Dec
  repeat' with_reducible first
    | exact Named_pure _
    | exact Named_fail _ _ _
    | exact Named_get_isref _
    | exact Named_get_ir _
    | exact Named_get_ignore_var
    | exact Named_op_rval _
    | exact Named_Assert _ _
    | exact Named_not_null _
    | exact Named_cast_irvar _
    | exact Named_cast_irlabel _
    | exact Named_new_var
    | exact Named_set_isref _ _
    | exact Named_set_ir _ _
    | exact Named_gen_assign _ _
    | exact Named_gen_add _ _ _
    | exact Named_gen_sub _ _ _
    | exact Named_gen_mul _ _ _
    | exact Named_gen_div _ _ _
    | exact Named_gen_return _
    | exact Named_gen_dec _ _
    | exact Named_gen_call _ _
    | exact Named_gen_arg _
    | exact Named_gen_param _
    | exact Named_gen_read _
    | exact Named_gen_write _
    | exact Named_gen_goto _
    | exact Named_gen_branch _ _ _ _
    | refine Named_seq ?_ (fun _ => ?_)
    | exact Named_translate_VarDec _
    | exact Named_translate_Exp _ _
    | split

theorem Named_translate_DecList (tree : DecList) :
    Named [] [] (translate_DecList tree) := by
  induction tree with
  | one d => exact Named_translate_Dec d
  | cons d rest ih =>
    rw [IRLab.translate_DecList]
    exact Named_seq (Named_translate_Dec d) (fun _ => ih)

theorem Named_translate_DefList (tree : DefList) :
    Named [] [] (translate_DefList tree) := by
  induction tree with
  | nil => exact Named_pure _
  | cons d rest ih =>
    rw [IRLab.translate_DefList]
    exact Named_seq (Named_translate_DecList d.decs) (fun _ => ih)

set_option maxHeartbeats 2000000 in
theorem Named_translate_Stmt_all :
    (∀ tree, Named [] [] (translate_Stmt tree)) ∧
    (∀ tree, Named [] [] (translate_CompSt tree)) ∧
    (∀ tree, Named [] [] (translate_StmtList tree)) := by
  apply stmt_induction
  case hIF =>
    intro c s ih
    rw [IRLab.translate_Stmt]
    refine Named_new_label (fun lt => Named_new_label (fun lf => ?_))
    apply Named_perm
    · repeat' with_reducible first
      | exact Named_pure _
      | exact Named_fail _ _ _
      | exact Named_get_isref _
      | exact Named_get_ir _
      | exact Named_get_ignore_var
      | exact Named_op_rval _
      | exact Named_Assert _ _
      | exact Named_not_null _
      | exact Named_cast_irvar _
      | exact Named_cast_irlabel _
      | exact Named_new_var
      | exact Named_set_isref _ _
      | exact Named_set_ir _ _
      | exact Named_gen_assign _ _
      | exact Named_gen_add _ _ _
      | exact Named_gen_sub _ _ _
      | exact Named_gen_mul _ _ _
      | exact Named_gen_div _ _ _
      | exact Named_gen_return _
      | exact Named_gen_dec _ _
      | exact Named_gen_call _ _
      | exact Named_gen_arg _
      | exact Named_gen_param _
      | exact Named_gen_read _
      | exact Named_gen_write _
      | exact Named_gen_goto _
      | exact Named_gen_branch _ _ _ _
      | exact Named_gen_label _
        | apply Named_bind_labels
      | intro _
      | exact Named_translate_Cond _ _ _
      | exact ih
    · exact List.Perm.swap _ _ _
  case hIF_ELSE =>
    intro c s1 s2 ih1 ih2
    rw [IRLab.translate_Stmt]
    refine Named_new_label (fun lt => Named_new_label (fun lf =>
      Named_new_label (fun le => ?_)))
    apply Named_perm
    · repeat' with_reducible first
      | exact Named_pure _
      | exact Named_fail _ _ _
      | exact Named_get_isref _
      | exact Named_get_ir _
      | exact Named_get_ignore_var
      | exact Named_op_rval _
      | exact Named_Assert _ _
      | exact Named_not_null _
      | exact Named_cast_irvar _
      | exact Named_cast_irlabel _
      | exact Named_new_var
      | exact Named_set_isref _ _
      | exact Named_set_ir _ _
      | exact Named_gen_assign _ _
      | exact Named_gen_add _ _ _
      | exact Named_gen_sub _ _ _
      | exact Named_gen_mul _ _ _
      | exact Named_gen_div _ _ _
      | exact Named_gen_return _
      | exact Named_gen_dec _ _
      | exact Named_gen_call _ _
      | exact Named_gen_arg _
      | exact Named_gen_param _
      | exact Named_gen_read _
      | exact Named_gen_write _
      | exact Named_gen_goto _
      | exact Named_gen_branch _ _ _ _
      | exact Named_gen_label _
        | apply Named_bind_labels
      | intro _
      | exact Named_translate_Cond _ _ _
      | exact ih1
      | exact ih2
    · simp only [List.nil_append, List.singleton_append, List.append_nil]
      exact List.reverse_perm [le, lf, lt]
  case hWHILE =>
    intro c s ih
    rw [IRLab.translate_Stmt]
    refine Named_new_label (fun lt => Named_new_label (fun lf =>
      Named_new_label (fun ls => ?_)))
    apply Named_perm
    · repeat' with_reducible first
      | exact Named_pure _
      | exact Named_fail _ _ _
      | exact Named_get_isref _
      | exact Named_get_ir _
      | exact Named_get_ignore_var
      | exact Named_op_rval _
      | exact Named_Assert _ _
      | exact Named_not_null _
      | exact Named_cast_irvar _
      | exact Named_cast_irlabel _
      | exact Named_new_var
      | exact Named_set_isref _ _
      | exact Named_set_ir _ _
      | exact Named_gen_assign _ _
      | exact Named_gen_add _ _ _
      | exact Named_gen_sub _ _ _
      | exact Named_gen_mul _ _ _
      | exact Named_gen_div _ _ _
      | exact Named_gen_return _
      | exact Named_gen_dec _ _
      | exact Named_gen_call _ _
      | exact Named_gen_arg _
      | exact Named_gen_param _
      | exact Named_gen_read _
      | exact Named_gen_write _
      | exact Named_gen_goto _
      | exact Named_gen_branch _ _ _ _
      | exact Named_gen_label _
        | apply Named_bind_labels
      | intro _
      | exact Named_translate_Cond _ _ _
      | exact ih
    · simp only [List.nil_append, List.singleton_append, List.append_nil]
      exact List.Perm.cons _ (List.Perm.swap _ _ _)
  all_goals intros
  all_goals first
    | rw [IRLab.translate_Stmt]
    | rw [IRLab.translate_CompSt]
    | rw [IRLab.translate_StmtList]
  all_goals repeat' with_reducible first
    | exact Named_pure _
    | exact Named_fail _ _ _
    | exact Named_get_isref _
    | exact Named_get_ir _
    | exact Named_get_ignore_var
    | exact Named_op_rval _
    | exact Named_Assert _ _
    | exact Named_not_null _
    | exact Named_cast_irvar _
    | exact Named_cast_irlabel _
    | exact Named_new_var
    | exact Named_set_isref _ _
    | exact Named_set_ir _ _
    | exact Named_gen_assign _ _
    | exact Named_gen_add _ _ _
    | exact Named_gen_sub _ _ _
    | exact Named_gen_mul _ _ _
    | exact Named_gen_div _ _ _
    | exact Named_gen_return _
    | exact Named_gen_dec _ _
    | exact Named_gen_call _ _
    | exact Named_gen_arg _
    | exact Named_gen_param _
    | exact Named_gen_read _
    | exact Named_gen_write _
    | exact Named_gen_goto _
    | exact Named_gen_branch _ _ _ _
    | refine Named_seq ?_ (fun _ => ?_)
    | exact Named_translate_Exp _ _
    | exact Named_translate_DefList _
    | apply_assumption
    | split

theorem Named_translate_CompSt (tree : CompSt) :
    Named [] [] (translate_CompSt tree) :=
  Named_translate_Stmt_all.2.1 tree
theorem Named_translate_FunDec (tree : FunDec) :
    Named [] (tree.sym.map symbol.name).toList (translate_FunDec tree) := by
  intro s a s' h
  unfold translate_FunDec at h
  obtain ⟨sym, s1, h1, h⟩ := IRM.bind_ok_iff.mp h
  obtain ⟨label, s2, h2, h⟩ := IRM.bind_ok_iff.mp h
  obtain ⟨u3, s3, h3, h⟩ := IRM.bind_ok_iff.mp h
  obtain ⟨u4, s4, h4, h⟩ := IRM.bind_ok_iff.mp h
  cases hs : tree.sym with
  | none => rw [hs] at h1; cases h1
  | some sy =>
    rw [hs] at h1
    cases h1
    obtain ⟨rfl, rfl⟩ := new_named_label_ok_iff.mp h2
    rw [set_ir_ok_iff] at h3
    subst h3
    rw [gen_func_ok_iff] at h4
    subst h4
    obtain ⟨new, e, le, w, g⟩ := Named_translate_FunDec_loop _ _ _ _ _ h
    refine ⟨new ++ [⟨.Func ⟨s.label_alloc, sym.name⟩, false⟩], by simp [e], le, ?_, ?_⟩
    · rw [label_names_append]
      simpa [label_names, ircode.label_name] using w
    · rw [func_names_append, g]
      simp [func_names, ircode.func_name]

theorem Named_translate_ExtDef (tree : ExtDef) :
    Named [] tree.function_name.reverse (translate_ExtDef tree) := by
  cases tree with
  | ExtDecList => rw [IRLab.translate_ExtDef]; exact Named_fail _ _ _
  | SEMI => rw [IRLab.translate_ExtDef]; exact Named_pure _
  | FunDef f body =>
    rw [IRLab.translate_ExtDef]
    have h := Named_bind (Named_translate_FunDec f) (fun _ => Named_translate_CompSt body)
    have e : (ExtDef.FunDef f body).function_name.reverse = (f.sym.map symbol.name).toList := by
      cases hs : f.sym <;> simp [ExtDef.function_name, hs]
    rw [e]
    simpa using h
  | FunDecl f =>
    rw [IRLab.translate_ExtDef]
    intro s a s' h
    obtain ⟨_, _, _, h2⟩ := IRM.bind_ok_iff.mp h
    cases h2

theorem Named_translate_ExtDefList (tree : ExtDefList) :
    Named [] tree.function_names.reverse (translate_ExtDefList tree) := by
  induction tree with
  | nil => exact Named_pure _
  | cons d rest ih =>
    rw [IRLab.translate_ExtDefList]
    have h := Named_bind (Named_translate_ExtDef d) (fun _ => ih)
    simpa [ExtDefList.function_names] using h

theorem Named_translate_Program (tree : Program) :
    Named [] tree.defs.function_names.reverse (translate_Program tree) :=
  Named_translate_ExtDefList tree.defs

/-- The label and function lines together. -/
theorem def_names_perm (code : List ircode) :
    (def_names code).Perm (label_names code ++ func_names code) := by
  induction code with
  | nil => exact List.Perm.refl _
  | cons c rest ih =>
    obtain ⟨ins, ig⟩ := c
    have ih' : ((label_defs rest).map irlabel.name).Perm
        (label_names rest ++ func_names rest) := ih
    cases ins <;>
      simp only [def_names, label_defs, ircode.defs, label_names, func_names, ircode.label_name,
        ircode.func_name, List.nil_append, List.map_append, List.map_cons, List.map_nil,
        List.singleton_append, List.cons_append]
    case Label l => exact List.Perm.cons _ ih'
    case Func l => exact (List.Perm.cons _ ih').trans List.perm_middle.symm
    all_goals exact ih'

set_option maxRecDepth 10000 in
theorem ir_run_prog_l1 : ir_run prog_l1 = .ok ast_l1 := by
  simp only [prog_l1, ir_run, ir_main, ir_prepare, ir_translate, translate_Program,
    translate_ExtDefList, translate_ExtDef, translate_FunDec, translate_CompSt, translate_DefList,
    translate_StmtList, translate_Stmt, translate_Exp_INT, translate_Exp_CALL0,
    translate_Cond_RELOP, IRM.bind_apply, IRM.pure_apply, bind, pure, new_var,
    new_label, not_null, new_named_label, sym_main, sym_l1, set_ir, get_ir,
    gen_func, gen_param, push_ircode, translate_FunDec_loop, type.args, symlist.toList,
    Emitter.init, gen_assign, op_var, op_const, op_rval, op_deref, irop.kind, gen_return, type.cls,
    get_ignore_var, cast_irvar, cast_irlabel, set_isref, get_isref, gen_call, gen_read, gen_label,
    gen_goto, gen_branch, AssertVar, Assert, IRM.fail, Function.update]
  simp
  rfl

/-- Claim C28 fails as stated: in the first translation of
`int l1() { return 0; } int main() { if (l1() > 0) return 1; return 0; }` the
name `l1` is printed in the line `FUNCTION l1 :` and in the line `LABEL l1 :`. -/
theorem function_named_like_label :
    ir_run prog_l1 = .ok ast_l1 ∧
    ir_linearise ast_l1 =
      "FUNCTION l1 :\nt2 := #0\nt3 := t2\nRETURN t3\nFUNCTION main :\nt4 := CALL l1\nt5 := #0\nIF t4 > t5 GOTO l1\nGOTO l2\nLABEL l1 :\nt6 := #1\nt7 := t6\nRETURN t7\nLABEL l2 :\nt8 := #0\nt9 := t8\nRETURN t9\n" ∧
    def_names ast_l1.codes = ["l1", "main", "l1", "l2"] ∧
    ¬ (def_names ast_l1.codes).Nodup := by
  refine ⟨ir_run_prog_l1, rfl, rfl, ?_⟩
  have e : def_names ast_l1.codes = ["l1", "main", "l1", "l2"] := rfl
  rw [e]
  decide

/-- Claim C28, amended: in the instruction array of a completed translation the
names of the `LABEL` lines are exactly the names `l<n>` that `new_label` minted
during the translation, each once, so no name occurs in two `LABEL` lines; the
names of the `FUNCTION` lines are the names of the functions of the program, in
source order; hence no name occurs in more than one `LABEL` or `FUNCTION` line
provided the functions of the program have pairwise different names, none of
the form `l<n>`. -/
theorem label_names_unique (tree : Program) (s : Emitter) (a : ast) (s' : Emitter)
    (h : ir_main tree s = .ok (a, s')) :
    (label_names a.codes).Perm (minted_names s.count (s'.count - s.count).toNat) ∧
    (label_names a.codes).Nodup ∧
    func_names a.codes = tree.defs.function_names ∧
    (tree.defs.function_names.Nodup →
      (∀ n ∈ tree.defs.function_names, ∀ k : Int, n ≠ "l" ++ toString k) →
      (def_names a.codes).Nodup) ∧
    (∀ l : irlabel, print_ircode ⟨.Label l, false⟩ = "LABEL " ++ l.name ++ " :\n" ∧
      print_ircode ⟨.Func l, false⟩ = "FUNCTION " ++ l.name ++ " :\n") := by
  have hcodes := (ir_main_array h).1
  unfold ir_main at h
  obtain ⟨u, s1, h1, h2⟩ := IRM.bind_ok_iff.mp h
  obtain ⟨h0, rfl⟩ := ir_prepare_ok h1
  obtain ⟨h3, _⟩ := ir_translate_ok h2
  obtain ⟨new, e, le, w, g⟩ := Named_translate_Program tree _ _ _ h3
  simp only [List.append_nil, List.map_nil, List.nil_append] at e w
  have hl : (label_names a.codes).Perm (minted_names s.count (s'.count - s.count).toNat) := by
    rw [hcodes, e]
    exact (label_names_reverse new).trans w
  have hf : func_names a.codes = tree.defs.function_names := by
    rw [hcodes, e, func_names_reverse, g, List.reverse_reverse]
  have hn : (label_names a.codes).Nodup := hl.nodup_iff.mpr (minted_names_nodup _ _)
  refine ⟨hl, hn, hf, ?_, fun l => ⟨rfl, rfl⟩⟩
  intro hd hk
  rw [(def_names_perm a.codes).nodup_iff, List.nodup_append, hf]
  refine ⟨hn, hd, ?_⟩
  intro n h1 h2
  obtain ⟨k, _, _, hk'⟩ := mem_minted_names _ _ _ (hl.mem_iff.mp h1)
  exact hk n h2 k hk'

/-- Witness of claim C28, amended, on the sample program, whose only function
is `main`: the translation completes and the names of its `LABEL` and
`FUNCTION` lines are pairwise different. -/
theorem label_names_unique_witness :
    ir_run prog_if = .ok ast_if ∧ (label_names ast_if.codes).Nodup ∧
    func_names ast_if.codes = ["main"] ∧ (def_names ast_if.codes).Nodup := by
  obtain ⟨s', h⟩ := ir_run_ok ir_run_prog_if
  have w := label_names_unique prog_if Emitter.init ast_if s' h
  refine ⟨ir_run_prog_if, w.2.1, w.2.2.1, w.2.2.2.1 ?_ ?_⟩
  · simp [prog_if, ExtDefList.function_names, ExtDef.function_name, sym_main]
  · intro n hn k hk
    simp only [prog_if, ExtDefList.function_names, ExtDef.function_name, sym_main, Option.map,
      Option.toList, List.append_nil, List.mem_singleton] at hn
    rw [hn] at hk
    have hd := congrArg String.data hk
    rw [String.data_append] at hd
    exact absurd (List.head_eq_of_cons_eq hd) (by decide)

/-! ## The targets of the calls of `translate_Exp` -/

theorem dest_mem_vars {ins : irins} {v : irvar} (h : ins.dest = some v) : v ∈ ins.vars := by
  cases ins with
  | Assign l r => cases l <;> simp_all [irins.dest, irins.vars, irop.vars]
  | Add t a b => cases t <;> simp_all [irins.dest, irins.vars, irop.vars]
  | Sub t a b => cases t <;> simp_all [irins.dest, irins.vars, irop.vars]
  | Mul t a b => cases t <;> simp_all [irins.dest, irins.vars, irop.vars]
  | Div t a b => cases t <;> simp_all [irins.dest, irins.vars, irop.vars]
  | Call r l => cases r <;> simp_all [irins.dest, irins.vars, irop.vars]
  | Read r => cases r <;> simp_all [irins.dest, irins.vars, irop.vars]
  | _ => simp [irins.dest] at h

theorem nth_var_injective {j k : Nat} (h : nth_var j = nth_var k) : j = k := by
  have h1 := congrArg irvar.id h
  simp only [nth_var, Nat.cast_inj] at h1
  exact h1

theorem nth_var_not_mem (n : Nat) : nth_var (n + 1) ∉ vars_upto n := by
  intro h
  obtain ⟨k, _, hk, e⟩ := mem_vars_upto h
  have := nth_var_injective e
  omega

theorem vars_upto_nodup (n : Nat) : (vars_upto n).Nodup := by
  induction n with
  | zero => exact List.nodup_nil
  | succ n ih => exact List.nodup_cons.mpr ⟨nth_var_not_mem n, ih⟩

theorem Refs_mono {V W : Set irvar} {s : Emitter} (h : ∀ v, v ∈ V → v ∈ W)
    (hs : s.Refs V) : s.Refs W :=
  ⟨fun c hc v hv => h v (hs.irs c hc v hv), fun a v hv => h v (hs.sym_ir a v hv),
    fun v hv => h v (hs.ignore_var v hv), fun l => h _ (hs.label_as_var l)⟩

theorem known_vars_mono {vars new : List irvar} {v : irvar} (h : v ∈ known_vars vars) :
    v ∈ known_vars (new ++ vars) := by
  rcases h with h | h
  · exact Or.inl (List.mem_append_right _ h)
  · exact Or.inr h

/-- A variable of the table of a state is none of the variables allocated
later. -/
theorem VarsOK_not_mem_new {s s' : Emitter} {new : List irvar} {u : irvar}
    (hs : s'.VarsOK) (e : s'.vars = new ++ s.vars) (hu : u ∈ s.vars) : u ∉ new := by
  have hn : (new ++ s.vars).Nodup := by
    rw [← e, hs.vars]
    exact vars_upto_nodup _
  exact fun h => (List.nodup_append.mp hn).2.2 h hu

/-- What a complete call keeps: the state stays a state of a translation, and a
variable of the table to which the state does not refer stays so, when it is in
every set that contains the variables the call is given. -/
theorem Sound_step {α : Type} {x : IRM α} {Q : α → Prop} {P : Set irvar → Prop}
    (hV : Holds (fun s s' => s.VarsOK → s'.VarsOK) (fun _ => True) x)
    (hE : Holds Emitter.Extends (fun e => e ≠ .wrong_op_type) x)
    (hT : ∀ V, Tracks V (P V) x Q) {s : Emitter} {a : α} {s' : Emitter}
    (hx : x s = .ok (a, s')) (hs : s.Sound) (hP : P (known_vars s'.vars)) :
    s'.Sound ∧ (∃ new, s'.vars = new ++ s.vars) ∧
      ∀ u, P {w | w ≠ u} → s.Target u → s'.Target u := by
  have hv' : s'.VarsOK := (hV s).1 a s' hx hs.vars
  have he : s.Extends s' := (hE s).1 a s' hx
  obtain ⟨new, e⟩ := he.vars
  refine ⟨⟨hv', ?_, ?_⟩, ⟨new, e⟩, ?_⟩
  · refine ((hT _ s a s' hx).2 (fun n en v hv => Or.inl ?_) (Refs_mono ?_ hs.refs) hP).1
    · rw [en]; exact List.mem_append_left _ hv
    · intro v hv; rw [e]; exact known_vars_mono hv
  · intro t ht
    rw [he.ignore_var] at ht
    rw [e]
    exact List.mem_append_right _ (hs.ignore_var t ht)
  · rintro u hPu ⟨hu, hr⟩
    refine ⟨by rw [e]; exact List.mem_append_right _ hu, ?_⟩
    rcases hr with hr | hr
    · exact Or.inl (he.ignore_var.trans hr)
    · refine Or.inr ((hT _ s a s' hx).2 (fun n en v hv => ?_) hr hPu).1
      show v ≠ u
      intro hvu
      have en' : n = new := List.append_cancel_right (en.symm.trans e)
      exact VarsOK_not_mem_new hv' e hu (en' ▸ hvu ▸ hv)

theorem Sound_Exp {tree : Exp} {target : irvar} {s s' : Emitter}
    (hx : translate_Exp tree target s = .ok ((), s')) (hs : s.Sound) (ht : target ∈ s.vars) :
    s'.Sound ∧ (∃ new, s'.vars = new ++ s.vars) ∧
      ∀ u, target ≠ u → s.Target u → s'.Target u := by
  obtain ⟨new, e⟩ := ((Holds_translate_Exp Prims_Extends tree target s).1 _ _ hx).vars
  exact @Sound_step Unit _ _ (fun V => target ∈ V) (Holds_translate_Exp Prims_VarsOK tree target)
    (Holds_translate_Exp Prims_Extends tree target)
    (fun V => Tracks_translate_Exp tree target (fun h => h)) s () s' hx hs
    (Or.inl (by rw [e]; exact List.mem_append_right _ ht))

theorem Sound_plain {x : IRM Unit}
    (hV : Holds (fun s s' => s.VarsOK → s'.VarsOK) (fun _ => True) x)
    (hE : Holds Emitter.Extends (fun e => e ≠ .wrong_op_type) x)
    (hT : ∀ V, Tracks V True x (fun _ => True)) {s s' : Emitter}
    (hx : x s = .ok ((), s')) (hs : s.Sound) : s'.Sound :=
  (@Sound_step Unit x _ (fun _ => True) hV hE hT s () s' hx hs trivial).1

theorem Sound_Cond {tree : Exp} {lt lf : irlabel} {s s' : Emitter}
    (hx : translate_Cond tree lt lf s = .ok ((), s')) (hs : s.Sound) : s'.Sound :=
  Sound_plain (Holds_translate_Cond Prims_VarsOK tree lt lf)
    (Holds_translate_Cond Prims_Extends tree lt lf) (fun _ => Tracks_translate_Cond tree lt lf)
    hx hs

theorem Sound_Stmt {tree : Stmt} {s s' : Emitter}
    (hx : translate_Stmt tree s = .ok ((), s')) (hs : s.Sound) : s'.Sound :=
  Sound_plain (Holds_translate_Stmt Prims_VarsOK tree) (Holds_translate_Stmt Prims_Extends tree)
    (fun _ => Tracks_translate_Stmt_all.1 tree True) hx hs

theorem Sound_DefList {tree : DefList} {s s' : Emitter}
    (hx : translate_DefList tree s = .ok ((), s')) (hs : s.Sound) : s'.Sound :=
  Sound_plain (Holds_translate_DefList Prims_VarsOK tree)
    (Holds_translate_DefList Prims_Extends tree) (fun _ => Tracks_translate_DefList tree True)
    hx hs

theorem Sound_DecList {tree : DecList} {s s' : Emitter}
    (hx : translate_DecList tree s = .ok ((), s')) (hs : s.Sound) : s'.Sound :=
  Sound_plain (Holds_translate_DecList Prims_VarsOK tree)
    (Holds_translate_DecList Prims_Extends tree) (fun _ => Tracks_translate_DecList tree True)
    hx hs

theorem Sound_Dec {tree : Dec} {s s' : Emitter}
    (hx : translate_Dec tree s = .ok ((), s')) (hs : s.Sound) : s'.Sound :=
  Sound_plain (Holds_translate_Dec Prims_VarsOK tree) (Holds_translate_Dec Prims_Extends tree)
    (fun _ => Tracks_translate_Dec tree) hx hs

theorem Sound_VarDec {tree : VarDec} {s s' : Emitter}
    (hx : translate_VarDec tree s = .ok ((), s')) (hs : s.Sound) : s'.Sound :=
  Sound_plain (Holds_translate_VarDec Prims_VarsOK tree)
    (Holds_translate_VarDec Prims_Extends tree) (fun _ => Tracks_translate_VarDec tree) hx hs

theorem Sound_FunDec {tree : FunDec} {s s' : Emitter}
    (hx : translate_FunDec tree s = .ok ((), s')) (hs : s.Sound) : s'.Sound :=
  Sound_plain (Holds_translate_FunDec Prims_VarsOK tree)
    (Holds_translate_FunDec Prims_Extends tree) (fun _ => Tracks_translate_FunDec tree) hx hs

theorem Sound_ExtDef {tree : ExtDef} {s s' : Emitter}
    (hx : translate_ExtDef tree s = .ok ((), s')) (hs : s.Sound) : s'.Sound :=
  Sound_plain (Holds_translate_ExtDef Prims_VarsOK tree)
    (Holds_translate_ExtDef Prims_Extends tree) (fun _ => Tracks_translate_ExtDef tree) hx hs

/-- After `new_var` the new variable can be a target, and so can every variable
that could before. -/
theorem Sound_new_var {s : Emitter} {v : irvar} {s1 : Emitter}
    (hx : new_var s = .ok (v, s1)) (hs : s.Sound) :
    s1.Sound ∧ s1.Target v ∧ v ∉ s.vars ∧ s1.vars = v :: s.vars ∧
      ∀ u, s.Target u → s1.Target u := by
  obtain ⟨hv, hvars, hs1⟩ := hs.vars.new_var hx
  obtain ⟨_, _, e1⟩ := new_var_ok_iff.mp hx
  have hfresh : v ∉ s.vars := by
    have h := nth_var_not_mem s.vars.length
    rw [← hs.vars.vars, ← hv] at h
    exact h
  have hne : ∀ w, w ∈ known_vars s.vars → w ≠ v := by
    rintro w (hw | hw) rfl
    · exact hfresh hw
    · exact hw _ hv
  have hrefs : ∀ V : Set irvar, s.Refs V → s1.Refs V := by
    intro V h
    rw [e1]
    exact ⟨h.irs, h.sym_ir, h.ignore_var, h.label_as_var⟩
  have hig : s1.ignore_var = s.ignore_var := by rw [e1]
  refine ⟨⟨hs1, ?_, ?_⟩, ⟨?_, Or.inr ?_⟩, hfresh, hvars, ?_⟩
  · rw [hvars]
    exact hrefs _ (Refs_mono (fun w hw => @known_vars_mono s.vars [v] w hw) hs.refs)
  · intro t ht
    rw [hvars]
    exact List.mem_cons_of_mem _ (hs.ignore_var t (hig ▸ ht))
  · rw [hvars]; exact List.mem_cons_self _ _
  · exact hrefs _ (Refs_mono hne hs.refs)
  · rintro u ⟨hu, hr⟩
    refine ⟨by rw [hvars]; exact List.mem_cons_of_mem _ hu, ?_⟩
    rcases hr with hr | hr
    · exact Or.inl (hig.trans hr)
    · exact Or.inr (hrefs _ hr)

theorem Sound_new_label {s : Emitter} {l : irlabel} {s1 : Emitter}
    (hx : new_label s = .ok (l, s1)) (hs : s.Sound) : s1.Sound ∧ s1.vars = s.vars := by
  obtain ⟨_, _, rfl⟩ := new_label_ok_iff.mp hx
  exact ⟨⟨⟨hs.vars.count, hs.vars.vars⟩,
    ⟨hs.refs.irs, hs.refs.sym_ir, hs.refs.ignore_var, hs.refs.label_as_var⟩, hs.ignore_var⟩, rfl⟩

theorem Sound_emit {s : Emitter} (ins : irins) (hs : s.Sound)
    (hv : ∀ v ∈ ins.vars, v ∈ s.vars) : (s.emit ins).Sound := by
  refine ⟨⟨hs.vars.count, hs.vars.vars⟩, ⟨?_, hs.refs.sym_ir, hs.refs.ignore_var,
    hs.refs.label_as_var⟩, hs.ignore_var⟩
  intro c hc v hvc
  rcases List.mem_cons.mp hc with rfl | hc
  · exact Or.inl (hv v hvc)
  · exact hs.refs.irs c hc v hvc

/-- Every call that a translation enters is entered in a state of a translation,
and the target of every call of `translate_Exp` is in the table and is
`ignore_var` or a variable to which the state does not refer yet. -/
theorem Calls_sound {c0 : Call} {s0 : Emitter} {c : Call} {s : Emitter}
    (h : Calls c0 s0 c s) (h0 : s0.Sound) (ht0 : ∀ e t, c0 = .exp e t → s0.Target t) :
    s.Sound ∧ ∀ e t, c = .exp e t → s.Target t := by
  induction h with
  | root => exact ⟨h0, ht0⟩
  | program _ ih => exact ⟨ih.1, nofun⟩
  | extdeflist_head _ ih => exact ⟨ih.1, nofun⟩
  | extdeflist_tail _ h1 ih => exact ⟨Sound_ExtDef h1 ih.1, nofun⟩
  | extdef_body _ h1 ih => exact ⟨Sound_FunDec h1 ih.1, nofun⟩
  | compst_defs _ ih => exact ⟨ih.1, nofun⟩
  | compst_stmts _ h1 ih => exact ⟨Sound_DefList h1 ih.1, nofun⟩
  | deflist_head _ ih => exact ⟨ih.1, nofun⟩
  | deflist_tail _ h1 ih => exact ⟨Sound_DecList h1 ih.1, nofun⟩
  | declist_one _ ih => exact ⟨ih.1, nofun⟩
  | declist_head _ ih => exact ⟨ih.1, nofun⟩
  | declist_tail _ h1 ih => exact ⟨Sound_Dec h1 ih.1, nofun⟩
  | dec_init _ h1 _ h3 ih =>
    obtain ⟨a, b, _⟩ := Sound_new_var h3 (Sound_VarDec h1 ih.1)
    exact ⟨a, fun e t h => by cases h; exact b⟩
  | stmtlist_head _ ih => exact ⟨ih.1, nofun⟩
  | stmtlist_tail _ h1 ih => exact ⟨Sound_Stmt h1 ih.1, nofun⟩
  | stmt_exp _ h1 ih =>
    exact ⟨ih.1, fun e t h => by cases h; exact ⟨ih.1.ignore_var _ h1, Or.inl h1⟩⟩
  | stmt_compst _ ih => exact ⟨ih.1, nofun⟩
  | stmt_return _ h1 ih =>
    obtain ⟨a, b, _⟩ := Sound_new_var h1 ih.1
    exact ⟨a, fun e t h => by cases h; exact b⟩
  | if_cond _ h1 h2 ih =>
    exact ⟨(Sound_new_label h2 (Sound_new_label h1 ih.1).1).1, nofun⟩
  | if_body _ h1 h2 h3 ih =>
    exact ⟨Sound_emit _ (Sound_Cond h3 (Sound_new_label h2 (Sound_new_label h1 ih.1).1).1)
      (fun v hv => by simp [irins.vars] at hv), nofun⟩
  | if_else_cond _ h1 h2 h3 ih =>
    exact ⟨(Sound_new_label h3 (Sound_new_label h2 (Sound_new_label h1 ih.1).1).1).1, nofun⟩
  | if_else_then _ h1 h2 h3 h4 ih =>
    exact ⟨Sound_emit _ (Sound_Cond h4
      (Sound_new_label h3 (Sound_new_label h2 (Sound_new_label h1 ih.1).1).1).1)
      (fun v hv => by simp [irins.vars] at hv), nofun⟩
  | if_else_else _ h1 h2 h3 h4 h5 ih =>
    have a := Sound_Stmt h5 (Sound_emit _ (Sound_Cond h4
      (Sound_new_label h3 (Sound_new_label h2 (Sound_new_label h1 ih.1).1).1).1)
      (fun v hv => by simp [irins.vars] at hv))
    exact ⟨Sound_emit _ (Sound_emit _ a (fun v hv => by simp [irins.vars] at hv))
      (fun v hv => by simp [irins.vars] at hv), nofun⟩
  | while_cond _ h1 h2 h3 ih =>
    exact ⟨Sound_emit _ (Sound_new_label h3 (Sound_new_label h2 (Sound_new_label h1 ih.1).1).1).1
      (fun v hv => by simp [irins.vars] at hv), nofun⟩
  | while_body _ h1 h2 h3 h4 ih =>
    exact ⟨Sound_emit _ (Sound_Cond h4 (Sound_emit _
      (Sound_new_label h3 (Sound_new_label h2 (Sound_new_label h1 ih.1).1).1).1
      (fun v hv => by simp [irins.vars] at hv))) (fun v hv => by simp [irins.vars] at hv), nofun⟩
  | neg _ h1 ih =>
    obtain ⟨a, b, _⟩ := Sound_new_var h1 ih.1
    exact ⟨a, fun e t h => by cases h; exact b⟩
  | lp _ ih => exact ⟨ih.1, fun e t h => by cases h; exact ih.2 _ _ rfl⟩
  | dot _ h1 ih =>
    obtain ⟨a, b, _⟩ := Sound_new_var h1 ih.1
    exact ⟨a, fun e t h => by cases h; exact b⟩
  | assign_id _ _ h2 ih =>
    obtain ⟨a, b, _⟩ := Sound_new_var h2 ih.1
    exact ⟨a, fun e t h => by cases h; exact b⟩
  | assign_index_left _ h1 h2 ih =>
    obtain ⟨a1, b1, _⟩ := Sound_new_var h1 ih.1
    obtain ⟨a2, _, _, _, k2⟩ := Sound_new_var h2 a1
    exact ⟨a2, fun e t h => by cases h; exact k2 _ b1⟩
  | assign_index_right _ h1 h2 h3 _ ih =>
    obtain ⟨a1, b1, _⟩ := Sound_new_var h1 ih.1
    obtain ⟨a2, b2, f2, _, k2⟩ := Sound_new_var h2 a1
    obtain ⟨a3, _, k3⟩ := Sound_Exp h3 a2 (k2 _ b1).1
    exact ⟨a3, fun e t h => by
      cases h; exact k3 _ (fun e => f2 (e ▸ b1.1)) b2⟩
  | assign_dot_left _ h1 h2 ih =>
    obtain ⟨a1, b1, _⟩ := Sound_new_var h1 ih.1
    obtain ⟨a2, _, _, _, k2⟩ := Sound_new_var h2 a1
    exact ⟨a2, fun e t h => by cases h; exact k2 _ b1⟩
  | assign_dot_right _ h1 h2 h3 _ ih =>
    obtain ⟨a1, b1, _⟩ := Sound_new_var h1 ih.1
    obtain ⟨a2, b2, f2, _, k2⟩ := Sound_new_var h2 a1
    obtain ⟨a3, _, k3⟩ := Sound_Exp h3 a2 (k2 _ b1).1
    exact ⟨a3, fun e t h => by
      cases h; exact k3 _ (fun e => f2 (e ▸ b1.1)) b2⟩
  | arith_left _ _ h1 h2 ih =>
    obtain ⟨a1, b1, _⟩ := Sound_new_var h1 ih.1
    obtain ⟨a2, _, _, _, k2⟩ := Sound_new_var h2 a1
    exact ⟨a2, fun e t h => by cases h; exact k2 _ b1⟩
  | arith_right _ _ h1 h2 h3 ih =>
    obtain ⟨a1, b1, _⟩ := Sound_new_var h1 ih.1
    obtain ⟨a2, b2, f2, _, k2⟩ := Sound_new_var h2 a1
    obtain ⟨a3, _, k3⟩ := Sound_Exp h3 a2 (k2 _ b1).1
    exact ⟨a3, fun e t h => by
      cases h; exact k3 _ (fun e => f2 (e ▸ b1.1)) b2⟩
  | call_args _ _ ih => exact ⟨ih.1, nofun⟩
  | index_base _ h1 ih =>
    obtain ⟨a, b, _⟩ := Sound_new_var h1 ih.1
    exact ⟨a, fun e t h => by cases h; exact b⟩
  | index_index _ h1 h2 _ h4 ih =>
    obtain ⟨a1, b1, _⟩ := Sound_new_var h1 ih.1
    obtain ⟨a2, _, _⟩ := Sound_Exp h2 a1 b1.1
    obtain ⟨a3, b3, _⟩ := Sound_new_var h4 a2
    exact ⟨a3, fun e t h => by cases h; exact b3⟩
  | value_and _ h1 h2 ih =>
    obtain ⟨a1, e1⟩ := Sound_new_label h1 ih.1
    obtain ⟨a2, e2⟩ := Sound_new_label h2 a1
    refine ⟨Sound_emit _ a2 (fun v hv => ?_), nofun⟩
    simp only [irins.vars, irop.vars, List.append_nil, List.mem_singleton] at hv
    rw [hv, e2, e1]
    exact (ih.2 _ _ rfl).1
  | value_or _ h1 h2 ih =>
    obtain ⟨a1, e1⟩ := Sound_new_label h1 ih.1
    obtain ⟨a2, e2⟩ := Sound_new_label h2 a1
    refine ⟨Sound_emit _ a2 (fun v hv => ?_), nofun⟩
    simp only [irins.vars, irop.vars, List.append_nil, List.mem_singleton] at hv
    rw [hv, e2, e1]
    exact (ih.2 _ _ rfl).1
  | value_relop _ h1 h2 ih =>
    obtain ⟨a1, e1⟩ := Sound_new_label h1 ih.1
    obtain ⟨a2, e2⟩ := Sound_new_label h2 a1
    refine ⟨Sound_emit _ a2 (fun v hv => ?_), nofun⟩
    simp only [irins.vars, irop.vars, List.append_nil, List.mem_singleton] at hv
    rw [hv, e2, e1]
    exact (ih.2 _ _ rfl).1
  | cond_not _ ih => exact ⟨ih.1, nofun⟩
  | cond_lp _ ih => exact ⟨ih.1, nofun⟩
  | cond_and_left _ h1 ih => exact ⟨(Sound_new_label h1 ih.1).1, nofun⟩
  | cond_and_right _ h1 h2 ih =>
    exact ⟨Sound_emit _ (Sound_Cond h2 (Sound_new_label h1 ih.1).1)
      (fun v hv => by simp [irins.vars] at hv), nofun⟩
  | cond_or_left _ h1 ih => exact ⟨(Sound_new_label h1 ih.1).1, nofun⟩
  | cond_or_right _ h1 h2 ih =>
    exact ⟨Sound_emit _ (Sound_Cond h2 (Sound_new_label h1 ih.1).1)
      (fun v hv => by simp [irins.vars] at hv), nofun⟩
  | cond_relop_left _ h1 h2 ih =>
    obtain ⟨a1, b1, _⟩ := Sound_new_var h1 ih.1
    obtain ⟨a2, _, _, _, k2⟩ := Sound_new_var h2 a1
    exact ⟨a2, fun e t h => by cases h; exact k2 _ b1⟩
  | cond_relop_right _ h1 h2 h3 ih =>
    obtain ⟨a1, b1, _⟩ := Sound_new_var h1 ih.1
    obtain ⟨a2, b2, f2, _, k2⟩ := Sound_new_var h2 a1
    obtain ⟨a3, _, k3⟩ := Sound_Exp h3 a2 (k2 _ b1).1
    exact ⟨a3, fun e t h => by
      cases h; exact k3 _ (fun e => f2 (e ▸ b1.1)) b2⟩
  | cond_default _ _ h1 ih =>
    obtain ⟨a, b, _⟩ := Sound_new_var h1 ih.1
    exact ⟨a, fun e t h => by cases h; exact b⟩
  | args_one _ h1 ih =>
    obtain ⟨a, b, _⟩ := Sound_new_var h1 ih.1
    exact ⟨a, fun e t h => by cases h; exact b⟩
  | args_head _ h1 ih =>
    obtain ⟨a, b, _⟩ := Sound_new_var h1 ih.1
    exact ⟨a, fun e t h => by cases h; exact b⟩
  | args_tail _ h1 h2 ih =>
    obtain ⟨a1, b1, _⟩ := Sound_new_var h1 ih.1
    exact ⟨(Sound_Exp h2 a1 b1.1).1, nofun⟩

theorem returns_left {α β : Type} {x : IRM α} {f : α → IRM β} {s : Emitter}
    (h : (x >>= f).returns s) : x.returns s := by
  obtain ⟨r, h⟩ := h
  rw [IRM.bind_apply] at h
  cases hx : x s with
  | error e => rw [hx] at h; cases h
  | ok a => exact ⟨a, hx⟩

theorem returns_right {α β : Type} {x : IRM α} {f : α → IRM β} {s : Emitter} {a : α}
    {s1 : Emitter} (h : (x >>= f).returns s) (hx : x s = .ok (a, s1)) : (f a).returns s1 := by
  obtain ⟨r, h⟩ := h
  rw [IRM.bind_apply, hx] at h
  exact ⟨r, h⟩

theorem Assert_returns {c : Bool} {msg : String} (s : Emitter) (h : c = true) :
    Assert c msg s = .ok ((), s) := by
  rw [h]; rfl

/-- The calls of `Calls` are calls of the run: when the outermost call returns,
so does every call that it enters, in the state that `Calls` gives. -/
theorem Calls_return {c0 : Call} {s0 : Emitter} {c : Call} {s : Emitter}
    (h : Calls c0 s0 c s) (h0 : c0.returns s0) : c.returns s := by
  induction h with
  | root => exact h0
  | program _ ih => exact ih
  | extdeflist_head _ ih =>
    have h := ih; simp only [Call.returns] at h ⊢; rw [translate_ExtDefList] at h
    exact returns_left h
  | extdeflist_tail _ h1 ih =>
    have h := ih; simp only [Call.returns] at h ⊢; rw [translate_ExtDefList] at h
    replace h := returns_right h h1
    exact h
  | extdef_body _ h1 ih =>
    have h := ih; simp only [Call.returns] at h ⊢; rw [translate_ExtDef] at h
    replace h := returns_right h h1
    exact h
  | compst_defs _ ih =>
    have h := ih; simp only [Call.returns] at h ⊢; rw [translate_CompSt] at h
    exact returns_left h
  | compst_stmts _ h1 ih =>
    have h := ih; simp only [Call.returns] at h ⊢; rw [translate_CompSt] at h
    replace h := returns_right h h1
    exact h
  | deflist_head _ ih =>
    have h := ih; simp only [Call.returns] at h ⊢; rw [translate_DefList] at h
    exact returns_left h
  | deflist_tail _ h1 ih =>
    have h := ih; simp only [Call.returns] at h ⊢; rw [translate_DefList] at h
    replace h := returns_right h h1
    exact h
  | declist_one _ ih =>
    have h := ih; simp only [Call.returns] at h ⊢; rw [translate_DecList] at h
    exact h
  | declist_head _ ih =>
    have h := ih; simp only [Call.returns] at h ⊢; rw [translate_DecList] at h
    exact returns_left h
  | declist_tail _ h1 ih =>
    have h := ih; simp only [Call.returns] at h ⊢; rw [translate_DecList] at h
    replace h := returns_right h h1
    exact h
  | dec_init _ h1 h2 h3 ih =>
    have h := ih; simp only [Call.returns] at h ⊢; rw [translate_Dec] at h
    replace h := returns_right h h1
    replace h := returns_right h (rfl : get_ir _ _ = .ok (_, _))
    replace h := returns_right h h2
    replace h := returns_right h h3
    exact returns_left h
  | stmtlist_head _ ih =>
    have h := ih; simp only [Call.returns] at h ⊢; rw [translate_StmtList] at h
    exact returns_left h
  | stmtlist_tail _ h1 ih =>
    have h := ih; simp only [Call.returns] at h ⊢; rw [translate_StmtList] at h
    replace h := returns_right h h1
    exact h
  | stmt_exp _ h1 ih =>
    have h := ih; simp only [Call.returns] at h ⊢; rw [translate_Stmt] at h
    replace h := returns_right h (rfl : get_ignore_var _ = .ok (_, _))
    simp only [h1] at h
    exact h
  | stmt_compst _ ih =>
    have h := ih; simp only [Call.returns] at h ⊢; rw [translate_Stmt] at h
    exact h
  | stmt_return _ h1 ih =>
    have h := ih; simp only [Call.returns] at h ⊢; rw [translate_Stmt] at h
    replace h := returns_right h h1
    exact returns_left h
  | if_cond _ h1 h2 ih =>
    have h := ih; simp only [Call.returns] at h ⊢; rw [translate_Stmt] at h
    replace h := returns_right h h1
    replace h := returns_right h h2
    exact returns_left h
  | if_body _ h1 h2 h3 ih =>
    have h := ih; simp only [Call.returns] at h ⊢; rw [translate_Stmt] at h
    replace h := returns_right h h1
    replace h := returns_right h h2
    replace h := returns_right h h3
    replace h := returns_right h (rfl : gen_label _ _ = .ok ((), _))
    exact returns_left h
  | if_else_cond _ h1 h2 h3 ih =>
    have h := ih; simp only [Call.returns] at h ⊢; rw [translate_Stmt] at h
    replace h := returns_right h h1
    replace h := returns_right h h2
    replace h := returns_right h h3
    exact returns_left h
  | if_else_then _ h1 h2 h3 h4 ih =>
    have h := ih; simp only [Call.returns] at h ⊢; rw [translate_Stmt] at h
    replace h := returns_right h h1
    replace h := returns_right h h2
    replace h := returns_right h h3
    replace h := returns_right h h4
    replace h := returns_right h (rfl : gen_label _ _ = .ok ((), _))
    exact returns_left h
  | if_else_else _ h1 h2 h3 h4 h5 ih =>
    have h := ih; simp only [Call.returns] at h ⊢; rw [translate_Stmt] at h
    replace h := returns_right h h1
    replace h := returns_right h h2
    replace h := returns_right h h3
    replace h := returns_right h h4
    replace h := returns_right h (rfl : gen_label _ _ = .ok ((), _))
    replace h := returns_right h h5
    replace h := returns_right h (rfl : gen_goto _ _ = .ok ((), _))
    replace h := returns_right h (rfl : gen_label _ _ = .ok ((), _))
    exact returns_left h
  | while_cond _ h1 h2 h3 ih =>
    have h := ih; simp only [Call.returns] at h ⊢; rw [translate_Stmt] at h
    replace h := returns_right h h1
    replace h := returns_right h h2
    replace h := returns_right h h3
    replace h := returns_right h (rfl : gen_label _ _ = .ok ((), _))
    exact returns_left h
  | while_body _ h1 h2 h3 h4 ih =>
    have h := ih; simp only [Call.returns] at h ⊢; rw [translate_Stmt] at h
    replace h := returns_right h h1
    replace h := returns_right h h2
    replace h := returns_right h h3
    replace h := returns_right h (rfl : gen_label _ _ = .ok ((), _))
    replace h := returns_right h h4
    replace h := returns_right h (rfl : gen_label _ _ = .ok ((), _))
    exact returns_left h
  | neg _ h1 ih =>
    have h := ih; simp only [Call.returns] at h ⊢; rw [translate_Exp_NEG] at h
    replace h := returns_right h h1
    exact returns_left h
  | lp _ ih =>
    have h := ih; simp only [Call.returns] at h ⊢; rw [translate_Exp_LP] at h
    exact h
  | dot _ h1 ih =>
    have h := ih; simp only [Call.returns] at h ⊢; rw [translate_Exp_DOT] at h
    replace h := returns_right h h1
    exact returns_left h
  | assign_id _ h1 h2 ih =>
    have h := ih; simp only [Call.returns] at h ⊢; rw [translate_Exp_ASSIGNOP_ID] at h
    replace h := returns_right h (rfl : not_null (some _) _ = .ok (_, _))
    replace h := returns_right h (rfl : get_ir _ _ = .ok (_, _))
    replace h := returns_right h h1
    replace h := returns_right h h2
    exact returns_left h
  | assign_index_left _ h1 h2 ih =>
    have h := ih; simp only [Call.returns] at h ⊢; rw [translate_Exp_ASSIGNOP_INDEX] at h
    replace h := returns_right h h1
    replace h := returns_right h h2
    exact returns_left h
  | assign_index_right _ h1 h2 h3 h4 ih =>
    have h := ih; simp only [Call.returns] at h ⊢; rw [translate_Exp_ASSIGNOP_INDEX] at h
    replace h := returns_right h h1
    replace h := returns_right h h2
    replace h := returns_right h h3
    replace h := returns_right h (rfl : get_isref _ _ = .ok (_, _))
    replace h := returns_right h (Assert_returns _ (by rw [h4]; rfl))
    exact returns_left h
  | assign_dot_left _ h1 h2 ih =>
    have h := ih; simp only [Call.returns] at h ⊢; rw [translate_Exp_ASSIGNOP_DOT] at h
    replace h := returns_right h h1
    replace h := returns_right h h2
    exact returns_left h
  | assign_dot_right _ h1 h2 h3 h4 ih =>
    have h := ih; simp only [Call.returns] at h ⊢; rw [translate_Exp_ASSIGNOP_DOT] at h
    replace h := returns_right h h1
    replace h := returns_right h h2
    replace h := returns_right h h3
    replace h := returns_right h (rfl : get_isref _ _ = .ok (_, _))
    replace h := returns_right h (Assert_returns _ (by rw [h4]; rfl))
    exact returns_left h
  | @arith_left tree l r _ _ _ _ _ _ _ ha h1 h2 ih =>
    have h := ih; simp only [Call.returns] at h ⊢
    cases tree <;> simp only [Exp.arith] at ha <;> cases ha
    · rw [translate_Exp_PLUS] at h
      replace h := returns_right h h1
      replace h := returns_right h h2
      exact returns_left h
    · rw [translate_Exp_MINUS] at h
      replace h := returns_right h h1
      replace h := returns_right h h2
      exact returns_left h
    · rw [translate_Exp_STAR] at h
      replace h := returns_right h h1
      replace h := returns_right h h2
      exact returns_left h
    · rw [translate_Exp_DIV] at h
      replace h := returns_right h h1
      replace h := returns_right h h2
      exact returns_left h
  | @arith_right tree l r _ _ _ _ _ _ _ _ ha h1 h2 h3 ih =>
    have h := ih; simp only [Call.returns] at h ⊢
    cases tree <;> simp only [Exp.arith] at ha <;> cases ha
    · rw [translate_Exp_PLUS] at h
      replace h := returns_right h h1
      replace h := returns_right h h2
      replace h := returns_right h h3
      exact returns_left h
    · rw [translate_Exp_MINUS] at h
      replace h := returns_right h h1
      replace h := returns_right h h2
      replace h := returns_right h h3
      exact returns_left h
    · rw [translate_Exp_STAR] at h
      replace h := returns_right h h1
      replace h := returns_right h h2
      replace h := returns_right h h3
      exact returns_left h
    · rw [translate_Exp_DIV] at h
      replace h := returns_right h h1
      replace h := returns_right h h2
      replace h := returns_right h h3
      exact returns_left h
  | call_args _ h1 ih =>
    have h := ih; simp only [Call.returns] at h ⊢; rw [translate_Exp_CALL] at h
    replace h := returns_right h (rfl : not_null (some _) _ = .ok (_, _))
    replace h := returns_right h (Assert_returns _ (by rw [h1]; rfl))
    exact returns_left h
  | index_base _ h1 ih =>
    have h := ih; simp only [Call.returns] at h ⊢; rw [translate_Exp_INDEX] at h
    replace h := returns_right h h1
    exact returns_left h
  | index_index _ h1 h2 h3 h4 ih =>
    have h := ih; simp only [Call.returns] at h ⊢; rw [translate_Exp_INDEX] at h
    replace h := returns_right h h1
    replace h := returns_right h h2
    replace h := returns_right h (rfl : get_isref _ _ = .ok (_, _))
    replace h := returns_right h (Assert_returns _ (by rw [h3]; rfl))
    replace h := returns_right h h4
    exact returns_left h
  | value_and _ h1 h2 ih =>
    have h := ih; simp only [Call.returns] at h ⊢; rw [translate_Exp_AND, bool_value] at h
    replace h := returns_right h h1
    replace h := returns_right h h2
    replace h := returns_right h (rfl : gen_assign (op_var _) (op_const 0) _ = .ok ((), _))
    exact returns_left h
  | value_or _ h1 h2 ih =>
    have h := ih; simp only [Call.returns] at h ⊢; rw [translate_Exp_OR, bool_value] at h
    replace h := returns_right h h1
    replace h := returns_right h h2
    replace h := returns_right h (rfl : gen_assign (op_var _) (op_const 0) _ = .ok ((), _))
    exact returns_left h
  | value_relop _ h1 h2 ih =>
    have h := ih; simp only [Call.returns] at h ⊢; rw [translate_Exp_RELOP, bool_value] at h
    replace h := returns_right h h1
    replace h := returns_right h h2
    replace h := returns_right h (rfl : gen_assign (op_var _) (op_const 0) _ = .ok ((), _))
    exact returns_left h
  | cond_not _ ih =>
    have h := ih; simp only [Call.returns] at h ⊢; rw [translate_Cond_NOT] at h
    exact h
  | cond_lp _ ih =>
    have h := ih; simp only [Call.returns] at h ⊢; rw [translate_Cond_LP] at h
    exact h
  | cond_and_left _ h1 ih =>
    have h := ih; simp only [Call.returns] at h ⊢; rw [translate_Cond_AND] at h
    replace h := returns_right h h1
    exact returns_left h
  | cond_and_right _ h1 h2 ih =>
    have h := ih; simp only [Call.returns] at h ⊢; rw [translate_Cond_AND] at h
    replace h := returns_right h h1
    replace h := returns_right h h2
    replace h := returns_right h (rfl : gen_label _ _ = .ok ((), _))
    exact h
  | cond_or_left _ h1 ih =>
    have h := ih; simp only [Call.returns] at h ⊢; rw [translate_Cond_OR] at h
    replace h := returns_right h h1
    exact returns_left h
  | cond_or_right _ h1 h2 ih =>
    have h := ih; simp only [Call.returns] at h ⊢; rw [translate_Cond_OR] at h
    replace h := returns_right h h1
    replace h := returns_right h h2
    replace h := returns_right h (rfl : gen_label _ _ = .ok ((), _))
    exact h
  | cond_relop_left _ h1 h2 ih =>
    have h := ih; simp only [Call.returns] at h ⊢; rw [translate_Cond_RELOP] at h
    replace h := returns_right h h1
    replace h := returns_right h h2
    exact returns_left h
  | cond_relop_right _ h1 h2 h3 ih =>
    have h := ih; simp only [Call.returns] at h ⊢; rw [translate_Cond_RELOP] at h
    replace h := returns_right h h1
    replace h := returns_right h h2
    replace h := returns_right h h3
    exact returns_left h
  | cond_default _ hd h1 ih =>
    have h := ih; simp only [Call.returns] at h ⊢; rw [translate_Cond_default _ _ _ hd] at h
    replace h := returns_right h h1
    exact returns_left h
  | args_one _ h1 ih =>
    have h := ih; simp only [Call.returns] at h ⊢; rw [translate_Args_one] at h
    replace h := returns_right h h1
    exact returns_left h
  | args_head _ h1 ih =>
    have h := ih; simp only [Call.returns] at h ⊢; rw [translate_Args_cons] at h
    replace h := returns_right h h1
    exact returns_left h
  | args_tail _ h1 h2 ih =>
    have h := ih; simp only [Call.returns] at h ⊢; rw [translate_Args_cons] at h
    replace h := returns_right h h1
    replace h := returns_right h h2
    exact returns_left h

/-- The state that `ir_prepare` leaves is a state of a translation. -/
theorem Sound_prepare {s0 s1 : Emitter} (hs0 : s0.VarsOK)
    (hsym : ∀ x v, s0.sym_ir x = some (.var v) → v ∈ s0.vars)
    (hview : ∀ l (k : Nat), s0.label_as_var l ≠ nth_var (k + 1))
    (h : ir_prepare s0 = .ok ((), s1)) : s1.Sound := by
  obtain ⟨h0, e1⟩ := ir_prepare_ok h
  have hv := hs0.new_var (new_var_ok_iff.mpr ⟨h0, rfl, rfl⟩)
  rw [e1]
  refine ⟨⟨hv.2.2.count, hv.2.2.vars⟩, ⟨fun c hc => by simp at hc, fun x v hx => ?_,
    fun v hx => ?_, fun l => Or.inr (hview l)⟩, fun t ht => ?_⟩
  · exact Or.inl (List.mem_cons_of_mem _ (hsym x v hx))
  · simp only [Option.some.injEq] at hx
    exact Or.inl (hx ▸ List.mem_cons_self _ _)
  · simp only [Option.some.injEq] at ht
    exact ht ▸ List.mem_cons_self _ _

/-- Claim C17, as amended: in a translation (`ir_prepare`, then
`translate_Program`) from a state whose variable table is the one built since
program start and in which a label read as a variable is none of the variables
`t_k` (in `ir.c` it is a different object from every variable that `new_var`
allocates), consider any call `translate_Exp (e, target)` that the translation
enters, in state `s`, and that returns, in state `s'`.  Every variable `v` of
the table other than `ignore_var` that is the destination of an instruction
emitted before the call has the same `isref` flag after the call. -/
theorem isref_kept_once_destination (tree : Program) (s0 s1 : Emitter)
    (hs0 : s0.VarsOK) (hsym : ∀ x v, s0.sym_ir x = some (.var v) → v ∈ s0.vars)
    (hview : ∀ l (k : Nat), s0.label_as_var l ≠ nth_var (k + 1))
    (hprep : ir_prepare s0 = .ok ((), s1))
    (e : Exp) (target : irvar) (s s' : Emitter)
    (hcall : Calls (.program tree) s1 (.exp e target) s)
    (hrun : translate_Exp e target s = .ok ((), s'))
    (v : irvar) (hv : v ∈ s.vars) (hdest : ∃ c ∈ s.irs, c.ins.dest = some v)
    (hign : s.ignore_var ≠ some v) :
    s'.isref v.id = s.isref v.id := by
  obtain ⟨hs, ht⟩ := Calls_sound hcall (Sound_prepare hs0 hsym hview hprep) nofun
  obtain ⟨htv, hreg⟩ := ht e target rfl
  have hne : v ≠ target := by
    rcases hreg with h | h
    · intro e1
      exact hign (e1 ▸ h)
    · obtain ⟨c, hc, hd⟩ := hdest
      exact h.irs c hc v (dest_mem_vars hd)
  rw [hs.vars.vars] at hv htv
  obtain ⟨k, _, hk, rfl⟩ := mem_vars_upto hv
  obtain ⟨j, _, _, rfl⟩ := mem_vars_upto htv
  refine (translate_Exp_isref_frame hrun).2 _ ?_ ?_
  · rw [hs.vars.count]
    simp only [nth_var]
    omega
  · intro e1
    simp only [nth_var, Nat.cast_inj] at e1
    exact hne (e1 ▸ rfl)

set_option maxRecDepth 10000 in
theorem prepare_run : ir_prepare Emitter.init = .ok ((), state_prepared) := by
  simp only [ir_prepare, IRM.bind_apply, IRM.pure_apply, bind, pure, new_var, Emitter.init,
    state_prepared, Function.update]
  simp
  first | rfl | decide

set_option maxRecDepth 10000 in
theorem header_g_run :
    translate_FunDec
      { sym := some sym_g, subev := fun n => if n = "a" then some sym_arr else none }
      state_prepared = .ok ((), state_g_header) := by
  simp only [translate_FunDec, translate_FunDec_loop, IRM.bind_apply, IRM.pure_apply, bind, pure,
    new_var, not_null, new_named_label, sym_g, sym_arr, set_ir, gen_func, gen_param, push_ircode,
    type.args, symlist.toList, Emitter.init, state_prepared, state_g_header, op_var, irop.kind,
    type.cls, set_isref, AssertVar, Assert, IRM.fail, Function.update]
  simp
  refine ⟨by decide, ?_, ?_⟩
  · funext id
    by_cases h : id = 2 <;> simp [Function.update_apply, h]
  · funext a
    simp only [Function.update_apply]
    split_ifs <;> first | rfl | decide

set_option maxRecDepth 10000 in
theorem temps_g_run (n : Nat) (hn : n < 3) :
    new_var (state_g_temps n) =
      .ok (nth_var (n + 3), state_g_temps (n + 1)) := by
  have h : n = 0 ∨ n = 1 ∨ n = 2 := by omega
  rcases h with rfl | rfl | rfl <;>
  · simp only [new_var, state_g_temps, state_g_header, state_prepared, Emitter.init, nth_var,
      Function.update]
    simp
    decide

set_option maxRecDepth 10000 in
theorem left_g_run :
    translate_Exp (.INT .META 1) ⟨4, "t4"⟩ (state_g_temps 3) = .ok ((), state_g_left) := by
  rw [translate_Exp_INT]; rfl

set_option maxRecDepth 10000 in
theorem right_g_run :
    translate_Exp (.INDEX .META (.ID sym_arr.tp (some sym_arr)) (.INT .META 0)) ⟨5, "t5"⟩
      state_g_left = .ok ((), state_g_right) := by
  simp only [translate_Exp_INDEX, translate_Exp_ID, translate_Exp_INT, IRM.bind_apply,
    IRM.pure_apply, bind, pure, not_null, sym_arr, new_var, type_sizeof,
    get_ir, push_ircode, state_g_left, state_g_right, state_g_temps, state_g_header,
    state_prepared, op_rval, op_deref, op_const, gen_mul, gen_add,
    Emitter.init, Emitter.emit, gen_assign, op_var, irop.kind, cast_irvar, set_isref, get_isref,
    AssertVar, Assert, IRM.fail, Function.update]
  simp
  refine ⟨by decide, by decide, ?_⟩
  funext id
  simp only [Function.update_apply]
  by_cases h5 : id = 5
  · subst h5; rfl
  by_cases h9 : id = 9
  · subst h9; rfl
  by_cases h8 : id = 8
  · subst h8; rfl
  by_cases h7 : id = 7
  · subst h7; rfl
  by_cases h6 : id = 6 <;> simp [h5, h6, h7, h8, h9]

/-- The call that lowers the right operand `a[0]` of `return 1 + a[0];` into
`t5` is entered in the state `state_g_left` during the first translation of
`int g(int a[10]) { return 1 + a[0]; }`. -/
theorem calls_right_operand :
    Calls (.program prog_g) state_prepared
      (.exp (.INDEX .META (.ID sym_arr.tp (some sym_arr)) (.INT .META 0)) ⟨5, "t5"⟩)
      state_g_left := by
  have h1 : Calls (.program prog_g) state_prepared
      (.compst (.mk .nil (.cons (.RETURN (.PLUS .META (.INT .META 1)
        (.INDEX .META (.ID sym_arr.tp (some sym_arr)) (.INT .META 0)))) .nil)))
      state_g_header :=
    Calls.extdef_body (Calls.extdeflist_head (Calls.program Calls.root)) header_g_run
  have h2 : Calls (.program prog_g) state_prepared
      (.stmt (.RETURN (.PLUS .META (.INT .META 1)
        (.INDEX .META (.ID sym_arr.tp (some sym_arr)) (.INT .META 0)))))
      (state_g_temps 0) :=
    Calls.stmtlist_head (Calls.compst_stmts h1 rfl)
  have h3 : Calls (.program prog_g) state_prepared
      (.exp (.PLUS .META (.INT .META 1)
        (.INDEX .META (.ID sym_arr.tp (some sym_arr)) (.INT .META 0))) (nth_var 3))
      (state_g_temps 1) :=
    Calls.stmt_return h2 (temps_g_run 0 (by omega))
  exact Calls.arith_right h3 rfl (temps_g_run 1 (by omega)) (temps_g_run 2 (by omega)) left_g_run

/-- Witness of claim C17 (amended) in the first translation of
`int g(int a[10]) { return 1 + a[0]; }`: when the call that lowers `a[0]` into
`t5` is entered, `t4` is the destination of `t4 := #1`; the call sets the flag of
its target `t5` and leaves the flag of `t4` as it was. -/
theorem isref_kept_once_destination_witness :
    (Emitter.init.VarsOK ∧
      (∀ x v, Emitter.init.sym_ir x = some (.var v) → v ∈ Emitter.init.vars) ∧
      (∀ l (k : Nat), Emitter.init.label_as_var l ≠ nth_var (k + 1)) ∧
      ir_prepare Emitter.init = .ok ((), state_prepared) ∧
      Calls (.program prog_g) state_prepared
        (.exp (.INDEX .META (.ID sym_arr.tp (some sym_arr)) (.INT .META 0)) ⟨5, "t5"⟩)
        state_g_left ∧
      translate_Exp (.INDEX .META (.ID sym_arr.tp (some sym_arr)) (.INT .META 0)) ⟨5, "t5"⟩
        state_g_left = .ok ((), state_g_right) ∧
      (⟨4, "t4"⟩ : irvar) ∈ state_g_left.vars ∧
      (∃ c ∈ state_g_left.irs, c.ins.dest = some ⟨4, "t4"⟩) ∧
      state_g_left.ignore_var ≠ some ⟨4, "t4"⟩) ∧
    state_g_right.isref 4 = state_g_left.isref 4 ∧
    state_g_left.isref 5 = false ∧ state_g_right.isref 5 = true :=
  have h1 : ∀ x v, Emitter.init.sym_ir x = some (.var v) → v ∈ Emitter.init.vars := by
    intro x v h
    simp [Emitter.init] at h
  have h2 : ∀ l (k : Nat), Emitter.init.label_as_var l ≠ nth_var (k + 1) := by
    intro l k h
    have h3 := congrArg irvar.id h
    simp only [Emitter.init, nth_var] at h3
    omega
  have h5 : (⟨4, "t4"⟩ : irvar) ∈ state_g_left.vars := by
    simp [state_g_left, state_g_temps, Emitter.emit]
  have h6 : ∃ c ∈ state_g_left.irs, c.ins.dest = some ⟨4, "t4"⟩ :=
    ⟨⟨.Assign (.Var ⟨4, "t4"⟩) (.Const 1), false⟩, List.mem_cons_self _ _, rfl⟩
  have h7 : state_g_left.ignore_var ≠ some ⟨4, "t4"⟩ := by
    simp [state_g_left, state_g_temps, state_g_header, state_prepared, Emitter.emit]
  ⟨⟨Emitter.init_VarsOK, h1, h2, prepare_run, calls_right_operand, right_g_run, h5, h6, h7⟩,
    isref_kept_once_destination prog_g Emitter.init state_prepared Emitter.init_VarsOK h1 h2
      prepare_run _ ⟨5, "t5"⟩ state_g_left state_g_right calls_right_operand right_g_run
      ⟨4, "t4"⟩ h5 h6 h7, rfl, rfl⟩

theorem prepare_view_run :
    ir_prepare Emitter.init.view_t4 = .ok ((), state_prepared.view_t4) := by
  simp only [ir_prepare, IRM.bind_apply, IRM.pure_apply, bind, pure, new_var, Emitter.init,
    state_prepared, Emitter.view_t4, Function.update]
  simp
  first | rfl | decide

set_option maxRecDepth 10000 in
theorem header_g_view_run :
    translate_FunDec
      { sym := some sym_g, subev := fun n => if n = "a" then some sym_arr else none }
      state_prepared.view_t4 = .ok ((), state_g_header.view_t4) := by
  simp only [translate_FunDec, translate_FunDec_loop, IRM.bind_apply, IRM.pure_apply, bind, pure,
    new_var, not_null, new_named_label, sym_g, sym_arr, set_ir, gen_func, gen_param, push_ircode,
    type.args, symlist.toList, Emitter.init, state_prepared, state_g_header, op_var, irop.kind,
    type.cls, set_isref, AssertVar, Assert, IRM.fail, Emitter.view_t4, Function.update]
  simp
  refine ⟨by decide, ?_, ?_⟩
  · funext id
    by_cases h : id = 2 <;> simp [Function.update_apply, h]
  · funext a
    simp only [Function.update_apply]
    split_ifs <;> first | rfl | decide

set_option maxRecDepth 10000 in
theorem assign_g_run :
    translate_Stmt (.Exp (.ASSIGNOP .META (.ID .META (some sym_g)) (.INT .META 1)))
      state_g_header.view_t4 = .ok ((), state_g_assigned) := by
  simp only [translate_Stmt, get_ignore_var, translate_Exp_ASSIGNOP_ID, translate_Exp_INT,
    IRM.bind_apply, IRM.pure_apply, bind, pure, not_null, sym_g, sym_arr, new_var,
    get_ir, push_ircode, state_g_assigned, state_g_header, state_prepared, op_rval, op_deref,
    op_const, Emitter.init, Emitter.emit, gen_assign, op_var, irop.kind, cast_irvar, set_isref,
    get_isref, type.cls, AssertVar, Assert, IRM.fail, Emitter.view_t4, Function.update]
  simp
  first | rfl | decide

set_option maxRecDepth 10000 in
theorem return_g_run : new_var state_g_assigned = .ok (⟨4, "t4"⟩, state_g_return) := by
  simp only [new_var, state_g_return, state_g_assigned, state_g_header, state_prepared,
    Emitter.init, Emitter.view_t4, Function.update]
  simp
  first | rfl | decide

set_option maxRecDepth 10000 in
theorem index_g_run :
    translate_Exp (.INDEX .META (.ID sym_arr.tp (some sym_arr)) (.INT .META 0)) ⟨4, "t4"⟩
      state_g_return = .ok ((), state_g_indexed) := by
  simp only [translate_Exp_INDEX, translate_Exp_ID, translate_Exp_INT, IRM.bind_apply,
    IRM.pure_apply, bind, pure, not_null, sym_arr, new_var, type_sizeof,
    get_ir, push_ircode, state_g_indexed, state_g_return, state_g_assigned, state_g_header,
    state_prepared, op_rval, op_deref, op_const, gen_mul, gen_add,
    Emitter.init, Emitter.emit, gen_assign, op_var, irop.kind, cast_irvar, set_isref, get_isref,
    AssertVar, Assert, IRM.fail, Emitter.view_t4, Function.update]
  simp
  refine ⟨by decide, by decide, ?_⟩
  funext id
  simp only [Function.update_apply]
  by_cases h4 : id = 4
  · subst h4; rfl
  by_cases h8 : id = 8
  · subst h8; rfl
  by_cases h7 : id = 7
  · subst h7; rfl
  by_cases h6 : id = 6
  · subst h6; rfl
  by_cases h5 : id = 5 <;> simp [h4, h5, h6, h7, h8]

/-- The call that lowers `a[0]` of `return a[0];` into `t4` is entered in the
state `state_g_return` during the translation of `prog_g_assigned` from a state
in which labels read as `t4`. -/
theorem calls_return_operand :
    Calls (.program prog_g_assigned) state_prepared.view_t4
      (.exp (.INDEX .META (.ID sym_arr.tp (some sym_arr)) (.INT .META 0)) ⟨4, "t4"⟩)
      state_g_return := by
  have h1 : Calls (.program prog_g_assigned) state_prepared.view_t4
      (.stmtlist
        (.cons (.Exp (.ASSIGNOP .META (.ID .META (some sym_g)) (.INT .META 1)))
          (.cons (.RETURN (.INDEX .META (.ID sym_arr.tp (some sym_arr)) (.INT .META 0)))
            .nil)))
      state_g_header.view_t4 :=
    Calls.compst_stmts
      (Calls.extdef_body (Calls.extdeflist_head (Calls.program Calls.root)) header_g_view_run)
      rfl
  exact Calls.stmt_return (Calls.stmtlist_head (Calls.stmtlist_tail h1 assign_g_run))
    return_g_run

/-- A variable is its value (id and name) here and an object in `ir.c`, where
a label read as a variable is a different object from every variable that
`new_var` allocates.  The statement that the flag of a destination is kept
therefore needs that no label reads as a value `t_k`: with labels reading as the
value `t4`, the translation of `int g(int a[10]) { g = 1; return a[0]; }` emits
`t4 := t3` for `g = 1;`, then allocates `t4` and lowers `a[0]` into it, and this
call sets the flag of `t4`. -/
theorem label_view_needed :
    Emitter.init.view_t4.VarsOK ∧
    (∀ x v, Emitter.init.view_t4.sym_ir x = some (.var v) → v ∈ Emitter.init.view_t4.vars) ∧
    ir_prepare Emitter.init.view_t4 = .ok ((), state_prepared.view_t4) ∧
    Calls (.program prog_g_assigned) state_prepared.view_t4
      (.exp (.INDEX .META (.ID sym_arr.tp (some sym_arr)) (.INT .META 0)) ⟨4, "t4"⟩)
      state_g_return ∧
    translate_Exp (.INDEX .META (.ID sym_arr.tp (some sym_arr)) (.INT .META 0)) ⟨4, "t4"⟩
      state_g_return = .ok ((), state_g_indexed) ∧
    (⟨4, "t4"⟩ : irvar) ∈ state_g_return.vars ∧
    (∃ c ∈ state_g_return.irs, c.ins.dest = some ⟨4, "t4"⟩) ∧
    state_g_return.ignore_var ≠ some ⟨4, "t4"⟩ ∧
    state_g_return.isref 4 = false ∧ state_g_indexed.isref 4 = true := by
  refine ⟨⟨rfl, rfl⟩, ?_, prepare_view_run, calls_return_operand, index_g_run, ?_, ?_, ?_,
    rfl, rfl⟩
  · intro x v h
    simp [Emitter.init, Emitter.view_t4] at h
  · simp [state_g_return]
  · exact ⟨⟨.Assign (.Var ⟨4, "t4"⟩) (.Var ⟨3, "t3"⟩), false⟩, by
      simp [state_g_return, state_g_assigned], rfl⟩
  · simp [state_g_return, state_g_assigned, state_g_header, state_prepared, Emitter.view_t4]

end IRLab
